import Mathlib

/-!
# SNANA spectrograph utility (`sntools_spectrograph.c`): embedding and properties

The C code works on `double`.  The embedding takes the doubles to be the elements of
a linearly ordered field `K` with exact arithmetic (no rounding, no overflow).  The
three `math.h` functions the code calls (`pow`, `log10`, `sqrt`) are a parameter
`Libm K`; `realLibm` is their exact meaning on the real numbers.

An operation that leaves the finite numbers (a division by zero, the square root of
a negative number, the logarithm of a non-positive number) makes the C program go on
with an infinity or a NaN.  The embedding does not follow such a run: it stops with
`Abort.nonfinite`.  A call of `errmsg(SEV_FATAL, ...)` stops with `Abort.fatal`.
-/

namespace Spectrograph

/-- The functions of `math.h` used by `sntools_spectrograph.c`. -/
structure Libm (K : Type) where
  /-- `pow(x, y)` -/
  pow : K → K → K
  /-- `log10(x)` -/
  log10 : K → K
  /-- `sqrt(x)` -/
  sqrt : K → K

/-- How a routine stops without returning: `fatal fnam c1err` is
`errmsg(SEV_FATAL, 0, fnam, c1err, c2err)`, which aborts the program;
`nonfinite` marks a double that is no longer a finite number; `undefined` marks an
operation whose behaviour C leaves undefined (an integer division by zero). -/
inductive Abort where
  | fatal (fnam : String) (c1err : String)
  | nonfinite
  | undefined (what : String)
  deriving DecidableEq, Repr

/-- A routine over the global state `σ` that returns an `α`: an abort carries the
state at the moment the program stops. -/
abbrev Run (σ α : Type) := Except (Abort × σ) α

/-- Attach the current global state to the abort of a state-free computation. -/
def inState {σ α : Type} (st : σ) (x : Except Abort α) : Run σ α :=
  match x with
  | .ok a => .ok a
  | .error e => .error (e, st)

/-- The C loop `for (i = 0; i < n; i++) body(i)` over a state. -/
def forLoop {σ ε : Type} (n : Nat) (body : Nat → σ → Except ε σ) (s : σ) : Except ε σ :=
  match n with
  | 0 => .ok s
  | k + 1 => forLoop k body s >>= body k

section Model

variable {K : Type} [LinearOrderedField K]

/-- `#define TEN (double)10.0` of `sntools.h`. -/
def TEN : K := 10

/-- `x / y` on doubles; finite only when `y` is not zero.  A run that leaves the finite
numbers stops here with `Abort.nonfinite`; what the C program does on such a run is
followed by the definitions on `Dbl` at the end of this section. -/
def fdiv (x y : K) : Except Abort K :=
  if y = 0 then .error .nonfinite else .ok (x / y)

/-- `sqrt(x)`; finite only when `x` is not negative. -/
def fsqrt (M : Libm K) (x : K) : Except Abort K :=
  if x < 0 then .error .nonfinite else .ok (M.sqrt x)

/-- `log10(x)`; finite only when `x` is positive. -/
def flog10 (M : Libm K) (x : K) : Except Abort K :=
  if x ≤ 0 then .error .nonfinite else .ok (M.log10 x)

/-- The global `INPUTS_SPECTRO` (its type is declared in `sntools_spectrograph.h`,
which is outside `src/`; the fields are those the C file uses).  A C array is a
function of its index. -/
structure INPUTS_SPECTRO_DEF (K : Type) where
  INSTRUMENT_NAME : String
  NREBIN_LAM : Int
  MAGREF_LIST : Nat → K
  NBIN_TEXPOSE : Nat
  TEXPOSE_LIST : Nat → K
  TEXPOSE_MIN : K
  TEXPOSE_MAX : K
  NBIN_LAM : Nat
  NBIN_LAM_noREBIN : Nat
  LAM_MIN : K
  LAM_MAX : K
  LAMMIN_LIST : Nat → K
  LAMMAX_LIST : Nat → K
  LAMAVG_LIST : Nat → K
  LAMSIGMA_LIST : Nat → K
  LAMBIN_LIST : Nat → K
  SNR0 : Nat → Nat → K
  SNR1 : Nat → Nat → K
  ZP : Nat → Nat → K
  SQSIGSKY : Nat → Nat → K
  FORMAT_MASK : Nat

/-- The assignment `A[l][t] = v`. -/
def set2 (A : Nat → Nat → K) (l t : Nat) (v : K) : Nat → Nat → K :=
  fun i j => if i = l ∧ j = t then v else A i j

/-! ## `check_SNR_SPECTROGRAPH` -/

/-- The function `check_SNR_SPECTROGRAPH(l, t)`: 0 for success, 1 when `SNR0` or
`SNR1` decreases from `t-1` to `t` (the warnings it prints are not modelled). -/
def check_SNR_SPECTROGRAPH (st : INPUTS_SPECTRO_DEF K) (l t : Nat) : Nat :=
  if t = 0 then 0
  else if st.SNR0 l t < st.SNR0 l (t - 1) then 1
  else if st.SNR1 l t < st.SNR1 l (t - 1) then 1
  else 0

/-! ## `solve_spectrograph` -/

/-- The first half of the body of the `t` loop of `solve_spectrograph` (from
`SNR[0] = ...` to `SQSIGSKY = ...`) on the two input SNR values of the pair; the
result is `(ZP, F[0], F[1], SQSIGSKY)`.  `MAGREF` and `POWMAG` are the local arrays
filled before the loops. -/
def solve_ZP (M : Libm K) (MAGREF POWMAG : Nat → K) (SNR0 SNR1 : K) :
    Except Abort (K × K × K × K) := do
  let TOP := POWMAG 0 - POWMAG 1
  let DUM0 ← fdiv (POWMAG 0) SNR0
  let DUM1 ← fdiv (POWMAG 1) SNR1
  let BOT := DUM0 * DUM0 - DUM1 * DUM1
  if TOP ≤ 0 ∨ BOT ≤ 0 then
    throw (Abort.fatal "solve_spectrograph" "Cannot solve ZP")
  let RATIO_TB ← fdiv TOP BOT
  let LOGR ← flog10 M RATIO_TB
  let ZP := 2.5 * LOGR
  let F0 := M.pow TEN (-0.4 * (MAGREF 0 - ZP))
  let F1 := M.pow TEN (-0.4 * (MAGREF 1 - ZP))
  let Q0 ← fdiv F0 SNR0
  let SQSIGSKY := Q0 * Q0 - F0
  return (ZP, F0, F1, SQSIGSKY)

/-- The body of the self-check loop over `iref` in `solve_spectrograph`:
`SNR_check[iref] = F[iref] / sqrt(SQSIGSKY + F[iref])` and
`check[iref] = fabs(SNR[iref]/SNR_check[iref] - 1.0)`; the result is `check[iref]`. -/
def solve_check (M : Libm K) (SNR F SQSIGSKY : K) : Except Abort K := do
  let R ← fsqrt M (SQSIGSKY + F)
  let SNR_check ← fdiv F R
  let C ← fdiv SNR SNR_check
  return |C - 1|

/-- The body of the `t` loop of `solve_spectrograph` for the pair `(l, t)`. -/
def solve_bin (M : Libm K) (MAGREF POWMAG : Nat → K) (l t : Nat)
    (st : INPUTS_SPECTRO_DEF K) : Run (INPUTS_SPECTRO_DEF K) (INPUTS_SPECTRO_DEF K) := do
  let SNR0 := st.SNR0 l t
  let SNR1 := st.SNR1 l t
  let (ZP, F0, F1, SQSIGSKY) ← inState st (solve_ZP M MAGREF POWMAG SNR0 SNR1)
  -- store in global
  let st1 := { st with ZP := set2 st.ZP l t ZP, SQSIGSKY := set2 st.SQSIGSKY l t SQSIGSKY }
  -- make sure original SNR can be computed from ZP and SQSIGSKY
  let check0 ← inState st1 (solve_check M SNR0 F0 SQSIGSKY)
  let check1 ← inState st1 (solve_check M SNR1 F1 SQSIGSKY)
  if check0 > 0.001 ∨ check1 > 0.001 then
    throw (Abort.fatal "solve_spectrograph" "Problem computing ZP and SQSIGSKY", st1)
  return st1

/-- The function `solve_spectrograph`: for every wavelength bin and exposure time,
solve for `ZP` and `SQSIGSKY`. -/
def solve_spectrograph (M : Libm K) (st : INPUTS_SPECTRO_DEF K) :
    Run (INPUTS_SPECTRO_DEF K) (INPUTS_SPECTRO_DEF K) :=
  let NBL := st.NBIN_LAM
  let NBT := st.NBIN_TEXPOSE
  let MAGREF : Nat → K := fun iref => st.MAGREF_LIST iref
  let POWMAG : Nat → K := fun iref => M.pow TEN (-0.4 * MAGREF iref)
  forLoop NBL (fun l => forLoop NBT (fun t => solve_bin M MAGREF POWMAG l t)) st

/-! ## `getSNR_spectrograph` -/

/-- The type of `interp_1DFUN(opt, val, NBIN, VAL_LIST, FUN_LIST, abort_comment)`,
declared in `sntools.h` and defined outside `src/`. -/
abbrev Interp (K : Type) := Nat → K → Nat → (Nat → K) → (Nat → K) → String → Except Abort K

/-- The bin search of the interpolator: the first `i` among `start, ..., start+n-1`
with `val ≤ VAL_LIST[i+1]`. -/
def findBin (val : K) (VAL_LIST : Nat → K) (start n : Nat) : Option Nat :=
  match n with
  | 0 => none
  | k + 1 => if val ≤ VAL_LIST (start + 1) then some start
             else findBin val VAL_LIST (start + 1) k

/-- Modelled from the spec: `interp_1DFUN` of `sntools.c`, which is not under
`src/`.  The spec calls it a generic monotonic 1-D linear interpolator, has it fail
with a fatal error for a value outside `[min, max]` of the grid, and has it
interpolate piecewise linearly inside, returning the tabulated value at a grid
point.  Only `opt = OPT_INTERP_LINEAR` is modelled. -/
def interp_1DFUN_linear : Interp K :=
  fun _opt val NBIN VAL_LIST FUN_LIST abort_comment =>
    if val < VAL_LIST 0 ∨ val > VAL_LIST (NBIN - 1) then
      .error (.fatal "interp_1DFUN" abort_comment)
    else
      match findBin val VAL_LIST 0 (NBIN - 1) with
      | none => .ok (FUN_LIST 0)
      | some i => do
          let frac ← fdiv (val - VAL_LIST i) (VAL_LIST (i + 1) - VAL_LIST i)
          return FUN_LIST i + (FUN_LIST (i + 1) - FUN_LIST i) * frac

/-- The function `getSNR_spectrograph(ILAM, TEXPOSE_S, TEXPOSE_T, GENMAG, &ERRFRAC_T)`;
the result is the pair of the returned `SNR` and the value written to `*ERRFRAC_T`.
The interpolator `interp_1DFUN` is a parameter. -/
def getSNR_spectrograph (M : Libm K) (interp_1DFUN : Interp K) (st : INPUTS_SPECTRO_DEF K)
    (ILAM : Nat) (TEXPOSE_S TEXPOSE_T GENMAG : K) : Except Abort (K × K) := do
  let OPT_INTERP := 1
  let NBT := st.NBIN_TEXPOSE
  let Tmin := st.TEXPOSE_LIST 0
  let Tmax := st.TEXPOSE_LIST (NBT - 1)
  if TEXPOSE_S < Tmin ∨ TEXPOSE_S > Tmax then
    throw (Abort.fatal "getSNR_spectrograph" "Invalid TEXPOSE_S")
  -- interpolate ZP(Texpose) and SQSIG(Texpose)
  let ZP_S ← interp_1DFUN OPT_INTERP TEXPOSE_S NBT st.TEXPOSE_LIST (st.ZP ILAM)
    "getSNR_spectrograph(ZP_S)"
  let SQ_S ← interp_1DFUN OPT_INTERP TEXPOSE_S NBT st.TEXPOSE_LIST (st.SQSIGSKY ILAM)
    "getSNR_spectrograph(SQ_S)"
  let SQ_T ←
    if TEXPOSE_T > 0.01 then do
      let ZP_T ← interp_1DFUN OPT_INTERP TEXPOSE_T NBT st.TEXPOSE_LIST (st.ZP ILAM)
        "getSNR_spectrograph(ZP_T)"
      let SQ_T ← interp_1DFUN OPT_INTERP TEXPOSE_T NBT st.TEXPOSE_LIST (st.SQSIGSKY ILAM)
        "getSNR_spectrograph(SQ_T)"
      pure (SQ_T * M.pow TEN (0.8 * (ZP_S - ZP_T)))
    else pure 0
  let arg := -0.4 * (GENMAG - ZP_S)
  let Flux := M.pow TEN arg
  let FluxErr ← fsqrt M (SQ_S + SQ_T + Flux)
  let SQRT_T ← fsqrt M SQ_T
  let ERRFRAC_T ← fdiv SQRT_T FluxErr
  let SNR ← fdiv Flux FluxErr
  return (SNR, ERRFRAC_T)

/-! ## The text reader: `read_spectrograph_text` and the functions it calls -/

/-- The loop `for (i = 0; i < n; i++) body(i)` of a body that cannot abort. -/
def loopPure {σ : Type} (n : Nat) (body : Nat → σ → σ) (s : σ) : σ :=
  match n with
  | 0 => s
  | k + 1 => body k (loopPure k body s)

/-- What the reader takes from outside `src/`: the constants of
`sntools_spectrograph.h`, the number conversion of the C library, the row count
`nrow_read(inFile)` and the indeterminate first content of the local array `XTMP`. -/
structure READ_ENV (K : Type) where
  MXTEXPOSE_SPECTROGRAPH : Nat
  MXLAM_SPECTROGRAPH : Nat
  NCOL_noSNR : Nat
  MXVALUES_SPECBIN : Nat
  /-- The conversion `%le`: the value of the longest numeric prefix and its length. -/
  strtod : List Char → Option (K × Nat)
  NROW_FILE : Nat
  XTMP_INIT : Nat → K

/-- The globals of the reader: `INPUTS_SPECTRO`, `VALUES_SPECBIN`,
`NERR_SNR_SPECTROGRAPH`, and the open stream `fp` as the characters not yet read. -/
structure SPECTRO_GLOBALS (K : Type) where
  INPUTS_SPECTRO : INPUTS_SPECTRO_DEF K
  VALUES_SPECBIN : Nat → K
  NERR_SNR_SPECTROGRAPH : Nat
  fp : List Char

/-- The local variables of `read_spectrograph_text` that live across the `while` loop. -/
structure READ_LOCALS where
  NKEY_FOUND : Nat
  DONE_MALLOC : Nat
  KEYFLAG_FOUND : Nat → Nat
  NBL : Nat
  NBT : Nat

/-- The white-space characters of `isspace`. -/
def isspace (c : Char) : Bool :=
  c = ' ' || c = '\t' || c = '\n' || c = '\x0b' || c = '\x0c' || c = '\r'

/-- Skip leading white space. -/
def skipSpace (s : List Char) : List Char := s.dropWhile isspace

/-- The call `fscanf(fp, "%s", c_get)`: the next white-space delimited token and the rest
of the stream; `none` is `EOF`. -/
def fscanf_s (fp : List Char) : Option (List Char × List Char) :=
  match skipSpace fp with
  | [] => none
  | c :: r => some ((c :: r).takeWhile (fun x => !isspace x),
      (c :: r).dropWhile (fun x => !isspace x))

/-- Read at most `room` characters, stopping after a newline. -/
def fgetsAux : Nat → List Char → List Char × List Char
  | 0, fp => ([], fp)
  | _ + 1, [] => ([], [])
  | k + 1, c :: r =>
    if c = '\n' then ([c], r)
    else ((c :: (fgetsAux k r).1), (fgetsAux k r).2)

/-- The call `fgets(buf, n, fp)`: the line read and the rest of the stream. -/
def fgets (n : Nat) (fp : List Char) : List Char × List Char := fgetsAux (n - 1) fp

/-- The call `fscanf(fp, "%le", &x)`: the value converted, if any, and the rest of the
stream. -/
def fscanf_le (strtod : List Char → Option (K × Nat)) (fp : List Char) :
    Option K × List Char :=
  match strtod (skipSpace fp) with
  | some (v, n) => (some v, (skipSpace fp).drop n)
  | none => (none, skipSpace fp)

/-- The call `sscanf(cval, "%le", &x)`. -/
def sscanf_le (strtod : List Char → Option (K × Nat)) (cval : List Char) : Option K :=
  (fscanf_le strtod cval).1

/-- Modelled from the spec: `readdouble(fp, n, list)` of `sntools.c`, which is not under
`src/`: the tokenized-value reader, `n` times `fscanf(fp, "%le", &list[i])`.  A failed
conversion leaves the entry as it was. -/
def readdouble (strtod : List Char → Option (K × Nat)) (fp : List Char) (n : Nat)
    (list : Nat → K) : (Nat → K) × List Char :=
  match n with
  | 0 => (list, fp)
  | k + 1 =>
    match fscanf_le strtod (readdouble strtod fp k list).2 with
    | (some v, fp2) => (Function.update (readdouble strtod fp k list).1 k v, fp2)
    | (none, fp2) => ((readdouble strtod fp k list).1, fp2)

/-- Modelled from the spec: `readchar(fp, s)` of `sntools.c`, which is not under `src/`:
the tokenized-value reader for one string, `fscanf(fp, "%s", s)`. -/
def readchar (fp : List Char) : Option (List Char) × List Char :=
  match fscanf_s fp with
  | none => (none, fp)
  | some (tok, rest) => (some tok, rest)

/-- The tokens `strtok(line, " ")` returns one after the other: the maximal runs of
characters other than the blank. -/
def strtok_blank : List Char → List Char → List (List Char)
  | cur, [] => if cur = [] then [] else [cur.reverse]
  | cur, c :: r =>
    if c = ' ' then
      (if cur = [] then strtok_blank [] r else cur.reverse :: strtok_blank [] r)
    else strtok_blank (c :: cur) r

/-- The function `reset_VALUES_SPECBIN`. -/
def reset_VALUES_SPECBIN (E : READ_ENV K) (G : SPECTRO_GLOBALS K) : SPECTRO_GLOBALS K :=
  { G with VALUES_SPECBIN := fun jtmp => if jtmp < E.MXVALUES_SPECBIN then 0
      else G.VALUES_SPECBIN jtmp }

/-- The `while` loop of `read_TEXPOSE_LIST` over the tokens of the line; a comment token
ends it (`goto DONE`).  The result is the count `NBT`. -/
def read_TEXPOSE_tokens (E : READ_ENV K) :
    List (List Char) → Nat → SPECTRO_GLOBALS K →
      Run (SPECTRO_GLOBALS K) (Nat × SPECTRO_GLOBALS K)
  | [], NBT, G => .ok (NBT, G)
  | cval :: rest, NBT, G =>
    if cval.head? = some '#' ∨ cval.head? = some '%' ∨ cval.head? = some '!'
        ∨ cval.head? = some '\r' then .ok (NBT, G)
    else
      let G1 : SPECTRO_GLOBALS K :=
        if NBT < E.MXTEXPOSE_SPECTROGRAPH then
          match sscanf_le E.strtod cval with
          | some v => { G with INPUTS_SPECTRO := { G.INPUTS_SPECTRO with
              TEXPOSE_LIST := Function.update G.INPUTS_SPECTRO.TEXPOSE_LIST NBT v } }
          | none => G
        else G
      -- make sure each TEXPOSE is increasing
      if NBT > 0 ∧ G1.INPUTS_SPECTRO.TEXPOSE_LIST NBT < G1.INPUTS_SPECTRO.TEXPOSE_LIST (NBT - 1)
      then .error (Abort.fatal "read_TEXPOSE_LIST" "TEXPOSE_LIST must be in increasing order.", G1)
      else read_TEXPOSE_tokens E rest (NBT + 1) G1

/-- The function `read_TEXPOSE_LIST(fp)`: read all exposure times on this line. -/
def read_TEXPOSE_LIST (E : READ_ENV K) (G : SPECTRO_GLOBALS K) :
    Run (SPECTRO_GLOBALS K) (Nat × SPECTRO_GLOBALS K) := do
  let tmpLine := (fgets 400 G.fp).1
  let G0 : SPECTRO_GLOBALS K := { G with fp := (fgets 400 G.fp).2 }
  let (NBT, G1) ← read_TEXPOSE_tokens E (strtok_blank [] tmpLine) 0 G0
  -- DONE:
  let G2 : SPECTRO_GLOBALS K := { G1 with INPUTS_SPECTRO := { G1.INPUTS_SPECTRO with
    NBIN_TEXPOSE := NBT
    TEXPOSE_MIN := G1.INPUTS_SPECTRO.TEXPOSE_LIST 0
    TEXPOSE_MAX := G1.INPUTS_SPECTRO.TEXPOSE_LIST (NBT - 1) } }
  if NBT ≥ E.MXTEXPOSE_SPECTROGRAPH then
    throw (Abort.fatal "read_TEXPOSE_LIST" "Found too many TEXPOSE_LIST values", G2)
  return (NBT, G2)

/-- The part of `read_SPECBIN_spectrograph` after the label `PARSE_XTMP`: store the row
`XTMP` as bin `NBIN_LAM`. -/
def PARSE_XTMP (E : READ_ENV K) (XTMP : Nat → K) (G : SPECTRO_GLOBALS K) :
    Run (SPECTRO_GLOBALS K) (Nat × SPECTRO_GLOBALS K) := do
  let NBT := G.INPUTS_SPECTRO.NBIN_TEXPOSE
  let NBL := G.INPUTS_SPECTRO.NBIN_LAM
  if XTMP 1 < XTMP 0 then
    throw (Abort.fatal "read_SPECBIN_spectrograph" "LAMMAX < LAMMIN ???", G)
  let G1 : SPECTRO_GLOBALS K := { G with INPUTS_SPECTRO := { G.INPUTS_SPECTRO with
    LAMMIN_LIST := Function.update G.INPUTS_SPECTRO.LAMMIN_LIST NBL (XTMP 0)
    LAMMAX_LIST := Function.update G.INPUTS_SPECTRO.LAMMAX_LIST NBL (XTMP 1)
    LAMSIGMA_LIST := Function.update G.INPUTS_SPECTRO.LAMSIGMA_LIST NBL (XTMP 2)
    LAMAVG_LIST := Function.update G.INPUTS_SPECTRO.LAMAVG_LIST NBL ((XTMP 0 + XTMP 1) / 2.0)
    LAMBIN_LIST := Function.update G.INPUTS_SPECTRO.LAMBIN_LIST NBL (XTMP 1 - XTMP 0) } }
  -- for(t=0; t < NBT; t++): jtmp = NCOL_noSNR + 2*t
  let G2 : SPECTRO_GLOBALS K := loopPure NBT (fun t g =>
    let I1 : INPUTS_SPECTRO_DEF K := { g.INPUTS_SPECTRO with
      SNR0 := set2 g.INPUTS_SPECTRO.SNR0 NBL t (XTMP (E.NCOL_noSNR + 2 * t)) }
    let I2 : INPUTS_SPECTRO_DEF K := { I1 with
      SNR1 := set2 I1.SNR1 NBL t (XTMP (E.NCOL_noSNR + 2 * t + 1)) }
    { g with INPUTS_SPECTRO := I2
             NERR_SNR_SPECTROGRAPH := g.NERR_SNR_SPECTROGRAPH + check_SNR_SPECTROGRAPH I2 NBL t })
    G1
  let NBL1 := NBL + 1
  -- keep track of global min/max
  let G3 : SPECTRO_GLOBALS K := { G2 with INPUTS_SPECTRO := { G2.INPUTS_SPECTRO with
    NBIN_LAM := NBL1
    LAM_MIN := if NBL1 = 1 then XTMP 0 else G2.INPUTS_SPECTRO.LAM_MIN
    LAM_MAX := XTMP 1 } }
  return (NBL1, reset_VALUES_SPECBIN E G3)

/-- The function `read_SPECBIN_spectrograph(fp)`: read the values after a `SPECBIN:` key;
the result is the number of stored bins. -/
def read_SPECBIN_spectrograph (E : READ_ENV K) (M : Libm K) (G : SPECTRO_GLOBALS K) :
    Run (SPECTRO_GLOBALS K) (Nat × SPECTRO_GLOBALS K) := do
  let NBT := G.INPUTS_SPECTRO.NBIN_TEXPOSE
  let NBL := G.INPUTS_SPECTRO.NBIN_LAM
  let NRDCOL := E.NCOL_noSNR + 2 * NBT
  let NREBIN_LAM := G.INPUTS_SPECTRO.NREBIN_LAM
  let XTMP := (readdouble E.strtod G.fp NRDCOL E.XTMP_INIT).1
  let G1 : SPECTRO_GLOBALS K := { G with fp := (readdouble E.strtod G.fp NRDCOL E.XTMP_INIT).2 }
  if NREBIN_LAM = 1 then PARSE_XTMP E XTMP G1
  else
    -- check rebinning
    let G2 : SPECTRO_GLOBALS K := { G1 with INPUTS_SPECTRO := { G1.INPUTS_SPECTRO with
      NBIN_LAM_noREBIN := G1.INPUTS_SPECTRO.NBIN_LAM_noREBIN + 1 } }
    if NREBIN_LAM = 0 then
      throw (Abort.undefined "NBIN_LAM_noREBIN % 0", G2)
    let NBMOD := Int.tmod (G2.INPUTS_SPECTRO.NBIN_LAM_noREBIN : Int) NREBIN_LAM
    let V0 : Nat → K :=
      if NBMOD = 1 then Function.update G2.VALUES_SPECBIN 0 (XTMP 0) else G2.VALUES_SPECBIN
    let V1 : Nat → K := Function.update V0 1 (XTMP 1)
    -- always increment SNR in quadrature: jtmp = NCOL_noSNR + i
    let V2 : Nat → K := loopPure (2 * NBT) (fun i V =>
      Function.update V (E.NCOL_noSNR + i)
        (M.sqrt (V (E.NCOL_noSNR + i) * V (E.NCOL_noSNR + i)
          + XTMP (E.NCOL_noSNR + i) * XTMP (E.NCOL_noSNR + i)))) V1
    let G3 : SPECTRO_GLOBALS K := { G2 with VALUES_SPECBIN := V2 }
    if NBMOD ≠ 0 then return (NBL, G3)
    -- transfer global VALUES_SPECBIN back to local XTMP
    let XTMP2 : Nat → K := fun jtmp => if jtmp < NRDCOL then V2 jtmp else XTMP jtmp
    PARSE_XTMP E XTMP2 G3

/-- The function `malloc_spectrograph(+1, NBIN_LAM, NBIN_TEXPOSE)`: the five wavelength
lists get their first values; the content of the other arrays is indeterminate and is
left as it is. -/
def malloc_spectrograph (NBIN_LAM : Nat) (G : SPECTRO_GLOBALS K) : SPECTRO_GLOBALS K :=
  { G with INPUTS_SPECTRO := { G.INPUTS_SPECTRO with
    LAMMIN_LIST := fun ilam => if ilam < NBIN_LAM then -999.0 else G.INPUTS_SPECTRO.LAMMIN_LIST ilam
    LAMMAX_LIST := fun ilam => if ilam < NBIN_LAM then -99.0 else G.INPUTS_SPECTRO.LAMMAX_LIST ilam
    LAMAVG_LIST := fun ilam => if ilam < NBIN_LAM then -9.0 else G.INPUTS_SPECTRO.LAMAVG_LIST ilam
    LAMSIGMA_LIST := fun ilam => if ilam < NBIN_LAM then 0.0 else G.INPUTS_SPECTRO.LAMSIGMA_LIST ilam
    LAMBIN_LIST := fun ilam => if ilam < NBIN_LAM then 0.0 else G.INPUTS_SPECTRO.LAMBIN_LIST ilam } }

/-- The array `KEYREQ_LIST` of `read_spectrograph_text`. -/
def KEYREQ_LIST (ikey : Nat) : List Char :=
  if ikey = 0 then "INSTRUMENT:".toList
  else if ikey = 1 then "MAGREF_LIST:".toList
  else "TEXPOSE_LIST:".toList

/-- The body of the loop over `ikey` in `read_spectrograph_text` for the token `c_get`. -/
def read_key (E : READ_ENV K) (c_get : List Char) (ikey : Nat)
    (S : READ_LOCALS × SPECTRO_GLOBALS K) :
    Run (SPECTRO_GLOBALS K) (READ_LOCALS × SPECTRO_GLOBALS K) :=
  if c_get = KEYREQ_LIST ikey then
    let L : READ_LOCALS := { S.1 with
      NKEY_FOUND := S.1.NKEY_FOUND + 1
      KEYFLAG_FOUND := Function.update S.1.KEYFLAG_FOUND ikey 1 }
    if ikey = 0 then
      match readchar S.2.fp with
      | (some name, fp1) => .ok (L, { S.2 with fp := fp1, INPUTS_SPECTRO :=
          { S.2.INPUTS_SPECTRO with INSTRUMENT_NAME := String.mk name } })
      | (none, fp1) => .ok (L, { S.2 with fp := fp1 })
    else if ikey = 1 then
      .ok (L, { S.2 with
        fp := (readdouble E.strtod S.2.fp 2 S.2.INPUTS_SPECTRO.MAGREF_LIST).2
        INPUTS_SPECTRO := { S.2.INPUTS_SPECTRO with
          MAGREF_LIST := (readdouble E.strtod S.2.fp 2 S.2.INPUTS_SPECTRO.MAGREF_LIST).1 } })
    else if ikey = 2 then
      match read_TEXPOSE_LIST E S.2 with
      | .ok (NBT, G1) => .ok ({ L with NBT := NBT }, G1)
      | .error e => .error e
    else .error (Abort.fatal "read_spectrograph_text" "Unknow KEY", S.2)
  else .ok S

/-- The body of the `while` loop of `read_spectrograph_text` for the token `c_get` that
`fscanf` has just read. -/
def read_token (E : READ_ENV K) (M : Libm K) (c_get : List Char)
    (S : READ_LOCALS × SPECTRO_GLOBALS K) :
    Run (SPECTRO_GLOBALS K) (READ_LOCALS × SPECTRO_GLOBALS K) := do
  -- if comment key is found, read remainder of line into dummy string
  if c_get.head? = some '#' ∨ c_get.head? = some '!' ∨ c_get.head? = some '%' then
    return (S.1, { S.2 with fp := (fgets 80 S.2.fp).2 })
  -- check all default keys
  let S1 ← forLoop 3 (read_key E c_get) S
  let S2 : READ_LOCALS × SPECTRO_GLOBALS K :=
    if S1.1.NKEY_FOUND = 3 ∧ S1.1.DONE_MALLOC = 0 then
      -- malloc array vs. lambda and TEXPOSE
      ({ S1.1 with DONE_MALLOC := 1 }, malloc_spectrograph E.NROW_FILE S1.2)
    else S1
  if c_get = "SPECBIN:".toList then
    if S2.1.NKEY_FOUND < 3 then
      throw (Abort.fatal "read_spectrograph_text"
        "Found SPECBIN key before required header keys.", S2.2)
    let (NBL, G3) ← read_SPECBIN_spectrograph E M S2.2
    return ({ S2.1 with NBL := NBL }, G3)
  return S2

/-- The `while` loop of `read_spectrograph_text`, `fuel` iterations at most; `none` when
the fuel is used up before the end of the file. -/
def read_loop (E : READ_ENV K) (M : Libm K) :
    Nat → READ_LOCALS × SPECTRO_GLOBALS K →
      Option (Run (SPECTRO_GLOBALS K) (READ_LOCALS × SPECTRO_GLOBALS K))
  | 0, _ => none
  | fuel + 1, S =>
    match fscanf_s S.2.fp with
    | none => some (.ok S)
    | some (c_get, rest) =>
      match read_token E M c_get (S.1, { S.2 with fp := rest }) with
      | .error e => some (.error e)
      | .ok S1 => read_loop E M fuel S1

/-- The state of `read_spectrograph_text` when it enters the `while` loop on the file
content `content`. -/
def read_init (E : READ_ENV K) (content : List Char) (G : SPECTRO_GLOBALS K) :
    READ_LOCALS × SPECTRO_GLOBALS K :=
  ({ NKEY_FOUND := 0, DONE_MALLOC := 0, KEYFLAG_FOUND := fun _ => 0, NBL := 0, NBT := 0 },
   reset_VALUES_SPECBIN E
    { G with
      fp := content
      NERR_SNR_SPECTROGRAPH := 0
      INPUTS_SPECTRO := { G.INPUTS_SPECTRO with
        INSTRUMENT_NAME := "UNKNOWN"
        MAGREF_LIST := fun i => if i < 2 then 99 else G.INPUTS_SPECTRO.MAGREF_LIST i
        NBIN_TEXPOSE := 0
        NBIN_LAM := 0
        NBIN_LAM_noREBIN := 0
        LAM_MIN := -9.0
        LAM_MAX := -9.0
        TEXPOSE_MIN := -9.0
        TEXPOSE_MAX := -9.0 } })

/-- The end of `read_spectrograph_text`, after the `while` loop. -/
def read_finish (E : READ_ENV K) (S : READ_LOCALS × SPECTRO_GLOBALS K) :
    Run (SPECTRO_GLOBALS K) (SPECTRO_GLOBALS K) :=
  if S.2.NERR_SNR_SPECTROGRAPH > 0 then
    .error (Abort.fatal "read_spectrograph_text" "Found errors for which", S.2)
  else if S.1.NBL ≥ E.MXLAM_SPECTROGRAPH then
    .error (Abort.fatal "read_spectrograph_text" "NBIN_LAM exceeds MXLAM_SPECTROGRAPH", S.2)
  else .ok S.2

/-- The function `read_spectrograph_text(inFile)`; `inFile` is the content of the file,
`none` when `fopen` fails.  The fuel of the loop is the length of the file plus one. -/
def read_spectrograph_text (E : READ_ENV K) (M : Libm K) (inFile : Option (List Char))
    (G : SPECTRO_GLOBALS K) : Option (Run (SPECTRO_GLOBALS K) (SPECTRO_GLOBALS K)) :=
  match inFile with
  | none => some (.error (Abort.fatal "read_spectrograph_text"
      "Could not find SPECTROGRAPH table file:", G))
  | some content =>
    match read_loop E M (content.length + 1) (read_init E content G) with
    | none => none
    | some (.error e) => some (.error e)
    | some (.ok S) => some (read_finish E S)

/-! ## `parse_spectrograph_options` -/

/-- What `parse_spectrograph_options` takes from outside `src/`: the test `IGNOREFILE` of
`sntools.c`, the conversion `%d` of the C library, and the indeterminate first content of
the local array `s2`. -/
structure OPT_ENV where
  IGNOREFILE : List Char → Bool
  /-- The conversion `sscanf(text, "%d", &n)`: the integer converted, if any. -/
  sscanf_d : List Char → Option Int
  s2_INIT : Nat → List Char

/-- The pieces `strtok(string, sep)` returns one after the other for the separator `sep`:
the maximal runs of characters other than `sep`. -/
def strtok_sep (sep : Char) : List Char → List Char → List (List Char)
  | cur, [] => if cur = [] then [] else [cur.reverse]
  | cur, c :: r =>
    if c = sep then
      (if cur = [] then strtok_sep sep [] r else cur.reverse :: strtok_sep sep [] r)
    else strtok_sep sep (c :: cur) r

/-- Modelled from the spec: `splitString(string, sep, MXsplit, &Nsplit, ptrSplit)` of
`sntools.c`, which is not under `src/`: the pieces of `string` between the separators
(`comma-separated key=value pairs`).  The bound `MXsplit` is not modelled. -/
def splitString (string : List Char) (sep : Char) : List (List Char) :=
  strtok_sep sep [] string

/-- The pieces of a split written to the strings `ptrSplit[i]`, `ptrSplit[i+1]`, ... -/
def storeSplit (ptrSplit : Nat → List Char) : Nat → List (List Char) → (Nat → List Char)
  | _, [] => ptrSplit
  | i, p :: ps => storeSplit (Function.update ptrSplit i p) (i + 1) ps

/-- The body of the loop over `opt` of `parse_spectrograph_options` for the option
`sopt`; the state is the array `s2` and `INPUTS_SPECTRO`. -/
def parse_option (O : OPT_ENV) (sopt : List Char)
    (st : (Nat → List Char) × INPUTS_SPECTRO_DEF K) :
    (Nat → List Char) × INPUTS_SPECTRO_DEF K :=
  let s2 := storeSplit st.1 0 (splitString sopt '=')
  if s2 0 = "rebin".toList then
    match O.sscanf_d (s2 1) with
    | some n => (s2, { st.2 with NREBIN_LAM := n })
    | none => (s2, st.2)
  else (s2, st.2)

/-- The function `parse_spectrograph_options(stringOpt)` (the `printf` is not modelled). -/
def parse_spectrograph_options (O : OPT_ENV) (stringOpt : List Char)
    (I : INPUTS_SPECTRO_DEF K) : INPUTS_SPECTRO_DEF K :=
  let I1 : INPUTS_SPECTRO_DEF K := { I with NREBIN_LAM := 1 }
  if O.IGNOREFILE stringOpt then I1
  else
    -- split by comma-separated values
    let s := splitString stringOpt ','
    -- split each option by equal sign:  bla=val
    (s.foldl (fun st sopt => parse_option O sopt st) (O.s2_INIT, I1)).2

/-! ## `get_FILTERtrans_spectrograph` -/

/-- The conversion `(int)x` of a double: truncation toward zero (a value outside the range
of `int` is not modelled). -/
def truncInt [FloorRing K] (x : K) : Int := if 0 ≤ x then ⌊x⌋ else ⌈x⌉

/-- What `get_FILTERtrans_spectrograph` returns through its pointer arguments. -/
structure FILTERtrans_OUT (K : Type) where
  LAMFILT_MIN : K
  LAMFILT_MAX : K
  NBIN_LAMFILT : Int
  LAMFILT_ARRAY : Nat → K
  TRANSFILT_ARRAY : Nat → K

/-- The local variables of `get_FILTERtrans_spectrograph` that the loop over the lambda
bins changes, and the output array it fills. -/
structure FILTERtrans_LOOP (K : Type) where
  FLUX_TMP : Nat → K
  FLUX_MAX : K
  LAMFILT_ARRAY : Nat → K

/-- The part `interpolate ZP` of the lambda loop of `get_FILTERtrans_spectrograph`: the
zero point used for the bin `l` with centre `LCEN`. -/
def FILTERtrans_ZP (interp_1DFUN : Interp K) (I : INPUTS_SPECTRO_DEF K) (NBL_TRANS l : Nat)
    (LCEN : K) : Except Abort K :=
  let NBL_SPECTRO := I.NBIN_LAM
  let OPT_INTERP := 1
  if l = 0 ∨ l = NBL_TRANS - 1 then .ok 0.0 -- first & last bin has FLUX_TRANS=0
  else if LCEN ≤ I.LAMAVG_LIST 0 then .ok (I.ZP 0 0)
  else if LCEN ≥ I.LAMAVG_LIST (NBL_SPECTRO - 1) then .ok (I.ZP (NBL_SPECTRO - 1) 0)
  else interp_1DFUN OPT_INTERP LCEN NBL_SPECTRO I.LAMAVG_LIST (fun ilam => I.ZP ilam 0)
    "get_FILTERtrans_spectrograph"

/-- The body of the lambda loop of `get_FILTERtrans_spectrograph` for the bin `l`. -/
def FILTERtrans_bin (M : Libm K) (interp_1DFUN : Interp K) (I : INPUTS_SPECTRO_DEF K)
    (LAMFILT_MIN LAMSTEP : K) (NBL_TRANS : Nat) (l : Nat) (st : FILTERtrans_LOOP K) :
    Except Abort (FILTERtrans_LOOP K) := do
  let xlam : K := (l : K)
  let LCEN := LAMFILT_MIN + LAMSTEP * (xlam + 0.5) -- center of bin
  let ZP ← FILTERtrans_ZP interp_1DFUN I NBL_TRANS l LCEN
  let F : K := if ZP > 0.001 then M.pow TEN (-0.4 * (I.MAGREF_LIST 0 - ZP)) else 0.0
  let FLUX_MAX : K := if ZP > 0.001 ∧ F > st.FLUX_MAX then F else st.FLUX_MAX
  return { FLUX_TMP := Function.update st.FLUX_TMP l F
           FLUX_MAX := FLUX_MAX
           LAMFILT_ARRAY := Function.update st.LAMFILT_ARRAY l LCEN }

/-- The function `get_FILTERtrans_spectrograph(&LAMFILT_MIN, &LAMFILT_MAX, MXTRANS,
&NBIN_LAMFILT, LAMFILT_ARRAY, TRANSFILT_ARRAY)`.  `FLUX_TMP` is the indeterminate content
of the array the function allocates; the interpolator `interp_1DFUN` is a parameter. -/
def get_FILTERtrans_spectrograph [FloorRing K] (M : Libm K) (interp_1DFUN : Interp K)
    (I : INPUTS_SPECTRO_DEF K) (FLUX_TMP : Nat → K) (LAMFILT_MIN LAMFILT_MAX : K)
    (MXTRANS : Int) (LAMFILT_ARRAY TRANSFILT_ARRAY : Nat → K) :
    Except Abort (FILTERtrans_OUT K) := do
  -- define finer lambda bins for intergration, with a minimum of 10 bins.
  let LAMSTEP_APPROX : K := 5.0
  let LAMRANGE := LAMFILT_MAX - LAMFILT_MIN
  let NBL_TRANS0 : Int := truncInt (LAMRANGE / LAMSTEP_APPROX)
  let NBL_TRANS1 : Int := if NBL_TRANS0 < 10 then 10 else NBL_TRANS0
  let LAMSTEP := LAMRANGE / (NBL_TRANS1 : K)
  -- add one bin on the low and high side where transmission=0
  let LAMFILT_MIN1 := LAMFILT_MIN - LAMSTEP
  let LAMFILT_MAX1 := LAMFILT_MAX + LAMSTEP
  let NBL_TRANS : Int := NBL_TRANS1 + 1 + 1
  if NBL_TRANS ≥ MXTRANS then
    throw (Abort.fatal "get_FILTERtrans_spectrograph" "NBL_TRANS exceeds bound MXTRANS")
  let st ← forLoop NBL_TRANS.toNat
    (FILTERtrans_bin M interp_1DFUN I LAMFILT_MIN1 LAMSTEP NBL_TRANS.toNat)
    { FLUX_TMP := FLUX_TMP, FLUX_MAX := 0.0, LAMFILT_ARRAY := LAMFILT_ARRAY }
  if st.FLUX_MAX < 1.0E-9 then
    throw (Abort.fatal "get_FILTERtrans_spectrograph" "Synthetic FLUX_MAX")
  return { LAMFILT_MIN := LAMFILT_MIN1
           LAMFILT_MAX := LAMFILT_MAX1
           NBIN_LAMFILT := NBL_TRANS
           LAMFILT_ARRAY := st.LAMFILT_ARRAY
           TRANSFILT_ARRAY := fun l =>
             if l < NBL_TRANS.toNat then st.FLUX_TMP l / st.FLUX_MAX else TRANSFILT_ARRAY l }

/-! ## `read_spectrograph_fits` -/

/-- The body of the loop `compute LAMAVG & LAMBIN` of `read_spectrograph_fits` for the bin
`l`; the state is the local `LASTBIN` and the global `INPUTS_SPECTRO`. -/
def read_spectrograph_fits_bin (l : Nat) (s : K × INPUTS_SPECTRO_DEF K) :
    K × INPUTS_SPECTRO_DEF K :=
  let LASTBIN := s.1
  let L0 := s.2.LAMMIN_LIST l
  let L1 := s.2.LAMMAX_LIST l
  let LBIN := L1 - L0
  let I1 : INPUTS_SPECTRO_DEF K := { s.2 with
    LAMAVG_LIST := Function.update s.2.LAMAVG_LIST l ((L0 + L1) / 2.0)
    LAMBIN_LIST := Function.update s.2.LAMBIN_LIST l LBIN }
  let I2 : INPUTS_SPECTRO_DEF K :=
    if l > 0 ∧ |LASTBIN - LBIN| > 0.001 then { I1 with FORMAT_MASK := 2 } -- write LAMMIN & LAMMAX
    else I1
  (LBIN, I2)

/-- The part `compute LAMAVG & LAMBIN` of `read_spectrograph_fits`, from
`double LBIN, LASTBIN=0.0` to the end of the loop over the `NBL` bins.  `I` is
`INPUTS_SPECTRO` after the columns `LAMMIN_LIST`, `LAMMAX_LIST` and `LAMSIGMA_LIST` have
been read from the table (the FITS library is outside `src/`); nothing after this part
writes `FORMAT_MASK`, `LAMAVG_LIST` or `LAMBIN_LIST`. -/
def read_spectrograph_fits_bins (NBL : Nat) (I : INPUTS_SPECTRO_DEF K) :
    INPUTS_SPECTRO_DEF K :=
  (loopPure NBL read_spectrograph_fits_bin (0.0, { I with FORMAT_MASK := 1 })).2

/-! ## Doubles that are not finite

`solve_spectrograph` and `getSNR_spectrograph` above stop with `Abort.nonfinite` where a
double leaves the finite numbers.  The C program does not stop there: it goes on with
`inf` and `NaN`.  The definitions below follow the same statements with every operation
carried out on the doubles of IEEE 754: a finite value is an exact number (no rounding,
no overflow, and zero has no sign), and the two infinities and `NaN` behave as the
standard says. -/

/-- A C `double`: a finite number, `+inf`, `-inf` or `NaN`. -/
inductive Dbl (K : Type) where
  | fin (x : K)
  | pinf
  | ninf
  | nan

/-- The unary minus. -/
def Dbl.neg : Dbl K → Dbl K
  | .fin x => .fin (-x)
  | .pinf => .ninf
  | .ninf => .pinf
  | .nan => .nan

/-- The sum `a + b`: `inf + (-inf)` is `NaN`. -/
def Dbl.add : Dbl K → Dbl K → Dbl K
  | .fin x, .fin y => .fin (x + y)
  | .nan, _ => .nan
  | _, .nan => .nan
  | .pinf, .ninf => .nan
  | .ninf, .pinf => .nan
  | .pinf, _ => .pinf
  | .ninf, _ => .ninf
  | .fin _, .pinf => .pinf
  | .fin _, .ninf => .ninf

/-- The difference `a - b`. -/
def Dbl.sub (a b : Dbl K) : Dbl K := Dbl.add a (Dbl.neg b)

/-- The product `(+inf) * x` for a finite `x`: `0 * inf` is `NaN`. -/
def Dbl.infTimes (x : K) : Dbl K :=
  if 0 < x then .pinf
  else if x < 0 then .ninf
  else .nan

/-- The product `a * b`: `0 * inf` is `NaN`. -/
def Dbl.mul : Dbl K → Dbl K → Dbl K
  | .fin x, .fin y => .fin (x * y)
  | .nan, _ => .nan
  | _, .nan => .nan
  | .fin x, .pinf => Dbl.infTimes x
  | .fin x, .ninf => Dbl.neg (Dbl.infTimes x)
  | .pinf, .fin y => Dbl.infTimes y
  | .ninf, .fin y => Dbl.neg (Dbl.infTimes y)
  | .pinf, .pinf => .pinf
  | .ninf, .ninf => .pinf
  | .pinf, .ninf => .ninf
  | .ninf, .pinf => .ninf

/-- The quotient `a / b`: `x / 0` is an infinity with the sign of `x`, `0 / 0` and `inf / inf` are
`NaN`, and a finite number over an infinity is zero. -/
def Dbl.div : Dbl K → Dbl K → Dbl K
  | .fin x, .fin y => if y = 0 then Dbl.infTimes x else .fin (x / y)
  | .nan, _ => .nan
  | _, .nan => .nan
  | .fin _, .pinf => .fin 0
  | .fin _, .ninf => .fin 0
  | .pinf, .fin y => if y < 0 then .ninf else .pinf
  | .ninf, .fin y => if y < 0 then .pinf else .ninf
  | .pinf, .pinf => .nan
  | .pinf, .ninf => .nan
  | .ninf, .pinf => .nan
  | .ninf, .ninf => .nan

instance Dbl.instAdd : Add (Dbl K) := ⟨Dbl.add⟩

instance Dbl.instSub : Sub (Dbl K) := ⟨Dbl.sub⟩

instance Dbl.instMul : Mul (Dbl K) := ⟨Dbl.mul⟩

instance Dbl.instDiv : Div (Dbl K) := ⟨Dbl.div⟩

/-- The comparison `a < b` of C, false when a side is `NaN`. -/
def Dbl.lt : Dbl K → Dbl K → Bool
  | .fin x, .fin y => decide (x < y)
  | .ninf, .fin _ => true
  | .ninf, .pinf => true
  | .fin _, .pinf => true
  | _, _ => false

/-- The comparison `a <= b` of C, false when a side is `NaN`. -/
def Dbl.le : Dbl K → Dbl K → Bool
  | .fin x, .fin y => decide (x ≤ y)
  | .ninf, .fin _ => true
  | .ninf, .pinf => true
  | .ninf, .ninf => true
  | .fin _, .pinf => true
  | .pinf, .pinf => true
  | _, _ => false

/-- The square root `sqrt(a)`: `NaN` for a negative number and for `-inf`. -/
def Dbl.sqrt (M : Libm K) : Dbl K → Dbl K
  | .fin x => if x < 0 then .nan else .fin (M.sqrt x)
  | .pinf => .pinf
  | .ninf => .nan
  | .nan => .nan

/-- The logarithm `log10(a)`: `-inf` at zero, `NaN` for a negative number and for `-inf`. -/
def Dbl.log10 (M : Libm K) : Dbl K → Dbl K
  | .fin x => if x < 0 then .nan else if x = 0 then .ninf else .fin (M.log10 x)
  | .pinf => .pinf
  | .ninf => .nan
  | .nan => .nan

/-- The power `pow(TEN, a)`: `+inf` at `+inf` and zero at `-inf`. -/
def Dbl.pow10 (M : Libm K) : Dbl K → Dbl K
  | .fin y => .fin (M.pow TEN y)
  | .pinf => .pinf
  | .ninf => .fin 0
  | .nan => .nan

/-- The absolute value `fabs(a)`. -/
def Dbl.fabs : Dbl K → Dbl K
  | .fin x => .fin |x|
  | .pinf => .pinf
  | .ninf => .pinf
  | .nan => .nan

/-- The body of the `t` loop of `solve_spectrograph` for the pair `(l, t)`, on doubles
that need not be finite: the statements of `solve_ZP`, `solve_check` and `solve_bin`. -/
def solve_bin_ieee (M : Libm K) (MAGREF POWMAG : Nat → Dbl K) (l t : Nat)
    (st : INPUTS_SPECTRO_DEF (Dbl K)) :
    Run (INPUTS_SPECTRO_DEF (Dbl K)) (INPUTS_SPECTRO_DEF (Dbl K)) :=
  let SNR0 := st.SNR0 l t
  let SNR1 := st.SNR1 l t
  let TOP := POWMAG 0 - POWMAG 1
  let DUM0 := POWMAG 0 / SNR0
  let DUM1 := POWMAG 1 / SNR1
  let BOT := DUM0 * DUM0 - DUM1 * DUM1
  if Dbl.le TOP (.fin 0.0) || Dbl.le BOT (.fin 0.0) then
    .error (Abort.fatal "solve_spectrograph" "Cannot solve ZP", st)
  else
    let ZP := Dbl.fin 2.5 * Dbl.log10 M (TOP / BOT)
    let F0 := Dbl.pow10 M (Dbl.fin (-0.4) * (MAGREF 0 - ZP))
    let F1 := Dbl.pow10 M (Dbl.fin (-0.4) * (MAGREF 1 - ZP))
    let SQSIGSKY := (F0 / SNR0) * (F0 / SNR0) - F0
    -- store in global
    let st1 := { st with
      ZP := fun i j => if i = l ∧ j = t then ZP else st.ZP i j
      SQSIGSKY := fun i j => if i = l ∧ j = t then SQSIGSKY else st.SQSIGSKY i j }
    -- make sure original SNR can be computed from ZP and SQSIGSKY
    let SNR_check0 := F0 / Dbl.sqrt M (SQSIGSKY + F0)
    let check0 := Dbl.fabs (SNR0 / SNR_check0 - Dbl.fin 1.0)
    let SNR_check1 := F1 / Dbl.sqrt M (SQSIGSKY + F1)
    let check1 := Dbl.fabs (SNR1 / SNR_check1 - Dbl.fin 1.0)
    if Dbl.lt (.fin 0.001) check0 || Dbl.lt (.fin 0.001) check1 then
      .error (Abort.fatal "solve_spectrograph" "Problem computing ZP and SQSIGSKY", st1)
    else .ok st1

/-- The function `solve_spectrograph` on doubles that need not be finite. -/
def solve_spectrograph_ieee (M : Libm K) (st : INPUTS_SPECTRO_DEF (Dbl K)) :
    Run (INPUTS_SPECTRO_DEF (Dbl K)) (INPUTS_SPECTRO_DEF (Dbl K)) :=
  let NBL := st.NBIN_LAM
  let NBT := st.NBIN_TEXPOSE
  let MAGREF : Nat → Dbl K := fun iref => st.MAGREF_LIST iref
  let POWMAG : Nat → Dbl K := fun iref => Dbl.pow10 M (Dbl.fin (-0.4) * MAGREF iref)
  forLoop NBL (fun l => forLoop NBT (fun t => solve_bin_ieee M MAGREF POWMAG l t)) st

/-- The bin search of `findBin` on doubles that need not be finite. -/
def findBin_ieee (val : Dbl K) (VAL_LIST : Nat → Dbl K) (start n : Nat) : Option Nat :=
  match n with
  | 0 => none
  | k + 1 => if Dbl.le val (VAL_LIST (start + 1)) then some start
             else findBin_ieee val VAL_LIST (start + 1) k

/-- Modelled from the spec: `interp_1DFUN` of `sntools.c`, which is not under `src/`, on
doubles that need not be finite: the statements of `interp_1DFUN_linear`. -/
def interp_1DFUN_linear_ieee : Interp (Dbl K) :=
  fun _opt val NBIN VAL_LIST FUN_LIST abort_comment =>
    if Dbl.lt val (VAL_LIST 0) || Dbl.lt (VAL_LIST (NBIN - 1)) val then
      .error (.fatal "interp_1DFUN" abort_comment)
    else
      match findBin_ieee val VAL_LIST 0 (NBIN - 1) with
      | none => .ok (FUN_LIST 0)
      | some i =>
          let frac := (val - VAL_LIST i) / (VAL_LIST (i + 1) - VAL_LIST i)
          .ok (FUN_LIST i + (FUN_LIST (i + 1) - FUN_LIST i) * frac)

/-- The function `getSNR_spectrograph(ILAM, TEXPOSE_S, TEXPOSE_T, GENMAG, &ERRFRAC_T)` on
doubles that need not be finite; the result is the pair of the returned `SNR` and the
value written to `*ERRFRAC_T`.  The only aborts are the fatal error of the range test and
those of the interpolator. -/
def getSNR_spectrograph_ieee (M : Libm K) (interp_1DFUN : Interp (Dbl K))
    (st : INPUTS_SPECTRO_DEF (Dbl K)) (ILAM : Nat) (TEXPOSE_S TEXPOSE_T GENMAG : Dbl K) :
    Except Abort (Dbl K × Dbl K) := do
  let OPT_INTERP := 1
  let NBT := st.NBIN_TEXPOSE
  let Tmin := st.TEXPOSE_LIST 0
  let Tmax := st.TEXPOSE_LIST (NBT - 1)
  if Dbl.lt TEXPOSE_S Tmin || Dbl.lt Tmax TEXPOSE_S then
    throw (Abort.fatal "getSNR_spectrograph" "Invalid TEXPOSE_S")
  -- interpolate ZP(Texpose) and SQSIG(Texpose)
  let ZP_S ← interp_1DFUN OPT_INTERP TEXPOSE_S NBT st.TEXPOSE_LIST (st.ZP ILAM)
    "getSNR_spectrograph(ZP_S)"
  let SQ_S ← interp_1DFUN OPT_INTERP TEXPOSE_S NBT st.TEXPOSE_LIST (st.SQSIGSKY ILAM)
    "getSNR_spectrograph(SQ_S)"
  let SQ_T ←
    if Dbl.lt (.fin 0.01) TEXPOSE_T then do
      let ZP_T ← interp_1DFUN OPT_INTERP TEXPOSE_T NBT st.TEXPOSE_LIST (st.ZP ILAM)
        "getSNR_spectrograph(ZP_T)"
      let SQ_T ← interp_1DFUN OPT_INTERP TEXPOSE_T NBT st.TEXPOSE_LIST (st.SQSIGSKY ILAM)
        "getSNR_spectrograph(SQ_T)"
      pure (SQ_T * Dbl.pow10 M (Dbl.fin 0.8 * (ZP_S - ZP_T)))
    else pure (Dbl.fin 0.0)
  let arg := Dbl.fin (-0.4) * (GENMAG - ZP_S)
  let Flux := Dbl.pow10 M arg -- in p.e.
  let FluxErr := Dbl.sqrt M (SQ_S + SQ_T + Flux)
  let ERRFRAC_T := Dbl.sqrt M SQ_T / FluxErr
  let SNR := Flux / FluxErr
  return (SNR, ERRFRAC_T)

/-- A table of finite numbers as a table of doubles. -/
def toDbl (I : INPUTS_SPECTRO_DEF K) : INPUTS_SPECTRO_DEF (Dbl K) where
  INSTRUMENT_NAME := I.INSTRUMENT_NAME
  NREBIN_LAM := I.NREBIN_LAM
  MAGREF_LIST := fun i => .fin (I.MAGREF_LIST i)
  NBIN_TEXPOSE := I.NBIN_TEXPOSE
  TEXPOSE_LIST := fun t => .fin (I.TEXPOSE_LIST t)
  TEXPOSE_MIN := .fin I.TEXPOSE_MIN
  TEXPOSE_MAX := .fin I.TEXPOSE_MAX
  NBIN_LAM := I.NBIN_LAM
  NBIN_LAM_noREBIN := I.NBIN_LAM_noREBIN
  LAM_MIN := .fin I.LAM_MIN
  LAM_MAX := .fin I.LAM_MAX
  LAMMIN_LIST := fun l => .fin (I.LAMMIN_LIST l)
  LAMMAX_LIST := fun l => .fin (I.LAMMAX_LIST l)
  LAMAVG_LIST := fun l => .fin (I.LAMAVG_LIST l)
  LAMSIGMA_LIST := fun l => .fin (I.LAMSIGMA_LIST l)
  LAMBIN_LIST := fun l => .fin (I.LAMBIN_LIST l)
  SNR0 := fun l t => .fin (I.SNR0 l t)
  SNR1 := fun l t => .fin (I.SNR1 l t)
  ZP := fun l t => .fin (I.ZP l t)
  SQSIGSKY := fun l t => .fin (I.SQSIGSKY l t)
  FORMAT_MASK := I.FORMAT_MASK

end Model

/-! ## Definitions used in the statements -/

section Statements

variable {K : Type} [LinearOrderedField K]

/-- The flux `10^(-0.4*(m - zp))` of magnitude `m` for the zero point `zp`. -/
def fluxOf (M : Libm K) (m zp : K) : K := M.pow TEN (-0.4 * (m - zp))

/-- `BOT = (P0/s0)^2 - (P1/s1)^2`. -/
def botOf (P0 P1 s0 s1 : K) : K := P0 / s0 * (P0 / s0) - P1 / s1 * (P1 / s1)

/-- `ZP = 2.5*log10(TOP/BOT)`. -/
def zpOf (M : Libm K) (P0 P1 s0 s1 : K) : K :=
  2.5 * M.log10 ((P0 - P1) / botOf P0 P1 s0 s1)

/-- `skyVar = (f0/s0)^2 - f0`. -/
def sqOf (M : Libm K) (m0 zp s0 : K) : K :=
  fluxOf M m0 zp / s0 * (fluxOf M m0 zp / s0) - fluxOf M m0 zp

/-- The forward evaluation `f / sqrt(sq + f)`. -/
def snrOf (M : Libm K) (f sq : K) : K := f / M.sqrt (sq + f)

/-- The state after the two stores of `solve_spectrograph` for the pair `(l, t)`. -/
def storeZP (st : INPUTS_SPECTRO_DEF K) (l t : Nat) (zp sq : K) : INPUTS_SPECTRO_DEF K :=
  { st with ZP := set2 st.ZP l t zp, SQSIGSKY := set2 st.SQSIGSKY l t sq }

/-- The self check of one reference index is computed on finite numbers and passes. -/
def CheckOK (M : Libm K) (s f sq : K) : Prop :=
  0 ≤ sq + f ∧ M.sqrt (sq + f) ≠ 0 ∧ snrOf M f sq ≠ 0 ∧ |s / snrOf M f sq - 1| ≤ 0.001

/-- The pair of input SNR values `s0`, `s1` is solved without an abort. -/
def SolvedOK (M : Libm K) (MAGREF POWMAG : Nat → K) (s0 s1 : K) : Prop :=
  s0 ≠ 0 ∧ s1 ≠ 0 ∧ 0 < POWMAG 0 - POWMAG 1 ∧ 0 < botOf (POWMAG 0) (POWMAG 1) s0 s1 ∧
  CheckOK M s0 (fluxOf M (MAGREF 0) (zpOf M (POWMAG 0) (POWMAG 1) s0 s1))
    (sqOf M (MAGREF 0) (zpOf M (POWMAG 0) (POWMAG 1) s0 s1) s0) ∧
  CheckOK M s1 (fluxOf M (MAGREF 1) (zpOf M (POWMAG 0) (POWMAG 1) s0 s1))
    (sqOf M (MAGREF 0) (zpOf M (POWMAG 0) (POWMAG 1) s0 s1) s0)

/-- The table `st` with the pairs marked by `done` solved. -/
def solvedTable (M : Libm K) (MAGREF POWMAG : Nat → K) (st : INPUTS_SPECTRO_DEF K)
    (done : Nat → Nat → Bool) : INPUTS_SPECTRO_DEF K :=
  { st with
    ZP := fun i j =>
      if done i j then zpOf M (POWMAG 0) (POWMAG 1) (st.SNR0 i j) (st.SNR1 i j) else st.ZP i j
    SQSIGSKY := fun i j =>
      if done i j then
        sqOf M (MAGREF 0) (zpOf M (POWMAG 0) (POWMAG 1) (st.SNR0 i j) (st.SNR1 i j)) (st.SNR0 i j)
      else st.SQSIGSKY i j }

/-- `POWMAG[iref] = pow(TEN, -0.4*MAGREF[iref])` of `solve_spectrograph`. -/
def powmagOf (M : Libm K) (st : INPUTS_SPECTRO_DEF K) : Nat → K :=
  fun iref => M.pow TEN (-0.4 * st.MAGREF_LIST iref)

/-- The grid `X[0..n-1]` is strictly increasing. -/
def StrictIncr (X : Nat → K) (n : Nat) : Prop := ∀ a b, a < b → b < n → X a < X b

/-- The number of failures `check_SNR_SPECTROGRAPH(l, t)` reports for `t < n`. -/
def rowViolations (I : INPUTS_SPECTRO_DEF K) (l : Nat) : Nat → Nat
  | 0 => 0
  | t + 1 => rowViolations I l t + check_SNR_SPECTROGRAPH I l t

/-- The number of pairs `(l, t)` with `l < n` and `t < nbt` for which
`check_SNR_SPECTROGRAPH(l, t)` reports a failure. -/
def tableViolations (I : INPUTS_SPECTRO_DEF K) (nbt : Nat) : Nat → Nat
  | 0 => 0
  | l + 1 => tableViolations I nbt l + rowViolations I l nbt

/-- The count `NERR_SNR_SPECTROGRAPH` is the number of failing pairs of the stored bins. -/
def CountsViolations (G : SPECTRO_GLOBALS K) : Prop :=
  G.NERR_SNR_SPECTROGRAPH
    = tableViolations G.INPUTS_SPECTRO G.INPUTS_SPECTRO.NBIN_TEXPOSE G.INPUTS_SPECTRO.NBIN_LAM

/-- The input follows the text format: in the run of the `while` loop from the state `S`
the key `TEXPOSE_LIST:` is read only while no bin is stored (the header precedes the
`SPECBIN:` rows). -/
def ExposureListBeforeBins (E : READ_ENV K) (M : Libm K) :
    Nat → READ_LOCALS × SPECTRO_GLOBALS K → Prop
  | 0, _ => True
  | fuel + 1, S =>
    match fscanf_s S.2.fp with
    | none => True
    | some (c_get, rest) =>
      (c_get = "TEXPOSE_LIST:".toList → S.2.INPUTS_SPECTRO.NBIN_LAM = 0) ∧
      match read_token E M c_get (S.1, { S.2 with fp := rest }) with
      | .error _ => True
      | .ok S1 => ExposureListBeforeBins E M fuel S1

/-- The step from `G` to `G'` leaves the stored bins and the count of failures as they
are: `NERR_SNR_SPECTROGRAPH`, `NBIN_LAM`, `SNR0` and `SNR1`. -/
def SameBins (G G' : SPECTRO_GLOBALS K) : Prop :=
  G'.NERR_SNR_SPECTROGRAPH = G.NERR_SNR_SPECTROGRAPH ∧
  G'.INPUTS_SPECTRO.NBIN_LAM = G.INPUTS_SPECTRO.NBIN_LAM ∧
  G'.INPUTS_SPECTRO.SNR0 = G.INPUTS_SPECTRO.SNR0 ∧
  G'.INPUTS_SPECTRO.SNR1 = G.INPUTS_SPECTRO.SNR1

/-- The pair `(l, t)` of the table violates monotonicity: `t ≥ 1` and `SNR0` or `SNR1` of
bin `l` decreases from `t-1` to `t`. -/
def Violates (I : INPUTS_SPECTRO_DEF K) (l t : Nat) : Prop :=
  1 ≤ t ∧ (I.SNR0 l t < I.SNR0 l (t - 1) ∨ I.SNR1 l t < I.SNR1 l (t - 1))

instance instDecidableViolates (I : INPUTS_SPECTRO_DEF K) (l t : Nat) :
    Decidable (Violates I l t) :=
  inferInstanceAs (Decidable (1 ≤ t ∧ (I.SNR0 l t < I.SNR0 l (t - 1) ∨ I.SNR1 l t < I.SNR1 l (t - 1))))

/-- The violating pairs `(l, t)` among the stored bins `l < NBIN_LAM` and the declared
exposure times `t < NBIN_TEXPOSE`. -/
def violatingPairs (I : INPUTS_SPECTRO_DEF K) : Finset (Nat × Nat) :=
  (Finset.range I.NBIN_LAM ×ˢ Finset.range I.NBIN_TEXPOSE).filter
    (fun p => Violates I p.1 p.2)

/-- The test of `ExposureListBeforeBins` as a computation. -/
def exposureListBeforeBins (E : READ_ENV K) (M : Libm K) :
    Nat → READ_LOCALS × SPECTRO_GLOBALS K → Bool
  | 0, _ => true
  | fuel + 1, S =>
    match fscanf_s S.2.fp with
    | none => true
    | some (c_get, rest) =>
      (decide (c_get ≠ "TEXPOSE_LIST:".toList) || decide (S.2.INPUTS_SPECTRO.NBIN_LAM = 0)) &&
      match read_token E M c_get (S.1, { S.2 with fp := rest }) with
      | .error _ => true
      | .ok S1 => exposureListBeforeBins E M fuel S1

/-- The locals after `NKEY_FOUND++ ; KEYFLAG_FOUND[ikey] = 1`. -/
def foundKey (L : READ_LOCALS) (ikey : Nat) : READ_LOCALS :=
  { L with NKEY_FOUND := L.NKEY_FOUND + 1
           KEYFLAG_FOUND := Function.update L.KEYFLAG_FOUND ikey 1 }

/-- The state after the test `NKEY_FOUND == NKEY_REQ_SPECTROGRAPH && DONE_MALLOC==0` of
`read_spectrograph_text` and the allocation it guards. -/
def afterMalloc (E : READ_ENV K) (S : READ_LOCALS × SPECTRO_GLOBALS K) :
    READ_LOCALS × SPECTRO_GLOBALS K :=
  if S.1.NKEY_FOUND = 3 ∧ S.1.DONE_MALLOC = 0 then
    ({ S.1 with DONE_MALLOC := 1 }, malloc_spectrograph E.NROW_FILE S.2)
  else S

/-- The token is a comment key of `read_spectrograph_text`. -/
def isCommentKey (c_get : List Char) : Prop :=
  c_get.head? = some '#' ∨ c_get.head? = some '!' ∨ c_get.head? = some '%'

/-- The array `VALUES_SPECBIN` after `read_SPECBIN_spectrograph` has added the row `XTMP`
to it: `lamMin` is taken when `NBMOD == 1`, `lamMax` always, and each SNR column is
incremented in quadrature. -/
def accumulateRow (E : READ_ENV K) (M : Libm K) (NBT : Nat) (NBMOD : Int)
    (XTMP V : Nat → K) : Nat → K :=
  loopPure (2 * NBT) (fun i V =>
    Function.update V (E.NCOL_noSNR + i)
      (M.sqrt (V (E.NCOL_noSNR + i) * V (E.NCOL_noSNR + i)
        + XTMP (E.NCOL_noSNR + i) * XTMP (E.NCOL_noSNR + i))))
    (Function.update (if NBMOD = 1 then Function.update V 0 (XTMP 0) else V) 1 (XTMP 1))

/-- The globals after `PARSE_XTMP` has stored the row `XTMP` as bin `NBIN_LAM`, with the
SNR arrays `s0`, `s1` and the count of failures `n`. -/
def storedRow (E : READ_ENV K) (XTMP : Nat → K) (G : SPECTRO_GLOBALS K)
    (s0 s1 : Nat → Nat → K) (n : Nat) : SPECTRO_GLOBALS K :=
  reset_VALUES_SPECBIN E { G with
    NERR_SNR_SPECTROGRAPH := n
    INPUTS_SPECTRO := { G.INPUTS_SPECTRO with
      LAMMIN_LIST := Function.update G.INPUTS_SPECTRO.LAMMIN_LIST G.INPUTS_SPECTRO.NBIN_LAM (XTMP 0)
      LAMMAX_LIST := Function.update G.INPUTS_SPECTRO.LAMMAX_LIST G.INPUTS_SPECTRO.NBIN_LAM (XTMP 1)
      LAMSIGMA_LIST :=
        Function.update G.INPUTS_SPECTRO.LAMSIGMA_LIST G.INPUTS_SPECTRO.NBIN_LAM (XTMP 2)
      LAMAVG_LIST := Function.update G.INPUTS_SPECTRO.LAMAVG_LIST G.INPUTS_SPECTRO.NBIN_LAM
        ((XTMP 0 + XTMP 1) / 2.0)
      LAMBIN_LIST := Function.update G.INPUTS_SPECTRO.LAMBIN_LIST G.INPUTS_SPECTRO.NBIN_LAM
        (XTMP 1 - XTMP 0)
      SNR0 := s0
      SNR1 := s1
      NBIN_LAM := G.INPUTS_SPECTRO.NBIN_LAM + 1
      LAM_MIN := if G.INPUTS_SPECTRO.NBIN_LAM + 1 = 1 then XTMP 0 else G.INPUTS_SPECTRO.LAM_MIN
      LAM_MAX := XTMP 1 } }

/-- The globals of `read_SPECBIN_spectrograph` after a row has been read and counted for
the rebinning, with the new content `V` of `VALUES_SPECBIN`. -/
def countedRow (fp : List Char) (V : Nat → K) (G : SPECTRO_GLOBALS K) : SPECTRO_GLOBALS K :=
  { G with
    fp := fp
    VALUES_SPECBIN := V
    INPUTS_SPECTRO := { G.INPUTS_SPECTRO with
      NBIN_LAM_noREBIN := G.INPUTS_SPECTRO.NBIN_LAM_noREBIN + 1 } }

/-- The declared exposure times are in non-decreasing order. -/
def TimesSorted (I : INPUTS_SPECTRO_DEF K) : Prop :=
  ∀ i, 1 ≤ i → i < I.NBIN_TEXPOSE → I.TEXPOSE_LIST (i - 1) ≤ I.TEXPOSE_LIST i

/-- Every stored bin is valid (`LAMMAX ≥ LAMMIN`, `LAMAVG` the mid point, `LAMBIN` the
width), and `LAM_MIN`, `LAM_MAX` are the `LAMMIN` of the first and the `LAMMAX` of the
last stored bin. -/
def BinsValid (I : INPUTS_SPECTRO_DEF K) : Prop :=
  (∀ l, l < I.NBIN_LAM →
    I.LAMMIN_LIST l ≤ I.LAMMAX_LIST l ∧
    I.LAMAVG_LIST l = (I.LAMMIN_LIST l + I.LAMMAX_LIST l) / 2 ∧
    I.LAMBIN_LIST l = I.LAMMAX_LIST l - I.LAMMIN_LIST l) ∧
  (1 ≤ I.NBIN_LAM →
    I.LAM_MIN = I.LAMMIN_LIST 0 ∧ I.LAM_MAX = I.LAMMAX_LIST (I.NBIN_LAM - 1))

/-- The invariant of the `while` loop of `read_spectrograph_text`: the local `NBL` is the
number of stored bins, the arrays are allocated once three keys have been found and
before the first bin is stored, the exposure times are sorted and the bins are valid. -/
def LoadInv (S : READ_LOCALS × SPECTRO_GLOBALS K) : Prop :=
  S.1.NBL = S.2.INPUTS_SPECTRO.NBIN_LAM ∧
  (3 ≤ S.1.NKEY_FOUND → S.1.DONE_MALLOC ≠ 0) ∧
  (S.1.DONE_MALLOC = 0 → S.2.INPUTS_SPECTRO.NBIN_LAM = 0) ∧
  TimesSorted S.2.INPUTS_SPECTRO ∧ BinsValid S.2.INPUTS_SPECTRO

/-- The part of `read_SPECBIN_spectrograph` after the call of `readdouble`, for the row
`XTMP` that has been read and the stream `fp1` behind it. -/
def specbinRow (E : READ_ENV K) (M : Libm K) (XTMP : Nat → K) (fp1 : List Char)
    (G : SPECTRO_GLOBALS K) : Run (SPECTRO_GLOBALS K) (Nat × SPECTRO_GLOBALS K) :=
  let NRDCOL := E.NCOL_noSNR + 2 * G.INPUTS_SPECTRO.NBIN_TEXPOSE
  let NBMOD := Int.tmod ((G.INPUTS_SPECTRO.NBIN_LAM_noREBIN + 1 : Nat) : Int)
    G.INPUTS_SPECTRO.NREBIN_LAM
  let V := accumulateRow E M G.INPUTS_SPECTRO.NBIN_TEXPOSE NBMOD XTMP G.VALUES_SPECBIN
  if G.INPUTS_SPECTRO.NREBIN_LAM = 1 then PARSE_XTMP E XTMP { G with fp := fp1 }
  else if G.INPUTS_SPECTRO.NREBIN_LAM = 0 then
    .error (Abort.undefined "NBIN_LAM_noREBIN % 0", countedRow fp1 G.VALUES_SPECBIN G)
  else if NBMOD ≠ 0 then .ok (G.INPUTS_SPECTRO.NBIN_LAM, countedRow fp1 V G)
  else PARSE_XTMP E (fun jtmp => if jtmp < NRDCOL then V jtmp else XTMP jtmp)
    (countedRow fp1 V G)

/-- The calls of `read_SPECBIN_spectrograph` for the `k` consecutive rows `X 0`, ...,
`X (k-1)`; `fps i` is the stream behind row `i`. -/
def feedRows (E : READ_ENV K) (M : Libm K) (X : Nat → Nat → K) (fps : Nat → List Char) :
    Nat → SPECTRO_GLOBALS K → Run (SPECTRO_GLOBALS K) (Nat × SPECTRO_GLOBALS K)
  | 0, G => .ok (G.INPUTS_SPECTRO.NBIN_LAM, G)
  | k + 1, G =>
    match feedRows E M X fps k G with
    | .error e => .error e
    | .ok r => specbinRow E M (X k) (fps k) r.2

/-- The row `XTMP` that `read_SPECBIN_spectrograph` reads from the stream of `G`. -/
def rowRead (E : READ_ENV K) (G : SPECTRO_GLOBALS K) : Nat → K :=
  (readdouble E.strtod G.fp (E.NCOL_noSNR + 2 * G.INPUTS_SPECTRO.NBIN_TEXPOSE) E.XTMP_INIT).1

/-- The row that `read_SPECBIN_spectrograph` stores when the row it reads completes a
group: `VALUES_SPECBIN` after the row has been added, transferred back to `XTMP`. -/
def mergedRow (E : READ_ENV K) (M : Libm K) (G : SPECTRO_GLOBALS K) : Nat → K :=
  fun jtmp =>
    if jtmp < E.NCOL_noSNR + 2 * G.INPUTS_SPECTRO.NBIN_TEXPOSE then
      accumulateRow E M G.INPUTS_SPECTRO.NBIN_TEXPOSE
        (Int.tmod ((G.INPUTS_SPECTRO.NBIN_LAM_noREBIN + 1 : Nat) : Int)
          G.INPUTS_SPECTRO.NREBIN_LAM) (rowRead E G) G.VALUES_SPECBIN jtmp
    else rowRead E G jtmp

/-- The option is `rebin=N`: its first piece is `rebin` and its second piece converts to
the integer `N`. -/
def IsRebin (O : OPT_ENV) (sopt : List Char) (N : Int) : Prop :=
  ∃ val rest, splitString sopt '=' = "rebin".toList :: val :: rest ∧ O.sscanf_d val = some N

/-- The option has a key, and the key is not `rebin`. -/
def NotRebin (sopt : List Char) : Prop :=
  ∃ key rest, splitString sopt '=' = key :: rest ∧ key ≠ "rebin".toList

/-- The number of bins of the filter-transmission grid for the range `[LMIN, LMAX]`:
`max(10, floor((LMAX - LMIN)/5)) + 2`. -/
def gridBins [FloorRing K] (LMIN LMAX : K) : Int := max 10 ⌊(LMAX - LMIN) / 5⌋ + 2

/-- The width of a bin of the filter-transmission grid:
`(LMAX - LMIN)/(NBIN_LAMFILT - 2)`. -/
def gridStep [FloorRing K] (LMIN LMAX : K) : K :=
  (LMAX - LMIN) / (((gridBins LMIN LMAX - 2 : Int)) : K)

/-- The centre `LCEN` of bin `l` of a grid that starts at `LAMFILT_MIN`. -/
def binCentre (LAMFILT_MIN LAMSTEP : K) (l : Nat) : K :=
  LAMFILT_MIN + LAMSTEP * ((l : K) + 0.5)

/-- The invariant of the lambda loop of `get_FILTERtrans_spectrograph` before bin `k`:
the bins below `k` have their centre in `LAMFILT_ARRAY`; their fluxes are between 0 and
`FLUX_MAX`, 0 in the first and the last bin of the grid; and `FLUX_MAX` is 0 or one of
these fluxes. -/
def FluxInv (LAMFILT_MIN LAMSTEP : K) (NBL_TRANS : Nat) (k : Nat)
    (st : FILTERtrans_LOOP K) : Prop :=
  (∀ l, l < k → st.LAMFILT_ARRAY l = binCentre LAMFILT_MIN LAMSTEP l) ∧
  0 ≤ st.FLUX_MAX ∧
  (∀ l, l < k → 0 ≤ st.FLUX_TMP l ∧ st.FLUX_TMP l ≤ st.FLUX_MAX) ∧
  (∀ l, l < k → l = 0 ∨ l = NBL_TRANS - 1 → st.FLUX_TMP l = 0) ∧
  (st.FLUX_MAX = 0 ∨ ∃ l, l < k ∧ st.FLUX_TMP l = st.FLUX_MAX)

/-- The flux `F` that the lambda loop of `get_FILTERtrans_spectrograph` stores for a bin
with the zero point `ZP`: `pow(TEN, -0.4*(MAGREF_LIST[0] - ZP))` when `ZP > 0.001`, and 0
otherwise. -/
def binFlux (M : Libm K) (I : INPUTS_SPECTRO_DEF K) (ZP : K) : K :=
  if ZP > 0.001 then M.pow TEN (-0.4 * (I.MAGREF_LIST 0 - ZP)) else 0

/-- The zero point at the wavelength `LCEN`: the interpolation of the zero-point column of
the first exposure time over `LAMAVG_LIST`, clamped to `ZP[0][0]` at and below
`LAMAVG_LIST[0]` and to `ZP[NBL-1][0]` at and above `LAMAVG_LIST[NBL-1]`. -/
def clampedZP (interp_1DFUN : Interp K) (I : INPUTS_SPECTRO_DEF K) (LCEN : K) :
    Except Abort K :=
  if LCEN ≤ I.LAMAVG_LIST 0 then .ok (I.ZP 0 0)
  else if LCEN ≥ I.LAMAVG_LIST (I.NBIN_LAM - 1) then .ok (I.ZP (I.NBIN_LAM - 1) 0)
  else interp_1DFUN 1 LCEN I.NBIN_LAM I.LAMAVG_LIST (fun ilam => I.ZP ilam 0)
    "get_FILTERtrans_spectrograph"

/-- The zero point of bin `l` in the lambda loop of `get_FILTERtrans_spectrograph`, 0 when
the interpolator stops. -/
def binZP (interp_1DFUN : Interp K) (I : INPUTS_SPECTRO_DEF K) (LAMFILT_MIN LAMSTEP : K)
    (NBL_TRANS l : Nat) : K :=
  match FILTERtrans_ZP interp_1DFUN I NBL_TRANS l (binCentre LAMFILT_MIN LAMSTEP l) with
  | .ok z => z
  | .error _ => 0

/-- The invariant of the lambda loop of `get_FILTERtrans_spectrograph` before bin `k`, for
the zero points `Z l` of the bins: `FLUX_TMP[l]` is the flux of `Z l`; `FLUX_MAX` is at
least the flux of every bin with `Z l > 0.001`, and it is 0 or the flux of such a bin. -/
def ZPInv (M : Libm K) (I : INPUTS_SPECTRO_DEF K) (Z : Nat → K) (k : Nat)
    (st : FILTERtrans_LOOP K) : Prop :=
  (∀ l, l < k → st.FLUX_TMP l = binFlux M I (Z l)) ∧
  (∀ l, l < k → Z l > 0.001 → binFlux M I (Z l) ≤ st.FLUX_MAX) ∧
  (st.FLUX_MAX = 0 ∨ ∃ j, j < k ∧ Z j > 0.001 ∧ st.FLUX_MAX = binFlux M I (Z j))

/-- The width `LAMMAX[l] - LAMMIN[l]` of bin `l`. -/
def binWidth (I : INPUTS_SPECTRO_DEF K) (l : Nat) : K := I.LAMMAX_LIST l - I.LAMMIN_LIST l

/-- The invariant of the loop `compute LAMAVG & LAMBIN` of `read_spectrograph_fits` before
bin `k`, for the table `I` at the start. -/
def FitsInv (I : INPUTS_SPECTRO_DEF K) (k : Nat) (s : K × INPUTS_SPECTRO_DEF K) : Prop :=
  s.2.LAMMIN_LIST = I.LAMMIN_LIST ∧ s.2.LAMMAX_LIST = I.LAMMAX_LIST ∧
  (1 ≤ k → s.1 = binWidth I (k - 1)) ∧
  (s.2.FORMAT_MASK = 1 ∨ s.2.FORMAT_MASK = 2) ∧
  (s.2.FORMAT_MASK = 2 ↔
    ∃ l, 0 < l ∧ l < k ∧ |binWidth I (l - 1) - binWidth I l| > 0.001) ∧
  ∀ l, l < k → s.2.LAMAVG_LIST l = (I.LAMMIN_LIST l + I.LAMMAX_LIST l) / 2 ∧
    s.2.LAMBIN_LIST l = I.LAMMAX_LIST l - I.LAMMIN_LIST l

/-- The invariant of the rebinning for the resolution column: rebinning is on, column 2 of
the accumulator `VALUES_SPECBIN` is 0, and every stored bin has `LAMSIGMA = 0`. -/
def SigmaInv (G : SPECTRO_GLOBALS K) : Prop :=
  2 ≤ G.INPUTS_SPECTRO.NREBIN_LAM ∧ G.VALUES_SPECBIN 2 = 0 ∧
  ∀ l, l < G.INPUTS_SPECTRO.NBIN_LAM → G.INPUTS_SPECTRO.LAMSIGMA_LIST l = 0

/-- The invariant of the rebinning for the bin count, with the rebin factor `N`: the number
of stored bins is the number of rows read so far divided by `N`, rounded down. -/
def CountInv (N : Nat) (G : SPECTRO_GLOBALS K) : Prop :=
  G.INPUTS_SPECTRO.NREBIN_LAM = (N : Int) ∧
  G.INPUTS_SPECTRO.NBIN_LAM = G.INPUTS_SPECTRO.NBIN_LAM_noREBIN / N

/-- The scaled sky variance `SQ_T` of the template in `getSNR_spectrograph`, for the zero
point `ZP_S` of the search exposure: 0 unless `TEXPOSE_T > 0.01`, else the variance
interpolated at `TEXPOSE_T` times `pow(TEN, 0.8*(ZP_S - ZP_T))`. -/
def templateVar (M : Libm K) (interp_1DFUN : Interp K) (st : INPUTS_SPECTRO_DEF K)
    (ILAM : Nat) (TEXPOSE_T ZP_S : K) : Except Abort K :=
  if TEXPOSE_T > 0.01 then do
    let ZP_T ← interp_1DFUN 1 TEXPOSE_T st.NBIN_TEXPOSE st.TEXPOSE_LIST (st.ZP ILAM)
      "getSNR_spectrograph(ZP_T)"
    let SQ_T ← interp_1DFUN 1 TEXPOSE_T st.NBIN_TEXPOSE st.TEXPOSE_LIST (st.SQSIGSKY ILAM)
      "getSNR_spectrograph(SQ_T)"
    pure (SQ_T * M.pow TEN (0.8 * (ZP_S - ZP_T)))
  else pure 0

/-- The scaled template variance of `getSNR_spectrograph_ieee`: the value of `SQ_T` when
`FluxErr` is computed. -/
def templateVar_ieee (M : Libm K) (interp_1DFUN : Interp (Dbl K))
    (st : INPUTS_SPECTRO_DEF (Dbl K)) (ILAM : Nat) (TEXPOSE_T ZP_S : Dbl K) :
    Except Abort (Dbl K) :=
  if Dbl.lt (.fin 0.01) TEXPOSE_T then do
    let ZP_T ← interp_1DFUN 1 TEXPOSE_T st.NBIN_TEXPOSE st.TEXPOSE_LIST (st.ZP ILAM)
      "getSNR_spectrograph(ZP_T)"
    let SQ_T ← interp_1DFUN 1 TEXPOSE_T st.NBIN_TEXPOSE st.TEXPOSE_LIST (st.SQSIGSKY ILAM)
      "getSNR_spectrograph(SQ_T)"
    pure (SQ_T * Dbl.pow10 M (Dbl.fin 0.8 * (ZP_S - ZP_T)))
  else pure (Dbl.fin 0.0)

/-- The state of doubles after the two stores of `solve_spectrograph` for the pair
`(l, t)`. -/
def storeZP_ieee (st : INPUTS_SPECTRO_DEF (Dbl K)) (l t : Nat) (zp sq : Dbl K) :
    INPUTS_SPECTRO_DEF (Dbl K) :=
  { st with
    ZP := fun i j => if i = l ∧ j = t then zp else st.ZP i j
    SQSIGSKY := fun i j => if i = l ∧ j = t then sq else st.SQSIGSKY i j }

/-- The recomputed value `SNR_check = F / sqrt(SQSIGSKY + F)` with
`F = pow(TEN, -0.4*(MAGREF - ZP))`, from stored doubles. -/
def SNR_check_ieee (M : Libm K) (MAGREF ZP SQSIGSKY : Dbl K) : Dbl K :=
  Dbl.pow10 M (Dbl.fin (-0.4) * (MAGREF - ZP))
    / Dbl.sqrt M (SQSIGSKY + Dbl.pow10 M (Dbl.fin (-0.4) * (MAGREF - ZP)))

end Statements

/-! ## The exact functions on the real numbers, and the table of the spec scenario -/

/-- The exact meaning of `pow`, `log10` and `sqrt` on the real numbers. -/
noncomputable def realLibm : Libm ℝ where
  pow := fun x y => x ^ y
  log10 := fun x => Real.logb 10 x
  sqrt := fun x => Real.sqrt x

/-- A table with every entry zero and an empty instrument name. -/
def emptyTable (K : Type) [LinearOrderedField K] : INPUTS_SPECTRO_DEF K where
  INSTRUMENT_NAME := ""
  NREBIN_LAM := 1
  MAGREF_LIST := fun _ => 0
  NBIN_TEXPOSE := 0
  TEXPOSE_LIST := fun _ => 0
  TEXPOSE_MIN := 0
  TEXPOSE_MAX := 0
  NBIN_LAM := 0
  NBIN_LAM_noREBIN := 0
  LAM_MIN := 0
  LAM_MAX := 0
  LAMMIN_LIST := fun _ => 0
  LAMMAX_LIST := fun _ => 0
  LAMAVG_LIST := fun _ => 0
  LAMSIGMA_LIST := fun _ => 0
  LAMBIN_LIST := fun _ => 0
  SNR0 := fun _ _ => 0
  SNR1 := fun _ _ => 0
  ZP := fun _ _ => 0
  SQSIGSKY := fun _ _ => 0
  FORMAT_MASK := 0

/-- The table of the scenario of the spec, as `read_spectrograph_text` leaves it:
`MAGREF_LIST: 20 22`, `TEXPOSE_LIST: 100 1000`, `SPECBIN: 4000 4010 2.0 10 8 30 25`. -/
def scenarioTable (K : Type) [LinearOrderedField K] : INPUTS_SPECTRO_DEF K :=
  { emptyTable K with
    MAGREF_LIST := fun i => if i = 0 then 20 else 22
    NBIN_TEXPOSE := 2
    TEXPOSE_LIST := fun t => if t = 0 then 100 else 1000
    TEXPOSE_MIN := 100
    TEXPOSE_MAX := 1000
    NBIN_LAM := 1
    LAM_MIN := 4000
    LAM_MAX := 4010
    LAMMIN_LIST := fun _ => 4000
    LAMMAX_LIST := fun _ => 4010
    LAMAVG_LIST := fun _ => 4005
    LAMSIGMA_LIST := fun _ => 2
    LAMBIN_LIST := fun _ => 10
    SNR0 := fun _ t => if t = 0 then 10 else 30
    SNR1 := fun _ t => if t = 0 then 8 else 25 }

/-- The scenario table with every zero point and every sky variance equal to zero. -/
def flatTable (K : Type) [LinearOrderedField K] : INPUTS_SPECTRO_DEF K :=
  { scenarioTable K with ZP := fun _ _ => 0, SQSIGSKY := fun _ _ => 0 }

/-- The scenario table after `solve_spectrograph`. -/
noncomputable def scenarioSolved : INPUTS_SPECTRO_DEF ℝ :=
  solvedTable realLibm (scenarioTable ℝ).MAGREF_LIST (powmagOf realLibm (scenarioTable ℝ))
    (scenarioTable ℝ) (fun i j => decide (i < 1) && decide (j < 2))

/-- A restriction of the C conversion `%le` to unsigned decimal integers: the value of the
leading digits and their number; no conversion when the text does not start with a digit. -/
def strtod_digits (K : Type) [LinearOrderedField K] (s : List Char) : Option (K × Nat) :=
  if (s.takeWhile Char.isDigit) = [] then none
  else some ((((s.takeWhile Char.isDigit).foldl (fun a c => 10 * a + (c.toNat - 48)) 0 : Nat) : K),
    (s.takeWhile Char.isDigit).length)

/-- An environment of the reader for the examples: three columns before the SNR values. -/
def demoEnv (K : Type) [LinearOrderedField K] : READ_ENV K where
  MXTEXPOSE_SPECTROGRAPH := 50
  MXLAM_SPECTROGRAPH := 10000
  NCOL_noSNR := 3
  MXVALUES_SPECBIN := 103
  strtod := strtod_digits K
  NROW_FILE := 4
  XTMP_INIT := fun _ => 0

/-- The globals before the load: no rebinning (`NREBIN_LAM = 1`), empty arrays. -/
def demoGlobals (K : Type) [LinearOrderedField K] : SPECTRO_GLOBALS K where
  INPUTS_SPECTRO := { emptyTable K with NREBIN_LAM := 1 }
  VALUES_SPECBIN := fun _ => 0
  NERR_SNR_SPECTROGRAPH := 0
  fp := []

/-- A spectrograph table file: the three header keys, then one `SPECBIN:` row with the
SNR pairs `(10, 8)` and `(30, 25)`. -/
def demoFile : List Char :=
  "INSTRUMENT: DEMO\nMAGREF_LIST: 20 22\nTEXPOSE_LIST: 100 1000\nSPECBIN: 4000 4010 2 10 8 30 25\n".toList

/-- The least natural number whose square is at least `n`: the square root of a perfect
square. -/
def isqrt (n : Nat) : Nat := ((List.range (n + 1)).find? (fun k => decide (n ≤ k * k))).getD 0

/-- Functions on the rational numbers for the examples of the reader, which calls `sqrt`
only: `sqrt` is exact on the squares of the natural numbers; `pow` and `log10` are not
used. -/
def demoLibm : Libm ℚ where
  pow := fun x _ => x
  log10 := fun x => x
  sqrt := fun x => ((isqrt (x.num.toNat / x.den) : Nat) : ℚ)

/-- A spectrograph table file with two equal exposure times. -/
def equalTimesFile : List Char :=
  "INSTRUMENT: DEMO\nMAGREF_LIST: 20 22\nTEXPOSE_LIST: 100 100\nSPECBIN: 4000 4010 2 10 8 10 8\n".toList

/-- A file in which the key `INSTRUMENT:` comes three times and the keys `MAGREF_LIST:` and
`TEXPOSE_LIST:` are missing. -/
def repeatedKeyFile : List Char :=
  "INSTRUMENT: A\nINSTRUMENT: B\nINSTRUMENT: C\nSPECBIN: 4000 4010 2\n".toList

/-- The table file of the rebinning scenario: one exposure time and the two rows of
`rebinRows`. -/
def rebinFile : List Char :=
  "INSTRUMENT: DEMO\nMAGREF_LIST: 20 22\nTEXPOSE_LIST: 100\nSPECBIN: 4000 4010 2 3 4\nSPECBIN: 4010 4020 2 4 3\n".toList

/-- The globals when the first data row of `demoFile` is read: two exposure times, no
rebinning, the stream at the values of the row. -/
def rowGlobals (K : Type) [LinearOrderedField K] : SPECTRO_GLOBALS K :=
  { demoGlobals K with
    fp := " 4000 4010 2 10 8 30 25\n".toList
    INPUTS_SPECTRO := { emptyTable K with NBIN_TEXPOSE := 2 } }

/-- A table file whose second bin lies below the first. -/
def unorderedFile : List Char :=
  "INSTRUMENT: DEMO\nMAGREF_LIST: 20 22\nTEXPOSE_LIST: 100\nSPECBIN: 4010 4020 2 10 8\nSPECBIN: 4000 4010 2 10 8\n".toList

/-- The value of a run of decimal digits. -/
def digitsValue (ds : List Char) : Nat := ds.foldl (fun a c => 10 * a + (c.toNat - 48)) 0

/-- A restriction of the C conversion `%d`: an optional minus sign and decimal digits. -/
def sscanf_digits (s : List Char) : Option Int :=
  match s with
  | '-' :: r =>
    if r.takeWhile Char.isDigit = [] then none
    else some (-(digitsValue (r.takeWhile Char.isDigit) : Int))
  | r =>
    if r.takeWhile Char.isDigit = [] then none
    else some (digitsValue (r.takeWhile Char.isDigit) : Int)

/-- An environment of the options parser for the examples: the empty string and `NULL`
are ignored. -/
def demoOpt : OPT_ENV where
  IGNOREFILE := fun s => decide (s = [] ∨ s = "NULL".toList)
  sscanf_d := sscanf_digits
  s2_INIT := fun _ => []

/-- A solved table for the examples of the filter transmission: two bins with the centres
4005 and 4015 and the zero point 25 at the first exposure time. -/
def filterTable (K : Type) [LinearOrderedField K] : INPUTS_SPECTRO_DEF K :=
  { emptyTable K with
    NBIN_LAM := 2
    NBIN_TEXPOSE := 1
    MAGREF_LIST := fun i => if i = 0 then 20 else 22
    LAMAVG_LIST := fun l => if l = 0 then 4005 else 4015
    ZP := fun _ _ => 25 }

/-- A solved table with two bins whose centres are 4009 and 4011: the zero point at the
first exposure time is 25 in the first bin and -1 in the second. -/
def lowZPTable (K : Type) [LinearOrderedField K] : INPUTS_SPECTRO_DEF K :=
  { emptyTable K with
    NBIN_LAM := 2
    NBIN_TEXPOSE := 1
    MAGREF_LIST := fun i => if i = 0 then 20 else 22
    LAMAVG_LIST := fun l => if l = 0 then 4009 else 4011
    ZP := fun l _ => if l = 0 then 25 else -1 }

/-- A table of three bins whose widths grow by 0.0008 from one bin to the next: 10,
10.0008 and 10.0016. -/
def driftTable (K : Type) [LinearOrderedField K] : INPUTS_SPECTRO_DEF K :=
  { emptyTable K with
    NBIN_LAM := 3
    LAMMIN_LIST := fun l => 100 * (l : K)
    LAMMAX_LIST := fun l => 100 * (l : K) + 10 + 0.0008 * (l : K) }

/-- A table file with three rows for the rebin factor 2: the third row starts a group that
is never completed. -/
def oddRowsFile : List Char :=
  "INSTRUMENT: DEMO\nMAGREF_LIST: 20 22\nTEXPOSE_LIST: 100\nSPECBIN: 4000 4010 2 3 4\nSPECBIN: 4010 4020 2 4 3\nSPECBIN: 4020 4030 2 3 4\n".toList

/-- A file whose key `TEXPOSE_LIST:` comes a second time, after the first data row, with
one more exposure time than the row holds. -/
def lateTimesFile : List Char :=
  "INSTRUMENT: DEMO\nMAGREF_LIST: 20 22\nTEXPOSE_LIST: 100\nSPECBIN: 4000 4010 2 10 8\nTEXPOSE_LIST: 100 1000\n".toList

/-- A table with one bin and one exposure time whose first SNR value is zero: the table
of the row `SPECBIN: 4000 4010 2 0 8`. -/
def zeroSNRTable (K : Type) [LinearOrderedField K] : INPUTS_SPECTRO_DEF K :=
  { emptyTable K with
    MAGREF_LIST := fun i => if i = 0 then 20 else 22
    NBIN_TEXPOSE := 1
    TEXPOSE_LIST := fun _ => 100
    TEXPOSE_MIN := 100
    TEXPOSE_MAX := 100
    NBIN_LAM := 1
    LAM_MIN := 4000
    LAM_MAX := 4010
    LAMMIN_LIST := fun _ => 4000
    LAMMAX_LIST := fun _ => 4010
    LAMAVG_LIST := fun _ => 4005
    LAMSIGMA_LIST := fun _ => 2
    LAMBIN_LIST := fun _ => 10
    SNR0 := fun _ _ => 0
    SNR1 := fun _ _ => 8 }

/-- The table of the row `SPECBIN: 4000 4010 2 10 0`: the second SNR value is zero. -/
def zeroSNR1Table (K : Type) [LinearOrderedField K] : INPUTS_SPECTRO_DEF K :=
  { zeroSNRTable K with SNR0 := fun _ _ => 10, SNR1 := fun _ _ => 0 }

/-- A file whose one data row has the SNR value zero for the first reference
magnitude. -/
def zeroSNRFile : List Char :=
  "INSTRUMENT: DEMO\nMAGREF_LIST: 20 22\nTEXPOSE_LIST: 100\nSPECBIN: 4000 4010 2 0 8\n".toList

/-- The table `zeroSNRTable` after the solver: `ZP[0][0] = -inf` and
`SQSIGSKY[0][0] = NaN`. -/
def zeroSNRSolved (K : Type) [LinearOrderedField K] : INPUTS_SPECTRO_DEF (Dbl K) :=
  storeZP_ieee (toDbl (zeroSNRTable K)) 0 0 .ninf .nan

/-- A solved table with two exposure times whose sky variance is 5 at the first and -1 at
the second, with zero points 0. -/
def negTemplateTable (K : Type) [LinearOrderedField K] : INPUTS_SPECTRO_DEF K :=
  { scenarioTable K with
    ZP := fun _ _ => 0
    SQSIGSKY := fun _ t => if t = 0 then 5 else -1 }

/-! # Lemmas -/

section Lemmas

variable {K : Type} [LinearOrderedField K]

theorem bind_ok_iff {ε α β : Type} (x : Except ε α) (f : α → Except ε β) (b : β) :
    (x >>= f) = .ok b ↔ ∃ a, x = .ok a ∧ f a = .ok b := by
  cases x with
  | error e => simp [bind, Except.bind]
  | ok a => simp [bind, Except.bind]

theorem bind_error_iff {ε α β : Type} (x : Except ε α) (f : α → Except ε β) (e : ε) :
    (x >>= f) = .error e ↔ x = .error e ∨ ∃ a, x = .ok a ∧ f a = .error e := by
  cases x with
  | error e => simp [bind, Except.bind]
  | ok a => simp [bind, Except.bind]

theorem solve_ZP_eq (M : Libm K) (MAGREF POWMAG : Nat → K) (s0 s1 : K) :
    solve_ZP M MAGREF POWMAG s0 s1 =
      if s0 = 0 ∨ s1 = 0 then .error .nonfinite
      else if POWMAG 0 - POWMAG 1 ≤ 0 ∨ botOf (POWMAG 0) (POWMAG 1) s0 s1 ≤ 0 then
        .error (.fatal "solve_spectrograph" "Cannot solve ZP")
      else .ok (zpOf M (POWMAG 0) (POWMAG 1) s0 s1,
           fluxOf M (MAGREF 0) (zpOf M (POWMAG 0) (POWMAG 1) s0 s1),
           fluxOf M (MAGREF 1) (zpOf M (POWMAG 0) (POWMAG 1) s0 s1),
           sqOf M (MAGREF 0) (zpOf M (POWMAG 0) (POWMAG 1) s0 s1) s0) := by
  unfold solve_ZP
  by_cases h0 : s0 = 0
  · simp [h0, fdiv, bind, Except.bind]
  by_cases h1 : s1 = 0
  · simp [h0, h1, fdiv, bind, Except.bind]
  have h01 : ¬ (s0 = 0 ∨ s1 = 0) := by tauto
  rw [if_neg h01]
  by_cases h2 : POWMAG 0 - POWMAG 1 ≤ 0 ∨ botOf (POWMAG 0) (POWMAG 1) s0 s1 ≤ 0
  · rw [if_pos h2]
    unfold botOf at h2
    simp only [fdiv, if_neg h0, if_neg h1, bind, Except.bind, if_pos h2, throw, throwThe,
      MonadExceptOf.throw]
  · rw [if_neg h2]
    have hT : 0 < POWMAG 0 - POWMAG 1 := not_le.mp (fun h => h2 (Or.inl h))
    have hB : 0 < botOf (POWMAG 0) (POWMAG 1) s0 s1 := not_le.mp (fun h => h2 (Or.inr h))
    have hR : 0 < (POWMAG 0 - POWMAG 1) / botOf (POWMAG 0) (POWMAG 1) s0 s1 := div_pos hT hB
    have hB0 : ¬ (POWMAG 0 / s0 * (POWMAG 0 / s0) - POWMAG 1 / s1 * (POWMAG 1 / s1) = 0) := ne_of_gt hB
    have hR0 : ¬ ((POWMAG 0 - POWMAG 1) /
        (POWMAG 0 / s0 * (POWMAG 0 / s0) - POWMAG 1 / s1 * (POWMAG 1 / s1)) ≤ 0) := not_le.mpr hR
    unfold botOf at h2
    simp only [fdiv, flog10, if_neg h0, if_neg h1, bind, Except.bind, if_neg h2, hB0, hR0,
      if_false, pure, Except.pure]
    rfl

theorem solve_check_eq (M : Libm K) (s f sq : K) :
    solve_check M s f sq =
      if sq + f < 0 ∨ M.sqrt (sq + f) = 0 ∨ snrOf M f sq = 0 then .error .nonfinite
      else .ok |s / snrOf M f sq - 1| := by
  unfold solve_check snrOf
  by_cases h0 : sq + f < 0
  · simp [h0, fsqrt, bind, Except.bind]
  by_cases h1 : M.sqrt (sq + f) = 0
  · simp [h0, h1, fsqrt, fdiv, bind, Except.bind]
  by_cases h2 : f / M.sqrt (sq + f) = 0
  · simp only [h0, h1, h2, fsqrt, fdiv, bind, Except.bind, if_false, if_true, or_true]
  · simp only [h0, h1, h2, fsqrt, fdiv, bind, Except.bind, if_false, or_self, pure, Except.pure]

theorem solve_bin_eq (M : Libm K) (MAGREF POWMAG : Nat → K) (l t : Nat)
    (st : INPUTS_SPECTRO_DEF K) :
    solve_bin M MAGREF POWMAG l t st =
      match solve_ZP M MAGREF POWMAG (st.SNR0 l t) (st.SNR1 l t) with
      | .error e => .error (e, st)
      | .ok (zp, f0, f1, sq) =>
        match solve_check M (st.SNR0 l t) f0 sq, solve_check M (st.SNR1 l t) f1 sq with
        | .error e, _ => .error (e, storeZP st l t zp sq)
        | .ok _, .error e => .error (e, storeZP st l t zp sq)
        | .ok c0, .ok c1 =>
          if c0 > 0.001 ∨ c1 > 0.001 then
            .error (.fatal "solve_spectrograph" "Problem computing ZP and SQSIGSKY",
              storeZP st l t zp sq)
          else .ok (storeZP st l t zp sq) := by
  unfold solve_bin
  cases h : solve_ZP M MAGREF POWMAG (st.SNR0 l t) (st.SNR1 l t) with
  | error e => simp only [inState, bind, Except.bind, h]
  | ok r =>
    obtain ⟨zp, f0, f1, sq⟩ := r
    cases h0 : solve_check M (st.SNR0 l t) f0 sq with
    | error e => simp only [inState, bind, Except.bind, h, h0, storeZP]
    | ok c0 =>
      cases h1 : solve_check M (st.SNR1 l t) f1 sq with
      | error e => simp only [inState, bind, Except.bind, h, h0, h1, storeZP]
      | ok c1 =>
        simp only [inState, bind, Except.bind, h, h0, h1, storeZP]
        split_ifs <;> rfl

theorem solve_check_ok_iff (M : Libm K) (s f sq c : K) :
    solve_check M s f sq = .ok c ↔
      (0 ≤ sq + f ∧ M.sqrt (sq + f) ≠ 0 ∧ snrOf M f sq ≠ 0) ∧ c = |s / snrOf M f sq - 1| := by
  rw [solve_check_eq]
  split_ifs with h
  · constructor
    · intro h1; cases h1
    · rintro ⟨⟨a, b, c⟩, -⟩
      rcases h with h | h | h
      · exact absurd a (not_le.mpr h)
      · exact absurd h b
      · exact absurd h c
  · simp only [not_or, not_lt] at h
    simp only [Except.ok.injEq, ne_eq, h, not_false_eq_true, and_self, true_and]
    exact eq_comm

theorem solve_bin_ok_iff (M : Libm K) (MAGREF POWMAG : Nat → K) (l t : Nat)
    (st st2 : INPUTS_SPECTRO_DEF K) :
    solve_bin M MAGREF POWMAG l t st = .ok st2 ↔
      SolvedOK M MAGREF POWMAG (st.SNR0 l t) (st.SNR1 l t) ∧
      st2 = storeZP st l t (zpOf M (POWMAG 0) (POWMAG 1) (st.SNR0 l t) (st.SNR1 l t))
        (sqOf M (MAGREF 0) (zpOf M (POWMAG 0) (POWMAG 1) (st.SNR0 l t) (st.SNR1 l t))
          (st.SNR0 l t)) := by
  rw [solve_bin_eq, solve_ZP_eq]
  unfold SolvedOK
  by_cases h0 : st.SNR0 l t = 0 ∨ st.SNR1 l t = 0
  · rw [if_pos h0]
    constructor
    · intro h; cases h
    · rintro ⟨⟨a, b, -⟩, -⟩
      rcases h0 with h | h
      · exact absurd h a
      · exact absurd h b
  rw [if_neg h0]
  by_cases h1 : POWMAG 0 - POWMAG 1 ≤ 0 ∨
      botOf (POWMAG 0) (POWMAG 1) (st.SNR0 l t) (st.SNR1 l t) ≤ 0
  · rw [if_pos h1]
    constructor
    · intro h; cases h
    · rintro ⟨⟨-, -, a, b, -⟩, -⟩
      rcases h1 with h | h
      · exact absurd a (not_lt.mpr h)
      · exact absurd b (not_lt.mpr h)
  rw [if_neg h1]
  simp only [not_or, not_le] at h0 h1
  dsimp only
  rw [solve_check_eq, solve_check_eq]
  unfold CheckOK
  split_ifs with h2 h3
  · constructor
    · intro h; cases h
    · rintro ⟨⟨-, -, -, -, ⟨a, b, c, -⟩, -⟩, -⟩
      rcases h2 with h | h | h
      · exact absurd a (not_le.mpr h)
      · exact absurd h b
      · exact absurd h c
  · constructor
    · intro h; cases h
    · rintro ⟨⟨-, -, -, -, -, ⟨a, b, c, -⟩⟩, -⟩
      rcases h3 with h | h | h
      · exact absurd a (not_le.mpr h)
      · exact absurd h b
      · exact absurd h c
  · dsimp only
    simp only [not_or, not_lt] at h2 h3
    split_ifs with h4
    · constructor
      · intro h; cases h
      · rintro ⟨⟨-, -, -, -, ⟨-, -, -, a⟩, ⟨-, -, -, b⟩⟩, -⟩
        rcases h4 with h | h
        · exact absurd a (not_le.mpr h)
        · exact absurd b (not_le.mpr h)
    · simp only [not_or, not_lt, gt_iff_lt] at h4
      constructor
      · intro h
        injection h with h
        exact ⟨⟨h0.1, h0.2, h1.1, h1.2, ⟨h2.1, h2.2.1, h2.2.2, h4.1⟩,
          ⟨h3.1, h3.2.1, h3.2.2, h4.2⟩⟩, h.symm⟩
      · rintro ⟨-, h⟩
        rw [h]

theorem solvedTable_none (M : Libm K) (MAGREF POWMAG : Nat → K) (st : INPUTS_SPECTRO_DEF K) :
    solvedTable M MAGREF POWMAG st (fun _ _ => false) = st := by
  unfold solvedTable
  simp

theorem storeZP_solvedTable (M : Libm K) (MAGREF POWMAG : Nat → K) (st : INPUTS_SPECTRO_DEF K)
    (done : Nat → Nat → Bool) (l t : Nat) :
    storeZP (solvedTable M MAGREF POWMAG st done) l t
      (zpOf M (POWMAG 0) (POWMAG 1) (st.SNR0 l t) (st.SNR1 l t))
      (sqOf M (MAGREF 0) (zpOf M (POWMAG 0) (POWMAG 1) (st.SNR0 l t) (st.SNR1 l t)) (st.SNR0 l t))
    = solvedTable M MAGREF POWMAG st (fun i j => done i j || (decide (i = l) && decide (j = t))) := by
  unfold storeZP solvedTable set2
  simp only [INPUTS_SPECTRO_DEF.mk.injEq, true_and, and_true]
  constructor
  · funext i j
    by_cases h : i = l ∧ j = t
    · obtain ⟨rfl, rfl⟩ := h
      simp
    · rw [if_neg h]
      have : (decide (i = l) && decide (j = t)) = false := by
        simp only [Bool.and_eq_false_imp, decide_eq_true_eq, decide_eq_false_iff_not]
        intro a b; exact h ⟨a, b⟩
      simp [this]
  · funext i j
    by_cases h : i = l ∧ j = t
    · obtain ⟨rfl, rfl⟩ := h
      simp
    · rw [if_neg h]
      have : (decide (i = l) && decide (j = t)) = false := by
        simp only [Bool.and_eq_false_imp, decide_eq_true_eq, decide_eq_false_iff_not]
        intro a b; exact h ⟨a, b⟩
      simp [this]

theorem solvedTable_congr (M : Libm K) (MAGREF POWMAG : Nat → K) (st : INPUTS_SPECTRO_DEF K)
    (d1 d2 : Nat → Nat → Bool) (h : ∀ i j, d1 i j = d2 i j) :
    solvedTable M MAGREF POWMAG st d1 = solvedTable M MAGREF POWMAG st d2 := by
  have : d1 = d2 := by funext i j; exact h i j
  rw [this]

theorem solve_row_ok_iff (M : Libm K) (MAGREF POWMAG : Nat → K) (st : INPUTS_SPECTRO_DEF K)
    (done : Nat → Nat → Bool) (l k : Nat) (s2 : INPUTS_SPECTRO_DEF K) :
    forLoop k (fun t => solve_bin M MAGREF POWMAG l t) (solvedTable M MAGREF POWMAG st done)
        = .ok s2 ↔
      (∀ t, t < k → SolvedOK M MAGREF POWMAG (st.SNR0 l t) (st.SNR1 l t)) ∧
      s2 = solvedTable M MAGREF POWMAG st
        (fun i j => done i j || (decide (i = l) && decide (j < k))) := by
  induction k generalizing s2 with
  | zero =>
    simp only [forLoop, Except.ok.injEq, Nat.not_lt_zero, false_imp_iff, implies_true, true_and,
      decide_False, Bool.and_false, Bool.or_false]
    exact eq_comm
  | succ k ih =>
    rw [forLoop, bind_ok_iff]
    constructor
    · rintro ⟨a, ha, hb⟩
      obtain ⟨h1, rfl⟩ := (ih a).mp ha
      rw [solve_bin_ok_iff] at hb
      obtain ⟨h2, h3⟩ := hb
      have e0 : (solvedTable M MAGREF POWMAG st
          (fun i j => done i j || (decide (i = l) && decide (j < k)))).SNR0 = st.SNR0 := rfl
      have e1 : (solvedTable M MAGREF POWMAG st
          (fun i j => done i j || (decide (i = l) && decide (j < k)))).SNR1 = st.SNR1 := rfl
      rw [e0, e1] at h2 h3
      refine ⟨?_, ?_⟩
      · intro t ht
        rcases Nat.lt_succ_iff_lt_or_eq.mp ht with h | h
        · exact h1 t h
        · rw [h]; exact h2
      · rw [h3, storeZP_solvedTable]
        apply solvedTable_congr
        intro i j
        by_cases hi : i = l <;> by_cases hj : j < k <;> by_cases hj2 : j = k <;>
          simp [hi, hj, hj2, Nat.lt_succ_iff_lt_or_eq]
    · rintro ⟨h1, rfl⟩
      refine ⟨_, (ih _).mpr ⟨fun t ht => h1 t (Nat.lt_succ_of_lt ht), rfl⟩, ?_⟩
      rw [solve_bin_ok_iff]
      have e0 : (solvedTable M MAGREF POWMAG st
          (fun i j => done i j || (decide (i = l) && decide (j < k)))).SNR0 = st.SNR0 := rfl
      have e1 : (solvedTable M MAGREF POWMAG st
          (fun i j => done i j || (decide (i = l) && decide (j < k)))).SNR1 = st.SNR1 := rfl
      rw [e0, e1]
      refine ⟨h1 k (Nat.lt_succ_self k), ?_⟩
      rw [storeZP_solvedTable]
      apply solvedTable_congr
      intro i j
      by_cases hi : i = l <;> by_cases hj : j < k <;> by_cases hj2 : j = k <;>
        simp [hi, hj, hj2, Nat.lt_succ_iff_lt_or_eq]

theorem solve_loops_ok_iff (M : Libm K) (MAGREF POWMAG : Nat → K) (st : INPUTS_SPECTRO_DEF K)
    (n NBT : Nat) (s2 : INPUTS_SPECTRO_DEF K) :
    forLoop n (fun l => forLoop NBT (fun t => solve_bin M MAGREF POWMAG l t)) st = .ok s2 ↔
      (∀ l t, l < n → t < NBT → SolvedOK M MAGREF POWMAG (st.SNR0 l t) (st.SNR1 l t)) ∧
      s2 = solvedTable M MAGREF POWMAG st (fun i j => decide (i < n) && decide (j < NBT)) := by
  induction n generalizing s2 with
  | zero =>
    simp only [forLoop, Except.ok.injEq, Nat.not_lt_zero, false_imp_iff, implies_true, true_and,
      decide_False, Bool.false_and]
    rw [solvedTable_none]
    exact eq_comm
  | succ n ih =>
    have hd : ∀ i j : Nat, ((decide (i < n) && decide (j < NBT)) ||
        (decide (i = n) && decide (j < NBT))) = (decide (i < n + 1) && decide (j < NBT)) := by
      intro i j
      by_cases hi : i < n <;> by_cases hi2 : i = n <;> by_cases hj : j < NBT <;>
        simp [hi, hi2, hj, Nat.lt_succ_iff_lt_or_eq]
    rw [forLoop, bind_ok_iff]
    constructor
    · rintro ⟨a, ha, hb⟩
      obtain ⟨h1, rfl⟩ := (ih a).mp ha
      rw [solve_row_ok_iff] at hb
      obtain ⟨h2, h3⟩ := hb
      refine ⟨?_, ?_⟩
      · intro l t hl ht
        rcases Nat.lt_succ_iff_lt_or_eq.mp hl with h | h
        · exact h1 l t h ht
        · rw [h]; exact h2 t ht
      · rw [h3]
        exact solvedTable_congr M MAGREF POWMAG st _ _ hd
    · rintro ⟨h1, rfl⟩
      refine ⟨_, (ih _).mpr ⟨fun l t hl ht => h1 l t (Nat.lt_succ_of_lt hl) ht, rfl⟩, ?_⟩
      rw [solve_row_ok_iff]
      refine ⟨fun t ht => h1 n t (Nat.lt_succ_self n) ht, ?_⟩
      exact (solvedTable_congr M MAGREF POWMAG st _ _ hd).symm

theorem solve_spectrograph_ok_iff (M : Libm K) (st s2 : INPUTS_SPECTRO_DEF K) :
    solve_spectrograph M st = .ok s2 ↔
      (∀ l t, l < st.NBIN_LAM → t < st.NBIN_TEXPOSE →
        SolvedOK M st.MAGREF_LIST (powmagOf M st) (st.SNR0 l t) (st.SNR1 l t)) ∧
      s2 = solvedTable M st.MAGREF_LIST (powmagOf M st) st
        (fun i j => decide (i < st.NBIN_LAM) && decide (j < st.NBIN_TEXPOSE)) := by
  unfold solve_spectrograph
  exact solve_loops_ok_iff M st.MAGREF_LIST (powmagOf M st) st st.NBIN_LAM st.NBIN_TEXPOSE s2

theorem forLoop_error {σ ε : Type} (n : Nat) (body : Nat → σ → Except ε σ) (s : σ) (e : ε)
    (h : forLoop n body s = .error e) :
    ∃ k a, k < n ∧ forLoop k body s = .ok a ∧ body k a = .error e := by
  induction n with
  | zero => simp [forLoop] at h
  | succ n ih =>
    rw [forLoop, bind_error_iff] at h
    rcases h with h | ⟨a, ha, hb⟩
    · obtain ⟨k, a, hk, h1, h2⟩ := ih h
      exact ⟨k, a, Nat.lt_succ_of_lt hk, h1, h2⟩
    · exact ⟨n, a, Nat.lt_succ_self n, ha, hb⟩

theorem solve_bin_cannot_iff (M : Libm K) (MAGREF POWMAG : Nat → K) (l t : Nat)
    (st st2 : INPUTS_SPECTRO_DEF K) :
    solve_bin M MAGREF POWMAG l t st
        = .error (.fatal "solve_spectrograph" "Cannot solve ZP", st2) ↔
      st.SNR0 l t ≠ 0 ∧ st.SNR1 l t ≠ 0 ∧
      (POWMAG 0 - POWMAG 1 ≤ 0 ∨ botOf (POWMAG 0) (POWMAG 1) (st.SNR0 l t) (st.SNR1 l t) ≤ 0) ∧
      st2 = st := by
  rw [solve_bin_eq, solve_ZP_eq]
  by_cases h0 : st.SNR0 l t = 0 ∨ st.SNR1 l t = 0
  · rw [if_pos h0]
    constructor
    · intro h; simp at h
    · rintro ⟨a, b, -⟩
      rcases h0 with h | h
      · exact absurd h a
      · exact absurd h b
  rw [if_neg h0]
  simp only [not_or] at h0
  by_cases h1 : POWMAG 0 - POWMAG 1 ≤ 0 ∨
      botOf (POWMAG 0) (POWMAG 1) (st.SNR0 l t) (st.SNR1 l t) ≤ 0
  · rw [if_pos h1]
    simp only [Except.error.injEq, Prod.mk.injEq, true_and, ne_eq, h0.1, h0.2,
      not_false_eq_true, h1]
    exact eq_comm
  · rw [if_neg h1]
    simp only [h1, false_and, and_false, iff_false]
    rw [solve_check_eq, solve_check_eq]
    split_ifs
    all_goals first
      | (simp; done)
      | (dsimp only; split_ifs <;> simp)

theorem solve_spectrograph_ok_vals (M : Libm K) (st st2 : INPUTS_SPECTRO_DEF K)
    (h : solve_spectrograph M st = .ok st2) (l t : Nat) (hl : l < st.NBIN_LAM)
    (ht : t < st.NBIN_TEXPOSE) :
    SolvedOK M st.MAGREF_LIST (powmagOf M st) (st.SNR0 l t) (st.SNR1 l t) ∧
    st2.ZP l t = zpOf M (powmagOf M st 0) (powmagOf M st 1) (st.SNR0 l t) (st.SNR1 l t) ∧
    st2.SQSIGSKY l t = sqOf M (st.MAGREF_LIST 0)
      (zpOf M (powmagOf M st 0) (powmagOf M st 1) (st.SNR0 l t) (st.SNR1 l t)) (st.SNR0 l t) ∧
    st2.MAGREF_LIST = st.MAGREF_LIST ∧ st2.SNR0 = st.SNR0 ∧ st2.SNR1 = st.SNR1 := by
  obtain ⟨h1, rfl⟩ := (solve_spectrograph_ok_iff M st st2).mp h
  refine ⟨h1 l t hl ht, ?_, ?_, rfl, rfl, rfl⟩
  · simp [solvedTable, hl, ht]
  · simp [solvedTable, hl, ht]

theorem solve_spectrograph_cannot (M : Libm K) (st st2 : INPUTS_SPECTRO_DEF K)
    (h : solve_spectrograph M st
      = .error (.fatal "solve_spectrograph" "Cannot solve ZP", st2)) :
    ∃ l t, l < st.NBIN_LAM ∧ t < st.NBIN_TEXPOSE ∧ st.SNR0 l t ≠ 0 ∧ st.SNR1 l t ≠ 0 ∧
      (powmagOf M st 0 - powmagOf M st 1 ≤ 0 ∨
        botOf (powmagOf M st 0) (powmagOf M st 1) (st.SNR0 l t) (st.SNR1 l t) ≤ 0) ∧
      st2.ZP l t = st.ZP l t ∧ st2.SQSIGSKY l t = st.SQSIGSKY l t := by
  unfold solve_spectrograph at h
  obtain ⟨l, a, hl, ha, hb⟩ := forLoop_error _ _ _ _ h
  obtain ⟨-, rfl⟩ := (solve_loops_ok_iff M st.MAGREF_LIST (powmagOf M st) st l
    st.NBIN_TEXPOSE a).mp ha
  obtain ⟨t, b, ht, hb1, hb2⟩ := forLoop_error _ _ _ _ hb
  obtain ⟨-, rfl⟩ := (solve_row_ok_iff M st.MAGREF_LIST (powmagOf M st) st _ l t b).mp hb1
  obtain ⟨c0, c1, c2, rfl⟩ := (solve_bin_cannot_iff M st.MAGREF_LIST (powmagOf M st) l t _ st2).mp hb2
  refine ⟨l, t, hl, ht, c0, c1, c2, ?_, ?_⟩
  · simp [solvedTable]
  · simp [solvedTable]

theorem getSNR_fatal_S (M : Libm K) (interp : Interp K) (st : INPUTS_SPECTRO_DEF K) (ILAM : Nat)
    (S T GENMAG : K)
    (hS : S < st.TEXPOSE_LIST 0 ∨ S > st.TEXPOSE_LIST (st.NBIN_TEXPOSE - 1)) :
    getSNR_spectrograph M interp st ILAM S T GENMAG
      = .error (.fatal "getSNR_spectrograph" "Invalid TEXPOSE_S") := by
  unfold getSNR_spectrograph
  simp only [if_pos hS, bind, Except.bind, throw, throwThe, MonadExceptOf.throw]

theorem getSNR_notemplate (M : Libm K) (interp : Interp K) (st : INPUTS_SPECTRO_DEF K)
    (ILAM : Nat) (S T GENMAG ZP_S SQ_S : K)
    (hS : ¬ (S < st.TEXPOSE_LIST 0 ∨ S > st.TEXPOSE_LIST (st.NBIN_TEXPOSE - 1)))
    (hZ : interp 1 S st.NBIN_TEXPOSE st.TEXPOSE_LIST (st.ZP ILAM)
      "getSNR_spectrograph(ZP_S)" = .ok ZP_S)
    (hQ : interp 1 S st.NBIN_TEXPOSE st.TEXPOSE_LIST (st.SQSIGSKY ILAM)
      "getSNR_spectrograph(SQ_S)" = .ok SQ_S)
    (hT : ¬ T > 0.01)
    (hvar : 0 ≤ SQ_S + M.pow TEN (-0.4 * (GENMAG - ZP_S)))
    (hne : M.sqrt (SQ_S + M.pow TEN (-0.4 * (GENMAG - ZP_S))) ≠ 0) :
    getSNR_spectrograph M interp st ILAM S T GENMAG
      = .ok (M.pow TEN (-0.4 * (GENMAG - ZP_S)) / M.sqrt (SQ_S + M.pow TEN (-0.4 * (GENMAG - ZP_S))),
          M.sqrt 0 / M.sqrt (SQ_S + M.pow TEN (-0.4 * (GENMAG - ZP_S)))) := by
  unfold getSNR_spectrograph
  have h00 : ¬ ((0 : K) < 0) := lt_irrefl 0
  simp only [if_neg hS, hZ, hQ, if_neg hT, bind, Except.bind, pure, Except.pure, fsqrt, fdiv,
    if_neg h00, add_zero, if_neg (not_lt.mpr hvar), if_neg hne]

theorem getSNR_template (M : Libm K) (interp : Interp K) (st : INPUTS_SPECTRO_DEF K)
    (ILAM : Nat) (S T GENMAG ZP_S SQ_S ZP_T SQ_T : K)
    (hS : ¬ (S < st.TEXPOSE_LIST 0 ∨ S > st.TEXPOSE_LIST (st.NBIN_TEXPOSE - 1)))
    (hZ : interp 1 S st.NBIN_TEXPOSE st.TEXPOSE_LIST (st.ZP ILAM)
      "getSNR_spectrograph(ZP_S)" = .ok ZP_S)
    (hQ : interp 1 S st.NBIN_TEXPOSE st.TEXPOSE_LIST (st.SQSIGSKY ILAM)
      "getSNR_spectrograph(SQ_S)" = .ok SQ_S)
    (hT : T > 0.01)
    (hZT : interp 1 T st.NBIN_TEXPOSE st.TEXPOSE_LIST (st.ZP ILAM)
      "getSNR_spectrograph(ZP_T)" = .ok ZP_T)
    (hQT : interp 1 T st.NBIN_TEXPOSE st.TEXPOSE_LIST (st.SQSIGSKY ILAM)
      "getSNR_spectrograph(SQ_T)" = .ok SQ_T)
    (hvar : 0 ≤ SQ_S + SQ_T * M.pow TEN (0.8 * (ZP_S - ZP_T))
      + M.pow TEN (-0.4 * (GENMAG - ZP_S)))
    (hT2 : 0 ≤ SQ_T * M.pow TEN (0.8 * (ZP_S - ZP_T)))
    (hne : M.sqrt (SQ_S + SQ_T * M.pow TEN (0.8 * (ZP_S - ZP_T))
      + M.pow TEN (-0.4 * (GENMAG - ZP_S))) ≠ 0) :
    getSNR_spectrograph M interp st ILAM S T GENMAG
      = .ok (M.pow TEN (-0.4 * (GENMAG - ZP_S)) /
            M.sqrt (SQ_S + SQ_T * M.pow TEN (0.8 * (ZP_S - ZP_T))
              + M.pow TEN (-0.4 * (GENMAG - ZP_S))),
          M.sqrt (SQ_T * M.pow TEN (0.8 * (ZP_S - ZP_T))) /
            M.sqrt (SQ_S + SQ_T * M.pow TEN (0.8 * (ZP_S - ZP_T))
              + M.pow TEN (-0.4 * (GENMAG - ZP_S)))) := by
  unfold getSNR_spectrograph
  simp only [if_neg hS, hZ, hQ, if_pos hT, hZT, hQT, bind, Except.bind, pure, Except.pure,
    fsqrt, fdiv, if_neg (not_lt.mpr hvar), if_neg (not_lt.mpr hT2), if_neg hne]

theorem findBin_some (val : K) (X : Nat → K) (s n i : Nat) (h : findBin val X s n = some i) :
    s ≤ i ∧ i < s + n ∧ val ≤ X (i + 1) ∧ ∀ j, s ≤ j → j < i → ¬ val ≤ X (j + 1) := by
  induction n generalizing s with
  | zero => simp [findBin] at h
  | succ n ih =>
    unfold findBin at h
    split_ifs at h with hc
    · injection h with h
      subst h
      exact ⟨le_refl _, by omega, hc, fun j h1 h2 => by omega⟩
    · obtain ⟨a, b, c, d⟩ := ih (s + 1) h
      refine ⟨by omega, by omega, c, ?_⟩
      intro j h1 h2
      rcases Nat.eq_or_lt_of_le h1 with e | e
      · rw [← e]; exact hc
      · exact d j e h2

theorem findBin_none (val : K) (X : Nat → K) (s n : Nat) (h : findBin val X s n = none) :
    ∀ j, s ≤ j → j < s + n → ¬ val ≤ X (j + 1) := by
  induction n generalizing s with
  | zero => intro j h1 h2; omega
  | succ n ih =>
    unfold findBin at h
    split_ifs at h with hc
    intro j h1 h2
    rcases Nat.eq_or_lt_of_le h1 with e | e
    · rw [← e]; exact hc
    · exact ih (s + 1) h j e (by omega)

theorem interp_linear_out (opt : Nat) (val : K) (NBIN : Nat) (X F : Nat → K) (cmt : String)
    (h : val < X 0 ∨ val > X (NBIN - 1)) :
    interp_1DFUN_linear opt val NBIN X F cmt = .error (.fatal "interp_1DFUN" cmt) := by
  unfold interp_1DFUN_linear
  rw [if_pos h]

theorem interp_linear_in (opt : Nat) (val : K) (NBIN : Nat) (X F : Nat → K) (cmt : String)
    (h : ¬ (val < X 0 ∨ val > X (NBIN - 1))) (fnam msg : String) :
    interp_1DFUN_linear opt val NBIN X F cmt ≠ .error (.fatal fnam msg) := by
  unfold interp_1DFUN_linear
  rw [if_neg h]
  cases hf : findBin val X 0 (NBIN - 1) with
  | none => simp
  | some i =>
    simp only [fdiv, bind, Except.bind, pure, Except.pure]
    split_ifs <;> simp

theorem interp_linear_grid (opt : Nat) (NBIN : Nat) (X F : Nat → K) (cmt : String)
    (hX : StrictIncr X NBIN) (k : Nat) (hk : k < NBIN) :
    interp_1DFUN_linear opt (X k) NBIN X F cmt = .ok (F k) := by
  have mono : ∀ a b, a ≤ b → b < NBIN → X a ≤ X b := by
    intro a b hab hb
    rcases Nat.eq_or_lt_of_le hab with e | e
    · rw [e]
    · exact le_of_lt (hX a b e hb)
  have hr : ¬ (X k < X 0 ∨ X k > X (NBIN - 1)) := by
    rintro (h | h)
    · exact absurd (mono 0 k (Nat.zero_le _) hk) (not_le.mpr h)
    · exact absurd (mono k (NBIN - 1) (by omega) (by omega)) (not_le.mpr h)
  unfold interp_1DFUN_linear
  rw [if_neg hr]
  cases hf : findBin (X k) X 0 (NBIN - 1) with
  | none =>
    have hn := findBin_none _ _ _ _ hf
    have : k = 0 := by
      by_contra hk0
      exact hn (k - 1) (Nat.zero_le _) (by omega) (by
        have : k - 1 + 1 = k := by omega
        rw [this])
    rw [this]
  | some i =>
    obtain ⟨-, hi, hle, hmin⟩ := findBin_some _ _ _ _ _ hf
    have hi1 : i + 1 < NBIN := by omega
    have hne : ¬ (X (i + 1) - X i = 0) := by
      have := hX i (i + 1) (Nat.lt_succ_self i) hi1
      exact ne_of_gt (sub_pos.mpr this)
    have hki : k ≤ i + 1 := by
      by_contra hc
      exact absurd hle (not_le.mpr (hX (i + 1) k (by omega) hk))
    simp only [fdiv, if_neg hne, bind, Except.bind, pure, Except.pure]
    rcases Nat.eq_zero_or_pos k with hk0 | hkpos
    · subst hk0
      have hi0 : i = 0 := by
        by_contra hc
        exact hmin 0 (le_refl _) (by omega) (mono 0 1 (by omega) (by omega))
      subst hi0
      simp
    · have hki2 : k = i + 1 := by
        by_contra hc
        have hlt : k - 1 < i := by omega
        exact hmin (k - 1) (Nat.zero_le _) hlt (by
          have : k - 1 + 1 = k := by omega
          rw [this])
      subst hki2
      rw [div_self hne]
      simp

theorem interp_linear_ok (opt : Nat) (val : K) (NBIN : Nat) (X F : Nat → K) (cmt : String)
    (hX : StrictIncr X NBIN) (h : ¬ (val < X 0 ∨ val > X (NBIN - 1))) :
    ∃ v, interp_1DFUN_linear opt val NBIN X F cmt = .ok v := by
  unfold interp_1DFUN_linear
  rw [if_neg h]
  cases hf : findBin val X 0 (NBIN - 1) with
  | none => exact ⟨_, rfl⟩
  | some i =>
    obtain ⟨-, hi, -, -⟩ := findBin_some _ _ _ _ _ hf
    have hne : ¬ (X (i + 1) - X i = 0) := by
      have := hX i (i + 1) (Nat.lt_succ_self i) (by omega)
      exact ne_of_gt (sub_pos.mpr this)
    simp only [fdiv, if_neg hne, bind, Except.bind, pure, Except.pure]
    exact ⟨_, rfl⟩

theorem getSNR_linear_not_fatal (M : Libm K) (st : INPUTS_SPECTRO_DEF K) (ILAM : Nat)
    (S T GENMAG : K)
    (hS : ¬ (S < st.TEXPOSE_LIST 0 ∨ S > st.TEXPOSE_LIST (st.NBIN_TEXPOSE - 1)))
    (hT : ¬ T > 0.01 ∨ ¬ (T < st.TEXPOSE_LIST 0 ∨ T > st.TEXPOSE_LIST (st.NBIN_TEXPOSE - 1)))
    (fnam msg : String) :
    getSNR_spectrograph M interp_1DFUN_linear st ILAM S T GENMAG ≠ .error (.fatal fnam msg) := by
  unfold getSNR_spectrograph
  rw [if_neg hS]
  simp only [bind, Except.bind, pure, Except.pure]
  cases hZ : interp_1DFUN_linear 1 S st.NBIN_TEXPOSE st.TEXPOSE_LIST (st.ZP ILAM)
      "getSNR_spectrograph(ZP_S)" with
  | error e =>
    intro h
    injection h with h
    exact interp_linear_in 1 S _ _ _ _ hS fnam msg (by rw [hZ, h])
  | ok ZP_S =>
    cases hQ : interp_1DFUN_linear 1 S st.NBIN_TEXPOSE st.TEXPOSE_LIST (st.SQSIGSKY ILAM)
        "getSNR_spectrograph(SQ_S)" with
    | error e =>
      intro h
      injection h with h
      exact interp_linear_in 1 S _ _ _ _ hS fnam msg (by rw [hQ, h])
    | ok SQ_S =>
      dsimp only
      by_cases hT1 : T > 0.01
      · have hT2 : ¬ (T < st.TEXPOSE_LIST 0 ∨ T > st.TEXPOSE_LIST (st.NBIN_TEXPOSE - 1)) := by
          rcases hT with h | h
          · exact absurd hT1 h
          · exact h
        rw [if_pos hT1]
        cases hZT : interp_1DFUN_linear 1 T st.NBIN_TEXPOSE st.TEXPOSE_LIST (st.ZP ILAM)
            "getSNR_spectrograph(ZP_T)" with
        | error e =>
          intro h
          injection h with h
          exact interp_linear_in 1 T _ _ _ _ hT2 fnam msg (by rw [hZT, h])
        | ok ZP_T =>
          cases hQT : interp_1DFUN_linear 1 T st.NBIN_TEXPOSE st.TEXPOSE_LIST (st.SQSIGSKY ILAM)
              "getSNR_spectrograph(SQ_T)" with
          | error e =>
            intro h
            injection h with h
            exact interp_linear_in 1 T _ _ _ _ hT2 fnam msg (by rw [hQT, h])
          | ok SQ_T =>
            simp only [fsqrt, fdiv]
            split_ifs
            all_goals first
              | (simp; done)
              | (dsimp only; split_ifs <;> simp)
      · rw [if_neg hT1]
        simp only [fsqrt, fdiv]
        split_ifs
        all_goals first
          | (simp; done)
          | (dsimp only; split_ifs <;> simp)

theorem getSNR_linear_fatal_T (M : Libm K) (st : INPUTS_SPECTRO_DEF K) (ILAM : Nat)
    (S T GENMAG : K) (hX : StrictIncr st.TEXPOSE_LIST st.NBIN_TEXPOSE)
    (hS : ¬ (S < st.TEXPOSE_LIST 0 ∨ S > st.TEXPOSE_LIST (st.NBIN_TEXPOSE - 1)))
    (hT1 : T > 0.01)
    (hT2 : T < st.TEXPOSE_LIST 0 ∨ T > st.TEXPOSE_LIST (st.NBIN_TEXPOSE - 1)) :
    getSNR_spectrograph M interp_1DFUN_linear st ILAM S T GENMAG
      = .error (.fatal "interp_1DFUN" "getSNR_spectrograph(ZP_T)") := by
  obtain ⟨ZP_S, hZ⟩ := interp_linear_ok 1 S st.NBIN_TEXPOSE st.TEXPOSE_LIST (st.ZP ILAM)
    "getSNR_spectrograph(ZP_S)" hX hS
  obtain ⟨SQ_S, hQ⟩ := interp_linear_ok 1 S st.NBIN_TEXPOSE st.TEXPOSE_LIST (st.SQSIGSKY ILAM)
    "getSNR_spectrograph(SQ_S)" hX hS
  unfold getSNR_spectrograph
  simp only [if_neg hS, hZ, hQ, if_pos hT1, bind, Except.bind, pure, Except.pure,
    interp_linear_out 1 T _ _ _ _ hT2]

theorem check_SNR_congr (I J : INPUTS_SPECTRO_DEF K) (l t : Nat)
    (h0 : I.SNR0 l t = J.SNR0 l t) (h0p : I.SNR0 l (t - 1) = J.SNR0 l (t - 1))
    (h1 : I.SNR1 l t = J.SNR1 l t) (h1p : I.SNR1 l (t - 1) = J.SNR1 l (t - 1)) :
    check_SNR_SPECTROGRAPH I l t = check_SNR_SPECTROGRAPH J l t := by
  unfold check_SNR_SPECTROGRAPH
  rw [h0, h0p, h1, h1p]

theorem rowViolations_congr (I J : INPUTS_SPECTRO_DEF K) (l n : Nat)
    (h : ∀ t, t < n → I.SNR0 l t = J.SNR0 l t ∧ I.SNR1 l t = J.SNR1 l t) :
    rowViolations I l n = rowViolations J l n := by
  induction n with
  | zero => rfl
  | succ n ih =>
    unfold rowViolations
    rw [ih (fun t ht => h t (Nat.lt_succ_of_lt ht))]
    congr 1
    exact check_SNR_congr I J l n (h n (Nat.lt_succ_self n)).1
      (h (n - 1) (by omega)).1 (h n (Nat.lt_succ_self n)).2 (h (n - 1) (by omega)).2

theorem tableViolations_congr (I J : INPUTS_SPECTRO_DEF K) (nbt n : Nat)
    (h : ∀ l t, l < n → t < nbt → I.SNR0 l t = J.SNR0 l t ∧ I.SNR1 l t = J.SNR1 l t) :
    tableViolations I nbt n = tableViolations J nbt n := by
  induction n with
  | zero => rfl
  | succ n ih =>
    unfold tableViolations
    rw [ih (fun l t hl ht => h l t (Nat.lt_succ_of_lt hl) ht),
      rowViolations_congr I J n nbt (fun t ht => h n t (Nat.lt_succ_self n) ht)]

theorem rowViolations_eq_zero (I : INPUTS_SPECTRO_DEF K) (l n : Nat)
    (h : rowViolations I l n = 0) (t : Nat) (ht : t < n) :
    check_SNR_SPECTROGRAPH I l t = 0 := by
  induction n with
  | zero => omega
  | succ n ih =>
    unfold rowViolations at h
    rcases Nat.lt_succ_iff_lt_or_eq.mp ht with h1 | h1
    · exact ih (by omega) h1
    · rw [h1]; omega

theorem tableViolations_eq_zero (I : INPUTS_SPECTRO_DEF K) (nbt n : Nat)
    (h : tableViolations I nbt n = 0) (l t : Nat) (hl : l < n) (ht : t < nbt) :
    check_SNR_SPECTROGRAPH I l t = 0 := by
  induction n with
  | zero => omega
  | succ n ih =>
    unfold tableViolations at h
    rcases Nat.lt_succ_iff_lt_or_eq.mp hl with h1 | h1
    · exact ih (by omega) h1
    · rw [h1]; exact rowViolations_eq_zero I n nbt (by omega) t ht

theorem rowViolations_pos (I : INPUTS_SPECTRO_DEF K) (l n t : Nat) (ht : t < n)
    (h : 0 < check_SNR_SPECTROGRAPH I l t) : 0 < rowViolations I l n := by
  by_contra hc
  have := rowViolations_eq_zero I l n (by omega) t ht
  omega

theorem tableViolations_pos (I : INPUTS_SPECTRO_DEF K) (nbt n l t : Nat) (hl : l < n)
    (ht : t < nbt) (h : 0 < check_SNR_SPECTROGRAPH I l t) : 0 < tableViolations I nbt n := by
  by_contra hc
  have := tableViolations_eq_zero I nbt n (by omega) l t hl ht
  omega

/-- The loop over `t` of `PARSE_XTMP`, after `k` iterations. -/
theorem parse_loop_spec (E : READ_ENV K) (XTMP : Nat → K) (NBL : Nat)
    (G1 : SPECTRO_GLOBALS K) (k : Nat) :
    let body := fun (t : Nat) (g : SPECTRO_GLOBALS K) =>
      ({ g with
          INPUTS_SPECTRO := { g.INPUTS_SPECTRO with
            SNR0 := set2 g.INPUTS_SPECTRO.SNR0 NBL t (XTMP (E.NCOL_noSNR + 2 * t))
            SNR1 := set2 g.INPUTS_SPECTRO.SNR1 NBL t (XTMP (E.NCOL_noSNR + 2 * t + 1)) }
          NERR_SNR_SPECTROGRAPH := g.NERR_SNR_SPECTROGRAPH +
            check_SNR_SPECTROGRAPH { g.INPUTS_SPECTRO with
              SNR0 := set2 g.INPUTS_SPECTRO.SNR0 NBL t (XTMP (E.NCOL_noSNR + 2 * t))
              SNR1 := set2 g.INPUTS_SPECTRO.SNR1 NBL t (XTMP (E.NCOL_noSNR + 2 * t + 1)) }
              NBL t } : SPECTRO_GLOBALS K)
    let g := loopPure k body G1
    (∀ i j, g.INPUTS_SPECTRO.SNR0 i j =
      if i = NBL ∧ j < k then XTMP (E.NCOL_noSNR + 2 * j) else G1.INPUTS_SPECTRO.SNR0 i j) ∧
    (∀ i j, g.INPUTS_SPECTRO.SNR1 i j =
      if i = NBL ∧ j < k then XTMP (E.NCOL_noSNR + 2 * j + 1) else G1.INPUTS_SPECTRO.SNR1 i j) ∧
    g.NERR_SNR_SPECTROGRAPH = G1.NERR_SNR_SPECTROGRAPH + rowViolations g.INPUTS_SPECTRO NBL k ∧
    g.INPUTS_SPECTRO.NBIN_TEXPOSE = G1.INPUTS_SPECTRO.NBIN_TEXPOSE ∧
    g.INPUTS_SPECTRO.NBIN_LAM = G1.INPUTS_SPECTRO.NBIN_LAM ∧
    g.fp = G1.fp := by
  intro body g
  induction k with
  | zero =>
    simp only [g, loopPure, Nat.not_lt_zero, and_false, if_false, rowViolations, add_zero,
      implies_true, and_self]
  | succ k ih =>
    obtain ⟨a0, a1, an, atx, al, af⟩ := ih
    have hg : g = body k (loopPure k body G1) := rfl
    have b0 : ∀ i j, g.INPUTS_SPECTRO.SNR0 i j =
        if i = NBL ∧ j < k + 1 then XTMP (E.NCOL_noSNR + 2 * j)
        else G1.INPUTS_SPECTRO.SNR0 i j := by
      intro i j
      rw [hg]
      simp only [body, set2]
      by_cases h1 : i = NBL ∧ j = k
      · obtain ⟨rfl, rfl⟩ := h1
        simp
      · rw [if_neg h1, a0 i j]
        by_cases h2 : i = NBL ∧ j < k
        · rw [if_pos h2, if_pos ⟨h2.1, by omega⟩]
        · rw [if_neg h2, if_neg]
          rintro ⟨c1, c2⟩
          rcases Nat.lt_succ_iff_lt_or_eq.mp c2 with c3 | c3
          · exact h2 ⟨c1, c3⟩
          · exact h1 ⟨c1, c3⟩
    have b1 : ∀ i j, g.INPUTS_SPECTRO.SNR1 i j =
        if i = NBL ∧ j < k + 1 then XTMP (E.NCOL_noSNR + 2 * j + 1)
        else G1.INPUTS_SPECTRO.SNR1 i j := by
      intro i j
      rw [hg]
      simp only [body, set2]
      by_cases h1 : i = NBL ∧ j = k
      · obtain ⟨rfl, rfl⟩ := h1
        simp
      · rw [if_neg h1, a1 i j]
        by_cases h2 : i = NBL ∧ j < k
        · rw [if_pos h2, if_pos ⟨h2.1, by omega⟩]
        · rw [if_neg h2, if_neg]
          rintro ⟨c1, c2⟩
          rcases Nat.lt_succ_iff_lt_or_eq.mp c2 with c3 | c3
          · exact h2 ⟨c1, c3⟩
          · exact h1 ⟨c1, c3⟩
    refine ⟨b0, b1, ?_, ?_, ?_, ?_⟩
    · have hr : rowViolations g.INPUTS_SPECTRO NBL k
          = rowViolations (loopPure k body G1).INPUTS_SPECTRO NBL k := by
        apply rowViolations_congr
        intro t ht
        rw [b0 NBL t, b1 NBL t, a0 NBL t, a1 NBL t]
        simp [ht, Nat.lt_succ_of_lt ht]
      have hn : g.NERR_SNR_SPECTROGRAPH = (loopPure k body G1).NERR_SNR_SPECTROGRAPH
          + check_SNR_SPECTROGRAPH g.INPUTS_SPECTRO NBL k := rfl
      rw [hn, an]
      show _ = _ + (rowViolations g.INPUTS_SPECTRO NBL k
        + check_SNR_SPECTROGRAPH g.INPUTS_SPECTRO NBL k)
      rw [hr]; omega
    · exact atx
    · exact al
    · exact af

/-- What a completed `PARSE_XTMP` has stored. -/
theorem PARSE_XTMP_ok (E : READ_ENV K) (XTMP : Nat → K) (G G' : SPECTRO_GLOBALS K) (n : Nat)
    (h : PARSE_XTMP E XTMP G = .ok (n, G')) :
    n = G.INPUTS_SPECTRO.NBIN_LAM + 1 ∧
    G'.INPUTS_SPECTRO.NBIN_LAM = G.INPUTS_SPECTRO.NBIN_LAM + 1 ∧
    G'.INPUTS_SPECTRO.NBIN_TEXPOSE = G.INPUTS_SPECTRO.NBIN_TEXPOSE ∧
    G'.fp = G.fp ∧
    (∀ i j, G'.INPUTS_SPECTRO.SNR0 i j =
      if i = G.INPUTS_SPECTRO.NBIN_LAM ∧ j < G.INPUTS_SPECTRO.NBIN_TEXPOSE
      then XTMP (E.NCOL_noSNR + 2 * j) else G.INPUTS_SPECTRO.SNR0 i j) ∧
    (∀ i j, G'.INPUTS_SPECTRO.SNR1 i j =
      if i = G.INPUTS_SPECTRO.NBIN_LAM ∧ j < G.INPUTS_SPECTRO.NBIN_TEXPOSE
      then XTMP (E.NCOL_noSNR + 2 * j + 1) else G.INPUTS_SPECTRO.SNR1 i j) ∧
    G'.NERR_SNR_SPECTROGRAPH = G.NERR_SNR_SPECTROGRAPH
      + rowViolations G'.INPUTS_SPECTRO G.INPUTS_SPECTRO.NBIN_LAM G.INPUTS_SPECTRO.NBIN_TEXPOSE := by
  unfold PARSE_XTMP at h
  by_cases hx : XTMP 1 < XTMP 0
  · simp [hx, bind, Except.bind, throw, throwThe, MonadExceptOf.throw] at h
  · simp only [hx, if_false, bind, Except.bind, pure, Except.pure, Except.ok.injEq,
      Prod.mk.injEq] at h
    obtain ⟨hn, hG⟩ := h
    have sp := parse_loop_spec E XTMP G.INPUTS_SPECTRO.NBIN_LAM
      ({ G with INPUTS_SPECTRO := { G.INPUTS_SPECTRO with
        LAMMIN_LIST := Function.update G.INPUTS_SPECTRO.LAMMIN_LIST G.INPUTS_SPECTRO.NBIN_LAM (XTMP 0)
        LAMMAX_LIST := Function.update G.INPUTS_SPECTRO.LAMMAX_LIST G.INPUTS_SPECTRO.NBIN_LAM (XTMP 1)
        LAMSIGMA_LIST := Function.update G.INPUTS_SPECTRO.LAMSIGMA_LIST G.INPUTS_SPECTRO.NBIN_LAM (XTMP 2)
        LAMAVG_LIST := Function.update G.INPUTS_SPECTRO.LAMAVG_LIST G.INPUTS_SPECTRO.NBIN_LAM
          ((XTMP 0 + XTMP 1) / 2.0)
        LAMBIN_LIST := Function.update G.INPUTS_SPECTRO.LAMBIN_LIST G.INPUTS_SPECTRO.NBIN_LAM
          (XTMP 1 - XTMP 0) } } : SPECTRO_GLOBALS K)
      G.INPUTS_SPECTRO.NBIN_TEXPOSE
    obtain ⟨a0, a1, an, atx, al, af⟩ := sp
    subst hG
    refine ⟨hn.symm, rfl, atx, af, a0, a1, ?_⟩
    refine Eq.trans an ?_
    congr 1
    apply rowViolations_congr
    intro t _
    exact ⟨rfl, rfl⟩

/-- A completed `PARSE_XTMP` keeps the count of failures in step with the stored bins. -/
theorem PARSE_XTMP_counts (E : READ_ENV K) (XTMP : Nat → K) (G G' : SPECTRO_GLOBALS K) (n : Nat)
    (hc : CountsViolations G) (h : PARSE_XTMP E XTMP G = .ok (n, G')) :
    CountsViolations G' := by
  obtain ⟨_, hl, ht, _, h0, h1, hn⟩ := PARSE_XTMP_ok E XTMP G G' n h
  unfold CountsViolations at hc ⊢
  rw [hl, ht, hn, hc]
  show _ = tableViolations _ _ _ + rowViolations _ _ _
  congr 1
  apply tableViolations_congr
  intro l t hlt _
  have hne : ¬ (l = G.INPUTS_SPECTRO.NBIN_LAM ∧ t < G.INPUTS_SPECTRO.NBIN_TEXPOSE) := by
    rintro ⟨c, _⟩; omega
  rw [h0 l t, h1 l t, if_neg hne, if_neg hne]
  exact ⟨rfl, rfl⟩

theorem SameBins_refl (G : SPECTRO_GLOBALS K) : SameBins G G := ⟨rfl, rfl, rfl, rfl⟩

theorem SameBins_trans {G1 G2 G3 : SPECTRO_GLOBALS K} (a : SameBins G1 G2)
    (b : SameBins G2 G3) : SameBins G1 G3 :=
  ⟨b.1.trans a.1, b.2.1.trans a.2.1, b.2.2.1.trans a.2.2.1, b.2.2.2.trans a.2.2.2⟩

/-- The count stays in step with the stored bins when neither the bins nor the number of
exposure times change. -/
theorem SameBins_counts {G G' : SPECTRO_GLOBALS K} (a : SameBins G G')
    (ht : G'.INPUTS_SPECTRO.NBIN_TEXPOSE = G.INPUTS_SPECTRO.NBIN_TEXPOSE)
    (hc : CountsViolations G) : CountsViolations G' := by
  obtain ⟨a1, a2, a3, a4⟩ := a
  unfold CountsViolations at hc ⊢
  rw [a1, a2, ht, hc]
  apply tableViolations_congr
  intro l t _ _
  rw [a3, a4]
  exact ⟨rfl, rfl⟩

/-- With no stored bin the count stays in step if it does not change. -/
theorem SameBins_counts_empty {G G' : SPECTRO_GLOBALS K} (a : SameBins G G')
    (h0 : G.INPUTS_SPECTRO.NBIN_LAM = 0)
    (hc : CountsViolations G) : CountsViolations G' := by
  obtain ⟨a1, a2, _, _⟩ := a
  unfold CountsViolations at hc ⊢
  rw [a1, a2, hc, h0]
  rfl

/-- The token loop of `read_TEXPOSE_LIST` touches neither the stream nor the bins. -/
theorem read_TEXPOSE_tokens_frame (E : READ_ENV K) (toks : List (List Char)) :
    ∀ (NBT : Nat) (G : SPECTRO_GLOBALS K) (n : Nat) (G' : SPECTRO_GLOBALS K),
      read_TEXPOSE_tokens E toks NBT G = .ok (n, G') → G'.fp = G.fp ∧ SameBins G G' := by
  induction toks with
  | nil =>
    intro NBT G n G' h
    simp only [read_TEXPOSE_tokens, Except.ok.injEq, Prod.mk.injEq] at h
    rw [← h.2]
    exact ⟨rfl, SameBins_refl G⟩
  | cons cval rest ih =>
    intro NBT G n G' h
    unfold read_TEXPOSE_tokens at h
    by_cases hcm : cval.head? = some '#' ∨ cval.head? = some '%' ∨ cval.head? = some '!'
        ∨ cval.head? = some '\r'
    · rw [if_pos hcm] at h
      simp only [Except.ok.injEq, Prod.mk.injEq] at h
      rw [← h.2]
      exact ⟨rfl, SameBins_refl G⟩
    · rw [if_neg hcm] at h
      obtain ⟨G1, hG1, h⟩ : ∃ G1 : SPECTRO_GLOBALS K, (G1.fp = G.fp ∧ SameBins G G1) ∧
          (if NBT > 0 ∧ G1.INPUTS_SPECTRO.TEXPOSE_LIST NBT
              < G1.INPUTS_SPECTRO.TEXPOSE_LIST (NBT - 1)
           then (.error (Abort.fatal "read_TEXPOSE_LIST"
             "TEXPOSE_LIST must be in increasing order.", G1) :
               Run (SPECTRO_GLOBALS K) (Nat × SPECTRO_GLOBALS K))
           else read_TEXPOSE_tokens E rest (NBT + 1) G1) = .ok (n, G') := by
        refine ⟨_, ?_, h⟩
        split_ifs
        · split
          · exact ⟨rfl, rfl, rfl, rfl, rfl⟩
          · exact ⟨rfl, SameBins_refl G⟩
        · exact ⟨rfl, SameBins_refl G⟩
      split_ifs at h
      obtain ⟨hf, hs⟩ := ih _ _ _ _ h
      exact ⟨hf.trans hG1.1, SameBins_trans hG1.2 hs⟩

theorem fgetsAux_length (k : Nat) : ∀ fp : List Char, (fgetsAux k fp).2.length ≤ fp.length := by
  induction k with
  | zero => intro fp; simp [fgetsAux]
  | succ k ih =>
    intro fp
    cases fp with
    | nil => simp [fgetsAux]
    | cons c r =>
      unfold fgetsAux
      split_ifs
      · simp
      · exact Nat.le_succ_of_le (ih r)

theorem fgets_length (n : Nat) (fp : List Char) : (fgets n fp).2.length ≤ fp.length :=
  fgetsAux_length _ fp

theorem dropWhile_length {α : Type} (p : α → Bool) (l : List α) :
    (l.dropWhile p).length ≤ l.length :=
  (List.dropWhile_suffix p).length_le

theorem skipSpace_length (fp : List Char) : (skipSpace fp).length ≤ fp.length :=
  dropWhile_length _ fp

/-- The call `fscanf(fp, "%s", ...)` that finds a token consumes at least one character. -/
theorem fscanf_s_length (fp c rest : List Char) (h : fscanf_s fp = some (c, rest)) :
    rest.length < fp.length := by
  unfold fscanf_s at h
  split at h
  · exact absurd h (by simp)
  · rename_i x r hs
    simp only [Option.some.injEq, Prod.mk.injEq] at h
    have hx : isspace x = false := by
      have := List.head_dropWhile_not isspace fp (by rw [show List.dropWhile isspace fp = skipSpace fp from rfl, hs]; simp)
      simpa [show List.dropWhile isspace fp = skipSpace fp from rfl, hs] using this
    rw [← h.2, List.dropWhile_cons_of_pos (by simp [hx])]
    calc (List.dropWhile (fun x => !isspace x) r).length ≤ r.length := dropWhile_length _ r
      _ < (x :: r).length := Nat.lt_succ_self _
      _ = (skipSpace fp).length := by rw [hs]
      _ ≤ fp.length := skipSpace_length fp

theorem fscanf_le_length (strtod : List Char → Option (K × Nat)) (fp : List Char) :
    (fscanf_le strtod fp).2.length ≤ fp.length := by
  unfold fscanf_le
  split
  · simp only [List.length_drop]
    exact le_trans (Nat.sub_le _ _) (skipSpace_length fp)
  · exact skipSpace_length fp

theorem readdouble_length (strtod : List Char → Option (K × Nat)) (fp : List Char) (n : Nat)
    (list : Nat → K) : (readdouble strtod fp n list).2.length ≤ fp.length := by
  induction n with
  | zero => simp [readdouble]
  | succ k ih =>
    unfold readdouble
    have := fscanf_le_length strtod (readdouble strtod fp k list).2
    split
    · rename_i v fp2 heq
      rw [heq] at this
      exact le_trans this ih
    · rename_i fp2 heq
      rw [heq] at this
      exact le_trans this ih

theorem readchar_length (fp : List Char) : (readchar fp).2.length ≤ fp.length := by
  unfold readchar
  split
  · exact le_refl _
  · rename_i tok rest heq
    exact le_of_lt (fscanf_s_length fp tok rest heq)

/-- A completed `read_TEXPOSE_LIST` consumes a line and leaves the bins as they are. -/
theorem read_TEXPOSE_LIST_frame (E : READ_ENV K) (G G' : SPECTRO_GLOBALS K) (n : Nat)
    (h : read_TEXPOSE_LIST E G = .ok (n, G')) :
    G'.fp.length ≤ G.fp.length ∧ SameBins G G' := by
  unfold read_TEXPOSE_LIST at h
  cases heq : read_TEXPOSE_tokens E (strtok_blank [] (fgets 400 G.fp).1) 0
      { G with fp := (fgets 400 G.fp).2 } with
  | error e =>
    simp only [bind, Except.bind, heq] at h
    exact absurd h (by simp)
  | ok v =>
    obtain ⟨NBT, G1⟩ := v
    obtain ⟨hf, hs⟩ := read_TEXPOSE_tokens_frame E _ _ _ _ _ heq
    simp only [bind, Except.bind, heq] at h
    by_cases hm : NBT ≥ E.MXTEXPOSE_SPECTROGRAPH
    · simp [hm, throw, throwThe, MonadExceptOf.throw] at h
    · simp only [hm, if_false, pure, Except.pure, Except.ok.injEq, Prod.mk.injEq] at h
      rw [← h.2]
      refine ⟨?_, ?_⟩
      · show G1.fp.length ≤ _
        rw [hf]
        exact fgets_length 400 G.fp
      · exact @SameBins_trans _ _ _ G1 _ hs ⟨rfl, rfl, rfl, rfl⟩

/-- The invariant of the `while` loop of `read_spectrograph_text` that one key of the
header keeps: the stream does not grow and the bins stay as they are; only the key
`TEXPOSE_LIST:` can change the number of exposure times. -/
theorem read_key_frame (E : READ_ENV K) (c_get : List Char) (ikey : Nat)
    (S S1 : READ_LOCALS × SPECTRO_GLOBALS K) (h : read_key E c_get ikey S = .ok S1) :
    S1.2.fp.length ≤ S.2.fp.length ∧ SameBins S.2 S1.2 ∧
    (c_get ≠ "TEXPOSE_LIST:".toList →
      S1.2.INPUTS_SPECTRO.NBIN_TEXPOSE = S.2.INPUTS_SPECTRO.NBIN_TEXPOSE) := by
  unfold read_key at h
  by_cases hc : c_get = KEYREQ_LIST ikey
  · rw [if_pos hc] at h
    by_cases h0 : ikey = 0
    · rw [if_pos h0] at h
      have hl := readchar_length S.2.fp
      split at h
      · rename_i name fp1 heq
        rw [heq] at hl
        simp only [Except.ok.injEq] at h
        rw [← h]
        exact ⟨hl, ⟨rfl, rfl, rfl, rfl⟩, fun _ => rfl⟩
      · rename_i fp1 heq
        rw [heq] at hl
        simp only [Except.ok.injEq] at h
        rw [← h]
        exact ⟨hl, ⟨rfl, rfl, rfl, rfl⟩, fun _ => rfl⟩
    · rw [if_neg h0] at h
      by_cases h1 : ikey = 1
      · rw [if_pos h1] at h
        simp only [Except.ok.injEq] at h
        rw [← h]
        exact ⟨readdouble_length _ _ _ _, ⟨rfl, rfl, rfl, rfl⟩, fun _ => rfl⟩
      · rw [if_neg h1] at h
        by_cases h2 : ikey = 2
        · rw [if_pos h2] at h
          split at h
          · rename_i NBT G1 heq
            simp only [Except.ok.injEq] at h
            rw [← h]
            obtain ⟨hf, hs⟩ := read_TEXPOSE_LIST_frame E _ _ _ heq
            refine ⟨hf, hs, fun hne => absurd ?_ hne⟩
            rw [hc]
            simp [KEYREQ_LIST, h2]
          · exact absurd h (by simp)
        · rw [if_neg h2] at h
          exact absurd h (by simp)
  · rw [if_neg hc] at h
    simp only [Except.ok.injEq] at h
    rw [← h]
    exact ⟨le_refl _, SameBins_refl _, fun _ => rfl⟩

/-- An invariant of the loop body is an invariant of a completed `forLoop`. -/
theorem forLoop_ok_inv {σ ε : Type} (body : Nat → σ → Except ε σ) (R : σ → σ → Prop)
    (hrefl : ∀ s, R s s) (htrans : ∀ a b c, R a b → R b c → R a c)
    (hbody : ∀ i s s', body i s = .ok s' → R s s') :
    ∀ (n : Nat) (s s' : σ), forLoop n body s = .ok s' → R s s' := by
  intro n
  induction n with
  | zero =>
    intro s s' h
    simp only [forLoop, Except.ok.injEq] at h
    rw [← h]
    exact hrefl s
  | succ k ih =>
    intro s s' h
    unfold forLoop at h
    simp only [bind, Except.bind] at h
    split at h
    · exact absurd h (by simp)
    · rename_i v heq
      exact htrans _ _ _ (ih s v heq) (hbody k v s' h)

/-- The loop over the three header keys: the stream does not grow, the bins stay as they
are, and the number of exposure times changes only for the token `TEXPOSE_LIST:`. -/
theorem read_keys_frame (E : READ_ENV K) (c_get : List Char)
    (S S1 : READ_LOCALS × SPECTRO_GLOBALS K) (h : forLoop 3 (read_key E c_get) S = .ok S1) :
    S1.2.fp.length ≤ S.2.fp.length ∧ SameBins S.2 S1.2 ∧
    (c_get ≠ "TEXPOSE_LIST:".toList →
      S1.2.INPUTS_SPECTRO.NBIN_TEXPOSE = S.2.INPUTS_SPECTRO.NBIN_TEXPOSE) := by
  refine forLoop_ok_inv (read_key E c_get)
    (fun S S1 => S1.2.fp.length ≤ S.2.fp.length ∧ SameBins S.2 S1.2 ∧
      (c_get ≠ "TEXPOSE_LIST:".toList →
        S1.2.INPUTS_SPECTRO.NBIN_TEXPOSE = S.2.INPUTS_SPECTRO.NBIN_TEXPOSE))
    ?_ ?_ ?_ 3 S S1 h
  · intro s
    exact ⟨le_refl _, SameBins_refl _, fun _ => rfl⟩
  · intro a b c hab hbc
    exact ⟨le_trans hbc.1 hab.1, SameBins_trans hab.2.1 hbc.2.1,
      fun hne => (hbc.2.2 hne).trans (hab.2.2 hne)⟩
  · intro i s s' hb
    exact read_key_frame E c_get i s s' hb

/-- A completed `read_SPECBIN_spectrograph` does not grow the stream and keeps the count
of failures in step with the stored bins. -/
theorem read_SPECBIN_frame (E : READ_ENV K) (M : Libm K) (G G' : SPECTRO_GLOBALS K) (n : Nat)
    (h : read_SPECBIN_spectrograph E M G = .ok (n, G')) :
    G'.fp.length ≤ G.fp.length ∧ (CountsViolations G → CountsViolations G') := by
  unfold read_SPECBIN_spectrograph at h
  have hl := readdouble_length E.strtod G.fp (E.NCOL_noSNR + 2 * G.INPUTS_SPECTRO.NBIN_TEXPOSE)
    E.XTMP_INIT
  by_cases h1 : G.INPUTS_SPECTRO.NREBIN_LAM = 1
  · simp only [h1, if_true] at h
    obtain ⟨_, _, _, hf, _⟩ := PARSE_XTMP_ok E _ _ _ _ h
    refine ⟨by rw [hf]; exact hl, fun hc => PARSE_XTMP_counts E _ _ _ _ ?_ h⟩
    exact SameBins_counts (G := G) ⟨rfl, rfl, rfl, rfl⟩ rfl hc
  · simp only [h1, if_false, bind, Except.bind] at h
    by_cases h0 : G.INPUTS_SPECTRO.NREBIN_LAM = 0
    · simp [h0, throw, throwThe, MonadExceptOf.throw] at h
    · simp only [h0, if_false, pure, Except.pure] at h
      split_ifs at h
      all_goals first
        | (simp only [Except.ok.injEq, Prod.mk.injEq] at h
           rw [← h.2]
           exact ⟨hl, fun hc => SameBins_counts (G := G) ⟨rfl, rfl, rfl, rfl⟩ rfl hc⟩)
        | (obtain ⟨_, _, _, hf, _⟩ := PARSE_XTMP_ok E _ _ _ _ h
           refine ⟨by rw [hf]; exact hl, fun hc => PARSE_XTMP_counts E _ _ _ _ ?_ h⟩
           exact SameBins_counts (G := G) ⟨rfl, rfl, rfl, rfl⟩ rfl hc)

/-- One pass of the `while` loop of `read_spectrograph_text` that completes: the stream
does not grow, and the count of failures stays in step with the stored bins provided the
key `TEXPOSE_LIST:` is read only while no bin is stored. -/
theorem read_token_frame (E : READ_ENV K) (M : Libm K) (c_get : List Char)
    (S S' : READ_LOCALS × SPECTRO_GLOBALS K) (h : read_token E M c_get S = .ok S') :
    S'.2.fp.length ≤ S.2.fp.length ∧
    (CountsViolations S.2 → (c_get = "TEXPOSE_LIST:".toList → S.2.INPUTS_SPECTRO.NBIN_LAM = 0) →
      CountsViolations S'.2) := by
  unfold read_token at h
  by_cases hcm : c_get.head? = some '#' ∨ c_get.head? = some '!' ∨ c_get.head? = some '%'
  · simp only [hcm, if_true, pure, Except.pure, bind, Except.bind, Except.ok.injEq] at h
    rw [← h]
    exact ⟨fgets_length 80 S.2.fp, fun hc _ => SameBins_counts (G := S.2) ⟨rfl, rfl, rfl, rfl⟩ rfl hc⟩
  · cases hk : forLoop 3 (read_key E c_get) S with
    | error e =>
      simp only [hcm, if_false, pure, Except.pure, bind, Except.bind, hk] at h
      exact absurd h (by simp)
    | ok S1 =>
      obtain ⟨kf, ks, kt⟩ := read_keys_frame E c_get S S1 hk
      have kc : CountsViolations S.2 →
          (c_get = "TEXPOSE_LIST:".toList → S.2.INPUTS_SPECTRO.NBIN_LAM = 0) →
          CountsViolations S1.2 := by
        intro hc hx
        by_cases ht : c_get = "TEXPOSE_LIST:".toList
        · exact SameBins_counts_empty ks (hx ht) hc
        · exact SameBins_counts ks (kt ht) hc
      simp only [hcm, if_false, pure, Except.pure, bind, Except.bind, hk] at h
      -- the state after the allocation
      generalize hS2 : (if S1.1.NKEY_FOUND = 3 ∧ S1.1.DONE_MALLOC = 0 then
          (({ S1.1 with DONE_MALLOC := 1 } : READ_LOCALS), malloc_spectrograph E.NROW_FILE S1.2)
        else S1) = S2 at h
      have hS2 : S2.2.fp = S1.2.fp ∧ SameBins S1.2 S2.2 ∧
          S2.2.INPUTS_SPECTRO.NBIN_TEXPOSE = S1.2.INPUTS_SPECTRO.NBIN_TEXPOSE := by
        rw [← hS2]
        split_ifs
        · exact ⟨rfl, ⟨rfl, rfl, rfl, rfl⟩, rfl⟩
        · exact ⟨rfl, SameBins_refl _, rfl⟩
      obtain ⟨sf, ss, st⟩ := hS2
      by_cases hsp : c_get = "SPECBIN:".toList
      · rw [if_pos hsp] at h
        by_cases hn : S2.1.NKEY_FOUND < 3
        · simp [hn, throw, throwThe, MonadExceptOf.throw] at h
        · simp only [hn, if_false] at h
          cases hr : read_SPECBIN_spectrograph E M S2.2 with
          | error e =>
            simp only [hr] at h
            exact absurd h (by simp)
          | ok v =>
            simp only [hr, Except.ok.injEq] at h
            obtain ⟨rf, rc⟩ := read_SPECBIN_frame E M S2.2 v.2 v.1 hr
            rw [← h]
            refine ⟨?_, fun hc hx => rc (SameBins_counts ss st (kc hc hx))⟩
            show v.2.fp.length ≤ _
            exact le_trans rf (by rw [sf]; exact kf)
      · rw [if_neg hsp] at h
        simp only [Except.ok.injEq] at h
        rw [← h]
        exact ⟨by rw [sf]; exact kf, fun hc hx => SameBins_counts ss st (kc hc hx)⟩

/-- The `while` loop of `read_spectrograph_text` ends: with more fuel than characters
left in the stream the loop returns. -/
theorem read_loop_total (E : READ_ENV K) (M : Libm K) :
    ∀ (fuel : Nat) (S : READ_LOCALS × SPECTRO_GLOBALS K), S.2.fp.length < fuel →
      ∃ r, read_loop E M fuel S = some r := by
  intro fuel
  induction fuel with
  | zero => intro S h; omega
  | succ fuel ih =>
    intro S h
    unfold read_loop
    cases hs : fscanf_s S.2.fp with
    | none => exact ⟨_, rfl⟩
    | some v =>
      obtain ⟨c_get, rest⟩ := v
      have hl := fscanf_s_length _ _ _ hs
      cases ht : read_token E M c_get (S.1, { S.2 with fp := rest }) with
      | error e =>
        simp only [ht]
        exact ⟨_, rfl⟩
      | ok S1 =>
        simp only [ht]
        have hf : S1.2.fp.length ≤ rest.length := (read_token_frame E M c_get _ S1 ht).1
        exact ih S1 (lt_of_le_of_lt hf (by omega))

/-- The count of failures is in step with the stored bins when the `while` loop ends. -/
theorem read_loop_counts (E : READ_ENV K) (M : Libm K) :
    ∀ (fuel : Nat) (S S' : READ_LOCALS × SPECTRO_GLOBALS K), CountsViolations S.2 →
      ExposureListBeforeBins E M fuel S → read_loop E M fuel S = some (.ok S') →
      CountsViolations S'.2 := by
  intro fuel
  induction fuel with
  | zero =>
    intro S S' _ _ h
    simp [read_loop] at h
  | succ fuel ih =>
    intro S S' hc hx h
    unfold read_loop at h
    unfold ExposureListBeforeBins at hx
    cases hs : fscanf_s S.2.fp with
    | none =>
      simp only [hs, Option.some.injEq, Except.ok.injEq] at h
      rw [← h]
      exact hc
    | some v =>
      obtain ⟨c_get, rest⟩ := v
      simp only [hs] at h hx
      cases ht : read_token E M c_get (S.1, { S.2 with fp := rest }) with
      | error e =>
        simp only [ht] at h
        exact absurd h (by simp)
      | ok S1 =>
        simp only [ht] at h hx
        have hc1 : CountsViolations S1.2 :=
          (read_token_frame E M c_get _ S1 ht).2
            (SameBins_counts (G := S.2) ⟨rfl, rfl, rfl, rfl⟩ rfl hc) hx.1
        exact ih S1 S' hc1 hx.2 h

theorem read_init_counts (E : READ_ENV K) (content : List Char) (G : SPECTRO_GLOBALS K) :
    CountsViolations (read_init E content G).2 := rfl

theorem read_init_fp (E : READ_ENV K) (content : List Char) (G : SPECTRO_GLOBALS K) :
    (read_init E content G).2.fp = content := rfl

theorem check_SNR_eq_ite (I : INPUTS_SPECTRO_DEF K) (l t : Nat) :
    check_SNR_SPECTROGRAPH I l t = if Violates I l t then 1 else 0 := by
  unfold check_SNR_SPECTROGRAPH Violates
  by_cases h0 : t = 0
  · subst h0; simp
  · have h1 : 1 ≤ t := Nat.one_le_iff_ne_zero.mpr h0
    by_cases a : I.SNR0 l t < I.SNR0 l (t - 1)
    · simp [h0, h1, a]
    · by_cases b : I.SNR1 l t < I.SNR1 l (t - 1)
      · simp [h0, h1, a, b]
      · simp [h0, h1, a, b]

theorem rowViolations_eq_sum (I : INPUTS_SPECTRO_DEF K) (l n : Nat) :
    rowViolations I l n = ∑ t in Finset.range n, if Violates I l t then 1 else 0 := by
  induction n with
  | zero => rfl
  | succ n ih =>
    rw [Finset.sum_range_succ, ← ih, ← check_SNR_eq_ite]
    rfl

theorem tableViolations_eq_sum (I : INPUTS_SPECTRO_DEF K) (nbt n : Nat) :
    tableViolations I nbt n
      = ∑ l in Finset.range n, ∑ t in Finset.range nbt, if Violates I l t then 1 else 0 := by
  induction n with
  | zero => rfl
  | succ n ih =>
    rw [Finset.sum_range_succ, ← ih, ← rowViolations_eq_sum]
    rfl

/-- The sum of the results of `check_SNR_SPECTROGRAPH` over the table is the number of
violating pairs. -/
theorem tableViolations_eq_card (I : INPUTS_SPECTRO_DEF K) :
    tableViolations I I.NBIN_TEXPOSE I.NBIN_LAM = (violatingPairs I).card := by
  rw [tableViolations_eq_sum, violatingPairs, Finset.card_filter, Finset.sum_product]

theorem mem_violatingPairs (I : INPUTS_SPECTRO_DEF K) (l t : Nat) :
    (l, t) ∈ violatingPairs I ↔ l < I.NBIN_LAM ∧ t < I.NBIN_TEXPOSE ∧ Violates I l t := by
  simp [violatingPairs, and_assoc]

theorem exposureListBeforeBins_iff (E : READ_ENV K) (M : Libm K) :
    ∀ (fuel : Nat) (S : READ_LOCALS × SPECTRO_GLOBALS K),
      exposureListBeforeBins E M fuel S = true ↔ ExposureListBeforeBins E M fuel S := by
  intro fuel
  induction fuel with
  | zero => intro S; simp [exposureListBeforeBins, ExposureListBeforeBins]
  | succ fuel ih =>
    intro S
    unfold exposureListBeforeBins ExposureListBeforeBins
    cases hs : fscanf_s S.2.fp with
    | none => simp
    | some v =>
      obtain ⟨c_get, rest⟩ := v
      cases ht : read_token E M c_get (S.1, { S.2 with fp := rest }) with
      | error e =>
        simp only [ht, Bool.and_true, Bool.or_eq_true, decide_eq_true_eq, and_true]
        tauto
      | ok S1 =>
        simp only [ht, Bool.and_eq_true, Bool.or_eq_true, decide_eq_true_eq, ih S1]
        tauto

set_option maxRecDepth 100000 in
/-- The load of `demoFile` completes with one bin, two exposure times and no failure of
the monotonicity check. -/
theorem demoFile_loads :
    (read_spectrograph_text (demoEnv ℚ) demoLibm (some demoFile) (demoGlobals ℚ)).map
      (fun r => r.toOption.map (fun G =>
        (G.INPUTS_SPECTRO.NBIN_LAM, G.INPUTS_SPECTRO.NBIN_TEXPOSE, G.NERR_SNR_SPECTROGRAPH,
         G.INPUTS_SPECTRO.INSTRUMENT_NAME)))
    = some (some (1, 2, 0, "DEMO")) := by
  decide!

set_option maxRecDepth 100000 in
/-- The values the load of `demoFile` stores. -/
theorem demoFile_values :
    (read_spectrograph_text (demoEnv ℚ) demoLibm (some demoFile) (demoGlobals ℚ)).map
      (fun r => r.toOption.map (fun G =>
         [G.INPUTS_SPECTRO.MAGREF_LIST 0, G.INPUTS_SPECTRO.MAGREF_LIST 1,
          G.INPUTS_SPECTRO.TEXPOSE_LIST 0, G.INPUTS_SPECTRO.TEXPOSE_LIST 1,
          G.INPUTS_SPECTRO.LAMMIN_LIST 0, G.INPUTS_SPECTRO.LAMMAX_LIST 0,
          G.INPUTS_SPECTRO.LAMSIGMA_LIST 0, G.INPUTS_SPECTRO.LAMAVG_LIST 0,
          G.INPUTS_SPECTRO.SNR0 0 0, G.INPUTS_SPECTRO.SNR1 0 0,
          G.INPUTS_SPECTRO.SNR0 0 1, G.INPUTS_SPECTRO.SNR1 0 1]))
    = some (some [(20 : ℚ), 22, 100, 1000, 4000, 4010, 2, 4005, 10, 8, 30, 25]) := by
  decide!

/-- The token loop of `read_TEXPOSE_LIST` keeps the entries below the current count in
non-decreasing order. -/
theorem read_TEXPOSE_tokens_sorted (E : READ_ENV K) (toks : List (List Char)) :
    ∀ (NBT : Nat) (G : SPECTRO_GLOBALS K) (n : Nat) (G' : SPECTRO_GLOBALS K),
      (∀ i, 1 ≤ i → i < NBT →
        G.INPUTS_SPECTRO.TEXPOSE_LIST (i - 1) ≤ G.INPUTS_SPECTRO.TEXPOSE_LIST i) →
      read_TEXPOSE_tokens E toks NBT G = .ok (n, G') →
      NBT ≤ n ∧ ∀ i, 1 ≤ i → i < n →
        G'.INPUTS_SPECTRO.TEXPOSE_LIST (i - 1) ≤ G'.INPUTS_SPECTRO.TEXPOSE_LIST i := by
  induction toks with
  | nil =>
    intro NBT G n G' hs h
    simp only [read_TEXPOSE_tokens, Except.ok.injEq, Prod.mk.injEq] at h
    rw [← h.1, ← h.2]
    exact ⟨le_refl _, hs⟩
  | cons cval rest ih =>
    intro NBT G n G' hs h
    unfold read_TEXPOSE_tokens at h
    by_cases hcm : cval.head? = some '#' ∨ cval.head? = some '%' ∨ cval.head? = some '!'
        ∨ cval.head? = some '\r'
    · rw [if_pos hcm] at h
      simp only [Except.ok.injEq, Prod.mk.injEq] at h
      rw [← h.1, ← h.2]
      exact ⟨le_refl _, hs⟩
    · rw [if_neg hcm] at h
      obtain ⟨G1, hG1, h⟩ : ∃ G1 : SPECTRO_GLOBALS K,
          (∀ i, i ≠ NBT → G1.INPUTS_SPECTRO.TEXPOSE_LIST i = G.INPUTS_SPECTRO.TEXPOSE_LIST i) ∧
          (if NBT > 0 ∧ G1.INPUTS_SPECTRO.TEXPOSE_LIST NBT
              < G1.INPUTS_SPECTRO.TEXPOSE_LIST (NBT - 1)
           then (.error (Abort.fatal "read_TEXPOSE_LIST"
             "TEXPOSE_LIST must be in increasing order.", G1) :
               Run (SPECTRO_GLOBALS K) (Nat × SPECTRO_GLOBALS K))
           else read_TEXPOSE_tokens E rest (NBT + 1) G1) = .ok (n, G') := by
        refine ⟨_, ?_, h⟩
        intro i hi
        split_ifs
        · split
          · exact Function.update_noteq hi _ _
          · rfl
        · rfl
      split_ifs at h with hdec
      have hs1 : ∀ i, 1 ≤ i → i < NBT + 1 →
          G1.INPUTS_SPECTRO.TEXPOSE_LIST (i - 1) ≤ G1.INPUTS_SPECTRO.TEXPOSE_LIST i := by
        intro i h1 hi
        rcases Nat.lt_succ_iff_lt_or_eq.mp hi with hlt | heq
        · rw [hG1 i (by omega), hG1 (i - 1) (by omega)]
          exact hs i h1 hlt
        · subst heq
          push_neg at hdec
          exact hdec (by omega)
      obtain ⟨hn, hr⟩ := ih (NBT + 1) G1 n G' hs1 h
      exact ⟨by omega, hr⟩

/-- The token loop of `read_TEXPOSE_LIST` stops with the fatal error at the first value
that is less than the one before it.  `vs` are the values of the tokens `pre`; when
`NBT > 0` the entry `TEXPOSE_LIST[NBT-1]` counts as the value before the first token. -/
theorem read_TEXPOSE_tokens_decreasing (E : READ_ENV K) (rest : List (List Char)) :
    ∀ (pre : List (List Char)) (vs : List K) (NBT : Nat) (G : SPECTRO_GLOBALS K),
      List.Forall₂ (fun tok v =>
        ¬ (tok.head? = some '#' ∨ tok.head? = some '%' ∨ tok.head? = some '!'
          ∨ tok.head? = some '\r') ∧ sscanf_le E.strtod tok = some v) pre vs →
      NBT + vs.length ≤ E.MXTEXPOSE_SPECTROGRAPH →
      (if NBT = 0 then ¬ List.Chain' (fun a b => a ≤ b) vs
       else ¬ List.Chain (fun a b => a ≤ b) (G.INPUTS_SPECTRO.TEXPOSE_LIST (NBT - 1)) vs) →
      ∃ G', read_TEXPOSE_tokens E (pre ++ rest) NBT G
        = .error (Abort.fatal "read_TEXPOSE_LIST" "TEXPOSE_LIST must be in increasing order.", G') := by
  intro pre
  induction pre with
  | nil =>
    intro vs NBT G hf _ hc
    cases hf
    split_ifs at hc
    · exact absurd List.chain'_nil hc
    · exact absurd List.Chain.nil hc
  | cons tok pre ih =>
    intro vs NBT G hf hlen hc
    cases hf with
    | cons hhd htl =>
      rename_i v vs
      obtain ⟨hcm, hv⟩ := hhd
      simp only [List.length_cons] at hlen
      have hlt : NBT < E.MXTEXPOSE_SPECTROGRAPH := by omega
      rw [List.cons_append]
      unfold read_TEXPOSE_tokens
      rw [if_neg hcm]
      simp only [hlt, if_true, hv]
      by_cases hdec : NBT > 0 ∧ Function.update G.INPUTS_SPECTRO.TEXPOSE_LIST NBT v NBT
          < Function.update G.INPUTS_SPECTRO.TEXPOSE_LIST NBT v (NBT - 1)
      · rw [if_pos hdec]
        exact ⟨_, rfl⟩
      · rw [if_neg hdec]
        apply ih vs (NBT + 1) _ htl (by omega)
        rw [if_neg (Nat.succ_ne_zero NBT)]
        show ¬ List.Chain (fun a b => a ≤ b)
          (Function.update G.INPUTS_SPECTRO.TEXPOSE_LIST NBT v NBT) vs
        rw [Function.update_same]
        intro hch
        by_cases h0 : NBT = 0
        · rw [if_pos h0] at hc
          exact hc hch
        · rw [if_neg h0] at hc
          apply hc
          refine List.Chain.cons ?_ hch
          simp only [Function.update_same] at hdec
          rw [Function.update_noteq (by omega)] at hdec
          push_neg at hdec
          exact hdec (Nat.pos_of_ne_zero h0)

/-- What the loop over the three header keys has done when it completes: the token is one
of the three keys and its values have been read, or it is none of them and nothing has
changed. -/
theorem read_keys_cases (E : READ_ENV K) (c_get : List Char)
    (S S1 : READ_LOCALS × SPECTRO_GLOBALS K) (h : forLoop 3 (read_key E c_get) S = .ok S1) :
    (c_get = "INSTRUMENT:".toList ∧ ∃ name : String,
      S1 = (foundKey S.1 0, { S.2 with fp := (readchar S.2.fp).2, INPUTS_SPECTRO :=
        { S.2.INPUTS_SPECTRO with INSTRUMENT_NAME := name } })) ∨
    (c_get = "MAGREF_LIST:".toList ∧
      S1 = (foundKey S.1 1, { S.2 with
        fp := (readdouble E.strtod S.2.fp 2 S.2.INPUTS_SPECTRO.MAGREF_LIST).2
        INPUTS_SPECTRO := { S.2.INPUTS_SPECTRO with
          MAGREF_LIST := (readdouble E.strtod S.2.fp 2 S.2.INPUTS_SPECTRO.MAGREF_LIST).1 } })) ∨
    (c_get = "TEXPOSE_LIST:".toList ∧ ∃ NBT G1, read_TEXPOSE_LIST E S.2 = .ok (NBT, G1) ∧
      S1 = ({ foundKey S.1 2 with NBT := NBT }, G1)) ∨
    (c_get ≠ "INSTRUMENT:".toList ∧ c_get ≠ "MAGREF_LIST:".toList ∧
      c_get ≠ "TEXPOSE_LIST:".toList ∧ S1 = S) := by
  have k0 : KEYREQ_LIST 0 = "INSTRUMENT:".toList := rfl
  have k1 : KEYREQ_LIST 1 = "MAGREF_LIST:".toList := rfl
  have k2 : KEYREQ_LIST 2 = "TEXPOSE_LIST:".toList := rfl
  have d01 : "INSTRUMENT:".toList ≠ "MAGREF_LIST:".toList := by decide
  have d02 : "INSTRUMENT:".toList ≠ "TEXPOSE_LIST:".toList := by decide
  have d12 : "MAGREF_LIST:".toList ≠ "TEXPOSE_LIST:".toList := by decide
  simp only [forLoop, bind, Except.bind] at h
  by_cases c0 : c_get = "INSTRUMENT:".toList
  · left
    refine ⟨c0, ?_⟩
    subst c0
    simp only [read_key, k0, k1, k2, if_true, if_neg d01, if_neg d02] at h
    cases hr : readchar S.2.fp with
    | mk o fp1 =>
      cases o with
      | none =>
        simp only [hr, Except.ok.injEq] at h
        exact ⟨S.2.INPUTS_SPECTRO.INSTRUMENT_NAME, h.symm⟩
      | some name =>
        simp only [hr, Except.ok.injEq] at h
        exact ⟨String.mk name, h.symm⟩
  · right
    by_cases c1 : c_get = "MAGREF_LIST:".toList
    · left
      refine ⟨c1, ?_⟩
      subst c1
      simp only [read_key, k0, k1, k2, if_neg d01.symm, if_neg d12, if_true,
        Nat.one_ne_zero, if_false, Except.ok.injEq] at h
      exact h.symm
    · right
      by_cases c2 : c_get = "TEXPOSE_LIST:".toList
      · left
        refine ⟨c2, ?_⟩
        subst c2
        simp only [read_key, k0, k1, k2, if_neg d02.symm, if_neg d12.symm, if_true] at h
        cases hr : read_TEXPOSE_LIST E S.2 with
        | error e =>
          simp [hr] at h
        | ok v =>
          obtain ⟨NBT, G1⟩ := v
          simp [hr] at h
          exact ⟨NBT, G1, rfl, h.symm⟩
      · right
        simp only [read_key, k0, k1, k2, if_neg c0, if_neg c1, if_neg c2, Except.ok.injEq] at h
        exact ⟨c0, c1, c2, h.symm⟩

/-- What one pass of the `while` loop of `read_spectrograph_text` has done when it
completes. -/
theorem read_token_cases (E : READ_ENV K) (M : Libm K) (c_get : List Char)
    (S S' : READ_LOCALS × SPECTRO_GLOBALS K) (h : read_token E M c_get S = .ok S') :
    (isCommentKey c_get ∧ S' = (S.1, { S.2 with fp := (fgets 80 S.2.fp).2 })) ∨
    (¬ isCommentKey c_get ∧ ∃ S1, forLoop 3 (read_key E c_get) S = .ok S1 ∧
      ((c_get ≠ "SPECBIN:".toList ∧ S' = afterMalloc E S1) ∨
       (c_get = "SPECBIN:".toList ∧ 3 ≤ (afterMalloc E S1).1.NKEY_FOUND ∧
        ∃ NBL G3, read_SPECBIN_spectrograph E M (afterMalloc E S1).2 = .ok (NBL, G3) ∧
          S' = ({ (afterMalloc E S1).1 with NBL := NBL }, G3)))) := by
  unfold read_token at h
  by_cases hcm : c_get.head? = some '#' ∨ c_get.head? = some '!' ∨ c_get.head? = some '%'
  · left
    simp only [hcm, if_true, pure, Except.pure, bind, Except.bind, Except.ok.injEq] at h
    exact ⟨hcm, h.symm⟩
  · right
    refine ⟨hcm, ?_⟩
    cases hk : forLoop 3 (read_key E c_get) S with
    | error e =>
      simp only [hcm, if_false, pure, Except.pure, bind, Except.bind, hk] at h
      exact absurd h (by simp)
    | ok S1 =>
      refine ⟨S1, rfl, ?_⟩
      simp only [hcm, if_false, pure, Except.pure, bind, Except.bind, hk] at h
      change (if c_get = "SPECBIN:".toList then _ else Except.ok (afterMalloc E S1)) = _ at h
      by_cases hsp : c_get = "SPECBIN:".toList
      · right
        rw [if_pos hsp] at h
        by_cases hn : (afterMalloc E S1).1.NKEY_FOUND < 3
        · exfalso
          have hn' : (if S1.1.NKEY_FOUND = 3 ∧ S1.1.DONE_MALLOC = 0 then
              (({ S1.1 with DONE_MALLOC := 1 } : READ_LOCALS), malloc_spectrograph E.NROW_FILE S1.2)
              else S1).1.NKEY_FOUND < 3 := hn
          simp [hn', throw, throwThe, MonadExceptOf.throw] at h
        · refine ⟨hsp, by omega, ?_⟩
          have hn' : ¬ (if S1.1.NKEY_FOUND = 3 ∧ S1.1.DONE_MALLOC = 0 then
              (({ S1.1 with DONE_MALLOC := 1 } : READ_LOCALS), malloc_spectrograph E.NROW_FILE S1.2)
              else S1).1.NKEY_FOUND < 3 := hn
          simp only [hn', if_false] at h
          cases hr : read_SPECBIN_spectrograph E M (afterMalloc E S1).2 with
          | error e =>
            have hr' := hr
            unfold afterMalloc at hr'
            simp only [hr'] at h
            exact absurd h (by simp)
          | ok v =>
            have hr' := hr
            unfold afterMalloc at hr'
            simp only [hr', Except.ok.injEq] at h
            exact ⟨v.1, v.2, rfl, h.symm⟩
      · left
        rw [if_neg hsp] at h
        simp only [Except.ok.injEq] at h
        exact ⟨hsp, h.symm⟩

/-- An invariant of the passes of the `while` loop of `read_spectrograph_text` holds when
the loop ends. -/
theorem read_loop_inv (E : READ_ENV K) (M : Libm K)
    (P : READ_LOCALS × SPECTRO_GLOBALS K → Prop)
    (hstep : ∀ (c_get rest : List Char) (S S1 : READ_LOCALS × SPECTRO_GLOBALS K), P S →
      fscanf_s S.2.fp = some (c_get, rest) →
      read_token E M c_get (S.1, { S.2 with fp := rest }) = .ok S1 → P S1) :
    ∀ (fuel : Nat) (S S' : READ_LOCALS × SPECTRO_GLOBALS K), P S →
      read_loop E M fuel S = some (.ok S') → P S' := by
  intro fuel
  induction fuel with
  | zero =>
    intro S S' _ h
    simp [read_loop] at h
  | succ fuel ih =>
    intro S S' hP h
    unfold read_loop at h
    cases hs : fscanf_s S.2.fp with
    | none =>
      simp only [hs, Option.some.injEq, Except.ok.injEq] at h
      rw [← h]
      exact hP
    | some v =>
      obtain ⟨c_get, rest⟩ := v
      simp only [hs] at h
      cases ht : read_token E M c_get (S.1, { S.2 with fp := rest }) with
      | error e =>
        simp only [ht] at h
        exact absurd h (by simp)
      | ok S1 =>
        simp only [ht] at h
        exact ih S1 S' (hstep c_get rest S S1 hP hs ht) h

/-- The loop over `t` of `PARSE_XTMP` changes `SNR0`, `SNR1` and the count of failures
only. -/
theorem parse_loop_shape (E : READ_ENV K) (XTMP : Nat → K) (NBL : Nat)
    (G1 : SPECTRO_GLOBALS K) (k : Nat) :
    ∃ (s0 s1 : Nat → Nat → K) (n : Nat),
      loopPure k (fun (t : Nat) (g : SPECTRO_GLOBALS K) =>
        ({ g with
            INPUTS_SPECTRO := { g.INPUTS_SPECTRO with
              SNR0 := set2 g.INPUTS_SPECTRO.SNR0 NBL t (XTMP (E.NCOL_noSNR + 2 * t))
              SNR1 := set2 g.INPUTS_SPECTRO.SNR1 NBL t (XTMP (E.NCOL_noSNR + 2 * t + 1)) }
            NERR_SNR_SPECTROGRAPH := g.NERR_SNR_SPECTROGRAPH +
              check_SNR_SPECTROGRAPH { g.INPUTS_SPECTRO with
                SNR0 := set2 g.INPUTS_SPECTRO.SNR0 NBL t (XTMP (E.NCOL_noSNR + 2 * t))
                SNR1 := set2 g.INPUTS_SPECTRO.SNR1 NBL t (XTMP (E.NCOL_noSNR + 2 * t + 1)) }
                NBL t } : SPECTRO_GLOBALS K)) G1
      = { G1 with NERR_SNR_SPECTROGRAPH := n
                  INPUTS_SPECTRO := { G1.INPUTS_SPECTRO with SNR0 := s0, SNR1 := s1 } } := by
  induction k with
  | zero => exact ⟨_, _, _, rfl⟩
  | succ k ih =>
    obtain ⟨s0, s1, n, h⟩ := ih
    unfold loopPure
    rw [h]
    exact ⟨_, _, _, rfl⟩

/-- A completed `PARSE_XTMP` has stored the row `XTMP` as bin `NBIN_LAM`. -/
theorem PARSE_XTMP_shape (E : READ_ENV K) (XTMP : Nat → K) (G G' : SPECTRO_GLOBALS K) (n : Nat)
    (h : PARSE_XTMP E XTMP G = .ok (n, G')) :
    XTMP 0 ≤ XTMP 1 ∧ ∃ s0 s1 m, G' = storedRow E XTMP G s0 s1 m := by
  unfold PARSE_XTMP at h
  by_cases hx : XTMP 1 < XTMP 0
  · simp [hx, bind, Except.bind, throw, throwThe, MonadExceptOf.throw] at h
  · simp only [hx, if_false, bind, Except.bind, pure, Except.pure, Except.ok.injEq,
      Prod.mk.injEq] at h
    refine ⟨not_lt.mp hx, ?_⟩
    obtain ⟨s0, s1, m, hs⟩ := parse_loop_shape E XTMP G.INPUTS_SPECTRO.NBIN_LAM
      ({ G with INPUTS_SPECTRO := { G.INPUTS_SPECTRO with
        LAMMIN_LIST := Function.update G.INPUTS_SPECTRO.LAMMIN_LIST G.INPUTS_SPECTRO.NBIN_LAM (XTMP 0)
        LAMMAX_LIST := Function.update G.INPUTS_SPECTRO.LAMMAX_LIST G.INPUTS_SPECTRO.NBIN_LAM (XTMP 1)
        LAMSIGMA_LIST := Function.update G.INPUTS_SPECTRO.LAMSIGMA_LIST G.INPUTS_SPECTRO.NBIN_LAM (XTMP 2)
        LAMAVG_LIST := Function.update G.INPUTS_SPECTRO.LAMAVG_LIST G.INPUTS_SPECTRO.NBIN_LAM
          ((XTMP 0 + XTMP 1) / 2.0)
        LAMBIN_LIST := Function.update G.INPUTS_SPECTRO.LAMBIN_LIST G.INPUTS_SPECTRO.NBIN_LAM
          (XTMP 1 - XTMP 0) } } : SPECTRO_GLOBALS K)
      G.INPUTS_SPECTRO.NBIN_TEXPOSE
    refine ⟨s0, s1, m, ?_⟩
    rw [← h.2]
    have hs' := congrArg (fun g : SPECTRO_GLOBALS K =>
      reset_VALUES_SPECBIN E { g with INPUTS_SPECTRO := { g.INPUTS_SPECTRO with
        NBIN_LAM := G.INPUTS_SPECTRO.NBIN_LAM + 1
        LAM_MIN := if G.INPUTS_SPECTRO.NBIN_LAM + 1 = 1 then XTMP 0
          else g.INPUTS_SPECTRO.LAM_MIN
        LAM_MAX := XTMP 1 } }) hs
    exact hs'

/-- An abort of `PARSE_XTMP` is the fatal error for `LAMMAX < LAMMIN`, and nothing has
been stored. -/
theorem PARSE_XTMP_error (E : READ_ENV K) (XTMP : Nat → K) (G : SPECTRO_GLOBALS K)
    (e : Abort × SPECTRO_GLOBALS K) :
    PARSE_XTMP E XTMP G = .error e ↔
      XTMP 1 < XTMP 0 ∧
        e = (Abort.fatal "read_SPECBIN_spectrograph" "LAMMAX < LAMMIN ???", G) := by
  unfold PARSE_XTMP
  by_cases hx : XTMP 1 < XTMP 0
  · simp [hx, bind, Except.bind, throw, throwThe, MonadExceptOf.throw, eq_comm]
  · simp [hx, bind, Except.bind, pure, Except.pure]

/-- The three ways of `read_SPECBIN_spectrograph`: no rebinning, a row inside a group,
and the row that completes a group. -/
theorem read_SPECBIN_eq (E : READ_ENV K) (M : Libm K) (G : SPECTRO_GLOBALS K) :
    read_SPECBIN_spectrograph E M G =
      (let NRDCOL := E.NCOL_noSNR + 2 * G.INPUTS_SPECTRO.NBIN_TEXPOSE
       let XTMP := (readdouble E.strtod G.fp NRDCOL E.XTMP_INIT).1
       let fp1 := (readdouble E.strtod G.fp NRDCOL E.XTMP_INIT).2
       let NBMOD := Int.tmod ((G.INPUTS_SPECTRO.NBIN_LAM_noREBIN + 1 : Nat) : Int)
         G.INPUTS_SPECTRO.NREBIN_LAM
       let V := accumulateRow E M G.INPUTS_SPECTRO.NBIN_TEXPOSE NBMOD XTMP G.VALUES_SPECBIN
       if G.INPUTS_SPECTRO.NREBIN_LAM = 1 then PARSE_XTMP E XTMP { G with fp := fp1 }
       else if G.INPUTS_SPECTRO.NREBIN_LAM = 0 then
         .error (Abort.undefined "NBIN_LAM_noREBIN % 0",
           countedRow fp1 G.VALUES_SPECBIN G)
       else if NBMOD ≠ 0 then .ok (G.INPUTS_SPECTRO.NBIN_LAM, countedRow fp1 V G)
       else PARSE_XTMP E (fun jtmp => if jtmp < NRDCOL then V jtmp else XTMP jtmp)
         (countedRow fp1 V G)) := by
  unfold read_SPECBIN_spectrograph
  by_cases h1 : G.INPUTS_SPECTRO.NREBIN_LAM = 1
  · simp only [h1, if_true]
  · by_cases h0 : G.INPUTS_SPECTRO.NREBIN_LAM = 0
    · simp [h1, h0, bind, Except.bind, throw, throwThe, MonadExceptOf.throw, countedRow]
    · simp only [h1, h0, if_false, bind, Except.bind, pure, Except.pure]
      rfl

/-- The token loop of `read_TEXPOSE_LIST` changes `TEXPOSE_LIST` only. -/
theorem read_TEXPOSE_tokens_shape (E : READ_ENV K) (toks : List (List Char)) :
    ∀ (NBT : Nat) (G : SPECTRO_GLOBALS K) (n : Nat) (G' : SPECTRO_GLOBALS K),
      read_TEXPOSE_tokens E toks NBT G = .ok (n, G') →
      ∃ T, G' = { G with INPUTS_SPECTRO := { G.INPUTS_SPECTRO with TEXPOSE_LIST := T } } := by
  induction toks with
  | nil =>
    intro NBT G n G' h
    simp only [read_TEXPOSE_tokens, Except.ok.injEq, Prod.mk.injEq] at h
    exact ⟨_, h.2.symm⟩
  | cons cval rest ih =>
    intro NBT G n G' h
    unfold read_TEXPOSE_tokens at h
    by_cases hcm : cval.head? = some '#' ∨ cval.head? = some '%' ∨ cval.head? = some '!'
        ∨ cval.head? = some '\r'
    · rw [if_pos hcm] at h
      simp only [Except.ok.injEq, Prod.mk.injEq] at h
      exact ⟨_, h.2.symm⟩
    · rw [if_neg hcm] at h
      obtain ⟨G1, hG1, h⟩ : ∃ G1 : SPECTRO_GLOBALS K,
          (∃ T, G1 = { G with INPUTS_SPECTRO := { G.INPUTS_SPECTRO with TEXPOSE_LIST := T } }) ∧
          (if NBT > 0 ∧ G1.INPUTS_SPECTRO.TEXPOSE_LIST NBT
              < G1.INPUTS_SPECTRO.TEXPOSE_LIST (NBT - 1)
           then (.error (Abort.fatal "read_TEXPOSE_LIST"
             "TEXPOSE_LIST must be in increasing order.", G1) :
               Run (SPECTRO_GLOBALS K) (Nat × SPECTRO_GLOBALS K))
           else read_TEXPOSE_tokens E rest (NBT + 1) G1) = .ok (n, G') := by
        refine ⟨_, ?_, h⟩
        split_ifs
        · split
          · exact ⟨_, rfl⟩
          · exact ⟨_, rfl⟩
        · exact ⟨_, rfl⟩
      split_ifs at h
      obtain ⟨T1, rfl⟩ := hG1
      obtain ⟨T, hT⟩ := ih _ _ _ _ h
      exact ⟨T, hT⟩

/-- A completed `read_TEXPOSE_LIST`: the line is consumed, the list `T` of `n` exposure
times is stored in non-decreasing order, with `n` below the maximum. -/
theorem read_TEXPOSE_LIST_shape (E : READ_ENV K) (G G' : SPECTRO_GLOBALS K) (n : Nat)
    (h : read_TEXPOSE_LIST E G = .ok (n, G')) :
    n < E.MXTEXPOSE_SPECTROGRAPH ∧ ∃ T : Nat → K,
      (∀ i, 1 ≤ i → i < n → T (i - 1) ≤ T i) ∧
      G' = { G with
        fp := (fgets 400 G.fp).2
        INPUTS_SPECTRO := { G.INPUTS_SPECTRO with
          TEXPOSE_LIST := T
          NBIN_TEXPOSE := n
          TEXPOSE_MIN := T 0
          TEXPOSE_MAX := T (n - 1) } } := by
  unfold read_TEXPOSE_LIST at h
  cases heq : read_TEXPOSE_tokens E (strtok_blank [] (fgets 400 G.fp).1) 0
      { G with fp := (fgets 400 G.fp).2 } with
  | error e =>
    simp only [bind, Except.bind, heq] at h
    exact absurd h (by simp)
  | ok v =>
    obtain ⟨NBT, G1⟩ := v
    obtain ⟨T, hT⟩ := read_TEXPOSE_tokens_shape E _ _ _ _ _ heq
    obtain ⟨_, hs⟩ := read_TEXPOSE_tokens_sorted E _ 0 _ _ _ (fun i _ hi => absurd hi (by omega)) heq
    simp only [bind, Except.bind, heq] at h
    by_cases hm : NBT ≥ E.MXTEXPOSE_SPECTROGRAPH
    · simp [hm, throw, throwThe, MonadExceptOf.throw] at h
    · simp only [hm, if_false, pure, Except.pure, Except.ok.injEq, Prod.mk.injEq] at h
      obtain ⟨hn, hG⟩ := h
      subst hn
      subst hT
      exact ⟨by omega, T, hs, hG.symm⟩

/-- An abort of `read_TEXPOSE_LIST` is one of its two fatal errors. -/
theorem read_TEXPOSE_tokens_error (E : READ_ENV K) (toks : List (List Char)) :
    ∀ (NBT : Nat) (G : SPECTRO_GLOBALS K) (e : Abort × SPECTRO_GLOBALS K),
      read_TEXPOSE_tokens E toks NBT G = .error e →
      e.1 = Abort.fatal "read_TEXPOSE_LIST" "TEXPOSE_LIST must be in increasing order." := by
  induction toks with
  | nil =>
    intro NBT G e h
    simp [read_TEXPOSE_tokens] at h
  | cons cval rest ih =>
    intro NBT G e h
    unfold read_TEXPOSE_tokens at h
    by_cases hcm : cval.head? = some '#' ∨ cval.head? = some '%' ∨ cval.head? = some '!'
        ∨ cval.head? = some '\r'
    · rw [if_pos hcm] at h
      exact absurd h (by simp)
    · rw [if_neg hcm] at h
      dsimp only at h
      split_ifs at h
      all_goals first
        | exact ih _ _ _ h
        | (simp only [Except.error.injEq] at h
           rw [← h])

theorem read_TEXPOSE_LIST_error (E : READ_ENV K) (G : SPECTRO_GLOBALS K)
    (e : Abort × SPECTRO_GLOBALS K) (h : read_TEXPOSE_LIST E G = .error e) :
    e.1 = Abort.fatal "read_TEXPOSE_LIST" "TEXPOSE_LIST must be in increasing order." ∨
    e.1 = Abort.fatal "read_TEXPOSE_LIST" "Found too many TEXPOSE_LIST values" := by
  unfold read_TEXPOSE_LIST at h
  cases heq : read_TEXPOSE_tokens E (strtok_blank [] (fgets 400 G.fp).1) 0
      { G with fp := (fgets 400 G.fp).2 } with
  | error e1 =>
    simp only [bind, Except.bind, heq, Except.error.injEq] at h
    left
    rw [← h]
    exact read_TEXPOSE_tokens_error E _ _ _ _ heq
  | ok v =>
    obtain ⟨NBT, G1⟩ := v
    simp only [bind, Except.bind, heq] at h
    by_cases hm : NBT ≥ E.MXTEXPOSE_SPECTROGRAPH
    · simp only [hm, if_true, throw, throwThe, MonadExceptOf.throw, Except.error.injEq] at h
      right
      rw [← h]
    · simp [hm, pure, Except.pure] at h

/-- Storing a row with `LAMMAX ≥ LAMMIN` keeps the bins valid. -/
theorem storedRow_valid (E : READ_ENV K) (XTMP : Nat → K) (G : SPECTRO_GLOBALS K)
    (s0 s1 : Nat → Nat → K) (m : Nat) (hx : XTMP 0 ≤ XTMP 1)
    (hv : BinsValid G.INPUTS_SPECTRO) :
    BinsValid (storedRow E XTMP G s0 s1 m).INPUTS_SPECTRO := by
  obtain ⟨hb, hm⟩ := hv
  have e2 : (2.0 : K) = 2 := by norm_num
  refine ⟨?_, ?_⟩
  · intro l hl
    have hl' : l < G.INPUTS_SPECTRO.NBIN_LAM + 1 := hl
    show Function.update G.INPUTS_SPECTRO.LAMMIN_LIST G.INPUTS_SPECTRO.NBIN_LAM (XTMP 0) l
        ≤ Function.update G.INPUTS_SPECTRO.LAMMAX_LIST G.INPUTS_SPECTRO.NBIN_LAM (XTMP 1) l ∧
      Function.update G.INPUTS_SPECTRO.LAMAVG_LIST G.INPUTS_SPECTRO.NBIN_LAM
          ((XTMP 0 + XTMP 1) / 2.0) l
        = (Function.update G.INPUTS_SPECTRO.LAMMIN_LIST G.INPUTS_SPECTRO.NBIN_LAM (XTMP 0) l
          + Function.update G.INPUTS_SPECTRO.LAMMAX_LIST G.INPUTS_SPECTRO.NBIN_LAM (XTMP 1) l) / 2 ∧
      Function.update G.INPUTS_SPECTRO.LAMBIN_LIST G.INPUTS_SPECTRO.NBIN_LAM (XTMP 1 - XTMP 0) l
        = Function.update G.INPUTS_SPECTRO.LAMMAX_LIST G.INPUTS_SPECTRO.NBIN_LAM (XTMP 1) l
          - Function.update G.INPUTS_SPECTRO.LAMMIN_LIST G.INPUTS_SPECTRO.NBIN_LAM (XTMP 0) l
    by_cases hln : l = G.INPUTS_SPECTRO.NBIN_LAM
    · subst hln
      simp only [Function.update_same, e2]
      exact ⟨hx, trivial, trivial⟩
    · simp only [Function.update_noteq hln]
      exact hb l (by omega)
  · intro _
    show (if G.INPUTS_SPECTRO.NBIN_LAM + 1 = 1 then XTMP 0 else G.INPUTS_SPECTRO.LAM_MIN)
        = Function.update G.INPUTS_SPECTRO.LAMMIN_LIST G.INPUTS_SPECTRO.NBIN_LAM (XTMP 0) 0 ∧
      XTMP 1 = Function.update G.INPUTS_SPECTRO.LAMMAX_LIST G.INPUTS_SPECTRO.NBIN_LAM (XTMP 1)
        (G.INPUTS_SPECTRO.NBIN_LAM + 1 - 1)
    refine ⟨?_, ?_⟩
    · by_cases h0 : G.INPUTS_SPECTRO.NBIN_LAM = 0
      · rw [h0]
        simp
      · rw [if_neg (by omega), Function.update_noteq (Ne.symm h0)]
        exact (hm (by omega)).1
    · rw [Nat.add_sub_cancel, Function.update_same]

/-- What a completed `read_SPECBIN_spectrograph` keeps: the count it returns is the number
of stored bins, which does not decrease; the exposure times stay as they are and the bins
stay valid. -/
theorem read_SPECBIN_inv (E : READ_ENV K) (M : Libm K) (G G' : SPECTRO_GLOBALS K) (n : Nat)
    (h : read_SPECBIN_spectrograph E M G = .ok (n, G')) :
    n = G'.INPUTS_SPECTRO.NBIN_LAM ∧
    G.INPUTS_SPECTRO.NBIN_LAM ≤ G'.INPUTS_SPECTRO.NBIN_LAM ∧
    G'.INPUTS_SPECTRO.NBIN_TEXPOSE = G.INPUTS_SPECTRO.NBIN_TEXPOSE ∧
    G'.INPUTS_SPECTRO.TEXPOSE_LIST = G.INPUTS_SPECTRO.TEXPOSE_LIST ∧
    (BinsValid G.INPUTS_SPECTRO → BinsValid G'.INPUTS_SPECTRO) := by
  rw [read_SPECBIN_eq] at h
  dsimp only at h
  split_ifs at h with h1 h0 hm
  · obtain ⟨hx, s0, s1, m, hG⟩ := PARSE_XTMP_shape E _ _ _ _ h
    obtain ⟨hn, _⟩ := PARSE_XTMP_ok E _ _ _ _ h
    subst hG
    exact ⟨hn, Nat.le_succ _, rfl, rfl, fun hv => storedRow_valid E _ _ s0 s1 m hx hv⟩
  · simp only [Except.ok.injEq, Prod.mk.injEq] at h
    obtain ⟨hn, hG⟩ := h
    subst hG
    exact ⟨hn.symm, le_refl _, rfl, rfl, fun hv => hv⟩
  · obtain ⟨hx, s0, s1, m, hG⟩ := PARSE_XTMP_shape E _ _ _ _ h
    obtain ⟨hn, _⟩ := PARSE_XTMP_ok E _ _ _ _ h
    subst hG
    exact ⟨hn, Nat.le_succ _, rfl, rfl, fun hv => storedRow_valid E _ _ s0 s1 m hx hv⟩

/-- The allocation keeps the invariant of the loop, and three keys found mean allocated
arrays after it. -/
theorem afterMalloc_inv (E : READ_ENV K) (S : READ_LOCALS × SPECTRO_GLOBALS K)
    (h1 : S.1.NBL = S.2.INPUTS_SPECTRO.NBIN_LAM)
    (h2 : 4 ≤ S.1.NKEY_FOUND → S.1.DONE_MALLOC ≠ 0)
    (h3 : S.1.DONE_MALLOC = 0 → S.2.INPUTS_SPECTRO.NBIN_LAM = 0)
    (h4 : TimesSorted S.2.INPUTS_SPECTRO) (h5 : BinsValid S.2.INPUTS_SPECTRO) :
    LoadInv (afterMalloc E S) := by
  unfold afterMalloc
  by_cases hm : S.1.NKEY_FOUND = 3 ∧ S.1.DONE_MALLOC = 0
  · rw [if_pos hm]
    have hz := h3 hm.2
    refine ⟨h1, fun _ => Nat.one_ne_zero, fun hc => absurd hc Nat.one_ne_zero, h4, ?_, ?_⟩
    · intro l hl
      have : l < S.2.INPUTS_SPECTRO.NBIN_LAM := hl
      omega
    · intro hl
      have : 1 ≤ S.2.INPUTS_SPECTRO.NBIN_LAM := hl
      omega
  · rw [if_neg hm]
    refine ⟨h1, ?_, h3, h4, h5⟩
    intro h3'
    by_cases h4' : 4 ≤ S.1.NKEY_FOUND
    · exact h2 h4'
    · intro hd
      exact hm ⟨by omega, hd⟩

/-- One pass of the `while` loop of `read_spectrograph_text` keeps the invariant. -/
theorem read_token_inv (E : READ_ENV K) (M : Libm K) (c_get : List Char)
    (S S' : READ_LOCALS × SPECTRO_GLOBALS K) (hI : LoadInv S)
    (h : read_token E M c_get S = .ok S') : LoadInv S' := by
  obtain ⟨i1, i2, i3, i4, i5⟩ := hI
  rcases read_token_cases E M c_get S S' h with ⟨_, hS⟩ | ⟨_, S1, hk, hrest⟩
  · subst hS
    exact ⟨i1, i2, i3, i4, i5⟩
  · have hS1 : LoadInv (afterMalloc E S1) ∧
        (c_get = "SPECBIN:".toList → S1 = S) := by
      rcases read_keys_cases E c_get S S1 hk with ⟨hc, name, hS⟩ | ⟨hc, hS⟩ |
        ⟨hc, NBT, G1, hT, hS⟩ | ⟨_, _, _, hS⟩
      · subst hS
        refine ⟨afterMalloc_inv E _ i1 (fun h4 => i2 ?_) i3 i4 i5, fun hsp => ?_⟩
        · have : 4 ≤ S.1.NKEY_FOUND + 1 := h4
          omega
        · rw [hsp] at hc
          exact absurd hc (by decide)
      · subst hS
        refine ⟨afterMalloc_inv E _ i1 (fun h4 => i2 ?_) i3 i4 i5, fun hsp => ?_⟩
        · have : 4 ≤ S.1.NKEY_FOUND + 1 := h4
          omega
        · rw [hsp] at hc
          exact absurd hc (by decide)
      · obtain ⟨_, T, hTs, hG1⟩ := read_TEXPOSE_LIST_shape E _ _ _ hT
        subst hS
        subst hG1
        refine ⟨afterMalloc_inv E _ i1 (fun h4 => i2 ?_) i3 hTs i5, fun hsp => ?_⟩
        · have : 4 ≤ S.1.NKEY_FOUND + 1 := h4
          omega
        · rw [hsp] at hc
          exact absurd hc (by decide)
      · subst hS
        exact ⟨afterMalloc_inv E _ i1 (fun h4 => i2 (by omega)) i3 i4 i5, fun _ => rfl⟩
    obtain ⟨⟨j1, j2, j3, j4, j5⟩, _⟩ := hS1
    rcases hrest with ⟨_, hS⟩ | ⟨_, h3, NBL, G3, hr, hS⟩
    · subst hS
      exact ⟨j1, j2, j3, j4, j5⟩
    · obtain ⟨r1, r2, r3, r4, r5⟩ := read_SPECBIN_inv E M _ _ _ hr
      subst hS
      refine ⟨r1, j2, ?_, ?_, r5 j5⟩
      · intro hd
        exact absurd hd (j2 h3)
      · intro i hi1 hi2
        have hi2' : i < G3.INPUTS_SPECTRO.NBIN_TEXPOSE := hi2
        rw [r3] at hi2'
        show G3.INPUTS_SPECTRO.TEXPOSE_LIST (i - 1) ≤ G3.INPUTS_SPECTRO.TEXPOSE_LIST i
        rw [r4]
        exact j4 i hi1 hi2'

theorem read_init_inv (E : READ_ENV K) (content : List Char) (G : SPECTRO_GLOBALS K) :
    LoadInv (read_init E content G) := by
  refine ⟨rfl, ?_, fun _ => rfl, ?_, ?_, ?_⟩
  · intro h
    have : 3 ≤ 0 := h
    omega
  · intro i _ hi
    have : i < 0 := hi
    omega
  · intro l hl
    have : l < 0 := hl
    omega
  · intro hl
    have : 1 ≤ 0 := hl
    omega

/-- The invariant holds when the `while` loop of `read_spectrograph_text` ends. -/
theorem read_loop_LoadInv (E : READ_ENV K) (M : Libm K) (content : List Char)
    (G : SPECTRO_GLOBALS K) (fuel : Nat) (S : READ_LOCALS × SPECTRO_GLOBALS K)
    (h : read_loop E M fuel (read_init E content G) = some (.ok S)) : LoadInv S :=
  read_loop_inv E M LoadInv
    (fun c_get rest S0 S1 hP _ ht =>
      read_token_inv E M c_get (S0.1, { S0.2 with fp := rest }) S1 hP ht)
    fuel _ S (read_init_inv E content G) h

/-- The function `read_SPECBIN_spectrograph` reads a row and goes on with it. -/
theorem read_SPECBIN_eq_row (E : READ_ENV K) (M : Libm K) (G : SPECTRO_GLOBALS K) :
    read_SPECBIN_spectrograph E M G =
      specbinRow E M
        (readdouble E.strtod G.fp (E.NCOL_noSNR + 2 * G.INPUTS_SPECTRO.NBIN_TEXPOSE)
          E.XTMP_INIT).1
        (readdouble E.strtod G.fp (E.NCOL_noSNR + 2 * G.INPUTS_SPECTRO.NBIN_TEXPOSE)
          E.XTMP_INIT).2 G :=
  read_SPECBIN_eq E M G

/-- The loop `for(jtmp=NCOL_noSNR; jtmp < NRDCOL; jtmp++)` of `read_SPECBIN_spectrograph`
after `m` iterations. -/
theorem quadrature_loop (E : READ_ENV K) (M : Libm K) (XTMP V : Nat → K) (m : Nat) (j : Nat) :
    loopPure m (fun i V =>
      Function.update V (E.NCOL_noSNR + i)
        (M.sqrt (V (E.NCOL_noSNR + i) * V (E.NCOL_noSNR + i)
          + XTMP (E.NCOL_noSNR + i) * XTMP (E.NCOL_noSNR + i)))) V j
      = if E.NCOL_noSNR ≤ j ∧ j < E.NCOL_noSNR + m then M.sqrt (V j * V j + XTMP j * XTMP j)
        else V j := by
  induction m generalizing j with
  | zero =>
    rw [if_neg (by omega)]
    rfl
  | succ m ih =>
    unfold loopPure
    by_cases hj : j = E.NCOL_noSNR + m
    · subst hj
      rw [Function.update_same, ih, if_neg (by omega), if_pos (by omega)]
    · rw [Function.update_noteq hj, ih]
      by_cases h1 : E.NCOL_noSNR ≤ j ∧ j < E.NCOL_noSNR + m
      · rw [if_pos h1, if_pos ⟨h1.1, by omega⟩]
      · rw [if_neg h1, if_neg]
        rintro ⟨a, b⟩
        exact h1 ⟨a, by omega⟩

/-- A row with `LAMMAX ≥ LAMMIN` is stored by `PARSE_XTMP`. -/
theorem PARSE_XTMP_stores (E : READ_ENV K) (XTMP : Nat → K) (G : SPECTRO_GLOBALS K)
    (hx : XTMP 0 ≤ XTMP 1) :
    ∃ G', PARSE_XTMP E XTMP G = .ok (G.INPUTS_SPECTRO.NBIN_LAM + 1, G') := by
  cases hr : PARSE_XTMP E XTMP G with
  | error e =>
    exact absurd ((PARSE_XTMP_error E XTMP G e).mp hr).1 (not_lt.mpr hx)
  | ok v =>
    obtain ⟨n, G'⟩ := v
    obtain ⟨hn, _⟩ := PARSE_XTMP_ok E XTMP G G' n hr
    rw [hn]
    exact ⟨G', rfl⟩

set_option maxRecDepth 100000 in
/-- The text reader on the file of the rebinning scenario, with the rebin factor 2: one
bin from 4000 to 4020 with the SNR 5 in both columns. -/
theorem rebinFile_loads :
    (read_spectrograph_text (demoEnv ℚ) demoLibm (some rebinFile)
        { demoGlobals ℚ with INPUTS_SPECTRO := { emptyTable ℚ with NREBIN_LAM := 2 } }).map
      (fun r => r.toOption.map (fun G => (G.INPUTS_SPECTRO.NBIN_LAM,
        [G.INPUTS_SPECTRO.LAMMIN_LIST 0, G.INPUTS_SPECTRO.LAMMAX_LIST 0,
         G.INPUTS_SPECTRO.SNR0 0 0, G.INPUTS_SPECTRO.SNR1 0 0])))
      = some (some (1, [(4000 : ℚ), 4020, 5, 5])) := by
  decide!

/-- An abort of `read_SPECBIN_spectrograph` leaves the stored bins as they are. -/
theorem read_SPECBIN_error_frame (E : READ_ENV K) (M : Libm K) (G : SPECTRO_GLOBALS K)
    (e : Abort × SPECTRO_GLOBALS K) (h : read_SPECBIN_spectrograph E M G = .error e) :
    e.2.INPUTS_SPECTRO.NBIN_LAM = G.INPUTS_SPECTRO.NBIN_LAM ∧
    e.2.INPUTS_SPECTRO.LAMMIN_LIST = G.INPUTS_SPECTRO.LAMMIN_LIST ∧
    e.2.INPUTS_SPECTRO.LAMMAX_LIST = G.INPUTS_SPECTRO.LAMMAX_LIST ∧
    e.2.INPUTS_SPECTRO.LAMAVG_LIST = G.INPUTS_SPECTRO.LAMAVG_LIST ∧
    e.2.INPUTS_SPECTRO.LAMSIGMA_LIST = G.INPUTS_SPECTRO.LAMSIGMA_LIST ∧
    e.2.INPUTS_SPECTRO.LAMBIN_LIST = G.INPUTS_SPECTRO.LAMBIN_LIST ∧
    e.2.INPUTS_SPECTRO.SNR0 = G.INPUTS_SPECTRO.SNR0 ∧
    e.2.INPUTS_SPECTRO.SNR1 = G.INPUTS_SPECTRO.SNR1 := by
  rw [read_SPECBIN_eq] at h
  dsimp only at h
  split_ifs at h with h1 h0 hm
  · obtain ⟨_, he⟩ := (PARSE_XTMP_error E _ _ e).mp h
    rw [he]
    exact ⟨rfl, rfl, rfl, rfl, rfl, rfl, rfl, rfl⟩
  · simp only [Except.error.injEq] at h
    rw [← h]
    exact ⟨rfl, rfl, rfl, rfl, rfl, rfl, rfl, rfl⟩
  · obtain ⟨_, he⟩ := (PARSE_XTMP_error E _ _ e).mp h
    rw [he]
    exact ⟨rfl, rfl, rfl, rfl, rfl, rfl, rfl, rfl⟩

set_option maxRecDepth 100000 in
/-- The file `unorderedFile`, whose second bin lies below the first, is loaded. -/
theorem unorderedFile_loads :
    (read_spectrograph_text (demoEnv ℚ) demoLibm (some unorderedFile) (demoGlobals ℚ)).map
      (fun r => r.toOption.map (fun G => (G.INPUTS_SPECTRO.NBIN_LAM,
        [G.INPUTS_SPECTRO.LAMMIN_LIST 0, G.INPUTS_SPECTRO.LAMMAX_LIST 0,
         G.INPUTS_SPECTRO.LAMMIN_LIST 1, G.INPUTS_SPECTRO.LAMMAX_LIST 1,
         G.INPUTS_SPECTRO.LAM_MIN, G.INPUTS_SPECTRO.LAM_MAX])))
      = some (some (2, [(4010 : ℚ), 4020, 4000, 4010, 4010, 4010])) := by
  decide!

/-- The strings after the pieces of a split have been written from index `i` on. -/
theorem storeSplit_spec (ps : List (List Char)) :
    ∀ (ptr : Nat → List Char) (i j : Nat),
      storeSplit ptr i ps j = if h : i ≤ j ∧ j < i + ps.length
        then ps.get ⟨j - i, by omega⟩ else ptr j := by
  induction ps with
  | nil =>
    intro ptr i j
    rw [dif_neg (by simp)]
    rfl
  | cons p ps ih =>
    intro ptr i j
    unfold storeSplit
    rw [ih]
    by_cases h1 : i + 1 ≤ j ∧ j < i + 1 + ps.length
    · rw [dif_pos h1, dif_pos ⟨by omega, by simp only [List.length_cons]; omega⟩]
      have e : j - i = (j - (i + 1)) + 1 := by omega
      simp only [e, List.get_cons_succ]
    · rw [dif_neg h1]
      by_cases hj : j = i
      · subst hj
        rw [Function.update_same, dif_pos ⟨le_refl _, by simp⟩]
        simp
      · rw [Function.update_noteq hj, dif_neg]
        rintro ⟨a, b⟩
        simp only [List.length_cons] at b
        exact h1 ⟨by omega, by omega⟩

/-- An option `rebin=N` sets the rebin factor to `N`. -/
theorem parse_option_rebin (O : OPT_ENV) (sopt : List Char) (N : Int)
    (st : (Nat → List Char) × INPUTS_SPECTRO_DEF K) (h : IsRebin O sopt N) :
    (parse_option O sopt st).2 = { st.2 with NREBIN_LAM := N } := by
  obtain ⟨val, rest, hs, hv⟩ := h
  unfold parse_option
  have h0 : storeSplit st.1 0 (splitString sopt '=') 0 = "rebin".toList := by
    rw [storeSplit_spec, hs, dif_pos ⟨le_refl _, by simp⟩]
    rfl
  have h1 : storeSplit st.1 0 (splitString sopt '=') 1 = val := by
    rw [storeSplit_spec, hs, dif_pos ⟨by omega, by simp⟩]
    rfl
  simp only [h0, h1, hv, if_true]

/-- An option with a key other than `rebin` leaves `INPUTS_SPECTRO` as it is. -/
theorem parse_option_other (O : OPT_ENV) (sopt : List Char)
    (st : (Nat → List Char) × INPUTS_SPECTRO_DEF K) (h : NotRebin sopt) :
    (parse_option O sopt st).2 = st.2 := by
  obtain ⟨key, rest, hs, hk⟩ := h
  unfold parse_option
  have h0 : storeSplit st.1 0 (splitString sopt '=') 0 = key := by
    rw [storeSplit_spec, hs, dif_pos ⟨le_refl _, by simp⟩]
    rfl
  simp only [h0, if_neg hk]

/-- Options with keys other than `rebin` leave `INPUTS_SPECTRO` as it is. -/
theorem parse_options_other (O : OPT_ENV) (post : List (List Char)) :
    ∀ (st : (Nat → List Char) × INPUTS_SPECTRO_DEF K), (∀ o, o ∈ post → NotRebin o) →
      (post.foldl (fun st sopt => parse_option O sopt st) st).2 = st.2 := by
  induction post with
  | nil => intro st _; rfl
  | cons o post ih =>
    intro st h
    rw [List.foldl_cons, ih _ (fun o' ho' => h o' (List.mem_cons_of_mem _ ho'))]
    exact parse_option_other O o st (h o (List.mem_cons_self _ _))

/-- The options parser changes the rebin factor only. -/
theorem parse_options_frame (O : OPT_ENV) (opts : List (List Char)) :
    ∀ (st : (Nat → List Char) × INPUTS_SPECTRO_DEF K),
      ∃ n, (opts.foldl (fun st sopt => parse_option O sopt st) st).2
        = { st.2 with NREBIN_LAM := n } := by
  induction opts with
  | nil => intro st; exact ⟨st.2.NREBIN_LAM, rfl⟩
  | cons o opts ih =>
    intro st
    rw [List.foldl_cons]
    obtain ⟨n, hn⟩ := ih (parse_option O o st)
    rw [hn]
    unfold parse_option
    dsimp only
    split_ifs
    · split
      · exact ⟨n, rfl⟩
      · exact ⟨n, rfl⟩
    · exact ⟨n, rfl⟩

/-- The options parser on three strings: `rebin=2`, a string with other keys around
`rebin=3`, and a string without the key `rebin`. -/
theorem parse_spectrograph_options_demo :
    (parse_spectrograph_options demoOpt "rebin=2".toList (emptyTable ℚ)).NREBIN_LAM = 2 ∧
    (parse_spectrograph_options demoOpt "foo=1,rebin=3,bar=5".toList (emptyTable ℚ)).NREBIN_LAM
      = 3 ∧
    (parse_spectrograph_options demoOpt "foo=7".toList (emptyTable ℚ)).NREBIN_LAM = 1 := by
  refine ⟨?_, ?_, ?_⟩ <;> decide!

/-- An invariant `P i` of a loop body that holds before the first pass holds after a
completed `forLoop`. -/
theorem forLoop_ok_ind {σ ε : Type} (body : Nat → σ → Except ε σ) (P : Nat → σ → Prop)
    (hstep : ∀ i s s', P i s → body i s = .ok s' → P (i + 1) s') :
    ∀ (n : Nat) (s s' : σ), P 0 s → forLoop n body s = .ok s' → P n s' := by
  intro n
  induction n with
  | zero =>
    intro s s' h0 h
    simp only [forLoop, Except.ok.injEq] at h
    rw [← h]
    exact h0
  | succ k ih =>
    intro s s' h0 h
    unfold forLoop at h
    simp only [bind, Except.bind] at h
    split at h
    · exact absurd h (by simp)
    · rename_i v heq
      exact hstep k v s' (ih s v h0 heq) h

/-- What a completed pass of the lambda loop of `get_FILTERtrans_spectrograph` has done:
the centre is stored, and the flux `F` of the bin is 0 or a value of `pow(TEN, .)`, in
which case `FLUX_MAX` is raised to it; `F` is 0 in the first and the last bin. -/
theorem FILTERtrans_bin_ok (M : Libm K) (interp_1DFUN : Interp K) (I : INPUTS_SPECTRO_DEF K)
    (LAMFILT_MIN LAMSTEP : K) (NBL_TRANS l : Nat) (st st' : FILTERtrans_LOOP K)
    (h : FILTERtrans_bin M interp_1DFUN I LAMFILT_MIN LAMSTEP NBL_TRANS l st = .ok st') :
    st'.LAMFILT_ARRAY = Function.update st.LAMFILT_ARRAY l (binCentre LAMFILT_MIN LAMSTEP l) ∧
    ∃ F, st'.FLUX_TMP = Function.update st.FLUX_TMP l F ∧
      ((F = 0 ∧ st'.FLUX_MAX = st.FLUX_MAX) ∨
       ((∃ y, F = M.pow TEN y) ∧
        st'.FLUX_MAX = if F > st.FLUX_MAX then F else st.FLUX_MAX)) ∧
      (l = 0 ∨ l = NBL_TRANS - 1 → F = 0) := by
  unfold FILTERtrans_bin at h
  cases hZP : FILTERtrans_ZP interp_1DFUN I NBL_TRANS l
      (LAMFILT_MIN + LAMSTEP * ((l : K) + 0.5)) with
  | error e =>
    simp only [bind, Except.bind, hZP] at h
    exact absurd h (by simp)
  | ok ZP =>
    simp only [bind, Except.bind, hZP, pure, Except.pure, Except.ok.injEq] at h
    rw [← h]
    refine ⟨rfl, _, rfl, ?_, ?_⟩
    · by_cases hz : ZP > 0.001
      · right
        simp only [hz, if_true, true_and]
        exact ⟨⟨_, rfl⟩, trivial⟩
      · left
        simp only [hz, if_false, false_and]
        norm_num
    · intro hl
      unfold FILTERtrans_ZP at hZP
      simp only [hl, if_true, Except.ok.injEq] at hZP
      have hz : ¬ ZP > 0.001 := by
        rw [← hZP]
        norm_num
      simp only [hz, if_false]
      norm_num

/-- A completed pass of the lambda loop keeps its invariant, when `pow(TEN, .)` is not
negative. -/
theorem FILTERtrans_bin_inv (M : Libm K) (interp_1DFUN : Interp K) (I : INPUTS_SPECTRO_DEF K)
    (LAMFILT_MIN LAMSTEP : K) (NBL_TRANS : Nat) (hpow : ∀ y, 0 ≤ M.pow TEN y)
    (k : Nat) (st st' : FILTERtrans_LOOP K)
    (hI : FluxInv LAMFILT_MIN LAMSTEP NBL_TRANS k st)
    (h : FILTERtrans_bin M interp_1DFUN I LAMFILT_MIN LAMSTEP NBL_TRANS k st = .ok st') :
    FluxInv LAMFILT_MIN LAMSTEP NBL_TRANS (k + 1) st' := by
  obtain ⟨i1, i2, i3, i4, i5⟩ := hI
  obtain ⟨hL, F, hF, hcase, hedge⟩ := FILTERtrans_bin_ok M interp_1DFUN I _ _ _ _ _ _ h
  have hF0 : 0 ≤ F := by
    rcases hcase with ⟨h0, _⟩ | ⟨⟨y, hy⟩, _⟩
    · rw [h0]
    · rw [hy]; exact hpow y
  have hmax : st.FLUX_MAX ≤ st'.FLUX_MAX ∧ F ≤ st'.FLUX_MAX ∧
      (st'.FLUX_MAX = st.FLUX_MAX ∨ st'.FLUX_MAX = F) := by
    rcases hcase with ⟨h0, hm⟩ | ⟨_, hm⟩
    · rw [hm, h0]
      exact ⟨le_refl _, i2, Or.inl rfl⟩
    · rw [hm]
      split_ifs with hgt
      · exact ⟨le_of_lt hgt, le_refl _, Or.inr rfl⟩
      · exact ⟨le_refl _, not_lt.mp hgt, Or.inl rfl⟩
  obtain ⟨m1, m2, m3⟩ := hmax
  refine ⟨?_, le_trans i2 m1, ?_, ?_, ?_⟩
  · intro l hl
    rw [hL]
    by_cases hlk : l = k
    · subst hlk
      rw [Function.update_same]
    · rw [Function.update_noteq hlk]
      exact i1 l (by omega)
  · intro l hl
    rw [hF]
    by_cases hlk : l = k
    · subst hlk
      rw [Function.update_same]
      exact ⟨hF0, m2⟩
    · rw [Function.update_noteq hlk]
      exact ⟨(i3 l (by omega)).1, le_trans (i3 l (by omega)).2 m1⟩
  · intro l hl he
    rw [hF]
    by_cases hlk : l = k
    · subst hlk
      rw [Function.update_same]
      exact hedge he
    · rw [Function.update_noteq hlk]
      exact i4 l (by omega) he
  · rcases m3 with hm | hm
    · rcases i5 with h0 | ⟨l, hl, hl2⟩
      · left
        rw [hm, h0]
      · by_cases hlk : l = k
        · omega
        · right
          refine ⟨l, by omega, ?_⟩
          rw [hF, Function.update_noteq hlk, hm]
          exact hl2
    · right
      refine ⟨k, Nat.lt_succ_self k, ?_⟩
      rw [hF, Function.update_same, hm]

/-- The grid size `NBL_TRANS` before the padding is `max(10, floor(LAMRANGE/5))`. -/
theorem truncInt_max [FloorRing K] (x : K) :
    (if truncInt x < 10 then (10 : Int) else truncInt x) = max 10 ⌊x⌋ := by
  unfold truncInt
  by_cases hx : 0 ≤ x
  · rw [if_pos hx]
    split_ifs with h
    · exact (max_eq_left (le_of_lt h)).symm
    · exact (max_eq_right (not_lt.mp h)).symm
  · rw [if_neg hx]
    have h1 : ⌈x⌉ ≤ 0 := Int.ceil_le.mpr (by exact_mod_cast le_of_lt (not_le.mp hx))
    have h2 : ⌊x⌋ ≤ 0 := le_trans (Int.floor_le_ceil x) h1
    rw [if_pos (by omega)]
    exact (max_eq_left (by omega)).symm

/-- A completed lambda loop has stored the centres of all its bins. -/
theorem FILTERtrans_loop_centres (M : Libm K) (interp_1DFUN : Interp K)
    (I : INPUTS_SPECTRO_DEF K) (LAMFILT_MIN LAMSTEP : K) (NBL_TRANS n : Nat)
    (st0 st : FILTERtrans_LOOP K)
    (h : forLoop n (FILTERtrans_bin M interp_1DFUN I LAMFILT_MIN LAMSTEP NBL_TRANS) st0
      = .ok st) :
    ∀ l, l < n → st.LAMFILT_ARRAY l = binCentre LAMFILT_MIN LAMSTEP l := by
  refine forLoop_ok_ind _
    (fun i (s : FILTERtrans_LOOP K) =>
      ∀ l, l < i → s.LAMFILT_ARRAY l = binCentre LAMFILT_MIN LAMSTEP l)
    ?_ n st0 st (fun l hl => absurd hl (by omega)) h
  intro i s s' hP hb l hl
  obtain ⟨hL, _⟩ := FILTERtrans_bin_ok M interp_1DFUN I _ _ _ _ _ _ hb
  rw [hL]
  by_cases hli : l = i
  · subst hli
    rw [Function.update_same]
  · rw [Function.update_noteq hli]
    exact hP l (by omega)

/-- A completed lambda loop that starts with `FLUX_MAX = 0` satisfies the invariant. -/
theorem FILTERtrans_loop_inv (M : Libm K) (interp_1DFUN : Interp K)
    (I : INPUTS_SPECTRO_DEF K) (LAMFILT_MIN LAMSTEP : K) (NBL_TRANS n : Nat)
    (hpow : ∀ y, 0 ≤ M.pow TEN y) (st0 st : FILTERtrans_LOOP K) (h0 : st0.FLUX_MAX = 0)
    (h : forLoop n (FILTERtrans_bin M interp_1DFUN I LAMFILT_MIN LAMSTEP NBL_TRANS) st0
      = .ok st) :
    FluxInv LAMFILT_MIN LAMSTEP NBL_TRANS n st := by
  refine forLoop_ok_ind _ (fun i s => FluxInv LAMFILT_MIN LAMSTEP NBL_TRANS i s)
    ?_ n st0 st ?_ h
  · intro i s s' hP hb
    exact FILTERtrans_bin_inv M interp_1DFUN I _ _ _ hpow i s s' hP hb
  · refine ⟨fun l hl => absurd hl (by omega), by rw [h0], fun l hl => absurd hl (by omega),
      fun l hl => absurd hl (by omega), Or.inl h0⟩

/-- What a completed `get_FILTERtrans_spectrograph` returns, in terms of the state `st` of
its lambda loop. -/
theorem get_FILTERtrans_ok [FloorRing K] (M : Libm K) (interp_1DFUN : Interp K)
    (I : INPUTS_SPECTRO_DEF K) (FLUX_TMP : Nat → K) (LMIN LMAX : K) (MXTRANS : Int)
    (LA TA : Nat → K) (out : FILTERtrans_OUT K)
    (h : get_FILTERtrans_spectrograph M interp_1DFUN I FLUX_TMP LMIN LMAX MXTRANS LA TA
      = .ok out) :
    gridBins LMIN LMAX < MXTRANS ∧
    ∃ st, forLoop (gridBins LMIN LMAX).toNat
        (FILTERtrans_bin M interp_1DFUN I (LMIN - gridStep LMIN LMAX) (gridStep LMIN LMAX)
          (gridBins LMIN LMAX).toNat)
        { FLUX_TMP := FLUX_TMP, FLUX_MAX := 0.0, LAMFILT_ARRAY := LA } = .ok st ∧
      ¬ st.FLUX_MAX < 1.0E-9 ∧
      out = { LAMFILT_MIN := LMIN - gridStep LMIN LMAX
              LAMFILT_MAX := LMAX + gridStep LMIN LMAX
              NBIN_LAMFILT := gridBins LMIN LMAX
              LAMFILT_ARRAY := st.LAMFILT_ARRAY
              TRANSFILT_ARRAY := fun l =>
                if l < (gridBins LMIN LMAX).toNat then st.FLUX_TMP l / st.FLUX_MAX
                else TA l } := by
  have e5 : (5.0 : K) = 5 := by norm_num
  have hb : (if truncInt ((LMAX - LMIN) / (5.0 : K)) < 10 then (10 : Int)
      else truncInt ((LMAX - LMIN) / (5.0 : K))) + 1 + 1 = gridBins LMIN LMAX := by
    rw [truncInt_max, e5]
    unfold gridBins
    omega
  have hn : (if truncInt ((LMAX - LMIN) / (5.0 : K)) < 10 then (10 : Int)
      else truncInt ((LMAX - LMIN) / (5.0 : K))) = gridBins LMIN LMAX - 2 := by
    omega
  have hs : (LMAX - LMIN) / (((if truncInt ((LMAX - LMIN) / (5.0 : K)) < 10 then (10 : Int)
      else truncInt ((LMAX - LMIN) / (5.0 : K)) : Int)) : K) = gridStep LMIN LMAX := by
    rw [hn]
    rfl
  unfold get_FILTERtrans_spectrograph at h
  simp only [hb, hs, bind, Except.bind, pure, Except.pure] at h
  by_cases hmx : gridBins LMIN LMAX ≥ MXTRANS
  · simp [hmx, throw, throwThe, MonadExceptOf.throw] at h
  · simp only [hmx, if_false] at h
    refine ⟨not_le.mp hmx, ?_⟩
    cases hl : forLoop (gridBins LMIN LMAX).toNat
        (FILTERtrans_bin M interp_1DFUN I (LMIN - gridStep LMIN LMAX) (gridStep LMIN LMAX)
          (gridBins LMIN LMAX).toNat)
        { FLUX_TMP := FLUX_TMP, FLUX_MAX := 0.0, LAMFILT_ARRAY := LA } with
    | error e =>
      simp only [hl] at h
      exact absurd h (by simp)
    | ok st =>
      simp only [hl] at h
      by_cases hf : st.FLUX_MAX < 1.0E-9
      · simp [hf, throw, throwThe, MonadExceptOf.throw] at h
      · simp only [hf, if_false, Except.ok.injEq] at h
        exact ⟨st, rfl, hf, h.symm⟩

set_option maxRecDepth 100000 in
/-- The filter transmission of `filterTable` for the range `[4000, 4020]`: 12 bins of width
2 from 3998 to 4022, the first centre 3999, transmission 0 in the first and the last bin
and 1 in the bins next to them. -/
theorem get_FILTERtrans_demo :
    (get_FILTERtrans_spectrograph demoLibm interp_1DFUN_linear (filterTable ℚ) (fun _ => 0)
        4000 4020 1000 (fun _ => 0) (fun _ => 0)).toOption.map
      (fun out => (out.NBIN_LAMFILT, [out.LAMFILT_MIN, out.LAMFILT_MAX, out.LAMFILT_ARRAY 0,
        out.LAMFILT_ARRAY 1, out.LAMFILT_ARRAY 10, out.TRANSFILT_ARRAY 0,
        out.TRANSFILT_ARRAY 1, out.TRANSFILT_ARRAY 10, out.TRANSFILT_ARRAY 11]))
      = some (12, [(3998 : ℚ), 4022, 3999, 4001, 4019, 0, 1, 1, 0]) := by
  decide!

/-- In an interior bin the zero point of the lambda loop is the clamped interpolation. -/
theorem FILTERtrans_ZP_interior (interp_1DFUN : Interp K) (I : INPUTS_SPECTRO_DEF K)
    (NBL_TRANS l : Nat) (LCEN : K) (h0 : 0 < l) (h1 : l < NBL_TRANS - 1) :
    FILTERtrans_ZP interp_1DFUN I NBL_TRANS l LCEN = clampedZP interp_1DFUN I LCEN := by
  unfold FILTERtrans_ZP clampedZP
  have h : ¬ (l = 0 ∨ l = NBL_TRANS - 1) := by omega
  simp only [if_neg h]

/-- In the first and the last bin the zero point of the lambda loop is 0. -/
theorem FILTERtrans_ZP_edge (interp_1DFUN : Interp K) (I : INPUTS_SPECTRO_DEF K)
    (NBL_TRANS l : Nat) (LCEN : K) (h : l = 0 ∨ l = NBL_TRANS - 1) :
    FILTERtrans_ZP interp_1DFUN I NBL_TRANS l LCEN = .ok 0 := by
  unfold FILTERtrans_ZP
  simp only [if_pos h]
  norm_num

/-- The pass of the lambda loop for bin `l`, in terms of the zero point of the bin. -/
theorem FILTERtrans_bin_eq (M : Libm K) (interp_1DFUN : Interp K) (I : INPUTS_SPECTRO_DEF K)
    (LAMFILT_MIN LAMSTEP : K) (NBL_TRANS l : Nat) (st : FILTERtrans_LOOP K) :
    FILTERtrans_bin M interp_1DFUN I LAMFILT_MIN LAMSTEP NBL_TRANS l st =
      match FILTERtrans_ZP interp_1DFUN I NBL_TRANS l (binCentre LAMFILT_MIN LAMSTEP l) with
      | .error e => .error e
      | .ok z => .ok
          { FLUX_TMP := Function.update st.FLUX_TMP l (binFlux M I z)
            FLUX_MAX := if z > 0.001 ∧ binFlux M I z > st.FLUX_MAX then binFlux M I z
              else st.FLUX_MAX
            LAMFILT_ARRAY := Function.update st.LAMFILT_ARRAY l
              (binCentre LAMFILT_MIN LAMSTEP l) } := by
  unfold FILTERtrans_bin binCentre
  cases hZP : FILTERtrans_ZP interp_1DFUN I NBL_TRANS l
      (LAMFILT_MIN + LAMSTEP * ((l : K) + 0.5)) with
  | error e => simp only [bind, Except.bind, hZP]
  | ok z =>
    simp only [bind, Except.bind, hZP, pure, Except.pure, binFlux]
    norm_num

/-- A completed lambda loop has found a zero point for each of its bins. -/
theorem FILTERtrans_loop_defined (M : Libm K) (interp_1DFUN : Interp K)
    (I : INPUTS_SPECTRO_DEF K) (LAMFILT_MIN LAMSTEP : K) (NBL_TRANS : Nat) :
    ∀ (n : Nat) (st0 st : FILTERtrans_LOOP K),
      forLoop n (FILTERtrans_bin M interp_1DFUN I LAMFILT_MIN LAMSTEP NBL_TRANS) st0 = .ok st →
      ∀ l, l < n →
        FILTERtrans_ZP interp_1DFUN I NBL_TRANS l (binCentre LAMFILT_MIN LAMSTEP l)
          = .ok (binZP interp_1DFUN I LAMFILT_MIN LAMSTEP NBL_TRANS l) := by
  intro n
  induction n with
  | zero =>
    intro st0 st _ l hl
    omega
  | succ n ih =>
    intro st0 st h l hl
    rw [forLoop, bind_ok_iff] at h
    obtain ⟨a, ha, hb⟩ := h
    by_cases hln : l = n
    · subst hln
      rw [FILTERtrans_bin_eq] at hb
      unfold binZP
      cases hz : FILTERtrans_ZP interp_1DFUN I NBL_TRANS l (binCentre LAMFILT_MIN LAMSTEP l) with
      | error e =>
        rw [hz] at hb
        exact absurd hb (by simp)
      | ok z => rfl
    · exact ih st0 a ha l (by omega)

/-- The lambda loop completes when the interpolator returns a zero point for each bin;
with `FLUX_MAX = 0` at the start the invariant `ZPInv` holds at the end. -/
theorem FILTERtrans_loop_run (M : Libm K) (interp_1DFUN : Interp K)
    (I : INPUTS_SPECTRO_DEF K) (LAMFILT_MIN LAMSTEP : K) (NBL_TRANS : Nat) (Z : Nat → K)
    (st0 : FILTERtrans_LOOP K) (h0 : st0.FLUX_MAX = 0) :
    ∀ n : Nat,
      (∀ l, l < n →
        FILTERtrans_ZP interp_1DFUN I NBL_TRANS l (binCentre LAMFILT_MIN LAMSTEP l)
          = .ok (Z l)) →
      ∃ st, forLoop n (FILTERtrans_bin M interp_1DFUN I LAMFILT_MIN LAMSTEP NBL_TRANS) st0
          = .ok st ∧ ZPInv M I Z n st := by
  intro n
  induction n with
  | zero =>
    intro _
    exact ⟨st0, rfl, fun l hl => absurd hl (by omega), fun l hl => absurd hl (by omega),
      Or.inl h0⟩
  | succ n ih =>
    intro hZ
    obtain ⟨a, ha, i1, i2, i3⟩ := ih (fun l hl => hZ l (by omega))
    have hb := FILTERtrans_bin_eq M interp_1DFUN I LAMFILT_MIN LAMSTEP NBL_TRANS n a
    rw [hZ n (Nat.lt_succ_self n)] at hb
    refine ⟨_, by rw [forLoop, ha]; exact hb, ?_, ?_, ?_⟩
    · intro l hl
      show Function.update a.FLUX_TMP n (binFlux M I (Z n)) l = _
      by_cases hln : l = n
      · subst hln
        rw [Function.update_same]
      · rw [Function.update_noteq hln]
        exact i1 l (by omega)
    · intro l hl hz
      show _ ≤ (if Z n > 0.001 ∧ binFlux M I (Z n) > a.FLUX_MAX then binFlux M I (Z n)
        else a.FLUX_MAX)
      by_cases hln : l = n
      · subst hln
        split_ifs with hc
        · exact le_refl _
        · exact not_lt.mp (fun hgt => hc ⟨hz, hgt⟩)
      · have := i2 l (by omega) hz
        split_ifs with hc
        · exact le_trans this (le_of_lt hc.2)
        · exact this
    · show (if Z n > 0.001 ∧ binFlux M I (Z n) > a.FLUX_MAX then binFlux M I (Z n)
        else a.FLUX_MAX) = 0 ∨ ∃ j, j < n + 1 ∧ Z j > 0.001 ∧
          (if Z n > 0.001 ∧ binFlux M I (Z n) > a.FLUX_MAX then binFlux M I (Z n)
            else a.FLUX_MAX) = binFlux M I (Z j)
      split_ifs with hc
      · exact Or.inr ⟨n, Nat.lt_succ_self n, hc.1, rfl⟩
      · rcases i3 with h | ⟨j, hj, hz, he⟩
        · exact Or.inl h
        · exact Or.inr ⟨j, by omega, hz, he⟩

/-- The state of a completed lambda loop that starts with `FLUX_MAX = 0` satisfies the
invariant `ZPInv` for the zero points of the bins. -/
theorem FILTERtrans_loop_ZPInv (M : Libm K) (interp_1DFUN : Interp K)
    (I : INPUTS_SPECTRO_DEF K) (LAMFILT_MIN LAMSTEP : K) (NBL_TRANS n : Nat)
    (st0 st : FILTERtrans_LOOP K) (h0 : st0.FLUX_MAX = 0)
    (h : forLoop n (FILTERtrans_bin M interp_1DFUN I LAMFILT_MIN LAMSTEP NBL_TRANS) st0
      = .ok st) :
    ZPInv M I (binZP interp_1DFUN I LAMFILT_MIN LAMSTEP NBL_TRANS) n st := by
  obtain ⟨st', h', hI⟩ := FILTERtrans_loop_run M interp_1DFUN I LAMFILT_MIN LAMSTEP NBL_TRANS
    (binZP interp_1DFUN I LAMFILT_MIN LAMSTEP NBL_TRANS) st0 h0 n
    (FILTERtrans_loop_defined M interp_1DFUN I LAMFILT_MIN LAMSTEP NBL_TRANS n st0 st h)
  rw [h] at h'
  injection h' with h'
  rw [h']
  exact hI

/-- The function `get_FILTERtrans_spectrograph` returns when the grid is below `MXTRANS`,
the lambda loop completes and `FLUX_MAX` is at least `1.0E-9`. -/
theorem get_FILTERtrans_of_loop [FloorRing K] (M : Libm K) (interp_1DFUN : Interp K)
    (I : INPUTS_SPECTRO_DEF K) (FLUX_TMP : Nat → K) (LMIN LMAX : K) (MXTRANS : Int)
    (LA TA : Nat → K) (st : FILTERtrans_LOOP K)
    (hmx : gridBins LMIN LMAX < MXTRANS)
    (hl : forLoop (gridBins LMIN LMAX).toNat
        (FILTERtrans_bin M interp_1DFUN I (LMIN - gridStep LMIN LMAX) (gridStep LMIN LMAX)
          (gridBins LMIN LMAX).toNat)
        { FLUX_TMP := FLUX_TMP, FLUX_MAX := 0.0, LAMFILT_ARRAY := LA } = .ok st)
    (hf : ¬ st.FLUX_MAX < 1.0E-9) :
    get_FILTERtrans_spectrograph M interp_1DFUN I FLUX_TMP LMIN LMAX MXTRANS LA TA
      = .ok { LAMFILT_MIN := LMIN - gridStep LMIN LMAX
              LAMFILT_MAX := LMAX + gridStep LMIN LMAX
              NBIN_LAMFILT := gridBins LMIN LMAX
              LAMFILT_ARRAY := st.LAMFILT_ARRAY
              TRANSFILT_ARRAY := fun l =>
                if l < (gridBins LMIN LMAX).toNat then st.FLUX_TMP l / st.FLUX_MAX
                else TA l } := by
  have e5 : (5.0 : K) = 5 := by norm_num
  have hb : (if truncInt ((LMAX - LMIN) / (5.0 : K)) < 10 then (10 : Int)
      else truncInt ((LMAX - LMIN) / (5.0 : K))) + 1 + 1 = gridBins LMIN LMAX := by
    rw [truncInt_max, e5]
    unfold gridBins
    omega
  have hn : (if truncInt ((LMAX - LMIN) / (5.0 : K)) < 10 then (10 : Int)
      else truncInt ((LMAX - LMIN) / (5.0 : K))) = gridBins LMIN LMAX - 2 := by
    omega
  have hs : (LMAX - LMIN) / (((if truncInt ((LMAX - LMIN) / (5.0 : K)) < 10 then (10 : Int)
      else truncInt ((LMAX - LMIN) / (5.0 : K)) : Int)) : K) = gridStep LMIN LMAX := by
    rw [hn]
    rfl
  unfold get_FILTERtrans_spectrograph
  simp only [hb, hs, bind, Except.bind, pure, Except.pure]
  rw [if_neg (not_le.mpr hmx)]
  simp only [hl, if_neg hf]

/-- What a completed `get_FILTERtrans_spectrograph` returns, in terms of the zero points
`Z l` of the bins: the centres, the zero points of the interior bins as clamped
interpolations, and the transmissions as the fluxes of the zero points over the largest
flux `FMAX`, which is the flux of an interior bin with a zero point above `0.001`. -/
theorem get_FILTERtrans_zero_points [FloorRing K] (M : Libm K) (interp_1DFUN : Interp K)
    (I : INPUTS_SPECTRO_DEF K) (FLUX_TMP : Nat → K) (LMIN LMAX : K) (MXTRANS : Int)
    (LA TA : Nat → K) (out : FILTERtrans_OUT K)
    (h : get_FILTERtrans_spectrograph M interp_1DFUN I FLUX_TMP LMIN LMAX MXTRANS LA TA
      = .ok out) :
    out.NBIN_LAMFILT = gridBins LMIN LMAX ∧ 12 ≤ (gridBins LMIN LMAX).toNat ∧
    (∀ l, l < (gridBins LMIN LMAX).toNat →
      out.LAMFILT_ARRAY l = binCentre (LMIN - gridStep LMIN LMAX) (gridStep LMIN LMAX) l) ∧
    ∃ (Z : Nat → K) (FMAX : K),
      (∀ l, 0 < l → l < (gridBins LMIN LMAX).toNat - 1 →
        clampedZP interp_1DFUN I
          (binCentre (LMIN - gridStep LMIN LMAX) (gridStep LMIN LMAX) l) = .ok (Z l)) ∧
      0 < FMAX ∧
      (∃ j, 0 < j ∧ j < (gridBins LMIN LMAX).toNat - 1 ∧ Z j > 0.001 ∧
        FMAX = binFlux M I (Z j)) ∧
      (∀ l, 0 < l → l < (gridBins LMIN LMAX).toNat - 1 → Z l > 0.001 →
        binFlux M I (Z l) ≤ FMAX) ∧
      ∀ l, 0 < l → l < (gridBins LMIN LMAX).toNat - 1 →
        out.TRANSFILT_ARRAY l = binFlux M I (Z l) / FMAX := by
  obtain ⟨_, st, hl, hmax, hout⟩ := get_FILTERtrans_ok M interp_1DFUN I FLUX_TMP LMIN LMAX
    MXTRANS LA TA out h
  have hge : gridBins LMIN LMAX - 2 ≥ 10 := by
    unfold gridBins
    have := le_max_left (10 : Int) ⌊(LMAX - LMIN) / 5⌋
    omega
  have hN : 12 ≤ (gridBins LMIN LMAX).toNat := by omega
  have hc := FILTERtrans_loop_centres M interp_1DFUN I _ _ _ _ _ st hl
  have hd := FILTERtrans_loop_defined M interp_1DFUN I _ _ _ _ _ st hl
  obtain ⟨i1, i2, i3⟩ := FILTERtrans_loop_ZPInv M interp_1DFUN I _ _ _ _ _ st (by norm_num) hl
  have hpos : 0 < st.FLUX_MAX := by
    have : (1.0E-9 : K) ≤ st.FLUX_MAX := not_lt.mp hmax
    have h9 : (0 : K) < 1.0E-9 := by norm_num
    exact lt_of_lt_of_le h9 this
  have hedge : ∀ l, l = 0 ∨ l = (gridBins LMIN LMAX).toNat - 1 →
      ¬ binZP interp_1DFUN I (LMIN - gridStep LMIN LMAX) (gridStep LMIN LMAX)
        (gridBins LMIN LMAX).toNat l > 0.001 := by
    intro l hle
    unfold binZP
    rw [FILTERtrans_ZP_edge interp_1DFUN I _ l _ hle]
    norm_num
  refine ⟨by rw [hout], hN, ?_,
    binZP interp_1DFUN I (LMIN - gridStep LMIN LMAX) (gridStep LMIN LMAX)
      (gridBins LMIN LMAX).toNat, st.FLUX_MAX, ?_, hpos, ?_, ?_, ?_⟩
  · intro l hlt
    rw [hout]
    exact hc l hlt
  · intro l h0 h1
    rw [← FILTERtrans_ZP_interior interp_1DFUN I (gridBins LMIN LMAX).toNat l _ h0 h1]
    exact hd l (by omega)
  · rcases i3 with h0 | ⟨j, hj, hz, he⟩
    · rw [h0] at hpos
      exact absurd hpos (lt_irrefl _)
    · refine ⟨j, ?_, ?_, hz, he⟩
      · by_contra hj0
        exact hedge j (Or.inl (by omega)) hz
      · by_contra hj1
        exact hedge j (Or.inr (by omega)) hz
  · intro l _ h1 hz
    exact i2 l (by omega) hz
  · intro l _ h1
    rw [hout]
    show (if l < (gridBins LMIN LMAX).toNat then _ else _) = _
    rw [if_pos (by omega), i1 l (by omega)]

/-- The loop `compute LAMAVG & LAMBIN` keeps its invariant. -/
theorem read_spectrograph_fits_bins_inv (I : INPUTS_SPECTRO_DEF K) (k : Nat) :
    FitsInv I k (loopPure k read_spectrograph_fits_bin (0.0, { I with FORMAT_MASK := 1 })) := by
  induction k with
  | zero =>
    refine ⟨rfl, rfl, fun h => absurd h (by omega), Or.inl rfl, ?_, fun l hl => absurd hl (by omega)⟩
    constructor
    · intro h
      exact absurd h (by simp [loopPure])
    · rintro ⟨l, h0, h1, -⟩
      omega
  | succ k ih =>
    obtain ⟨a1, a2, a3, a4, a5, a6⟩ := ih
    show FitsInv I (k + 1) (read_spectrograph_fits_bin k
      (loopPure k read_spectrograph_fits_bin (0.0, { I with FORMAT_MASK := 1 })))
    generalize loopPure k read_spectrograph_fits_bin (0.0, { I with FORMAT_MASK := 1 }) = s
      at a1 a2 a3 a4 a5 a6 ⊢
    have hw : s.2.LAMMAX_LIST k - s.2.LAMMIN_LIST k = binWidth I k := by
      rw [a1, a2]
      rfl
    unfold read_spectrograph_fits_bin
    simp only [hw]
    by_cases hc : k > 0 ∧ |s.1 - binWidth I k| > 0.001
    · rw [if_pos hc]
      refine ⟨a1, a2, fun _ => rfl, Or.inr rfl, ?_, ?_⟩
      · constructor
        · intro _
          refine ⟨k, hc.1, Nat.lt_succ_self k, ?_⟩
          rw [← a3 (by omega)]
          exact hc.2
        · intro _
          rfl
      · intro l hl
        by_cases hlk : l = k
        · subst hlk
          simp only [Function.update_same, a1, a2]
          refine ⟨?_, rfl⟩
          norm_num
        · simp only [Function.update_noteq hlk]
          exact a6 l (by omega)
    · rw [if_neg hc]
      refine ⟨a1, a2, fun _ => rfl, a4, ?_, ?_⟩
      · show s.2.FORMAT_MASK = 2 ↔ _
        rw [a5]
        constructor
        · rintro ⟨l, h0, h1, h2⟩
          exact ⟨l, h0, by omega, h2⟩
        · rintro ⟨l, h0, h1, h2⟩
          by_cases hlk : l = k
          · subst hlk
            exfalso
            apply hc
            refine ⟨h0, ?_⟩
            rw [a3 (by omega)]
            exact h2
          · exact ⟨l, h0, by omega, h2⟩
      · intro l hl
        by_cases hlk : l = k
        · subst hlk
          simp only [Function.update_same, a1, a2]
          refine ⟨?_, rfl⟩
          norm_num
        · simp only [Function.update_noteq hlk]
          exact a6 l (by omega)

/-- A completed load comes from a completed `while` loop, and returns its globals. -/
theorem read_spectrograph_text_ok_loop (E : READ_ENV K) (M : Libm K) (content : List Char)
    (G G' : SPECTRO_GLOBALS K)
    (h : read_spectrograph_text E M (some content) G = some (.ok G')) :
    ∃ S, read_loop E M (content.length + 1) (read_init E content G) = some (.ok S) ∧
      G' = S.2 := by
  unfold read_spectrograph_text at h
  cases hS : read_loop E M (content.length + 1) (read_init E content G) with
  | none =>
    simp only [hS] at h
    exact absurd h (by simp)
  | some r =>
    cases r with
    | error e =>
      simp only [hS] at h
      exact absurd h (by simp)
    | ok S =>
      simp only [hS, Option.some.injEq] at h
      refine ⟨S, rfl, ?_⟩
      unfold read_finish at h
      split_ifs at h
      simp only [Except.ok.injEq] at h
      exact h.symm

/-- A property of the globals that the reading of the stream, of the header keys, the
allocation and `read_SPECBIN_spectrograph` keep, holds after a completed load when it holds
at the start of the `while` loop. -/
theorem read_spectrograph_text_globals_inv (E : READ_ENV K) (M : Libm K)
    (P : SPECTRO_GLOBALS K → Prop)
    (hfp : ∀ (G : SPECTRO_GLOBALS K) (fp : List Char), P G → P { G with fp := fp })
    (hname : ∀ (G : SPECTRO_GLOBALS K) (name : String), P G →
      P { G with INPUTS_SPECTRO := { G.INPUTS_SPECTRO with INSTRUMENT_NAME := name } })
    (hmag : ∀ (G : SPECTRO_GLOBALS K) (m : Nat → K), P G →
      P { G with INPUTS_SPECTRO := { G.INPUTS_SPECTRO with MAGREF_LIST := m } })
    (htexp : ∀ (G : SPECTRO_GLOBALS K) (T : Nat → K) (n : Nat) (a b : K), P G →
      P { G with INPUTS_SPECTRO := { G.INPUTS_SPECTRO with
        TEXPOSE_LIST := T, NBIN_TEXPOSE := n, TEXPOSE_MIN := a, TEXPOSE_MAX := b } })
    (hmalloc : ∀ G : SPECTRO_GLOBALS K, P G → P (malloc_spectrograph E.NROW_FILE G))
    (hbin : ∀ (G G' : SPECTRO_GLOBALS K) (n : Nat), P G →
      read_SPECBIN_spectrograph E M G = .ok (n, G') → P G')
    (content : List Char) (G G' : SPECTRO_GLOBALS K)
    (h0 : P (read_init E content G).2)
    (h : read_spectrograph_text E M (some content) G = some (.ok G')) : P G' := by
  obtain ⟨S, hS, hG⟩ := read_spectrograph_text_ok_loop E M content G G' h
  rw [hG]
  refine read_loop_inv E M (fun S => P S.2) ?_ _ _ S h0 hS
  intro c_get rest S0 S1 hP _ ht
  have hP0 : P ({ S0.2 with fp := rest } : SPECTRO_GLOBALS K) := hfp _ _ hP
  generalize ({ S0.2 with fp := rest } : SPECTRO_GLOBALS K) = G0 at hP0 ht
  have hmal : ∀ S : READ_LOCALS × SPECTRO_GLOBALS K, P S.2 → P (afterMalloc E S).2 := by
    intro S hS
    unfold afterMalloc
    split_ifs
    · exact hmalloc _ hS
    · exact hS
  rcases read_token_cases E M c_get (S0.1, G0) S1 ht with ⟨_, hS⟩ | ⟨_, S2, hk, hrest⟩
  · subst hS
    exact hfp G0 (fgets 80 G0.fp).2 hP0
  · have hS2 : P S2.2 := by
      rcases read_keys_cases E c_get (S0.1, G0) S2 hk with ⟨_, name, hS⟩ | ⟨_, hS⟩ |
        ⟨_, NBT, G1, hT, hS⟩ | ⟨_, _, _, hS⟩
      · subst hS
        exact hname _ name (hfp G0 (readchar G0.fp).2 hP0)
      · subst hS
        exact hmag _ (readdouble E.strtod G0.fp 2 G0.INPUTS_SPECTRO.MAGREF_LIST).1
          (hfp G0 (readdouble E.strtod G0.fp 2 G0.INPUTS_SPECTRO.MAGREF_LIST).2 hP0)
      · obtain ⟨_, T, _, hG1⟩ := read_TEXPOSE_LIST_shape E _ _ _ hT
        subst hS
        subst hG1
        exact htexp _ T NBT (T 0) (T (NBT - 1)) (hfp G0 (fgets 400 G0.fp).2 hP0)
      · subst hS
        exact hP0
    rcases hrest with ⟨_, hS⟩ | ⟨_, _, NBL, G3, hr, hS⟩
    · subst hS
      exact hmal _ hS2
    · subst hS
      exact hbin _ _ _ (hmal _ hS2) hr

/-- Column 2 of the accumulator is not touched when a row is added, for three columns
before the SNR values. -/
theorem accumulateRow_sigma (E : READ_ENV K) (M : Libm K) (NBT : Nat) (NBMOD : Int)
    (XTMP V : Nat → K) (h3 : 3 ≤ E.NCOL_noSNR) :
    accumulateRow E M NBT NBMOD XTMP V 2 = V 2 := by
  unfold accumulateRow
  rw [quadrature_loop, if_neg (by omega), Function.update_noteq (by omega)]
  split_ifs
  · rw [Function.update_noteq (by omega)]
  · rfl

/-- The remainder `NBMOD` of the row count for a rebin factor `N`. -/
theorem rebin_NBMOD (G : SPECTRO_GLOBALS K) (N : Nat)
    (hN : G.INPUTS_SPECTRO.NREBIN_LAM = (N : Int)) :
    Int.tmod ((G.INPUTS_SPECTRO.NBIN_LAM_noREBIN + 1 : Nat) : Int) G.INPUTS_SPECTRO.NREBIN_LAM
      = (((G.INPUTS_SPECTRO.NBIN_LAM_noREBIN + 1) % N : Nat) : Int) := by
  rw [hN, ← Int.ofNat_tmod]

/-- A row that does not complete a group of `N ≥ 2` rows is accumulated: the call returns
the unchanged bin count. -/
theorem specbinRow_inside (E : READ_ENV K) (M : Libm K) (XTMP : Nat → K) (fp1 : List Char)
    (G : SPECTRO_GLOBALS K) (N : Nat) (h2 : 2 ≤ N)
    (hN : G.INPUTS_SPECTRO.NREBIN_LAM = (N : Int))
    (hmod : (G.INPUTS_SPECTRO.NBIN_LAM_noREBIN + 1) % N ≠ 0) :
    specbinRow E M XTMP fp1 G = .ok (G.INPUTS_SPECTRO.NBIN_LAM,
      countedRow fp1 (accumulateRow E M G.INPUTS_SPECTRO.NBIN_TEXPOSE
        (((G.INPUTS_SPECTRO.NBIN_LAM_noREBIN + 1) % N : Nat) : Int) XTMP G.VALUES_SPECBIN) G) := by
  have hne1 : ¬ G.INPUTS_SPECTRO.NREBIN_LAM = 1 := by
    rw [hN]
    exact_mod_cast (by omega : N ≠ 1)
  have hne0 : ¬ G.INPUTS_SPECTRO.NREBIN_LAM = 0 := by
    rw [hN]
    exact_mod_cast (by omega : N ≠ 0)
  have hk0 : (((G.INPUTS_SPECTRO.NBIN_LAM_noREBIN + 1) % N : Nat) : Int) ≠ 0 := by
    exact_mod_cast hmod
  unfold specbinRow
  simp only [rebin_NBMOD G N hN]
  rw [if_neg hne1, if_neg hne0, if_pos hk0]

/-- A row that completes a group of `N ≥ 2` rows: the merged row goes to `PARSE_XTMP`. -/
theorem specbinRow_complete (E : READ_ENV K) (M : Libm K) (XTMP : Nat → K) (fp1 : List Char)
    (G : SPECTRO_GLOBALS K) (N : Nat) (h2 : 2 ≤ N)
    (hN : G.INPUTS_SPECTRO.NREBIN_LAM = (N : Int))
    (hmod : (G.INPUTS_SPECTRO.NBIN_LAM_noREBIN + 1) % N = 0) :
    specbinRow E M XTMP fp1 G =
      PARSE_XTMP E (fun jtmp =>
          if jtmp < E.NCOL_noSNR + 2 * G.INPUTS_SPECTRO.NBIN_TEXPOSE then
            accumulateRow E M G.INPUTS_SPECTRO.NBIN_TEXPOSE 0 XTMP G.VALUES_SPECBIN jtmp
          else XTMP jtmp)
        (countedRow fp1 (accumulateRow E M G.INPUTS_SPECTRO.NBIN_TEXPOSE 0 XTMP
          G.VALUES_SPECBIN) G) := by
  have hne1 : ¬ G.INPUTS_SPECTRO.NREBIN_LAM = 1 := by
    rw [hN]
    exact_mod_cast (by omega : N ≠ 1)
  have hne0 : ¬ G.INPUTS_SPECTRO.NREBIN_LAM = 0 := by
    rw [hN]
    exact_mod_cast (by omega : N ≠ 0)
  unfold specbinRow
  simp only [rebin_NBMOD G N hN, hmod]
  rw [if_neg hne1, if_neg hne0, if_neg (by simp)]
  rfl

/-- One call of `read_SPECBIN_spectrograph` (after the row is read) keeps the count
invariant, counts the row, and returns the number of stored bins. -/
theorem specbinRow_count (E : READ_ENV K) (M : Libm K) (XTMP : Nat → K) (fp1 : List Char)
    (G G' : SPECTRO_GLOBALS K) (N n : Nat) (h2 : 2 ≤ N) (hI : CountInv N G)
    (h : specbinRow E M XTMP fp1 G = .ok (n, G')) :
    CountInv N G' ∧
    G'.INPUTS_SPECTRO.NBIN_LAM_noREBIN = G.INPUTS_SPECTRO.NBIN_LAM_noREBIN + 1 ∧
    n = G'.INPUTS_SPECTRO.NBIN_LAM ∧
    G'.INPUTS_SPECTRO.NBIN_LAM = G.INPUTS_SPECTRO.NBIN_LAM
      + (if (G.INPUTS_SPECTRO.NBIN_LAM_noREBIN + 1) % N = 0 then 1 else 0) := by
  obtain ⟨hN, hc⟩ := hI
  have hdiv : (G.INPUTS_SPECTRO.NBIN_LAM_noREBIN + 1) / N
      = G.INPUTS_SPECTRO.NBIN_LAM_noREBIN / N
        + (if (G.INPUTS_SPECTRO.NBIN_LAM_noREBIN + 1) % N = 0 then 1 else 0) := by
    rw [Nat.succ_div]
    simp only [Nat.dvd_iff_mod_eq_zero]
  by_cases hmod : (G.INPUTS_SPECTRO.NBIN_LAM_noREBIN + 1) % N = 0
  · rw [specbinRow_complete E M XTMP fp1 G N h2 hN hmod] at h
    obtain ⟨_, s0, s1, m, hG⟩ := PARSE_XTMP_shape E _ _ _ _ h
    obtain ⟨hn, _⟩ := PARSE_XTMP_ok E _ _ _ _ h
    subst hG
    rw [if_pos hmod] at hdiv ⊢
    refine ⟨⟨hN, ?_⟩, rfl, hn, rfl⟩
    show G.INPUTS_SPECTRO.NBIN_LAM + 1 = (G.INPUTS_SPECTRO.NBIN_LAM_noREBIN + 1) / N
    rw [hdiv, hc]
  · rw [specbinRow_inside E M XTMP fp1 G N h2 hN hmod] at h
    simp only [Except.ok.injEq, Prod.mk.injEq] at h
    obtain ⟨hn, hG⟩ := h
    subst hG
    rw [if_neg hmod] at hdiv ⊢
    refine ⟨⟨hN, ?_⟩, rfl, hn.symm, rfl⟩
    show G.INPUTS_SPECTRO.NBIN_LAM = (G.INPUTS_SPECTRO.NBIN_LAM_noREBIN + 1) / N
    rw [hdiv, hc]
    rfl

/-- The calls for `k` consecutive rows keep the count invariant and count the rows. -/
theorem feedRows_count (E : READ_ENV K) (M : Libm K) (X : Nat → Nat → K)
    (fps : Nat → List Char) (G : SPECTRO_GLOBALS K) (N : Nat) (h2 : 2 ≤ N)
    (hI : CountInv N G) :
    ∀ (k n : Nat) (G' : SPECTRO_GLOBALS K), feedRows E M X fps k G = .ok (n, G') →
      CountInv N G' ∧
      G'.INPUTS_SPECTRO.NBIN_LAM_noREBIN = G.INPUTS_SPECTRO.NBIN_LAM_noREBIN + k ∧
      n = G'.INPUTS_SPECTRO.NBIN_LAM := by
  intro k
  induction k with
  | zero =>
    intro n G' h
    simp only [feedRows, Except.ok.injEq, Prod.mk.injEq] at h
    obtain ⟨hn, hG⟩ := h
    subst hG
    exact ⟨hI, rfl, hn.symm⟩
  | succ k ih =>
    intro n G' h
    unfold feedRows at h
    cases hf : feedRows E M X fps k G with
    | error e =>
      rw [hf] at h
      exact absurd h (by simp)
    | ok r =>
      rw [hf] at h
      obtain ⟨a, b, _⟩ := ih r.1 r.2 hf
      obtain ⟨c, d, e, _⟩ := specbinRow_count E M _ _ _ _ N n h2 a h
      exact ⟨c, by rw [d, b]; omega, e⟩

/-- The rows after the last complete group are read without an error, and the bin count
stays as it is. -/
theorem feedRows_tail (E : READ_ENV K) (M : Libm K) (X : Nat → Nat → K)
    (fps : Nat → List Char) (G : SPECTRO_GLOBALS K) (N : Nat) (h2 : 2 ≤ N)
    (hI : CountInv N G) (h0 : G.INPUTS_SPECTRO.NBIN_LAM_noREBIN = 0) (q : Nat) (n : Nat)
    (G1 : SPECTRO_GLOBALS K) (h : feedRows E M X fps (N * q) G = .ok (n, G1)) :
    ∀ r, r < N → ∃ G2, feedRows E M X fps (N * q + r) G = .ok (n, G2) ∧
      G2.INPUTS_SPECTRO.NBIN_LAM = G1.INPUTS_SPECTRO.NBIN_LAM ∧
      G2.INPUTS_SPECTRO.LAMMIN_LIST = G1.INPUTS_SPECTRO.LAMMIN_LIST ∧
      G2.INPUTS_SPECTRO.LAMMAX_LIST = G1.INPUTS_SPECTRO.LAMMAX_LIST ∧
      G2.INPUTS_SPECTRO.SNR0 = G1.INPUTS_SPECTRO.SNR0 ∧
      G2.INPUTS_SPECTRO.SNR1 = G1.INPUTS_SPECTRO.SNR1 := by
  intro r
  induction r with
  | zero =>
    intro _
    exact ⟨G1, h, rfl, rfl, rfl, rfl, rfl⟩
  | succ r ih =>
    intro hr
    obtain ⟨G2, hf, e1, e2, e3, e4, e5⟩ := ih (by omega)
    obtain ⟨⟨aN, _⟩, b, c⟩ := feedRows_count E M X fps G N h2 hI _ _ _ hf
    obtain ⟨_, _, c1⟩ := feedRows_count E M X fps G N h2 hI _ _ _ h
    have hmod : (G2.INPUTS_SPECTRO.NBIN_LAM_noREBIN + 1) % N ≠ 0 := by
      rw [b, h0, Nat.zero_add, Nat.add_assoc, Nat.mul_add_mod, Nat.mod_eq_of_lt hr]
      exact Nat.succ_ne_zero r
    have hs := specbinRow_inside E M (X (N * q + r)) (fps (N * q + r)) G2 N h2 aN hmod
    refine ⟨countedRow (fps (N * q + r))
      (accumulateRow E M G2.INPUTS_SPECTRO.NBIN_TEXPOSE
        (((G2.INPUTS_SPECTRO.NBIN_LAM_noREBIN + 1) % N : Nat) : Int) (X (N * q + r))
        G2.VALUES_SPECBIN) G2, ?_, e1, e2, e3, e4, e5⟩
    show feedRows E M X fps (N * q + r + 1) G = _
    unfold feedRows
    rw [hf]
    show specbinRow E M (X (N * q + r)) (fps (N * q + r)) G2 = _
    rw [hs, ← c]

/-- One call of `read_SPECBIN_spectrograph` with rebinning on, three columns before the SNR
values and column 2 of the accumulator at 0: the column stays at 0, and the call either
stores no bin or stores one bin with `LAMSIGMA = 0`. -/
theorem read_SPECBIN_sigma_step (E : READ_ENV K) (M : Libm K) (G G' : SPECTRO_GLOBALS K)
    (n : Nat) (hcol : E.NCOL_noSNR = 3) (hN : 2 ≤ G.INPUTS_SPECTRO.NREBIN_LAM)
    (hV : G.VALUES_SPECBIN 2 = 0)
    (h : read_SPECBIN_spectrograph E M G = .ok (n, G')) :
    G'.INPUTS_SPECTRO.NREBIN_LAM = G.INPUTS_SPECTRO.NREBIN_LAM ∧
    G'.VALUES_SPECBIN 2 = 0 ∧
    ((G'.INPUTS_SPECTRO.NBIN_LAM = G.INPUTS_SPECTRO.NBIN_LAM ∧
        G'.INPUTS_SPECTRO.LAMSIGMA_LIST = G.INPUTS_SPECTRO.LAMSIGMA_LIST) ∨
     (G'.INPUTS_SPECTRO.NBIN_LAM = G.INPUTS_SPECTRO.NBIN_LAM + 1 ∧
        G'.INPUTS_SPECTRO.LAMSIGMA_LIST
          = Function.update G.INPUTS_SPECTRO.LAMSIGMA_LIST G.INPUTS_SPECTRO.NBIN_LAM 0)) := by
  rw [read_SPECBIN_eq] at h
  dsimp only at h
  have hacc : ∀ (NBMOD : Int) (XTMP : Nat → K),
      accumulateRow E M G.INPUTS_SPECTRO.NBIN_TEXPOSE NBMOD XTMP G.VALUES_SPECBIN 2 = 0 := by
    intro NBMOD XTMP
    rw [accumulateRow_sigma E M _ _ _ _ (by omega), hV]
  split_ifs at h with h1 h0 hm
  · omega
  · simp only [Except.ok.injEq, Prod.mk.injEq] at h
    obtain ⟨_, hG⟩ := h
    subst hG
    exact ⟨rfl, hacc _ _, Or.inl ⟨rfl, rfl⟩⟩
  · obtain ⟨_, s0, s1, m, hG⟩ := PARSE_XTMP_shape E _ _ _ _ h
    subst hG
    refine ⟨rfl, ?_, Or.inr ⟨rfl, ?_⟩⟩
    · show (if 2 < E.MXVALUES_SPECBIN then (0 : K) else _) = 0
      by_cases hmx : 2 < E.MXVALUES_SPECBIN
      · rw [if_pos hmx]
      · rw [if_neg hmx]
        exact hacc _ _
    · show Function.update G.INPUTS_SPECTRO.LAMSIGMA_LIST G.INPUTS_SPECTRO.NBIN_LAM
        (if 2 < E.NCOL_noSNR + 2 * G.INPUTS_SPECTRO.NBIN_TEXPOSE then _ else _) = _
      rw [if_pos (by omega), hacc]

/-- One call of `read_SPECBIN_spectrograph` keeps the invariant `SigmaInv`. -/
theorem read_SPECBIN_SigmaInv (E : READ_ENV K) (M : Libm K) (G G' : SPECTRO_GLOBALS K)
    (n : Nat) (hcol : E.NCOL_noSNR = 3) (hI : SigmaInv G)
    (h : read_SPECBIN_spectrograph E M G = .ok (n, G')) : SigmaInv G' := by
  obtain ⟨hN, hV, hS⟩ := hI
  obtain ⟨a, b, c⟩ := read_SPECBIN_sigma_step E M G G' n hcol hN hV h
  refine ⟨by rw [a]; exact hN, b, ?_⟩
  intro l hl
  rcases c with ⟨c1, c2⟩ | ⟨c1, c2⟩
  · rw [c2]
    exact hS l (by omega)
  · rw [c2]
    by_cases hln : l = G.INPUTS_SPECTRO.NBIN_LAM
    · subst hln
      rw [Function.update_same]
    · rw [Function.update_noteq hln]
      exact hS l (by omega)

/-- One call of `read_SPECBIN_spectrograph` keeps the count invariant, counts the row, and
returns the number of stored bins. -/
theorem read_SPECBIN_count (E : READ_ENV K) (M : Libm K) (G G' : SPECTRO_GLOBALS K)
    (N n : Nat) (h2 : 2 ≤ N) (hI : CountInv N G)
    (h : read_SPECBIN_spectrograph E M G = .ok (n, G')) :
    CountInv N G' ∧
    G'.INPUTS_SPECTRO.NBIN_LAM_noREBIN = G.INPUTS_SPECTRO.NBIN_LAM_noREBIN + 1 ∧
    n = G'.INPUTS_SPECTRO.NBIN_LAM ∧
    G'.INPUTS_SPECTRO.NBIN_LAM = G.INPUTS_SPECTRO.NBIN_LAM
      + (if (G.INPUTS_SPECTRO.NBIN_LAM_noREBIN + 1) % N = 0 then 1 else 0) := by
  rw [read_SPECBIN_eq_row] at h
  exact specbinRow_count E M _ _ G G' N n h2 hI h

/-- The function `getSNR_spectrograph` for a search time in range, in terms of the values
`ZP_S`, `SQ_S` interpolated at the search time and of the scaled template variance. -/
theorem getSNR_eq (M : Libm K) (interp : Interp K) (st : INPUTS_SPECTRO_DEF K)
    (ILAM : Nat) (S T GENMAG ZP_S SQ_S : K)
    (hS : ¬ (S < st.TEXPOSE_LIST 0 ∨ S > st.TEXPOSE_LIST (st.NBIN_TEXPOSE - 1)))
    (hZ : interp 1 S st.NBIN_TEXPOSE st.TEXPOSE_LIST (st.ZP ILAM)
      "getSNR_spectrograph(ZP_S)" = .ok ZP_S)
    (hQ : interp 1 S st.NBIN_TEXPOSE st.TEXPOSE_LIST (st.SQSIGSKY ILAM)
      "getSNR_spectrograph(SQ_S)" = .ok SQ_S) :
    getSNR_spectrograph M interp st ILAM S T GENMAG =
      match templateVar M interp st ILAM T ZP_S with
      | .error e => .error e
      | .ok SQ_T =>
        if SQ_S + SQ_T + M.pow TEN (-0.4 * (GENMAG - ZP_S)) < 0 then .error .nonfinite
        else if SQ_T < 0 then .error .nonfinite
        else if M.sqrt (SQ_S + SQ_T + M.pow TEN (-0.4 * (GENMAG - ZP_S))) = 0 then
          .error .nonfinite
        else .ok (M.pow TEN (-0.4 * (GENMAG - ZP_S))
              / M.sqrt (SQ_S + SQ_T + M.pow TEN (-0.4 * (GENMAG - ZP_S))),
            M.sqrt SQ_T / M.sqrt (SQ_S + SQ_T + M.pow TEN (-0.4 * (GENMAG - ZP_S)))) := by
  have tail : ∀ SQ_T : K,
      (fsqrt M (SQ_S + SQ_T + M.pow TEN (-0.4 * (GENMAG - ZP_S))) >>= fun FluxErr =>
        fsqrt M SQ_T >>= fun SQRT_T =>
          fdiv SQRT_T FluxErr >>= fun ERRFRAC_T =>
            fdiv (M.pow TEN (-0.4 * (GENMAG - ZP_S))) FluxErr >>= fun SNR =>
              (pure (SNR, ERRFRAC_T) : Except Abort (K × K))) =
        if SQ_S + SQ_T + M.pow TEN (-0.4 * (GENMAG - ZP_S)) < 0 then .error .nonfinite
        else if SQ_T < 0 then .error .nonfinite
        else if M.sqrt (SQ_S + SQ_T + M.pow TEN (-0.4 * (GENMAG - ZP_S))) = 0 then
          .error .nonfinite
        else .ok (M.pow TEN (-0.4 * (GENMAG - ZP_S))
              / M.sqrt (SQ_S + SQ_T + M.pow TEN (-0.4 * (GENMAG - ZP_S))),
            M.sqrt SQ_T / M.sqrt (SQ_S + SQ_T + M.pow TEN (-0.4 * (GENMAG - ZP_S)))) := by
    intro SQ_T
    by_cases h1 : SQ_S + SQ_T + M.pow TEN (-0.4 * (GENMAG - ZP_S)) < 0
    · simp only [bind, Except.bind, fsqrt, if_pos h1]
    by_cases h2 : SQ_T < 0
    · simp only [bind, Except.bind, fsqrt, if_neg h1, if_pos h2]
    by_cases h3 : M.sqrt (SQ_S + SQ_T + M.pow TEN (-0.4 * (GENMAG - ZP_S))) = 0
    · simp only [bind, Except.bind, fsqrt, fdiv, if_neg h1, if_neg h2, if_pos h3]
    · simp only [bind, Except.bind, fsqrt, fdiv, if_neg h1, if_neg h2, if_neg h3, pure,
        Except.pure]
  unfold getSNR_spectrograph templateVar
  by_cases hT : T > 0.01
  · cases hzt : interp 1 T st.NBIN_TEXPOSE st.TEXPOSE_LIST (st.ZP ILAM)
        "getSNR_spectrograph(ZP_T)" with
    | error e => simp only [if_neg hS, hZ, hQ, if_pos hT, hzt, bind, Except.bind, pure, Except.pure]
    | ok ZP_T =>
      cases hqt : interp 1 T st.NBIN_TEXPOSE st.TEXPOSE_LIST (st.SQSIGSKY ILAM)
          "getSNR_spectrograph(SQ_T)" with
      | error e =>
        simp only [if_neg hS, hZ, hQ, if_pos hT, hzt, hqt, bind, Except.bind, pure, Except.pure]
      | ok SQ_T =>
        have ht := tail (SQ_T * M.pow TEN (0.8 * (ZP_S - ZP_T)))
        simp only [bind, Except.bind, pure, Except.pure] at ht
        simp only [if_neg hS, hZ, hQ, if_pos hT, hzt, hqt, bind, Except.bind, pure,
          Except.pure]
        exact ht
  · have ht := tail 0
    simp only [bind, Except.bind, pure, Except.pure] at ht
    simp only [if_neg hS, hZ, hQ, if_neg hT, bind, Except.bind, pure, Except.pure]
    exact ht

/-- The scaled template variance is 0 when `TEXPOSE_T ≤ 0.01`, whatever the
interpolator. -/
theorem templateVar_none (M : Libm K) (interp : Interp K) (st : INPUTS_SPECTRO_DEF K)
    (ILAM : Nat) (T ZP_S : K) (hT : T ≤ 0.01) :
    templateVar M interp st ILAM T ZP_S = .ok 0 := by
  unfold templateVar
  rw [if_neg (not_lt.mpr hT)]
  rfl

/-- A zero point that is found is the one `binZP` names. -/
theorem FILTERtrans_ZP_binZP (interp_1DFUN : Interp K) (I : INPUTS_SPECTRO_DEF K)
    (LAMFILT_MIN LAMSTEP : K) (NBL_TRANS l : Nat) :
    (FILTERtrans_ZP interp_1DFUN I NBL_TRANS l
      (binCentre LAMFILT_MIN LAMSTEP l)).toOption.isSome = true →
    FILTERtrans_ZP interp_1DFUN I NBL_TRANS l (binCentre LAMFILT_MIN LAMSTEP l)
      = .ok (binZP interp_1DFUN I LAMFILT_MIN LAMSTEP NBL_TRANS l) := by
  intro h
  unfold binZP
  cases hz : FILTERtrans_ZP interp_1DFUN I NBL_TRANS l (binCentre LAMFILT_MIN LAMSTEP l) with
  | error x =>
    rw [hz] at h
    simp [Except.toOption] at h
  | ok z => rfl

/-! ## Doubles that are not finite: the finite runs -/

theorem Dbl.fin_add_fin (x y : K) : (Dbl.fin x + Dbl.fin y : Dbl K) = .fin (x + y) := rfl

theorem Dbl.fin_sub_fin (x y : K) : (Dbl.fin x - Dbl.fin y : Dbl K) = .fin (x - y) := by
  show Dbl.add (Dbl.fin x) (Dbl.neg (Dbl.fin y)) = _
  simp [Dbl.add, Dbl.neg, sub_eq_add_neg]

theorem Dbl.fin_mul_fin (x y : K) : (Dbl.fin x * Dbl.fin y : Dbl K) = .fin (x * y) := rfl

theorem Dbl.fin_div_fin (x y : K) (h : y ≠ 0) :
    (Dbl.fin x / Dbl.fin y : Dbl K) = .fin (x / y) := by
  show Dbl.div (Dbl.fin x) (Dbl.fin y) = _
  simp [Dbl.div, h]

theorem Dbl.sqrt_fin (M : Libm K) (x : K) (h : ¬ x < 0) :
    Dbl.sqrt M (.fin x) = .fin (M.sqrt x) := by
  simp [Dbl.sqrt, h]

theorem Dbl.log10_fin (M : Libm K) (x : K) (h : 0 < x) :
    Dbl.log10 M (.fin x) = .fin (M.log10 x) := by
  simp [Dbl.log10, not_lt.mpr (le_of_lt h), ne_of_gt h]

theorem Dbl.pow10_fin (M : Libm K) (y : K) : Dbl.pow10 M (.fin y) = .fin (M.pow TEN y) := rfl

theorem Dbl.fabs_fin (x : K) : Dbl.fabs (.fin x) = .fin |x| := rfl

theorem Dbl.le_fin (x y : K) : Dbl.le (.fin x) (.fin y) = decide (x ≤ y) := rfl

theorem Dbl.lt_fin (x y : K) : Dbl.lt (.fin x) (.fin y) = decide (x < y) := rfl

theorem toDbl_storeZP (st : INPUTS_SPECTRO_DEF K) (l t : Nat) (zp sq : K) :
    toDbl (storeZP st l t zp sq) = storeZP_ieee (toDbl st) l t (.fin zp) (.fin sq) := by
  unfold toDbl storeZP storeZP_ieee set2
  simp only [INPUTS_SPECTRO_DEF.mk.injEq, true_and, and_true]
  refine ⟨?_, ?_⟩ <;>
  · funext i j
    split_ifs <;> rfl

/-- On a pair whose input values are finite, `solve_bin_ieee` computes what `solve_ZP`
and `solve_check` compute wherever these stay finite. -/
theorem solve_bin_ieee_fin (M : Libm K) (MAGREF POWMAG : Nat → K) (MD PD : Nat → Dbl K)
    (l t : Nat) (st : INPUTS_SPECTRO_DEF (Dbl K)) (s0 s1 : K)
    (hM0 : MD 0 = .fin (MAGREF 0)) (hM1 : MD 1 = .fin (MAGREF 1))
    (hP0 : PD 0 = .fin (POWMAG 0)) (hP1 : PD 1 = .fin (POWMAG 1))
    (h0 : st.SNR0 l t = .fin s0) (h1 : st.SNR1 l t = .fin s1)
    (hs0 : s0 ≠ 0) (hs1 : s1 ≠ 0) :
    solve_bin_ieee M MD PD l t st =
      if POWMAG 0 - POWMAG 1 ≤ 0 ∨ botOf (POWMAG 0) (POWMAG 1) s0 s1 ≤ 0 then
        .error (.fatal "solve_spectrograph" "Cannot solve ZP", st)
      else
        let zp := zpOf M (POWMAG 0) (POWMAG 1) s0 s1
        let f0 := fluxOf M (MAGREF 0) zp
        let f1 := fluxOf M (MAGREF 1) zp
        let sq := sqOf M (MAGREF 0) zp s0
        let st1 := storeZP_ieee st l t (.fin zp) (.fin sq)
        let check0 := Dbl.fabs (Dbl.fin s0 / (Dbl.fin f0 / Dbl.sqrt M (.fin (sq + f0)))
          - Dbl.fin 1.0)
        let check1 := Dbl.fabs (Dbl.fin s1 / (Dbl.fin f1 / Dbl.sqrt M (.fin (sq + f1)))
          - Dbl.fin 1.0)
        if Dbl.lt (.fin 0.001) check0 || Dbl.lt (.fin 0.001) check1 then
          .error (.fatal "solve_spectrograph" "Problem computing ZP and SQSIGSKY", st1)
        else .ok st1 := by
  unfold solve_bin_ieee
  simp only [h0, h1, hM0, hM1, hP0, hP1, Dbl.fin_sub_fin, Dbl.fin_div_fin _ _ hs0,
    Dbl.fin_div_fin _ _ hs1, Dbl.fin_mul_fin, Dbl.le_fin]
  have e0 : ((0.0 : K)) = 0 := by norm_num
  by_cases hc : POWMAG 0 - POWMAG 1 ≤ 0 ∨ botOf (POWMAG 0) (POWMAG 1) s0 s1 ≤ 0
  · rw [if_pos hc, if_pos]
    unfold botOf at hc
    simpa [e0] using hc
  · rw [if_neg hc, if_neg]
    · push_neg at hc
      have hb : botOf (POWMAG 0) (POWMAG 1) s0 s1 ≠ 0 := ne_of_gt hc.2
      have hq : 0 < (POWMAG 0 - POWMAG 1) / botOf (POWMAG 0) (POWMAG 1) s0 s1 :=
        div_pos hc.1 hc.2
      unfold botOf at hb hq
      simp only [Dbl.fin_div_fin _ _ hb, Dbl.log10_fin M _ hq, Dbl.fin_mul_fin,
        Dbl.fin_sub_fin, Dbl.pow10_fin, Dbl.fin_div_fin _ _ hs0, Dbl.fin_add_fin]
      rfl
    · unfold botOf at hc
      simpa [e0] using hc

/-- The self check of one reference index on finite numbers. -/
theorem Dbl.check_fin (M : Libm K) (s f sq : K) (h1 : ¬ sq + f < 0) (h2 : M.sqrt (sq + f) ≠ 0)
    (h3 : snrOf M f sq ≠ 0) :
    Dbl.fabs (Dbl.fin s / (Dbl.fin f / Dbl.sqrt M (.fin (sq + f))) - Dbl.fin 1.0)
      = .fin |s / snrOf M f sq - 1| := by
  unfold snrOf at h3
  have e1 : ((1.0 : K)) = 1 := by norm_num
  rw [Dbl.sqrt_fin M _ h1, Dbl.fin_div_fin _ _ h2, Dbl.fin_div_fin _ _ h3, Dbl.fin_sub_fin,
    Dbl.fabs_fin, e1]
  rfl

/-- On a pair that `solve_bin` solves or stops at with a fatal error, `solve_bin_ieee`
does the same. -/
theorem solve_bin_ieee_agrees (M : Libm K) (MAGREF POWMAG : Nat → K) (l t : Nat)
    (st : INPUTS_SPECTRO_DEF K) :
    (∀ st2, solve_bin M MAGREF POWMAG l t st = .ok st2 →
      solve_bin_ieee M (fun i => .fin (MAGREF i)) (fun i => .fin (POWMAG i)) l t (toDbl st)
        = .ok (toDbl st2)) ∧
    (∀ fnam c1err st2, solve_bin M MAGREF POWMAG l t st = .error (.fatal fnam c1err, st2) →
      solve_bin_ieee M (fun i => .fin (MAGREF i)) (fun i => .fin (POWMAG i)) l t (toDbl st)
        = .error (.fatal fnam c1err, toDbl st2)) := by
  have key : ∀ r, solve_bin M MAGREF POWMAG l t st = r →
      (∀ s, r ≠ .error (.nonfinite, s)) →
      solve_bin_ieee M (fun i => .fin (MAGREF i)) (fun i => .fin (POWMAG i)) l t (toDbl st)
        = match r with
          | .ok st2 => .ok (toDbl st2)
          | .error (a, st2) => .error (a, toDbl st2) := by
    intro r hr hn
    rw [solve_bin_eq, solve_ZP_eq] at hr
    by_cases hz : st.SNR0 l t = 0 ∨ st.SNR1 l t = 0
    · rw [if_pos hz] at hr
      exact absurd hr.symm (hn _)
    rw [if_neg hz] at hr
    push_neg at hz
    rw [solve_bin_ieee_fin M MAGREF POWMAG _ _ l t (toDbl st) (st.SNR0 l t) (st.SNR1 l t)
      rfl rfl rfl rfl rfl rfl hz.1 hz.2]
    by_cases hc : POWMAG 0 - POWMAG 1 ≤ 0 ∨
        botOf (POWMAG 0) (POWMAG 1) (st.SNR0 l t) (st.SNR1 l t) ≤ 0
    · rw [if_pos hc] at hr
      rw [if_pos hc, ← hr]
    rw [if_neg hc] at hr
    rw [if_neg hc]
    simp only [solve_check_eq] at hr
    dsimp only
    generalize zpOf M (POWMAG 0) (POWMAG 1) (st.SNR0 l t) (st.SNR1 l t) = zp at hr ⊢
    generalize sqOf M (MAGREF 0) zp (st.SNR0 l t) = sq at hr ⊢
    generalize fluxOf M (MAGREF 0) zp = f0 at hr ⊢
    generalize fluxOf M (MAGREF 1) zp = f1 at hr ⊢
    by_cases hk0 : sq + f0 < 0 ∨ M.sqrt (sq + f0) = 0 ∨ snrOf M f0 sq = 0
    · rw [if_pos hk0] at hr
      exact absurd hr.symm (hn _)
    rw [if_neg hk0] at hr
    by_cases hk1 : sq + f1 < 0 ∨ M.sqrt (sq + f1) = 0 ∨ snrOf M f1 sq = 0
    · rw [if_pos hk1] at hr
      exact absurd hr.symm (hn _)
    rw [if_neg hk1] at hr
    push_neg at hk0 hk1
    simp only [Dbl.check_fin M _ _ _ (not_lt.mpr hk0.1) hk0.2.1 hk0.2.2,
      Dbl.check_fin M _ _ _ (not_lt.mpr hk1.1) hk1.2.1 hk1.2.2, Dbl.lt_fin,
      ← toDbl_storeZP]
    simp only [gt_iff_lt] at hr
    by_cases hh : 0.001 < |st.SNR0 l t / snrOf M f0 sq - 1| ∨
        0.001 < |st.SNR1 l t / snrOf M f1 sq - 1|
    · rw [if_pos hh] at hr
      rw [if_pos (by simpa using hh), ← hr]
    · rw [if_neg hh] at hr
      rw [if_neg (by simpa using hh), ← hr]
  constructor
  · intro st2 h
    exact key _ h (by intro s; simp)
  · intro f c st2 h
    exact key _ h (by intro s; simp)

/-- A loop whose body is followed step by step by another body, under a map of the
states, is followed by the loop of the other body: completed runs. -/
theorem forLoop_sim_ok {σ τ ε ε' : Type} (T : σ → τ) (body : Nat → σ → Except ε σ)
    (body' : Nat → τ → Except ε' τ)
    (hok : ∀ i s s', body i s = .ok s' → body' i (T s) = .ok (T s')) :
    ∀ (n : Nat) (s s' : σ), forLoop n body s = .ok s' → forLoop n body' (T s) = .ok (T s') := by
  intro n
  induction n with
  | zero =>
    intro s s' h
    simp only [forLoop, Except.ok.injEq] at h
    rw [← h]
    rfl
  | succ k ih =>
    intro s s' h
    simp only [forLoop, bind, Except.bind] at h ⊢
    cases hk : forLoop k body s with
    | error e => rw [hk] at h; cases h
    | ok s1 =>
      rw [hk] at h
      rw [ih s s1 hk]
      exact hok k s1 s' h

/-- A loop whose body is followed step by step by another body is followed by the loop
of the other body: runs that stop with an abort of the kind `P`. -/
theorem forLoop_sim_error {σ τ ε ε' : Type} (T : σ → τ) (Te : ε → ε') (P : ε → Prop)
    (body : Nat → σ → Except ε σ) (body' : Nat → τ → Except ε' τ)
    (hok : ∀ i s s', body i s = .ok s' → body' i (T s) = .ok (T s'))
    (herr : ∀ i s e, body i s = .error e → P e → body' i (T s) = .error (Te e)) :
    ∀ (n : Nat) (s : σ) (e : ε), forLoop n body s = .error e → P e →
      forLoop n body' (T s) = .error (Te e) := by
  intro n
  induction n with
  | zero =>
    intro s e h
    simp [forLoop] at h
  | succ k ih =>
    intro s e h hP
    simp only [forLoop, bind, Except.bind] at h ⊢
    cases hk : forLoop k body s with
    | error e1 =>
      rw [hk] at h
      simp only [Except.error.injEq] at h
      rw [ih s e1 hk (h ▸ hP), h]
    | ok s1 =>
      rw [hk] at h
      rw [forLoop_sim_ok T body body' hok k s s1 hk]
      exact herr k s1 e h hP

/-- Runs of `solve_spectrograph` that complete or stop with a fatal error are runs of
`solve_spectrograph_ieee`: on them the two definitions agree. -/
theorem solve_spectrograph_ieee_agrees (M : Libm K) (st : INPUTS_SPECTRO_DEF K) :
    (∀ st2, solve_spectrograph M st = .ok st2 →
      solve_spectrograph_ieee M (toDbl st) = .ok (toDbl st2)) ∧
    (∀ fnam c1err st2, solve_spectrograph M st = .error (.fatal fnam c1err, st2) →
      solve_spectrograph_ieee M (toDbl st) = .error (.fatal fnam c1err, toDbl st2)) := by
  have hin_ok : ∀ l i s s',
      forLoop i (fun t => solve_bin M st.MAGREF_LIST
        (fun iref => M.pow TEN (-0.4 * st.MAGREF_LIST iref)) l t) s = .ok s' →
      forLoop i (fun t => solve_bin_ieee M (fun i => .fin (st.MAGREF_LIST i))
        (fun iref => .fin (M.pow TEN (-0.4 * st.MAGREF_LIST iref))) l t) (toDbl s)
          = .ok (toDbl s') := by
    intro l i s s' h
    exact forLoop_sim_ok toDbl _ _
      (fun t a b hab => (solve_bin_ieee_agrees M _ _ l t a).1 b hab) i s s' h
  have hin_err : ∀ l i s (e : Abort × INPUTS_SPECTRO_DEF K),
      forLoop i (fun t => solve_bin M st.MAGREF_LIST
        (fun iref => M.pow TEN (-0.4 * st.MAGREF_LIST iref)) l t) s = .error e →
      (∃ f c, e.1 = .fatal f c) →
      forLoop i (fun t => solve_bin_ieee M (fun i => .fin (st.MAGREF_LIST i))
        (fun iref => .fin (M.pow TEN (-0.4 * st.MAGREF_LIST iref))) l t) (toDbl s)
          = .error (e.1, toDbl e.2) := by
    intro l i s e h hP
    refine forLoop_sim_error toDbl (fun e => (e.1, toDbl e.2)) (fun e => ∃ f c, e.1 = .fatal f c)
      _ _ (fun t a b hab => (solve_bin_ieee_agrees M _ _ l t a).1 b hab) ?_ i s e h hP
    intro t a e1 he1 hP1
    obtain ⟨f, c, hfc⟩ := hP1
    obtain ⟨a1, s1⟩ := e1
    simp only at hfc
    subst hfc
    exact (solve_bin_ieee_agrees M _ _ l t a).2 f c s1 he1
  constructor
  · intro st2 h
    exact forLoop_sim_ok toDbl _ _ (fun l a b hab => hin_ok l _ a b hab) _ st st2 h
  · intro f c st2 h
    exact forLoop_sim_error toDbl (fun e => (e.1, toDbl e.2))
      (fun e => ∃ f c, e.1 = .fatal f c) _ _ (fun l a b hab => hin_ok l _ a b hab)
      (fun l a e he hP => hin_err l _ a e he hP) _ st (.fatal f c, st2) h ⟨f, c, rfl⟩

/-- Any double over `NaN` is `NaN`. -/
theorem Dbl.div_nan (a : Dbl K) : a / Dbl.nan = Dbl.nan := by
  cases a <;> rfl

/-- The product `-0.4 * (+inf)` is `-inf`. -/
theorem Dbl.neg_mul_pinf : (Dbl.fin (-0.4 : K) * Dbl.pinf : Dbl K) = .ninf := by
  show Dbl.mul _ _ = _
  have h1 : ¬ (0 : K) < -0.4 := by norm_num
  have h2 : (-0.4 : K) < 0 := by norm_num
  simp only [Dbl.mul, Dbl.infTimes, if_neg h1, if_pos h2]

/-- A pair whose first SNR value is zero is not stopped: `POWMAG[0]/0` is `+inf`, so `BOT`
is `+inf` and passes the test `BOT <= 0.0`; `ZP = 2.5*log10(0)` is `-inf`, both fluxes
are zero, `SQSIGSKY = (0/0)^2 - 0` is `NaN`, both values `check` are `NaN`, and
`NaN > 0.001` is false. -/
theorem solve_bin_ieee_zero_SNR0 (M : Libm K) (MD PD : Nat → Dbl K) (l t : Nat)
    (st : INPUTS_SPECTRO_DEF (Dbl K)) (m0 m1 p0 p1 s1 : K)
    (hM0 : MD 0 = .fin m0) (hM1 : MD 1 = .fin m1)
    (hP0 : PD 0 = .fin p0) (hP1 : PD 1 = .fin p1)
    (h0 : st.SNR0 l t = .fin 0) (h1 : st.SNR1 l t = .fin s1)
    (hs1 : s1 ≠ 0) (hp : 0 < p0) (hT : 0 < p0 - p1) :
    solve_bin_ieee M MD PD l t st = .ok (storeZP_ieee st l t .ninf .nan) := by
  have e0 : ((0.0 : K)) = 0 := by norm_num
  have d0 : (Dbl.fin p0 / Dbl.fin (0 : K) : Dbl K) = .pinf := by
    show Dbl.div _ _ = _
    simp [Dbl.div, Dbl.infTimes, hp]
  have hbot : (Dbl.pinf * Dbl.pinf - Dbl.fin (p1 / s1) * Dbl.fin (p1 / s1) : Dbl K)
      = .pinf := rfl
  have hq : (Dbl.fin (p0 - p1) / Dbl.pinf : Dbl K) = .fin 0 := rfl
  have hlog : Dbl.log10 M (.fin (0 : K)) = .ninf := by simp [Dbl.log10]
  have hzp : (Dbl.fin (2.5 : K) * Dbl.ninf : Dbl K) = .ninf := by
    show Dbl.mul _ _ = _
    have : (0 : K) < 2.5 := by norm_num
    simp [Dbl.mul, Dbl.infTimes, Dbl.neg, this]
  have hsub : ∀ m : K, (Dbl.fin m - Dbl.ninf : Dbl K) = .pinf := fun _ => rfl
  have harg : (Dbl.fin (-0.4 : K) * Dbl.pinf : Dbl K) = .ninf := by
    show Dbl.mul _ _ = _
    have h1 : ¬ (0 : K) < -0.4 := by norm_num
    have h2 : (-0.4 : K) < 0 := by norm_num
    simp only [Dbl.mul, Dbl.infTimes, if_neg h1, if_pos h2]
  have hpow : Dbl.pow10 M (.ninf) = .fin 0 := rfl
  have hdz : (Dbl.fin (0 : K) / Dbl.fin (0 : K) : Dbl K) = .nan := by
    show Dbl.div _ _ = _
    simp [Dbl.div, Dbl.infTimes]
  have hsq : (Dbl.nan * Dbl.nan - Dbl.fin (0 : K) : Dbl K) = .nan := rfl
  have hadd : (Dbl.nan + Dbl.fin (0 : K) : Dbl K) = .nan := rfl
  have hsqrt : Dbl.sqrt M (.nan) = .nan := rfl
  have hdn : ∀ x : K, (Dbl.fin x / Dbl.nan : Dbl K) = .nan := fun _ => rfl
  have hsn : (Dbl.nan - Dbl.fin (1.0 : K) : Dbl K) = .nan := rfl
  have hfabs : Dbl.fabs (.nan : Dbl K) = .nan := rfl
  have hlt : Dbl.lt (.fin (0.001 : K)) .nan = false := rfl
  unfold solve_bin_ieee
  simp only [h0, h1, hM0, hM1, hP0, hP1, d0, Dbl.fin_div_fin _ _ hs1, Dbl.fin_sub_fin, hbot,
    Dbl.le_fin, e0, hq, hlog, hzp, hsub, harg, hpow, hdz, hsq, hadd, hsqrt, hdn, hsn, hfabs,
    hlt]
  have hle : Dbl.le (.pinf : Dbl K) (.fin 0) = false := rfl
  rw [hle]
  simp only [decide_eq_true_eq, not_le.mpr hT, Bool.or_false, Bool.false_eq_true, if_false,
    decide_False]
  rfl

/-- A pair whose second SNR value is zero is stopped: `POWMAG[1]/0` is `+inf`, so `BOT`
is `-inf` and the test `BOT <= 0.0` holds. -/
theorem solve_bin_ieee_zero_SNR1 (M : Libm K) (MD PD : Nat → Dbl K) (l t : Nat)
    (st : INPUTS_SPECTRO_DEF (Dbl K)) (p0 p1 s0 : K)
    (hP0 : PD 0 = .fin p0) (hP1 : PD 1 = .fin p1)
    (h0 : st.SNR0 l t = .fin s0) (h1 : st.SNR1 l t = .fin 0)
    (hs0 : s0 ≠ 0) (hp : 0 < p1) :
    solve_bin_ieee M MD PD l t st
      = .error (.fatal "solve_spectrograph" "Cannot solve ZP", st) := by
  have d1 : (Dbl.fin p1 / Dbl.fin (0 : K) : Dbl K) = .pinf := by
    show Dbl.div _ _ = _
    simp [Dbl.div, Dbl.infTimes, hp]
  have hbot : (Dbl.fin (p0 / s0) * Dbl.fin (p0 / s0) - Dbl.pinf * Dbl.pinf : Dbl K)
      = .ninf := rfl
  have hle : Dbl.le (.ninf : Dbl K) (.fin 0.0) = true := rfl
  unfold solve_bin_ieee
  simp only [h0, h1, hP0, hP1, d1, Dbl.fin_div_fin _ _ hs0, hbot, hle, Bool.or_true, if_true]

/-- The value recomputed from `ZP = -inf` and `SQSIGSKY = NaN` is `NaN`. -/
theorem SNR_check_ieee_nan (M : Libm K) (m : K) :
    SNR_check_ieee M (.fin m) .ninf .nan = .nan := by
  unfold SNR_check_ieee
  have hsub : (Dbl.fin m - Dbl.ninf : Dbl K) = .pinf := rfl
  rw [hsub, Dbl.neg_mul_pinf]
  rfl

/-- The query of the solved table `zeroSNRTable` at its exposure time, without a
template: the interpolator returns the stored `-inf` and `NaN`, the flux is zero and
`FluxErr` is `NaN`, so the returned SNR and `*ERRFRAC_T` are `NaN` for every finite
magnitude. -/
theorem zeroSNR_query (M : Libm K) (GENMAG : K) :
    getSNR_spectrograph_ieee M interp_1DFUN_linear_ieee
        (storeZP_ieee (toDbl (zeroSNRTable K)) 0 0 .ninf .nan) 0 (.fin 100) (.fin 0)
        (.fin GENMAG)
      = .ok (.nan, .nan) := by
  have hlt : Dbl.lt (Dbl.fin (100 : K)) (Dbl.fin 100) = false := by simp [Dbl.lt]
  have hT : Dbl.lt (Dbl.fin (0.01 : K)) (Dbl.fin 0) = false := by
    have : ¬ (0.01 : K) < 0 := by norm_num
    simp [Dbl.lt, this]
  unfold getSNR_spectrograph_ieee interp_1DFUN_linear_ieee
  simp only [storeZP_ieee, toDbl, zeroSNRTable, hlt, hT, findBin_ieee, Bool.or_self,
    Bool.false_eq_true, if_false, bind, Except.bind, pure, Except.pure, and_self, if_true,
    Nat.sub_self]
  have hsub : (Dbl.fin GENMAG - Dbl.ninf : Dbl K) = .pinf := rfl
  rw [hsub, Dbl.neg_mul_pinf]
  have hv : (Dbl.nan + Dbl.fin (0.0 : K) + Dbl.pow10 M Dbl.ninf : Dbl K) = .nan := rfl
  have hs : Dbl.sqrt M (.nan) = .nan := rfl
  rw [hv, hs, Dbl.div_nan, Dbl.div_nan]

/-- The linear interpolator on a grid of two finite points returns the tabulated finite
values at the two points. -/
theorem interp_linear_ieee_grid2 (X F : Nat → Dbl K) (a b u v : K) (cmt : String)
    (hX0 : X 0 = .fin a) (hX1 : X 1 = .fin b) (hF0 : F 0 = .fin u) (hF1 : F 1 = .fin v)
    (hab : a < b) :
    interp_1DFUN_linear_ieee 1 (.fin a) 2 X F cmt = .ok (.fin u) ∧
    interp_1DFUN_linear_ieee 1 (.fin b) 2 X F cmt = .ok (.fin v) := by
  have hne : b - a ≠ 0 := ne_of_gt (sub_pos.mpr hab)
  constructor
  · unfold interp_1DFUN_linear_ieee
    simp only [hX0, hX1, Dbl.lt_fin, lt_irrefl, decide_False, not_lt.mpr (le_of_lt hab),
      Bool.or_self, Bool.false_eq_true, if_false, findBin_ieee, Nat.reduceSub, zero_add,
      Dbl.le_fin, le_of_lt hab, decide_True, if_true, hF0, hF1, Dbl.fin_sub_fin,
      Dbl.fin_div_fin _ _ hne, Dbl.fin_mul_fin, Dbl.fin_add_fin]
    simp
  · unfold interp_1DFUN_linear_ieee
    simp only [hX0, hX1, Dbl.lt_fin, lt_irrefl, decide_False, not_lt.mpr (le_of_lt hab),
      Bool.or_self, Bool.false_eq_true, if_false, findBin_ieee, Nat.reduceSub, zero_add,
      Dbl.le_fin, le_refl, decide_True, if_true, hF0, hF1, Dbl.fin_sub_fin,
      Dbl.fin_div_fin _ _ hne, Dbl.fin_mul_fin, Dbl.fin_add_fin]
    simp [div_self hne]

/-- The result of `getSNR_spectrograph_ieee` when the interpolated values and the scaled
template variance are finite and the variance under the square root of `FluxErr` is
positive enough for a non-zero `FluxErr`: the returned SNR is a finite number, whatever
the sign of the template variance. -/
theorem getSNR_spectrograph_ieee_fin (M : Libm K) (interp : Interp (Dbl K))
    (st : INPUTS_SPECTRO_DEF (Dbl K)) (ILAM : Nat) (S T : Dbl K) (GENMAG ZP_S SQ_S SQ_T : K)
    (hS : (Dbl.lt S (st.TEXPOSE_LIST 0) || Dbl.lt (st.TEXPOSE_LIST (st.NBIN_TEXPOSE - 1)) S)
      = false)
    (hZ : interp 1 S st.NBIN_TEXPOSE st.TEXPOSE_LIST (st.ZP ILAM)
      "getSNR_spectrograph(ZP_S)" = .ok (.fin ZP_S))
    (hQ : interp 1 S st.NBIN_TEXPOSE st.TEXPOSE_LIST (st.SQSIGSKY ILAM)
      "getSNR_spectrograph(SQ_S)" = .ok (.fin SQ_S))
    (hT : templateVar_ieee M interp st ILAM T (.fin ZP_S) = .ok (.fin SQ_T))
    (hvar : ¬ SQ_S + SQ_T + M.pow TEN (-0.4 * (GENMAG - ZP_S)) < 0)
    (hne : M.sqrt (SQ_S + SQ_T + M.pow TEN (-0.4 * (GENMAG - ZP_S))) ≠ 0) :
    getSNR_spectrograph_ieee M interp st ILAM S T (.fin GENMAG)
      = .ok (.fin (M.pow TEN (-0.4 * (GENMAG - ZP_S))
              / M.sqrt (SQ_S + SQ_T + M.pow TEN (-0.4 * (GENMAG - ZP_S)))),
          Dbl.sqrt M (.fin SQ_T)
            / .fin (M.sqrt (SQ_S + SQ_T + M.pow TEN (-0.4 * (GENMAG - ZP_S))))) := by
  unfold templateVar_ieee at hT
  unfold getSNR_spectrograph_ieee
  simp only [hS, Bool.false_eq_true, if_false, bind, Except.bind, hZ, hQ, pure, Except.pure]
    at hT ⊢
  have fin_tail : ∀ V : Dbl K, V = .fin SQ_T →
      (Except.ok (Dbl.pow10 M (Dbl.fin (-0.4) * (Dbl.fin GENMAG - Dbl.fin ZP_S)) /
          Dbl.sqrt M (Dbl.fin SQ_S + V
            + Dbl.pow10 M (Dbl.fin (-0.4) * (Dbl.fin GENMAG - Dbl.fin ZP_S))),
        Dbl.sqrt M V /
          Dbl.sqrt M (Dbl.fin SQ_S + V
            + Dbl.pow10 M (Dbl.fin (-0.4) * (Dbl.fin GENMAG - Dbl.fin ZP_S))))
        : Except Abort (Dbl K × Dbl K))
      = .ok (.fin (M.pow TEN (-0.4 * (GENMAG - ZP_S))
              / M.sqrt (SQ_S + SQ_T + M.pow TEN (-0.4 * (GENMAG - ZP_S)))),
          Dbl.sqrt M (.fin SQ_T)
            / .fin (M.sqrt (SQ_S + SQ_T + M.pow TEN (-0.4 * (GENMAG - ZP_S))))) := by
    intro V hV
    rw [hV]
    simp only [Dbl.fin_sub_fin, Dbl.fin_mul_fin, Dbl.pow10_fin, Dbl.fin_add_fin,
      Dbl.sqrt_fin M _ hvar, Dbl.fin_div_fin _ _ hne]
  by_cases hlt : Dbl.lt (.fin 0.01) T = true
  · rw [if_pos hlt] at hT ⊢
    cases hzt : interp 1 T st.NBIN_TEXPOSE st.TEXPOSE_LIST (st.ZP ILAM)
        "getSNR_spectrograph(ZP_T)" with
    | error e =>
      rw [hzt] at hT
      cases hT
    | ok zt =>
      rw [hzt] at hT
      cases hqt : interp 1 T st.NBIN_TEXPOSE st.TEXPOSE_LIST (st.SQSIGSKY ILAM)
          "getSNR_spectrograph(SQ_T)" with
      | error e =>
        rw [hqt] at hT
        cases hT
      | ok qt =>
        rw [hqt] at hT
        simp only [Except.ok.injEq] at hT
        exact fin_tail _ hT
  · rw [if_neg hlt] at hT ⊢
    simp only [Except.ok.injEq] at hT
    exact fin_tail _ hT

/-- The bin search on finite doubles is the bin search on numbers. -/
theorem findBin_ieee_fin (val : K) (X : Nat → K) :
    ∀ (n start : Nat),
      findBin_ieee (.fin val) (fun t => Dbl.fin (X t)) start n = findBin val X start n := by
  intro n
  induction n with
  | zero => intro start; rfl
  | succ k ih =>
    intro start
    simp only [findBin_ieee, findBin, Dbl.le_fin, decide_eq_true_eq, ih]

/-- Where the linear interpolator on numbers returns, the one on doubles returns the same
finite value. -/
theorem interp_linear_ieee_agrees (opt : Nat) (val : K) (NBIN : Nat) (X F : Nat → K)
    (cmt : String) (r : K)
    (h : interp_1DFUN_linear opt val NBIN X F cmt = .ok r) :
    interp_1DFUN_linear_ieee opt (.fin val) NBIN (fun t => Dbl.fin (X t))
      (fun t => Dbl.fin (F t)) cmt = .ok (.fin r) := by
  unfold interp_1DFUN_linear at h
  unfold interp_1DFUN_linear_ieee
  by_cases hr : val < X 0 ∨ val > X (NBIN - 1)
  · rw [if_pos hr] at h
    cases h
  rw [if_neg hr] at h
  have hr2 : (Dbl.lt (Dbl.fin val) (Dbl.fin (X 0))
      || Dbl.lt (Dbl.fin (X (NBIN - 1))) (Dbl.fin val)) = false := by
    push_neg at hr
    simp [Dbl.lt_fin, hr.1, hr.2]
  simp only [hr2, Bool.false_eq_true, if_false, findBin_ieee_fin]
  cases hb : findBin val X 0 (NBIN - 1) with
  | none =>
    rw [hb] at h
    simp only [Except.ok.injEq] at h
    rw [← h]
  | some i =>
    rw [hb] at h
    simp only [fdiv, bind, Except.bind, pure, Except.pure] at h
    by_cases hd : X (i + 1) - X i = 0
    · rw [if_pos hd] at h
      cases h
    rw [if_neg hd] at h
    simp only [Except.ok.injEq] at h
    simp only [Dbl.fin_sub_fin, Dbl.fin_div_fin _ _ hd, Dbl.fin_mul_fin, Dbl.fin_add_fin, h]

/-- Where `getSNR_spectrograph` returns, `getSNR_spectrograph_ieee` returns the same two
finite values, for an interpolator on doubles that follows the one on numbers. -/
theorem getSNR_spectrograph_ieee_agrees (M : Libm K) (interp : Interp K)
    (interpD : Interp (Dbl K)) (st : INPUTS_SPECTRO_DEF K) (ILAM : Nat)
    (S T GENMAG snr e : K)
    (hI : ∀ val F cmt r, interp 1 val st.NBIN_TEXPOSE st.TEXPOSE_LIST F cmt = .ok r →
      interpD 1 (.fin val) st.NBIN_TEXPOSE (fun t => .fin (st.TEXPOSE_LIST t))
        (fun t => .fin (F t)) cmt = .ok (.fin r))
    (h : getSNR_spectrograph M interp st ILAM S T GENMAG = .ok (snr, e)) :
    getSNR_spectrograph_ieee M interpD (toDbl st) ILAM (.fin S) (.fin T) (.fin GENMAG)
      = .ok (.fin snr, .fin e) := by
  by_cases hS : S < st.TEXPOSE_LIST 0 ∨ S > st.TEXPOSE_LIST (st.NBIN_TEXPOSE - 1)
  · unfold getSNR_spectrograph at h
    simp only [hS, if_true, bind, Except.bind, throw, throwThe, MonadExceptOf.throw] at h
    cases h
  cases hZ : interp 1 S st.NBIN_TEXPOSE st.TEXPOSE_LIST (st.ZP ILAM)
      "getSNR_spectrograph(ZP_S)" with
  | error x =>
    unfold getSNR_spectrograph at h
    simp only [hS, if_false, bind, Except.bind, hZ, pure, Except.pure] at h
    cases h
  | ok ZP_S =>
    cases hQ : interp 1 S st.NBIN_TEXPOSE st.TEXPOSE_LIST (st.SQSIGSKY ILAM)
        "getSNR_spectrograph(SQ_S)" with
    | error x =>
      unfold getSNR_spectrograph at h
      simp only [hS, if_false, bind, Except.bind, hZ, hQ, pure, Except.pure] at h
      cases h
    | ok SQ_S =>
      rw [getSNR_eq M interp st ILAM S T GENMAG ZP_S SQ_S hS hZ hQ] at h
      cases hT : templateVar M interp st ILAM T ZP_S with
      | error x =>
        rw [hT] at h
        cases h
      | ok SQ_T =>
        rw [hT] at h
        simp only at h
        by_cases h1 : SQ_S + SQ_T + M.pow TEN (-0.4 * (GENMAG - ZP_S)) < 0
        · rw [if_pos h1] at h
          cases h
        rw [if_neg h1] at h
        by_cases h2 : SQ_T < 0
        · rw [if_pos h2] at h
          cases h
        rw [if_neg h2] at h
        by_cases h3 : M.sqrt (SQ_S + SQ_T + M.pow TEN (-0.4 * (GENMAG - ZP_S))) = 0
        · rw [if_pos h3] at h
          cases h
        rw [if_neg h3] at h
        simp only [Except.ok.injEq, Prod.mk.injEq] at h
        have hTD : templateVar_ieee M interpD (toDbl st) ILAM (.fin T) (.fin ZP_S)
            = .ok (.fin SQ_T) := by
          unfold templateVar at hT
          unfold templateVar_ieee
          by_cases hlt : T > 0.01
          · rw [if_pos hlt] at hT
            have hlt2 : Dbl.lt (Dbl.fin (0.01 : K)) (Dbl.fin T) = true := by
              simp [Dbl.lt_fin]
              exact hlt
            rw [if_pos hlt2]
            cases hzt : interp 1 T st.NBIN_TEXPOSE st.TEXPOSE_LIST (st.ZP ILAM)
                "getSNR_spectrograph(ZP_T)" with
            | error x =>
              simp only [hzt, bind, Except.bind] at hT
              cases hT
            | ok zt =>
              cases hqt : interp 1 T st.NBIN_TEXPOSE st.TEXPOSE_LIST (st.SQSIGSKY ILAM)
                  "getSNR_spectrograph(SQ_T)" with
              | error x =>
                simp only [hzt, hqt, bind, Except.bind] at hT
                cases hT
              | ok qt =>
                simp only [hzt, hqt, bind, Except.bind, pure, Except.pure,
                  Except.ok.injEq] at hT
                have a1 := hI T (st.ZP ILAM) "getSNR_spectrograph(ZP_T)" zt hzt
                have a2 := hI T (st.SQSIGSKY ILAM) "getSNR_spectrograph(SQ_T)" qt hqt
                show (do
                  let ZP_T ← interpD 1 (.fin T) st.NBIN_TEXPOSE
                    (fun t => .fin (st.TEXPOSE_LIST t)) (fun t => .fin (st.ZP ILAM t))
                    "getSNR_spectrograph(ZP_T)"
                  let SQ_T ← interpD 1 (.fin T) st.NBIN_TEXPOSE
                    (fun t => .fin (st.TEXPOSE_LIST t)) (fun t => .fin (st.SQSIGSKY ILAM t))
                    "getSNR_spectrograph(SQ_T)"
                  pure (SQ_T * Dbl.pow10 M (Dbl.fin 0.8 * (Dbl.fin ZP_S - ZP_T)))) = _
                rw [a1, a2]
                simp only [bind, Except.bind, pure, Except.pure, Dbl.fin_sub_fin,
                  Dbl.fin_mul_fin, Dbl.pow10_fin, hT]
          · rw [if_neg hlt] at hT
            have hlt2 : ¬ Dbl.lt (Dbl.fin (0.01 : K)) (Dbl.fin T) = true := by
              simp [Dbl.lt_fin]
              exact not_lt.mp hlt
            rw [if_neg hlt2]
            simp only [pure, Except.pure, Except.ok.injEq] at hT ⊢
            rw [← hT]
            norm_num
        have hSD : (Dbl.lt (Dbl.fin S) ((toDbl st).TEXPOSE_LIST 0)
            || Dbl.lt ((toDbl st).TEXPOSE_LIST ((toDbl st).NBIN_TEXPOSE - 1)) (Dbl.fin S))
            = false := by
          push_neg at hS
          show (Dbl.lt (Dbl.fin S) (Dbl.fin (st.TEXPOSE_LIST 0))
            || Dbl.lt (Dbl.fin (st.TEXPOSE_LIST (st.NBIN_TEXPOSE - 1))) (Dbl.fin S)) = false
          simp [Dbl.lt_fin, hS.1, hS.2]
        rw [getSNR_spectrograph_ieee_fin M interpD (toDbl st) ILAM (.fin S) (.fin T) GENMAG
          ZP_S SQ_S SQ_T hSD (hI S (st.ZP ILAM) _ ZP_S hZ) (hI S (st.SQSIGSKY ILAM) _ SQ_S hQ)
          hTD h1 h3, Dbl.sqrt_fin M _ h2, Dbl.fin_div_fin _ _ h3, h.1, h.2]

end Lemmas

/-! ## The exact functions on the real numbers -/

section RealLemmas

theorem real_fluxOf (m R : ℝ) (hR : 0 < R) :
    fluxOf realLibm m (2.5 * Real.logb 10 R) = (10 : ℝ) ^ (-0.4 * m) * R := by
  unfold fluxOf
  simp only [realLibm, TEN]
  have e : -0.4 * (m - 2.5 * Real.logb 10 R) = -0.4 * m + Real.logb 10 R := by ring
  rw [e, Real.rpow_add (by norm_num : (0:ℝ) < 10),
    Real.rpow_logb (by norm_num) (by norm_num) hR]

theorem real_pow_pos (y : ℝ) : 0 < realLibm.pow TEN y := by
  simp only [realLibm, TEN]
  exact Real.rpow_pos_of_pos (by norm_num) y

/-- With the exact functions the closed-form solution reproduces both input SNR values. -/
theorem real_solve_exact (MAGREF : Nat → ℝ) (s0 s1 : ℝ) (hs0 : 0 < s0) (hs1 : 0 < s1)
    (hT : 0 < realLibm.pow TEN (-0.4 * MAGREF 0) - realLibm.pow TEN (-0.4 * MAGREF 1))
    (hB : 0 < botOf (realLibm.pow TEN (-0.4 * MAGREF 0)) (realLibm.pow TEN (-0.4 * MAGREF 1)) s0 s1) :
    let zp := zpOf realLibm (realLibm.pow TEN (-0.4 * MAGREF 0)) (realLibm.pow TEN (-0.4 * MAGREF 1)) s0 s1
    let sq := sqOf realLibm (MAGREF 0) zp s0
    (0 < sq + fluxOf realLibm (MAGREF 0) zp ∧ snrOf realLibm (fluxOf realLibm (MAGREF 0) zp) sq = s0) ∧
    (0 < sq + fluxOf realLibm (MAGREF 1) zp ∧ snrOf realLibm (fluxOf realLibm (MAGREF 1) zp) sq = s1) := by
  intro zp sq
  set P0 := realLibm.pow TEN (-0.4 * MAGREF 0) with hP0
  set P1 := realLibm.pow TEN (-0.4 * MAGREF 1) with hP1
  have hP0pos : 0 < P0 := real_pow_pos _
  have hP1pos : 0 < P1 := real_pow_pos _
  set B := botOf P0 P1 s0 s1 with hBdef
  have hR : 0 < (P0 - P1) / B := div_pos hT hB
  have hf0 : fluxOf realLibm (MAGREF 0) zp = P0 * ((P0 - P1) / B) := by
    have := real_fluxOf (MAGREF 0) ((P0 - P1) / B) hR
    simpa [zp, zpOf, realLibm, TEN, hP0, hP1, hBdef] using this
  have hf1 : fluxOf realLibm (MAGREF 1) zp = P1 * ((P0 - P1) / B) := by
    have := real_fluxOf (MAGREF 1) ((P0 - P1) / B) hR
    simpa [zp, zpOf, realLibm, TEN, hP0, hP1, hBdef] using this
  have hf0pos : 0 < fluxOf realLibm (MAGREF 0) zp := by rw [hf0]; positivity
  have hf1pos : 0 < fluxOf realLibm (MAGREF 1) zp := by rw [hf1]; positivity
  have hsq0 : sq + fluxOf realLibm (MAGREF 0) zp =
      fluxOf realLibm (MAGREF 0) zp / s0 * (fluxOf realLibm (MAGREF 0) zp / s0) := by
    simp only [sq, sqOf]; ring
  have hsq1 : sq + fluxOf realLibm (MAGREF 1) zp =
      fluxOf realLibm (MAGREF 1) zp / s1 * (fluxOf realLibm (MAGREF 1) zp / s1) := by
    simp only [sq, sqOf]
    rw [hf0, hf1]
    have hBne : B ≠ 0 := ne_of_gt hB
    have hBe : B = P0 / s0 * (P0 / s0) - P1 / s1 * (P1 / s1) := rfl
    have hs0n : s0 ≠ 0 := ne_of_gt hs0
    have hs1n : s1 ≠ 0 := ne_of_gt hs1
    have key : (P0 - P1) = ((P0 - P1) / B) * (P0 / s0 * (P0 / s0) - P1 / s1 * (P1 / s1)) := by
      rw [← hBe]; field_simp
    generalize (P0 - P1) / B = R at key ⊢
    have : P0 * R / s0 * (P0 * R / s0) - P0 * R + P1 * R
        = R * (R * (P0 / s0 * (P0 / s0) - P1 / s1 * (P1 / s1)) - (P0 - P1))
          + P1 * R / s1 * (P1 * R / s1) := by ring
    rw [this, ← key]; ring
  refine ⟨⟨?_, ?_⟩, ⟨?_, ?_⟩⟩
  · rw [hsq0]; positivity
  · unfold snrOf
    rw [hsq0]
    have h : realLibm.sqrt (fluxOf realLibm (MAGREF 0) zp / s0 *
        (fluxOf realLibm (MAGREF 0) zp / s0)) = fluxOf realLibm (MAGREF 0) zp / s0 :=
      Real.sqrt_mul_self (by positivity)
    rw [h]
    field_simp
  · rw [hsq1]; positivity
  · unfold snrOf
    rw [hsq1]
    have h : realLibm.sqrt (fluxOf realLibm (MAGREF 1) zp / s1 *
        (fluxOf realLibm (MAGREF 1) zp / s1)) = fluxOf realLibm (MAGREF 1) zp / s1 :=
      Real.sqrt_mul_self (by positivity)
    rw [h]
    field_simp

theorem real_ten_rpow_lt_fifth : (10 : ℝ) ^ (-0.8 : ℝ) < 1 / 5 := by
  by_contra h
  have h1 : (1 / 5 : ℝ) ≤ (10 : ℝ) ^ (-0.8 : ℝ) := not_lt.mp h
  have h2 : ((10 : ℝ) ^ (-0.8 : ℝ)) ^ (5 : ℕ) = (10 : ℝ) ^ (-4 : ℝ) := by
    rw [← Real.rpow_natCast, ← Real.rpow_mul (by norm_num)]
    norm_num
  have h3 : (10 : ℝ) ^ (-4 : ℝ) = 1 / 10000 := by
    rw [Real.rpow_neg (by norm_num)]
    have : (10 : ℝ) ^ (4 : ℝ) = 10000 := by
      have e : ((4 : ℕ) : ℝ) = (4 : ℝ) := by norm_num
      rw [← e, Real.rpow_natCast]
      norm_num
    rw [this]; norm_num
  have h4 : ((1 / 5 : ℝ)) ^ (5 : ℕ) ≤ ((10 : ℝ) ^ (-0.8 : ℝ)) ^ (5 : ℕ) :=
    pow_le_pow_left₀ (by norm_num) h1 5
  rw [h2, h3] at h4
  norm_num at h4

theorem real_powmag_scenario :
    0 < realLibm.pow TEN (-0.4 * 22) ∧
    realLibm.pow TEN (-0.4 * 22) < realLibm.pow TEN (-0.4 * 20) / 5 ∧
    realLibm.pow TEN (-0.4 * 20) < 1 := by
  refine ⟨real_pow_pos _, ?_, ?_⟩
  · simp only [realLibm, TEN]
    have e : (-0.4 * 22 : ℝ) = -0.4 * 20 + (-0.8) := by norm_num
    rw [e, Real.rpow_add (by norm_num)]
    have hp : (0 : ℝ) < (10 : ℝ) ^ (-0.4 * 20 : ℝ) := Real.rpow_pos_of_pos (by norm_num) _
    have := real_ten_rpow_lt_fifth
    nlinarith
  · simp only [realLibm, TEN]
    exact Real.rpow_lt_one_of_one_lt_of_neg (by norm_num) (by norm_num)

theorem real_SolvedOK (MAGREF : Nat → ℝ) (s0 s1 : ℝ) (hs0 : 0 < s0) (hs1 : 0 < s1)
    (hT : 0 < realLibm.pow TEN (-0.4 * MAGREF 0) - realLibm.pow TEN (-0.4 * MAGREF 1))
    (hB : 0 < botOf (realLibm.pow TEN (-0.4 * MAGREF 0)) (realLibm.pow TEN (-0.4 * MAGREF 1)) s0 s1) :
    SolvedOK realLibm MAGREF (fun i => realLibm.pow TEN (-0.4 * MAGREF i)) s0 s1 := by
  obtain ⟨⟨a0, b0⟩, ⟨a1, b1⟩⟩ := real_solve_exact MAGREF s0 s1 hs0 hs1 hT hB
  refine ⟨ne_of_gt hs0, ne_of_gt hs1, hT, hB, ⟨le_of_lt a0, ?_, ?_, ?_⟩, ⟨le_of_lt a1, ?_, ?_, ?_⟩⟩
  · exact ne_of_gt (Real.sqrt_pos.mpr a0)
  · rw [b0]; exact ne_of_gt hs0
  · rw [b0, div_self (ne_of_gt hs0)]; norm_num
  · exact ne_of_gt (Real.sqrt_pos.mpr a1)
  · rw [b1]; exact ne_of_gt hs1
  · rw [b1, div_self (ne_of_gt hs1)]; norm_num

theorem real_pair_signs (MAGREF : Nat → ℝ) (s0 s1 : ℝ) (hs0 : 2 ≤ s0) (hs1 : 0 < s1)
    (hs : s0 ≤ 2 * s1)
    (hP1 : 0 < realLibm.pow TEN (-0.4 * MAGREF 1))
    (h1 : realLibm.pow TEN (-0.4 * MAGREF 1) < realLibm.pow TEN (-0.4 * MAGREF 0) / 5)
    (hP0 : realLibm.pow TEN (-0.4 * MAGREF 0) < 1) :
    0 < realLibm.pow TEN (-0.4 * MAGREF 0) - realLibm.pow TEN (-0.4 * MAGREF 1) ∧
    0 < botOf (realLibm.pow TEN (-0.4 * MAGREF 0)) (realLibm.pow TEN (-0.4 * MAGREF 1)) s0 s1 ∧
    0 < zpOf realLibm (realLibm.pow TEN (-0.4 * MAGREF 0)) (realLibm.pow TEN (-0.4 * MAGREF 1)) s0 s1 ∧
    sqOf realLibm (MAGREF 0)
      (zpOf realLibm (realLibm.pow TEN (-0.4 * MAGREF 0)) (realLibm.pow TEN (-0.4 * MAGREF 1)) s0 s1)
      s0 < 0 := by
  set P0 := realLibm.pow TEN (-0.4 * MAGREF 0) with hP0d
  set P1 := realLibm.pow TEN (-0.4 * MAGREF 1) with hP1d
  have hP0pos : 0 < P0 := real_pow_pos _
  have hs0pos : 0 < s0 := by linarith
  have hT : 0 < P0 - P1 := by linarith
  have hq : P1 / s1 < P0 / s0 := by
    rw [div_lt_div_iff₀ hs1 hs0pos]
    nlinarith
  have hq1 : 0 < P1 / s1 := div_pos hP1 hs1
  have hB : 0 < botOf P0 P1 s0 s1 := by
    unfold botOf
    nlinarith
  have hBlt : botOf P0 P1 s0 s1 < P0 - P1 := by
    unfold botOf
    have hq0 : P0 / s0 ≤ P0 / 2 := div_le_div_of_nonneg_left (le_of_lt hP0pos) (by norm_num) hs0
    have hq0pos : 0 < P0 / s0 := div_pos hP0pos hs0pos
    nlinarith
  have hR : 1 < (P0 - P1) / botOf P0 P1 s0 s1 := by
    rw [one_lt_div hB]; exact hBlt
  have hR0 : 0 < (P0 - P1) / botOf P0 P1 s0 s1 := by linarith
  have hzp : 0 < zpOf realLibm P0 P1 s0 s1 := by
    unfold zpOf
    have : 0 < Real.logb 10 ((P0 - P1) / botOf P0 P1 s0 s1) := Real.logb_pos (by norm_num) hR
    have h2 : realLibm.log10 ((P0 - P1) / botOf P0 P1 s0 s1)
        = Real.logb 10 ((P0 - P1) / botOf P0 P1 s0 s1) := rfl
    rw [h2]; linarith
  refine ⟨hT, hB, hzp, ?_⟩
  have hf0 : fluxOf realLibm (MAGREF 0) (zpOf realLibm P0 P1 s0 s1)
      = P0 * ((P0 - P1) / botOf P0 P1 s0 s1) := by
    have := real_fluxOf (MAGREF 0) ((P0 - P1) / botOf P0 P1 s0 s1) hR0
    simpa [zpOf, realLibm, TEN, hP0d, hP1d] using this
  unfold sqOf
  rw [hf0]
  set f := P0 * ((P0 - P1) / botOf P0 P1 s0 s1) with hf
  have hfpos : 0 < f := by positivity
  have hflt : f < s0 * s0 := by
    rw [hf, ← mul_div_assoc, div_lt_iff₀ hB]
    unfold botOf
    have e : s0 * s0 * (P0 / s0 * (P0 / s0) - P1 / s1 * (P1 / s1))
        = P0 * P0 - (s0 / s1) * (s0 / s1) * (P1 * P1) := by
      field_simp
      ring
    rw [e]
    have hr : s0 / s1 ≤ 2 := by rw [div_le_iff₀ hs1]; exact hs
    have hr0 : 0 < s0 / s1 := div_pos hs0pos hs1
    have hrr : s0 / s1 * (s0 / s1) ≤ 4 := by nlinarith
    have ha : s0 / s1 * (s0 / s1) * (P1 * P1) ≤ 4 * (P1 * P1) :=
      mul_le_mul_of_nonneg_right hrr (le_of_lt (mul_pos hP1 hP1))
    have hb : P1 * P1 < P1 * (P0 / 5) := mul_lt_mul_of_pos_left h1 hP1
    have hc : 0 < P1 * P0 := mul_pos hP1 hP0pos
    have hd : P0 * (P0 - P1) = P0 * P0 - P1 * P0 := by ring
    have he : P1 * (P0 / 5) = P1 * P0 / 5 := by ring
    rw [hd]
    rw [he] at hb
    linarith
  have e2 : f / s0 * (f / s0) - f = f * (f - s0 * s0) / (s0 * s0) := by
    field_simp; ring
  rw [e2]
  apply div_neg_of_neg_of_pos
  · nlinarith
  · positivity

theorem scenario_magref : (scenarioTable ℝ).MAGREF_LIST 0 = 20 ∧
    (scenarioTable ℝ).MAGREF_LIST 1 = 22 := by
  constructor <;> simp [scenarioTable]

theorem scenario_pair_signs (s0 s1 : ℝ) (hs0 : 2 ≤ s0) (hs1 : 0 < s1) (hs : s0 ≤ 2 * s1) :
    0 < powmagOf realLibm (scenarioTable ℝ) 0 - powmagOf realLibm (scenarioTable ℝ) 1 ∧
    0 < botOf (powmagOf realLibm (scenarioTable ℝ) 0) (powmagOf realLibm (scenarioTable ℝ) 1) s0 s1 ∧
    0 < zpOf realLibm (powmagOf realLibm (scenarioTable ℝ) 0)
      (powmagOf realLibm (scenarioTable ℝ) 1) s0 s1 ∧
    sqOf realLibm ((scenarioTable ℝ).MAGREF_LIST 0)
      (zpOf realLibm (powmagOf realLibm (scenarioTable ℝ) 0)
        (powmagOf realLibm (scenarioTable ℝ) 1) s0 s1) s0 < 0 := by
  obtain ⟨a, b, c⟩ := real_powmag_scenario
  have h := real_pair_signs (scenarioTable ℝ).MAGREF_LIST s0 s1 hs0 hs1 hs
  rw [scenario_magref.1, scenario_magref.2] at h
  have h2 := h a b c
  unfold powmagOf
  rw [scenario_magref.1, scenario_magref.2]
  exact h2

theorem scenario_pair_ok (s0 s1 : ℝ) (hs0 : 2 ≤ s0) (hs1 : 0 < s1) (hs : s0 ≤ 2 * s1) :
    SolvedOK realLibm (scenarioTable ℝ).MAGREF_LIST (powmagOf realLibm (scenarioTable ℝ))
      s0 s1 := by
  obtain ⟨a, b, -, -⟩ := scenario_pair_signs s0 s1 hs0 hs1 hs
  exact real_SolvedOK (scenarioTable ℝ).MAGREF_LIST s0 s1 (by linarith) hs1 a b

theorem scenario_solves : solve_spectrograph realLibm (scenarioTable ℝ) = .ok scenarioSolved := by
  rw [solve_spectrograph_ok_iff]
  refine ⟨?_, rfl⟩
  intro l t hl ht
  have hl0 : l = 0 := by
    have : l < 1 := hl
    omega
  have ht2 : t < 2 := ht
  subst hl0
  rcases Nat.lt_succ_iff_lt_or_eq.mp ht2 with h | h
  · have : t = 0 := by omega
    subst this
    have e0 : (scenarioTable ℝ).SNR0 0 0 = 10 := by simp [scenarioTable]
    have e1 : (scenarioTable ℝ).SNR1 0 0 = 8 := by simp [scenarioTable]
    rw [e0, e1]
    exact scenario_pair_ok 10 8 (by norm_num) (by norm_num) (by norm_num)
  · subst h
    have e0 : (scenarioTable ℝ).SNR0 0 1 = 30 := by simp [scenarioTable]
    have e1 : (scenarioTable ℝ).SNR1 0 1 = 25 := by simp [scenarioTable]
    rw [e0, e1]
    exact scenario_pair_ok 30 25 (by norm_num) (by norm_num) (by norm_num)

theorem scenario_grid : StrictIncr (scenarioTable ℝ).TEXPOSE_LIST 2 := by
  intro a b hab hb
  have ha : a = 0 := by omega
  have hb1 : b = 1 := by omega
  subst ha; subst hb1
  simp [scenarioTable]
  norm_num

theorem scenario_grid_vals : (scenarioTable ℝ).TEXPOSE_LIST 0 = 100 ∧
    (scenarioTable ℝ).TEXPOSE_LIST 1 = 1000 := by
  constructor <;> simp [scenarioTable]

/-- The first pair of the solved scenario table: the forward evaluation at magnitude 20
is defined and returns the input SNR 10. -/
theorem scenario_first_pair :
    0 < scenarioSolved.SQSIGSKY 0 0 + realLibm.pow TEN (-0.4 * (20 - scenarioSolved.ZP 0 0)) ∧
    realLibm.pow TEN (-0.4 * (20 - scenarioSolved.ZP 0 0)) /
      realLibm.sqrt (scenarioSolved.SQSIGSKY 0 0
        + realLibm.pow TEN (-0.4 * (20 - scenarioSolved.ZP 0 0))) = 10 := by
  obtain ⟨-, hz, hq, -, -, -⟩ := solve_spectrograph_ok_vals realLibm (scenarioTable ℝ)
    scenarioSolved scenario_solves 0 0 (by decide) (by decide)
  have e0 : (scenarioTable ℝ).SNR0 0 0 = 10 := by simp [scenarioTable]
  have e1 : (scenarioTable ℝ).SNR1 0 0 = 8 := by simp [scenarioTable]
  rw [e0, e1] at hz hq
  obtain ⟨hT, hB, -, -⟩ := scenario_pair_signs 10 8 (by norm_num) (by norm_num) (by norm_num)
  obtain ⟨⟨a, b⟩, -⟩ := real_solve_exact (scenarioTable ℝ).MAGREF_LIST 10 8 (by norm_num)
    (by norm_num) hT hB
  have hz2 : scenarioSolved.ZP 0 0 = zpOf realLibm
      (realLibm.pow TEN (-0.4 * (scenarioTable ℝ).MAGREF_LIST 0))
      (realLibm.pow TEN (-0.4 * (scenarioTable ℝ).MAGREF_LIST 1)) 10 8 := hz
  rw [← hz2] at a b
  rw [← hz] at hq
  rw [← hq] at a b
  unfold snrOf fluxOf at b
  unfold fluxOf at a
  rw [scenario_magref.1] at a b
  exact ⟨a, b⟩

theorem scenario_getSNR (T : ℝ) (hT : ¬ T > 0.01) :
    getSNR_spectrograph realLibm interp_1DFUN_linear scenarioSolved 0 100 T 20
      = .ok (10, 0) := by
  obtain ⟨a, b⟩ := scenario_first_pair
  have hS : ¬ ((100 : ℝ) < scenarioSolved.TEXPOSE_LIST 0 ∨
      (100 : ℝ) > scenarioSolved.TEXPOSE_LIST (scenarioSolved.NBIN_TEXPOSE - 1)) := by
    have e0 : scenarioSolved.TEXPOSE_LIST 0 = 100 := scenario_grid_vals.1
    have e1 : scenarioSolved.TEXPOSE_LIST (scenarioSolved.NBIN_TEXPOSE - 1) = 1000 :=
      scenario_grid_vals.2
    rw [e0, e1]; norm_num
  have hg : ∀ (F : Nat → ℝ) (cmt : String),
      interp_1DFUN_linear 1 (100 : ℝ) scenarioSolved.NBIN_TEXPOSE scenarioSolved.TEXPOSE_LIST F cmt
        = .ok (F 0) := by
    intro F cmt
    have := interp_linear_grid 1 2 (scenarioTable ℝ).TEXPOSE_LIST F cmt scenario_grid 0 (by decide)
    rw [scenario_grid_vals.1] at this
    exact this
  have h := getSNR_notemplate realLibm interp_1DFUN_linear scenarioSolved 0 100 T 20
    (scenarioSolved.ZP 0 0) (scenarioSolved.SQSIGSKY 0 0) hS (hg _ _) (hg _ _) hT
    (le_of_lt a) (ne_of_gt (Real.sqrt_pos.mpr a))
  rw [h, b]
  have hs0 : realLibm.sqrt 0 = 0 := Real.sqrt_zero
  rw [hs0, zero_div]

theorem scenario_grid_range (k : Nat) (hk : k < (scenarioTable ℝ).NBIN_TEXPOSE) :
    (scenarioTable ℝ).TEXPOSE_LIST 0 ≤ (scenarioTable ℝ).TEXPOSE_LIST k ∧
    (scenarioTable ℝ).TEXPOSE_LIST k
      ≤ (scenarioTable ℝ).TEXPOSE_LIST ((scenarioTable ℝ).NBIN_TEXPOSE - 1) := by
  have hk2 : k < 2 := hk
  have e1 : (scenarioTable ℝ).TEXPOSE_LIST ((scenarioTable ℝ).NBIN_TEXPOSE - 1) = 1000 :=
    scenario_grid_vals.2
  rw [e1, scenario_grid_vals.1]
  rcases Nat.lt_succ_iff_lt_or_eq.mp hk2 with h | h
  · have : k = 0 := by omega
    subst this
    rw [scenario_grid_vals.1]; norm_num
  · subst h
    rw [scenario_grid_vals.2]; norm_num

theorem flat_grid : StrictIncr (flatTable ℝ).TEXPOSE_LIST (flatTable ℝ).NBIN_TEXPOSE :=
  scenario_grid

theorem flat_grid_vals : (flatTable ℝ).TEXPOSE_LIST 0 = 100 ∧
    (flatTable ℝ).TEXPOSE_LIST 1 = 1000 ∧
    (flatTable ℝ).TEXPOSE_LIST ((flatTable ℝ).NBIN_TEXPOSE - 1) = 1000 :=
  ⟨scenario_grid_vals.1, scenario_grid_vals.2, scenario_grid_vals.2⟩

theorem flat_interp (k : Nat) (hk : k < 2) (F : Nat → ℝ) (cmt : String) :
    interp_1DFUN_linear 1 ((flatTable ℝ).TEXPOSE_LIST k) (flatTable ℝ).NBIN_TEXPOSE
      (flatTable ℝ).TEXPOSE_LIST F cmt = .ok (F k) :=
  interp_linear_grid 1 2 (flatTable ℝ).TEXPOSE_LIST F cmt flat_grid k hk

theorem real_pow_zero : realLibm.pow TEN (-0.4 * ((0 : ℝ) - 0)) = 1 := by
  simp [realLibm, TEN]

theorem real_pow_zero2 : realLibm.pow TEN (0.8 * ((0 : ℝ) - 0)) = 1 := by
  simp [realLibm, TEN]

/-- The grid of the filter transmission for the range `[4000, 4020]` on the real numbers:
12 bins of width 2. -/
theorem real_grid_4000 : gridBins (4000 : ℝ) 4020 = 12 ∧ gridStep (4000 : ℝ) 4020 = 2 := by
  have hf : ⌊((4020 : ℝ) - 4000) / 5⌋ = 4 := by
    rw [Int.floor_eq_iff]
    constructor <;> norm_num
  have hb : gridBins (4000 : ℝ) 4020 = 12 := by
    unfold gridBins
    rw [hf]
    rfl
  refine ⟨hb, ?_⟩
  unfold gridStep
  rw [hb]
  norm_num

/-- The zero points of the 12 bins of `lowZPTable` for the range `[4000, 4020]`. -/
theorem lowZP_zero_points (l : Nat) (hl : l < 12) :
    FILTERtrans_ZP interp_1DFUN_linear (lowZPTable ℝ) 12 l (binCentre (4000 - 2) 2 l)
      = .ok (if l = 0 ∨ l = 11 then 0 else if l ≤ 5 then 25 else -1) := by
  interval_cases l <;>
    simp [FILTERtrans_ZP, binCentre, lowZPTable] <;> norm_num

/-- The flux of the zero point 25 for the reference magnitude 20 is `10^2`. -/
theorem lowZP_flux_25 : binFlux realLibm (lowZPTable ℝ) 25 = 100 := by
  unfold binFlux
  rw [if_pos (by norm_num)]
  have e : (-0.4 * ((lowZPTable ℝ).MAGREF_LIST 0 - 25) : ℝ) = ((2 : ℕ) : ℝ) := by
    simp [lowZPTable]
    norm_num
  rw [e]
  simp only [realLibm, TEN]
  rw [Real.rpow_natCast]
  norm_num

/-- The call of `get_FILTERtrans_spectrograph` on `lowZPTable` for the range `[4000, 4020]`
returns; the transmission of bin 6, whose zero point is -1, is 0. -/
theorem lowZP_run :
    ∃ out, get_FILTERtrans_spectrograph realLibm interp_1DFUN_linear (lowZPTable ℝ)
        (fun _ => 0) 4000 4020 1000 (fun _ => 0) (fun _ => 0) = .ok out ∧
      out.NBIN_LAMFILT = 12 ∧
      (∀ l, l < 12 → out.LAMFILT_ARRAY l = binCentre (4000 - 2) 2 l) ∧
      out.TRANSFILT_ARRAY 6 = 0 := by
  obtain ⟨hb, hs⟩ := real_grid_4000
  obtain ⟨st, hl, i1, i2, i3⟩ := FILTERtrans_loop_run realLibm interp_1DFUN_linear (lowZPTable ℝ)
    (4000 - 2) 2 12 (fun l => if l = 0 ∨ l = 11 then 0 else if l ≤ 5 then 25 else -1)
    { FLUX_TMP := fun _ => 0, FLUX_MAX := 0.0, LAMFILT_ARRAY := fun _ => 0 } (by norm_num)
    12 lowZP_zero_points
  have hmax : (100 : ℝ) ≤ st.FLUX_MAX := by
    have := i2 1 (by norm_num) (by norm_num)
    simp only [show ¬ ((1 : Nat) = 0 ∨ (1 : Nat) = 11) by omega, if_false,
      show (1 : Nat) ≤ 5 by omega, if_true] at this
    rw [lowZP_flux_25] at this
    exact this
  have hf : ¬ st.FLUX_MAX < 1.0E-9 := by
    intro h
    have : (1.0E-9 : ℝ) < 100 := by norm_num
    linarith
  have hl' : forLoop (gridBins (4000 : ℝ) 4020).toNat
      (FILTERtrans_bin realLibm interp_1DFUN_linear (lowZPTable ℝ)
        (4000 - gridStep (4000 : ℝ) 4020) (gridStep (4000 : ℝ) 4020)
        (gridBins (4000 : ℝ) 4020).toNat)
      { FLUX_TMP := fun _ => 0, FLUX_MAX := 0.0, LAMFILT_ARRAY := fun _ => 0 } = .ok st := by
    rw [hb, hs]
    exact hl
  have hc := FILTERtrans_loop_centres realLibm interp_1DFUN_linear (lowZPTable ℝ) _ _ _ _ _ st hl
  refine ⟨_, get_FILTERtrans_of_loop realLibm interp_1DFUN_linear (lowZPTable ℝ) (fun _ => 0)
    4000 4020 1000 (fun _ => 0) (fun _ => 0) st (by rw [hb]; norm_num) hl' hf, hb, hc, ?_⟩
  show (if 6 < (gridBins (4000 : ℝ) 4020).toNat then st.FLUX_TMP 6 / st.FLUX_MAX else 0) = 0
  rw [hb, i1 6 (by norm_num)]
  have h6 : binFlux realLibm (lowZPTable ℝ)
      ((fun l : Nat => if l = 0 ∨ l = 11 then (0 : ℝ) else if l ≤ 5 then 25 else -1) 6) = 0 := by
    unfold binFlux
    norm_num
  rw [h6]
  simp

/-- With the exact power function, `TOP = 10^(-0.4*m0) - 10^(-0.4*m1)` is positive when
`m0 < m1`. -/
theorem real_top_pos (MAGREF : Nat → ℝ) (hM : MAGREF 0 < MAGREF 1) :
    0 < realLibm.pow TEN (-0.4 * MAGREF 0) - realLibm.pow TEN (-0.4 * MAGREF 1) := by
  simp only [realLibm, TEN]
  have : (10 : ℝ) ^ (-0.4 * MAGREF 1) < (10 : ℝ) ^ (-0.4 * MAGREF 0) :=
    Real.rpow_lt_rpow_of_exponent_lt (by norm_num) (by linarith)
  linarith

/-- With the exact functions the self check of `solve_spectrograph` computes the value 0
for both reference magnitudes, and `skyVar + f1 = (f1/SNR1)^2`. -/
theorem real_check_zero (MAGREF : Nat → ℝ) (s0 s1 : ℝ) (hs0 : 0 < s0) (hs1 : 0 < s1)
    (hT : 0 < realLibm.pow TEN (-0.4 * MAGREF 0) - realLibm.pow TEN (-0.4 * MAGREF 1))
    (hB : 0 < botOf (realLibm.pow TEN (-0.4 * MAGREF 0)) (realLibm.pow TEN (-0.4 * MAGREF 1)) s0 s1) :
    let zp := zpOf realLibm (realLibm.pow TEN (-0.4 * MAGREF 0)) (realLibm.pow TEN (-0.4 * MAGREF 1)) s0 s1
    let sq := sqOf realLibm (MAGREF 0) zp s0
    solve_check realLibm s0 (fluxOf realLibm (MAGREF 0) zp) sq = .ok 0 ∧
    solve_check realLibm s1 (fluxOf realLibm (MAGREF 1) zp) sq = .ok 0 ∧
    sq + fluxOf realLibm (MAGREF 1) zp
      = (fluxOf realLibm (MAGREF 1) zp / s1) ^ 2 := by
  intro zp sq
  obtain ⟨⟨a0, b0⟩, ⟨a1, b1⟩⟩ := real_solve_exact MAGREF s0 s1 hs0 hs1 hT hB
  refine ⟨?_, ?_, ?_⟩
  · rw [solve_check_ok_iff]
    refine ⟨⟨le_of_lt a0, ne_of_gt (Real.sqrt_pos.mpr a0), ?_⟩, ?_⟩
    · rw [b0]; exact ne_of_gt hs0
    · rw [b0, div_self (ne_of_gt hs0)]; norm_num
  · rw [solve_check_ok_iff]
    refine ⟨⟨le_of_lt a1, ne_of_gt (Real.sqrt_pos.mpr a1), ?_⟩, ?_⟩
    · rw [b1]; exact ne_of_gt hs1
    · rw [b1, div_self (ne_of_gt hs1)]; norm_num
  · have hsp : 0 < Real.sqrt (sq + fluxOf realLibm (MAGREF 1) zp) := Real.sqrt_pos.mpr a1
    have h1 : fluxOf realLibm (MAGREF 1) zp / Real.sqrt (sq + fluxOf realLibm (MAGREF 1) zp)
        = s1 := b1
    have h2 : fluxOf realLibm (MAGREF 1) zp / s1
        = Real.sqrt (sq + fluxOf realLibm (MAGREF 1) zp) := by
      have hF : fluxOf realLibm (MAGREF 1) zp ≠ 0 := ne_of_gt (real_pow_pos _)
      rw [eq_comm, ← h1]
      field_simp
    rw [h2, Real.sq_sqrt (le_of_lt a1)]

/-- With the exact functions the sky variance of a solved pair is not negative exactly when
`(SNR0/SNR1)^2 ≥ 10^(0.4*(m1 - m0))`. -/
theorem real_skyVar_sign (MAGREF : Nat → ℝ) (s0 s1 : ℝ) (hs0 : 0 < s0) (hs1 : 0 < s1)
    (hT : 0 < realLibm.pow TEN (-0.4 * MAGREF 0) - realLibm.pow TEN (-0.4 * MAGREF 1))
    (hB : 0 < botOf (realLibm.pow TEN (-0.4 * MAGREF 0)) (realLibm.pow TEN (-0.4 * MAGREF 1)) s0 s1) :
    0 ≤ sqOf realLibm (MAGREF 0)
      (zpOf realLibm (realLibm.pow TEN (-0.4 * MAGREF 0)) (realLibm.pow TEN (-0.4 * MAGREF 1)) s0 s1)
      s0 ↔ (s0 / s1) ^ 2 ≥ realLibm.pow TEN (0.4 * (MAGREF 1 - MAGREF 0)) := by
  have hquot : realLibm.pow TEN (0.4 * (MAGREF 1 - MAGREF 0))
      = realLibm.pow TEN (-0.4 * MAGREF 0) / realLibm.pow TEN (-0.4 * MAGREF 1) := by
    simp only [realLibm, TEN]
    rw [← Real.rpow_sub (by norm_num)]
    congr 1
    ring
  rw [hquot]
  set P0 := realLibm.pow TEN (-0.4 * MAGREF 0) with hP0d
  set P1 := realLibm.pow TEN (-0.4 * MAGREF 1) with hP1d
  have hP0 : 0 < P0 := real_pow_pos _
  have hP1 : 0 < P1 := real_pow_pos _
  have hR0 : 0 < (P0 - P1) / botOf P0 P1 s0 s1 := div_pos hT hB
  have hf0 : fluxOf realLibm (MAGREF 0) (zpOf realLibm P0 P1 s0 s1)
      = P0 * ((P0 - P1) / botOf P0 P1 s0 s1) := by
    have := real_fluxOf (MAGREF 0) ((P0 - P1) / botOf P0 P1 s0 s1) hR0
    simpa [zpOf, realLibm, TEN, hP0d, hP1d] using this
  unfold sqOf
  rw [hf0]
  set f := P0 * ((P0 - P1) / botOf P0 P1 s0 s1) with hf
  have hfpos : 0 < f := by positivity
  have hss : 0 < s0 * s0 := mul_pos hs0 hs0
  have e2 : f / s0 * (f / s0) - f = f * (f - s0 * s0) / (s0 * s0) := by
    field_simp; ring
  have e3 : s0 * s0 * botOf P0 P1 s0 s1 = P0 * P0 - (s0 / s1) ^ 2 * (P1 * P1) := by
    unfold botOf
    field_simp
    ring
  have hfB : f * botOf P0 P1 s0 s1 = P0 * (P0 - P1) := by
    rw [hf]
    field_simp
  rw [e2, ge_iff_le, div_le_iff₀ hP1]
  constructor
  · intro h
    have h1 : 0 ≤ f * (f - s0 * s0) := by
      by_contra hneg
      have := div_neg_of_neg_of_pos (not_le.mp hneg) hss
      linarith
    have h2 : s0 * s0 ≤ f := by
      by_contra hlt
      have : f * (f - s0 * s0) < 0 := mul_neg_of_pos_of_neg hfpos (by linarith)
      linarith
    have h3 : s0 * s0 * botOf P0 P1 s0 s1 ≤ f * botOf P0 P1 s0 s1 :=
      mul_le_mul_of_nonneg_right h2 (le_of_lt hB)
    rw [e3, hfB] at h3
    have h4 : P0 * P1 ≤ (s0 / s1) ^ 2 * P1 * P1 := by nlinarith
    exact le_of_mul_le_mul_right h4 hP1
  · intro h
    have h4 : P0 * P1 ≤ (s0 / s1) ^ 2 * P1 * P1 := mul_le_mul_of_nonneg_right h (le_of_lt hP1)
    have h3 : s0 * s0 * botOf P0 P1 s0 s1 ≤ f * botOf P0 P1 s0 s1 := by
      rw [e3, hfB]
      nlinarith
    have h2 : s0 * s0 ≤ f := le_of_mul_le_mul_right h3 hB
    apply div_nonneg _ (le_of_lt hss)
    exact mul_nonneg (le_of_lt hfpos) (by linarith)

/-- For a sky variance `V ≥ 0` the value `f / sqrt(V + f)` is strictly increasing in the
flux `f > 0`. -/
theorem real_snr_strict_mono (V f1 f2 : ℝ) (hV : 0 ≤ V) (h1 : 0 < f1) (h12 : f1 < f2) :
    f1 / Real.sqrt (V + f1) < f2 / Real.sqrt (V + f2) := by
  have h2 : 0 < f2 := lt_trans h1 h12
  have hA1 : 0 < V + f1 := by linarith
  have hA2 : 0 < V + f2 := by linarith
  have hs1 : 0 < Real.sqrt (V + f1) := Real.sqrt_pos.mpr hA1
  have hs2 : 0 < Real.sqrt (V + f2) := Real.sqrt_pos.mpr hA2
  rw [div_lt_div_iff₀ hs1 hs2]
  apply lt_of_mul_self_lt_mul_self₀ (le_of_lt (mul_pos h2 hs1))
  have e1 : f1 * Real.sqrt (V + f2) * (f1 * Real.sqrt (V + f2)) = f1 * f1 * (V + f2) := by
    have := Real.mul_self_sqrt (le_of_lt hA2)
    calc f1 * Real.sqrt (V + f2) * (f1 * Real.sqrt (V + f2))
        = f1 * f1 * (Real.sqrt (V + f2) * Real.sqrt (V + f2)) := by ring
      _ = f1 * f1 * (V + f2) := by rw [this]
  have e2 : f2 * Real.sqrt (V + f1) * (f2 * Real.sqrt (V + f1)) = f2 * f2 * (V + f1) := by
    have := Real.mul_self_sqrt (le_of_lt hA1)
    calc f2 * Real.sqrt (V + f1) * (f2 * Real.sqrt (V + f1))
        = f2 * f2 * (Real.sqrt (V + f1) * Real.sqrt (V + f1)) := by ring
      _ = f2 * f2 * (V + f1) := by rw [this]
  rw [e1, e2]
  have hd : 0 < f2 - f1 := by linarith
  have hp : 0 < f1 * f2 * (f2 - f1) := mul_pos (mul_pos h1 h2) hd
  have hq : 0 ≤ V * ((f2 - f1) * (f2 + f1)) :=
    mul_nonneg hV (mul_nonneg (le_of_lt hd) (by linarith))
  nlinarith

/-- For a sky variance `V ≥ 0` the value `f / sqrt(V + f)` is at most `sqrt(f)`. -/
theorem real_snr_le_sqrt (V f : ℝ) (hV : 0 ≤ V) (hf : 0 < f) :
    f / Real.sqrt (V + f) ≤ Real.sqrt f := by
  have hs : 0 < Real.sqrt f := Real.sqrt_pos.mpr hf
  have hle : Real.sqrt f ≤ Real.sqrt (V + f) := Real.sqrt_le_sqrt (by linarith)
  calc f / Real.sqrt (V + f) ≤ f / Real.sqrt f :=
        div_le_div_of_nonneg_left (le_of_lt hf) hs hle
    _ = Real.sqrt f := Real.div_sqrt

/-- The exact flux `10^(-0.4*(m - zp))` is strictly decreasing in the magnitude `m`. -/
theorem real_flux_strict_anti (zp m1 m2 : ℝ) (hm : m1 < m2) :
    realLibm.pow TEN (-0.4 * (m2 - zp)) < realLibm.pow TEN (-0.4 * (m1 - zp)) := by
  simp only [realLibm, TEN]
  exact Real.rpow_lt_rpow_of_exponent_lt (by norm_num) (by linarith)

/-- The solver on the table `zeroSNRTable`: the run completes and stores `ZP = -inf` and
`SQSIGSKY = NaN`. -/
theorem zeroSNR_solved :
    solve_spectrograph_ieee realLibm (toDbl (zeroSNRTable ℝ))
      = .ok (storeZP_ieee (toDbl (zeroSNRTable ℝ)) 0 0 .ninf .nan) := by
  have hT := real_top_pos (fun i => if i = 0 then (20 : ℝ) else 22) (by norm_num)
  simp only [if_true, one_ne_zero, if_false] at hT
  have hb := solve_bin_ieee_zero_SNR0 realLibm
    (fun iref => (toDbl (zeroSNRTable ℝ)).MAGREF_LIST iref)
    (fun iref => Dbl.pow10 realLibm (Dbl.fin (-0.4) * (toDbl (zeroSNRTable ℝ)).MAGREF_LIST iref))
    0 0 (toDbl (zeroSNRTable ℝ)) 20 22 (realLibm.pow TEN (-0.4 * 20))
    (realLibm.pow TEN (-0.4 * 22)) 8
    (by simp [toDbl, zeroSNRTable]) (by simp [toDbl, zeroSNRTable])
    (by simp [toDbl, zeroSNRTable, Dbl.fin_mul_fin, Dbl.pow10_fin])
    (by simp [toDbl, zeroSNRTable, Dbl.fin_mul_fin, Dbl.pow10_fin])
    (by simp [toDbl, zeroSNRTable]) (by simp [toDbl, zeroSNRTable])
    (by norm_num) (real_pow_pos _) hT
  unfold solve_spectrograph_ieee
  have e1 : (toDbl (zeroSNRTable ℝ)).NBIN_LAM = 1 := rfl
  have e2 : (toDbl (zeroSNRTable ℝ)).NBIN_TEXPOSE = 1 := rfl
  simp only [e1, e2, forLoop, bind, Except.bind]
  exact hb

/-- The solver on the table `zeroSNR1Table`: the run stops at the first pair with the
fatal error `Cannot solve ZP`. -/
theorem zeroSNR1_fatal :
    solve_spectrograph_ieee realLibm (toDbl (zeroSNR1Table ℝ))
      = .error (.fatal "solve_spectrograph" "Cannot solve ZP", toDbl (zeroSNR1Table ℝ)) := by
  have hb := solve_bin_ieee_zero_SNR1 realLibm
    (fun iref => (toDbl (zeroSNR1Table ℝ)).MAGREF_LIST iref)
    (fun iref => Dbl.pow10 realLibm (Dbl.fin (-0.4) * (toDbl (zeroSNR1Table ℝ)).MAGREF_LIST iref))
    0 0 (toDbl (zeroSNR1Table ℝ)) (realLibm.pow TEN (-0.4 * 20))
    (realLibm.pow TEN (-0.4 * 22)) 10
    (by simp [toDbl, zeroSNR1Table, zeroSNRTable, Dbl.fin_mul_fin, Dbl.pow10_fin])
    (by simp [toDbl, zeroSNR1Table, zeroSNRTable, Dbl.fin_mul_fin, Dbl.pow10_fin])
    (by simp [toDbl, zeroSNR1Table, zeroSNRTable]) (by simp [toDbl, zeroSNR1Table, zeroSNRTable])
    (by norm_num) (real_pow_pos _)
  unfold solve_spectrograph_ieee
  have e1 : (toDbl (zeroSNR1Table ℝ)).NBIN_LAM = 1 := rfl
  have e2 : (toDbl (zeroSNR1Table ℝ)).NBIN_TEXPOSE = 1 := rfl
  simp only [e1, e2, forLoop, bind, Except.bind]
  exact hb

end RealLemmas

/-! # The claims -/

section Claims

variable {K : Type} [LinearOrderedField K]

/-- C1, the failing run. On the table of the row `SPECBIN: 4000 4010 2 0 8` (magnitudes 20
and 22, `SNR0[0][0] = 0`, `SNR1[0][0] = 8`), computed on doubles with the exact real
functions, `solve_spectrograph` completes without a fatal error: `POWMAG[0]/0` is `+inf`,
so `BOT = +inf` passes the test `BOT <= 0.0`, and it stores `ZP[0][0] = -inf` and
`SQSIGSKY[0][0] = NaN`.  The value `SNR_check_i` recomputed from the stored values is
`NaN` for both reference indices, so `|SNR_i/SNR_check_i - 1| <= 0.001` holds for neither;
the self check does not stop the run because `NaN > 0.001` is false.  With the zero in
the other column (`SNR0 = 10`, `SNR1 = 0`) the same loop does stop, with the fatal error
`Cannot solve ZP`. -/
theorem solve_spectrograph_zero_SNR :
    solve_spectrograph_ieee realLibm (toDbl (zeroSNRTable ℝ)) = .ok (zeroSNRSolved ℝ) ∧
    (zeroSNRSolved ℝ).SNR0 0 0 = .fin 0 ∧ (zeroSNRSolved ℝ).SNR1 0 0 = .fin 8 ∧
    (zeroSNRSolved ℝ).ZP 0 0 = .ninf ∧ (zeroSNRSolved ℝ).SQSIGSKY 0 0 = .nan ∧
    SNR_check_ieee realLibm ((zeroSNRSolved ℝ).MAGREF_LIST 0) ((zeroSNRSolved ℝ).ZP 0 0)
      ((zeroSNRSolved ℝ).SQSIGSKY 0 0) = .nan ∧
    SNR_check_ieee realLibm ((zeroSNRSolved ℝ).MAGREF_LIST 1) ((zeroSNRSolved ℝ).ZP 0 0)
      ((zeroSNRSolved ℝ).SQSIGSKY 0 0) = .nan ∧
    Dbl.le (Dbl.fabs ((zeroSNRSolved ℝ).SNR0 0 0
      / SNR_check_ieee realLibm ((zeroSNRSolved ℝ).MAGREF_LIST 0) ((zeroSNRSolved ℝ).ZP 0 0)
          ((zeroSNRSolved ℝ).SQSIGSKY 0 0) - Dbl.fin 1)) (.fin 0.001) = false ∧
    Dbl.le (Dbl.fabs ((zeroSNRSolved ℝ).SNR1 0 0
      / SNR_check_ieee realLibm ((zeroSNRSolved ℝ).MAGREF_LIST 1) ((zeroSNRSolved ℝ).ZP 0 0)
          ((zeroSNRSolved ℝ).SQSIGSKY 0 0) - Dbl.fin 1)) (.fin 0.001) = false ∧
    solve_spectrograph_ieee realLibm (toDbl (zeroSNR1Table ℝ))
      = .error (.fatal "solve_spectrograph" "Cannot solve ZP", toDbl (zeroSNR1Table ℝ)) := by
  have hz : (zeroSNRSolved ℝ).ZP 0 0 = .ninf := by simp [zeroSNRSolved, storeZP_ieee]
  have hq : (zeroSNRSolved ℝ).SQSIGSKY 0 0 = .nan := by simp [zeroSNRSolved, storeZP_ieee]
  have hm0 : (zeroSNRSolved ℝ).MAGREF_LIST 0 = .fin 20 := by
    simp [zeroSNRSolved, storeZP_ieee, toDbl, zeroSNRTable]
  have hm1 : (zeroSNRSolved ℝ).MAGREF_LIST 1 = .fin 22 := by
    simp [zeroSNRSolved, storeZP_ieee, toDbl, zeroSNRTable]
  have hc0 := SNR_check_ieee_nan realLibm (20 : ℝ)
  have hc1 := SNR_check_ieee_nan realLibm (22 : ℝ)
  refine ⟨zeroSNR_solved, rfl, rfl, hz, hq, ?_, ?_, ?_, ?_, zeroSNR1_fatal⟩
  · rw [hz, hq, hm0, hc0]
  · rw [hz, hq, hm1, hc1]
  · rw [hz, hq, hm0, hc0, Dbl.div_nan]
    rfl
  · rw [hz, hq, hm1, hc1, Dbl.div_nan]
    rfl

/-- Round trip of the solver on finite numbers.  When `solve_spectrograph` completes, then for every
wavelength bin `l` and exposure index `t` of the table and each reference index `i`, the
SNR recomputed from the stored values, `f_i / sqrt(SQSIGSKY[l][t] + f_i)` with
`f_i = 10^(-0.4*(MAGREF_i - ZP[l][t]))`, is computed on finite numbers and
`|SNR_i[l][t] / SNR_check_i - 1| ≤ 0.001`. -/
theorem solve_spectrograph_round_trip (M : Libm K) (st st2 : INPUTS_SPECTRO_DEF K)
    (h : solve_spectrograph M st = .ok st2) (l t i : Nat) (hl : l < st.NBIN_LAM)
    (ht : t < st.NBIN_TEXPOSE) (hi : i < 2) :
    let SNR := if i = 0 then st2.SNR0 l t else st2.SNR1 l t
    let f := M.pow TEN (-0.4 * (st2.MAGREF_LIST i - st2.ZP l t))
    let SNR_check := f / M.sqrt (st2.SQSIGSKY l t + f)
    (0 ≤ st2.SQSIGSKY l t + f ∧ M.sqrt (st2.SQSIGSKY l t + f) ≠ 0 ∧ SNR_check ≠ 0) ∧
    |SNR / SNR_check - 1| ≤ 0.001 := by
  obtain ⟨⟨-, -, -, -, c0, c1⟩, hz, hq, hm, h0, h1⟩ := solve_spectrograph_ok_vals M st st2 h l t hl ht
  intro SNR f SNR_check
  have hi2 : i = 0 ∨ i = 1 := by omega
  rcases hi2 with rfl | rfl
  · obtain ⟨a, b, c, d⟩ := c0
    simp only [SNR, f, SNR_check, if_true, hz, hq, hm, h0]
    exact ⟨⟨a, b, c⟩, d⟩
  · obtain ⟨a, b, c, d⟩ := c1
    simp only [SNR, f, SNR_check, one_ne_zero, if_false, hz, hq, hm, h1]
    exact ⟨⟨a, b, c⟩, d⟩

/-- The solver completes on the scenario table, and there the round trip holds for the
first reference magnitude at the first exposure time. -/
theorem solve_spectrograph_round_trip_witness :
    solve_spectrograph realLibm (scenarioTable ℝ) = .ok scenarioSolved ∧
    |scenarioSolved.SNR0 0 0 /
      (realLibm.pow TEN (-0.4 * (scenarioSolved.MAGREF_LIST 0 - scenarioSolved.ZP 0 0)) /
        realLibm.sqrt (scenarioSolved.SQSIGSKY 0 0 +
          realLibm.pow TEN (-0.4 * (scenarioSolved.MAGREF_LIST 0 - scenarioSolved.ZP 0 0))))
      - 1| ≤ 0.001 :=
  ⟨scenario_solves,
    (solve_spectrograph_round_trip realLibm (scenarioTable ℝ) scenarioSolved scenario_solves
      0 0 0 (by decide) (by decide) (by decide)).2⟩

/-- C2: the closed form stored by the solver.  When `solve_spectrograph` completes, then
for every pair `(l, t)` of the table, with `TOP = 10^(-0.4*m0) - 10^(-0.4*m1)` and
`BOT = (10^(-0.4*m0)/SNR0[l][t])^2 - (10^(-0.4*m1)/SNR1[l][t])^2`, the stored zero point
is `ZP[l][t] = 2.5*log10(TOP/BOT)` and the stored sky variance is
`SQSIGSKY[l][t] = (f0/SNR0[l][t])^2 - f0` with `f0 = 10^(-0.4*(m0 - ZP[l][t]))`; and
any other table with the same reference magnitudes and the same two SNR values at
`(l, t)` gets the same two stored values at `(l, t)`, whatever its other entries. -/
theorem solve_spectrograph_closed_form (M : Libm K) (st st2 : INPUTS_SPECTRO_DEF K)
    (h : solve_spectrograph M st = .ok st2) (l t : Nat) (hl : l < st.NBIN_LAM)
    (ht : t < st.NBIN_TEXPOSE) :
    let TOP := M.pow TEN (-0.4 * st.MAGREF_LIST 0) - M.pow TEN (-0.4 * st.MAGREF_LIST 1)
    let BOT := (M.pow TEN (-0.4 * st.MAGREF_LIST 0) / st.SNR0 l t) ^ 2
      - (M.pow TEN (-0.4 * st.MAGREF_LIST 1) / st.SNR1 l t) ^ 2
    let f0 := M.pow TEN (-0.4 * (st.MAGREF_LIST 0 - st2.ZP l t))
    (st.SNR0 l t ≠ 0 ∧ st.SNR1 l t ≠ 0 ∧ 0 < TOP ∧ 0 < BOT) ∧
    st2.ZP l t = 2.5 * M.log10 (TOP / BOT) ∧
    st2.SQSIGSKY l t = (f0 / st.SNR0 l t) ^ 2 - f0 ∧
    ∀ (st' st2' : INPUTS_SPECTRO_DEF K), l < st'.NBIN_LAM → t < st'.NBIN_TEXPOSE →
      st'.MAGREF_LIST 0 = st.MAGREF_LIST 0 → st'.MAGREF_LIST 1 = st.MAGREF_LIST 1 →
      st'.SNR0 l t = st.SNR0 l t → st'.SNR1 l t = st.SNR1 l t →
      solve_spectrograph M st' = .ok st2' →
      st2'.ZP l t = st2.ZP l t ∧ st2'.SQSIGSKY l t = st2.SQSIGSKY l t := by
  obtain ⟨⟨a0, a1, aT, aB, -, -⟩, hz, hq, -, -, -⟩ :=
    solve_spectrograph_ok_vals M st st2 h l t hl ht
  intro TOP BOT f0
  have eB : BOT = botOf (powmagOf M st 0) (powmagOf M st 1) (st.SNR0 l t) (st.SNR1 l t) := by
    simp only [BOT, botOf, powmagOf, pow_two]
  refine ⟨⟨a0, a1, aT, ?_⟩, ?_, ?_, ?_⟩
  · rw [eB]; exact aB
  · rw [hz, eB]; rfl
  · rw [hq]
    simp only [f0, sqOf, fluxOf, pow_two, hz]
  · intro st' st2' hl' ht' m0 m1 s0 s1 h'
    obtain ⟨-, hz', hq', -, -, -⟩ := solve_spectrograph_ok_vals M st' st2' h' l t hl' ht'
    have eP0 : powmagOf M st' 0 = powmagOf M st 0 := by simp only [powmagOf, m0]
    have eP1 : powmagOf M st' 1 = powmagOf M st 1 := by simp only [powmagOf, m1]
    rw [hz', hq', hz, hq, eP0, eP1, m0, s0, s1]
    exact ⟨rfl, rfl⟩

/-- C3: the solvability test.  For a pair `(l, t)` with non-zero input SNR values the
body of the solver aborts with the fatal error `Cannot solve ZP` when `TOP ≤ 0` or
`BOT ≤ 0`, leaving the global state as it was (nothing is stored); it never aborts with
that error when both are positive.  For the whole run: an abort with that error comes
from a pair of the table with `TOP ≤ 0` or `BOT ≤ 0` whose `ZP` and `SQSIGSKY` entries
are still the ones before the call, and a table with such a pair is never solved. -/
theorem solve_spectrograph_cannot_solve (M : Libm K) (st : INPUTS_SPECTRO_DEF K) :
    (∀ (l t : Nat) (s : INPUTS_SPECTRO_DEF K), s.SNR0 l t ≠ 0 → s.SNR1 l t ≠ 0 →
      (powmagOf M st 0 - powmagOf M st 1 ≤ 0 ∨
        botOf (powmagOf M st 0) (powmagOf M st 1) (s.SNR0 l t) (s.SNR1 l t) ≤ 0) →
      solve_bin M st.MAGREF_LIST (powmagOf M st) l t s
        = .error (.fatal "solve_spectrograph" "Cannot solve ZP", s)) ∧
    (∀ (l t : Nat) (s s2 : INPUTS_SPECTRO_DEF K),
      0 < powmagOf M st 0 - powmagOf M st 1 →
      0 < botOf (powmagOf M st 0) (powmagOf M st 1) (s.SNR0 l t) (s.SNR1 l t) →
      solve_bin M st.MAGREF_LIST (powmagOf M st) l t s
        ≠ .error (.fatal "solve_spectrograph" "Cannot solve ZP", s2)) ∧
    (∀ st2 : INPUTS_SPECTRO_DEF K,
      solve_spectrograph M st = .error (.fatal "solve_spectrograph" "Cannot solve ZP", st2) →
      ∃ l t, l < st.NBIN_LAM ∧ t < st.NBIN_TEXPOSE ∧
        (powmagOf M st 0 - powmagOf M st 1 ≤ 0 ∨
          botOf (powmagOf M st 0) (powmagOf M st 1) (st.SNR0 l t) (st.SNR1 l t) ≤ 0) ∧
        st2.ZP l t = st.ZP l t ∧ st2.SQSIGSKY l t = st.SQSIGSKY l t) ∧
    (∀ l t : Nat, l < st.NBIN_LAM → t < st.NBIN_TEXPOSE →
      (powmagOf M st 0 - powmagOf M st 1 ≤ 0 ∨
        botOf (powmagOf M st 0) (powmagOf M st 1) (st.SNR0 l t) (st.SNR1 l t) ≤ 0) →
      ∀ st2 : INPUTS_SPECTRO_DEF K, solve_spectrograph M st ≠ .ok st2) := by
  refine ⟨?_, ?_, ?_, ?_⟩
  · intro l t s h0 h1 h2
    exact (solve_bin_cannot_iff M st.MAGREF_LIST (powmagOf M st) l t s s).mpr ⟨h0, h1, h2, rfl⟩
  · intro l t s s2 hT hB h
    obtain ⟨-, -, h2, -⟩ := (solve_bin_cannot_iff M st.MAGREF_LIST (powmagOf M st) l t s s2).mp h
    rcases h2 with h2 | h2
    · exact absurd hT (not_lt.mpr h2)
    · exact absurd hB (not_lt.mpr h2)
  · intro st2 h
    obtain ⟨l, t, hl, ht, -, -, h2, hz, hq⟩ := solve_spectrograph_cannot M st st2 h
    exact ⟨l, t, hl, ht, h2, hz, hq⟩
  · intro l t hl ht h2 st2 h
    obtain ⟨⟨-, -, aT, aB, -, -⟩, -⟩ := solve_spectrograph_ok_vals M st st2 h l t hl ht
    rcases h2 with h2 | h2
    · exact absurd aT (not_lt.mpr h2)
    · exact absurd aB (not_lt.mpr h2)

/-- The closed form at the first pair of the scenario table (`SNR = 10, 8`). -/
theorem solve_spectrograph_closed_form_witness :
    solve_spectrograph realLibm (scenarioTable ℝ) = .ok scenarioSolved ∧
    scenarioSolved.ZP 0 0 = 2.5 * realLibm.log10
      ((realLibm.pow TEN (-0.4 * (scenarioTable ℝ).MAGREF_LIST 0)
          - realLibm.pow TEN (-0.4 * (scenarioTable ℝ).MAGREF_LIST 1)) /
        ((realLibm.pow TEN (-0.4 * (scenarioTable ℝ).MAGREF_LIST 0)
            / (scenarioTable ℝ).SNR0 0 0) ^ 2
          - (realLibm.pow TEN (-0.4 * (scenarioTable ℝ).MAGREF_LIST 1)
            / (scenarioTable ℝ).SNR1 0 0) ^ 2)) :=
  ⟨scenario_solves,
    (solve_spectrograph_closed_form realLibm (scenarioTable ℝ) scenarioSolved scenario_solves
      0 0 (by decide) (by decide)).2.1⟩

/-- With two equal reference magnitudes `TOP = 0`, and the first pair of the table aborts
with `Cannot solve ZP`, the state unchanged. -/
theorem solve_spectrograph_cannot_solve_witness :
    solve_bin realLibm (fun _ => (20 : ℝ))
      (powmagOf realLibm { scenarioTable ℝ with MAGREF_LIST := fun _ => 20 }) 0 0
      { scenarioTable ℝ with MAGREF_LIST := fun _ => 20 }
    = .error (.fatal "solve_spectrograph" "Cannot solve ZP",
        { scenarioTable ℝ with MAGREF_LIST := fun _ => 20 }) :=
  (solve_spectrograph_cannot_solve realLibm
    { scenarioTable ℝ with MAGREF_LIST := fun _ => 20 }).1 0 0
    { scenarioTable ℝ with MAGREF_LIST := fun _ => 20 }
    (by simp [scenarioTable]) (by simp [scenarioTable]) (Or.inl (by simp [powmagOf]))

/-- C4, as stated, fails: on the scenario table (`MAGREF_LIST 20 22`, `TEXPOSE_LIST 100
1000`, SNR pairs `(10, 8)` and `(30, 25)`) no completed run of `solve_spectrograph` has
positive zero points together with non-negative sky variances. -/
theorem scenario_skyVar_not_nonneg :
    ¬ ∃ st2 : INPUTS_SPECTRO_DEF ℝ,
      solve_spectrograph realLibm (scenarioTable ℝ) = .ok st2 ∧
      0 < st2.ZP 0 0 ∧ 0 < st2.ZP 0 1 ∧ 0 ≤ st2.SQSIGSKY 0 0 ∧ 0 ≤ st2.SQSIGSKY 0 1 := by
  rintro ⟨st2, h, -, -, h00, -⟩
  obtain ⟨-, -, hq, -, -, -⟩ :=
    solve_spectrograph_ok_vals realLibm (scenarioTable ℝ) st2 h 0 0 (by decide) (by decide)
  have e0 : (scenarioTable ℝ).SNR0 0 0 = 10 := by simp [scenarioTable]
  have e1 : (scenarioTable ℝ).SNR1 0 0 = 8 := by simp [scenarioTable]
  rw [e0, e1] at hq
  obtain ⟨-, -, -, hneg⟩ := scenario_pair_signs 10 8 (by norm_num) (by norm_num) (by norm_num)
  rw [← hq] at hneg
  exact absurd h00 (not_le.mpr hneg)

/-- C4, amended: on the scenario table `solve_spectrograph` completes, both zero points
`ZP[0][0]` and `ZP[0][1]` are positive, and both sky variances `SQSIGSKY[0][0]` and
`SQSIGSKY[0][1]` are negative. -/
theorem scenario_solved_signs :
    ∃ st2 : INPUTS_SPECTRO_DEF ℝ,
      solve_spectrograph realLibm (scenarioTable ℝ) = .ok st2 ∧
      0 < st2.ZP 0 0 ∧ 0 < st2.ZP 0 1 ∧ st2.SQSIGSKY 0 0 < 0 ∧ st2.SQSIGSKY 0 1 < 0 := by
  refine ⟨scenarioSolved, scenario_solves, ?_⟩
  obtain ⟨-, hz0, hq0, -, -, -⟩ := solve_spectrograph_ok_vals realLibm (scenarioTable ℝ)
    scenarioSolved scenario_solves 0 0 (by decide) (by decide)
  obtain ⟨-, hz1, hq1, -, -, -⟩ := solve_spectrograph_ok_vals realLibm (scenarioTable ℝ)
    scenarioSolved scenario_solves 0 1 (by decide) (by decide)
  have e00 : (scenarioTable ℝ).SNR0 0 0 = 10 := by simp [scenarioTable]
  have e10 : (scenarioTable ℝ).SNR1 0 0 = 8 := by simp [scenarioTable]
  have e01 : (scenarioTable ℝ).SNR0 0 1 = 30 := by simp [scenarioTable]
  have e11 : (scenarioTable ℝ).SNR1 0 1 = 25 := by simp [scenarioTable]
  rw [e00, e10] at hz0 hq0
  rw [e01, e11] at hz1 hq1
  obtain ⟨-, -, a0, b0⟩ := scenario_pair_signs 10 8 (by norm_num) (by norm_num) (by norm_num)
  obtain ⟨-, -, a1, b1⟩ := scenario_pair_signs 30 25 (by norm_num) (by norm_num) (by norm_num)
  rw [hz0, hz1, hq0, hq1]
  exact ⟨a0, a1, b0, b1⟩

set_option maxRecDepth 100000 in
/-- C5, the failing run. The file `zeroSNRFile`, with the one row
`SPECBIN: 4000 4010 2 0 8`, is loaded without a fatal error: one bin, one exposure time
100, magnitudes 20 and 22, `SNR0[0][0] = 0`, `SNR1[0][0] = 8`.  On this table, computed on
doubles with the exact real functions, the solver completes with `ZP[0][0] = -inf` and
`SQSIGSKY[0][0] = NaN`, and the query at the tabulated exposure time 100 without template
returns `NaN` for `GENMAG = 20` and for `GENMAG = 22` (the linear interpolator returns the
tabulated values at the grid point): the input `SNR1 = 8` is not reproduced, the relative
error `|NaN/8 - 1|` being `NaN`, which is not `<= 0.001`. -/
theorem getSNR_zero_SNR :
    (read_spectrograph_text (demoEnv ℚ) demoLibm (some zeroSNRFile) (demoGlobals ℚ)).map
      (fun r => r.toOption.map (fun G => [G.INPUTS_SPECTRO.NBIN_LAM,
        G.INPUTS_SPECTRO.NBIN_TEXPOSE, G.NERR_SNR_SPECTROGRAPH]))
      = some (some [1, 1, 0]) ∧
    (read_spectrograph_text (demoEnv ℚ) demoLibm (some zeroSNRFile) (demoGlobals ℚ)).map
      (fun r => r.toOption.map (fun G =>
        [G.INPUTS_SPECTRO.MAGREF_LIST 0, G.INPUTS_SPECTRO.MAGREF_LIST 1,
         G.INPUTS_SPECTRO.TEXPOSE_LIST 0, G.INPUTS_SPECTRO.SNR0 0 0,
         G.INPUTS_SPECTRO.SNR1 0 0]))
      = some (some [(20 : ℚ), 22, 100, 0, 8]) ∧
    solve_spectrograph_ieee realLibm (toDbl (zeroSNRTable ℝ)) = .ok (zeroSNRSolved ℝ) ∧
    getSNR_spectrograph_ieee realLibm interp_1DFUN_linear_ieee (zeroSNRSolved ℝ) 0
      (.fin 100) (.fin 0) (.fin 20) = .ok (.nan, .nan) ∧
    getSNR_spectrograph_ieee realLibm interp_1DFUN_linear_ieee (zeroSNRSolved ℝ) 0
      (.fin 100) (.fin 0) (.fin 22) = .ok (.nan, .nan) ∧
    Dbl.le (Dbl.fabs ((Dbl.nan : Dbl ℝ) / Dbl.fin 8 - Dbl.fin 1)) (.fin 0.001) = false := by
  refine ⟨?_, ?_, zeroSNR_solved, zeroSNR_query realLibm 20, zeroSNR_query realLibm 22, rfl⟩
  · decide!
  · decide!

/-- End-to-end reproduction on finite numbers.  Let the table be solved by `solve_spectrograph`, let the
interpolator return the tabulated value at every grid point, and let every tabulated
exposure time lie between the first and the last one (the list is not decreasing).  Then
for every bin `l`, every tabulated exposure time `TEXPOSE_LIST[k]` and each reference
index `i`, `getSNR_spectrograph(l, TEXPOSE_LIST[k], 0, MAGREF_i)` returns a value `SNR`
with `|SNR_i[l][k] / SNR - 1| ≤ 0.001`.  In the scenario (`MAGREF 20/22`, SNR 10 at
`t = 100`), with the exact real functions and the linear interpolator, the query at
`TEXPOSE_S = 100`, `TEXPOSE_T = 0`, magnitude 20 returns exactly 10. -/
theorem getSNR_reproduces_input (M : Libm K) (interp : Interp K) (st st2 : INPUTS_SPECTRO_DEF K) :
    (solve_spectrograph M st = .ok st2 →
      (∀ (k : Nat) (F : Nat → K) (cmt : String), k < st.NBIN_TEXPOSE →
        interp 1 (st.TEXPOSE_LIST k) st.NBIN_TEXPOSE st.TEXPOSE_LIST F cmt = .ok (F k)) →
      (∀ k : Nat, k < st.NBIN_TEXPOSE → st.TEXPOSE_LIST 0 ≤ st.TEXPOSE_LIST k ∧
        st.TEXPOSE_LIST k ≤ st.TEXPOSE_LIST (st.NBIN_TEXPOSE - 1)) →
      ∀ l k i : Nat, l < st.NBIN_LAM → k < st.NBIN_TEXPOSE → i < 2 →
        ∃ SNR ERRFRAC_T : K,
          getSNR_spectrograph M interp st2 l (st2.TEXPOSE_LIST k) 0 (st2.MAGREF_LIST i)
            = .ok (SNR, ERRFRAC_T) ∧
          |(if i = 0 then st.SNR0 l k else st.SNR1 l k) / SNR - 1| ≤ 0.001) ∧
    (∃ sc : INPUTS_SPECTRO_DEF ℝ, solve_spectrograph realLibm (scenarioTable ℝ) = .ok sc ∧
      getSNR_spectrograph realLibm interp_1DFUN_linear sc 0 100 0 20 = .ok (10, 0)) := by
  refine ⟨?_, ⟨scenarioSolved, scenario_solves, scenario_getSNR 0 (by norm_num)⟩⟩
  intro h hI hG l k i hl hk hi
  have hrt := solve_spectrograph_round_trip M st st2 h l k i hl hk hi
  obtain ⟨-, rfl⟩ := (solve_spectrograph_ok_iff M st st2).mp h
  obtain ⟨g0, g1⟩ := hG k hk
  have hS : ¬ (st.TEXPOSE_LIST k < st.TEXPOSE_LIST 0 ∨
      st.TEXPOSE_LIST k > st.TEXPOSE_LIST (st.NBIN_TEXPOSE - 1)) := by
    rintro (h1 | h1)
    · exact absurd g0 (not_le.mpr h1)
    · exact absurd g1 (not_le.mpr h1)
  obtain ⟨⟨a, b, -⟩, d⟩ := hrt
  refine ⟨_, _, getSNR_notemplate M interp _ l (st.TEXPOSE_LIST k) 0 _ _ _ hS
    (hI k _ _ hk) (hI k _ _ hk) (by norm_num) a b, ?_⟩
  exact d

/-- C6: the formula of `getSNR_spectrograph`.  For a search time in range, with `ZP_S`,
`SQ_S` the values interpolated at `TEXPOSE_S` and `Flux = 10^(-0.4*(GENMAG - ZP_S))`:
when a template time `TEXPOSE_T > 0.01` is supplied, with `ZP_T`, `SQ_T` interpolated
at it, `SQ_T' = SQ_T * 10^(0.8*(ZP_S - ZP_T))` and total variance
`SQ_S + SQ_T' + Flux`, the call returns `SNR = Flux / sqrt(variance)` and
`ERRFRAC_T = sqrt(SQ_T') / sqrt(variance)`; with `TEXPOSE_T = 0` it returns
`SNR = Flux / sqrt(SQ_S + Flux)` and `ERRFRAC_T = 0`.  (The square roots are taken of
non-negative numbers and the divisor is not zero; `sqrt(0) = 0`.) -/
theorem getSNR_formula (M : Libm K) (interp : Interp K) (st : INPUTS_SPECTRO_DEF K)
    (ILAM : Nat) (TEXPOSE_S TEXPOSE_T GENMAG ZP_S SQ_S : K)
    (hmin : st.TEXPOSE_LIST 0 ≤ TEXPOSE_S)
    (hmax : TEXPOSE_S ≤ st.TEXPOSE_LIST (st.NBIN_TEXPOSE - 1))
    (hZ : interp 1 TEXPOSE_S st.NBIN_TEXPOSE st.TEXPOSE_LIST (st.ZP ILAM)
      "getSNR_spectrograph(ZP_S)" = .ok ZP_S)
    (hQ : interp 1 TEXPOSE_S st.NBIN_TEXPOSE st.TEXPOSE_LIST (st.SQSIGSKY ILAM)
      "getSNR_spectrograph(SQ_S)" = .ok SQ_S) :
    let Flux := M.pow TEN (-0.4 * (GENMAG - ZP_S))
    (∀ ZP_T SQ_T : K, TEXPOSE_T > 0.01 →
      interp 1 TEXPOSE_T st.NBIN_TEXPOSE st.TEXPOSE_LIST (st.ZP ILAM)
        "getSNR_spectrograph(ZP_T)" = .ok ZP_T →
      interp 1 TEXPOSE_T st.NBIN_TEXPOSE st.TEXPOSE_LIST (st.SQSIGSKY ILAM)
        "getSNR_spectrograph(SQ_T)" = .ok SQ_T →
      let SQ_T2 := SQ_T * M.pow TEN (0.8 * (ZP_S - ZP_T))
      let variance := SQ_S + SQ_T2 + Flux
      0 ≤ variance → 0 ≤ SQ_T2 → M.sqrt variance ≠ 0 →
      getSNR_spectrograph M interp st ILAM TEXPOSE_S TEXPOSE_T GENMAG
        = .ok (Flux / M.sqrt variance, M.sqrt SQ_T2 / M.sqrt variance)) ∧
    (TEXPOSE_T = 0 → M.sqrt 0 = 0 → 0 ≤ SQ_S + Flux → M.sqrt (SQ_S + Flux) ≠ 0 →
      getSNR_spectrograph M interp st ILAM TEXPOSE_S TEXPOSE_T GENMAG
        = .ok (Flux / M.sqrt (SQ_S + Flux), 0)) := by
  intro Flux
  have hS : ¬ (TEXPOSE_S < st.TEXPOSE_LIST 0 ∨
      TEXPOSE_S > st.TEXPOSE_LIST (st.NBIN_TEXPOSE - 1)) := by
    rintro (h1 | h1)
    · exact absurd hmin (not_le.mpr h1)
    · exact absurd hmax (not_le.mpr h1)
  refine ⟨?_, ?_⟩
  · intro ZP_T SQ_T hT hZT hQT SQ_T2 variance hv hT2 hne
    exact getSNR_template M interp st ILAM TEXPOSE_S TEXPOSE_T GENMAG ZP_S SQ_S ZP_T SQ_T
      hS hZ hQ hT hZT hQT hv hT2 hne
  · intro hT0 hs0 hv hne
    have h := getSNR_notemplate M interp st ILAM TEXPOSE_S TEXPOSE_T GENMAG ZP_S SQ_S
      hS hZ hQ (by rw [hT0]; norm_num) hv hne
    rw [h, hs0, zero_div]

/-- On the solved scenario table the query at the second exposure time and the second
reference magnitude reproduces the input SNR 25 within 0.001. -/
theorem getSNR_reproduces_input_witness :
    ∃ SNR ERRFRAC_T : ℝ,
      getSNR_spectrograph realLibm interp_1DFUN_linear scenarioSolved 0
        (scenarioSolved.TEXPOSE_LIST 1) 0 (scenarioSolved.MAGREF_LIST 1) = .ok (SNR, ERRFRAC_T) ∧
      |(if (1 : Nat) = 0 then (scenarioTable ℝ).SNR0 0 1 else (scenarioTable ℝ).SNR1 0 1) / SNR - 1|
        ≤ 0.001 :=
  (getSNR_reproduces_input realLibm interp_1DFUN_linear (scenarioTable ℝ) scenarioSolved).1
    scenario_solves
    (fun k F cmt hk => interp_linear_grid 1 2 (scenarioTable ℝ).TEXPOSE_LIST F cmt scenario_grid k hk)
    scenario_grid_range 0 1 1 (by decide) (by decide) (by decide)

/-- On the table with zero sky variance and zero zero point, search time 100, template
time 1000 and magnitude 0, the call returns the values of the formula. -/
theorem getSNR_formula_witness :
    getSNR_spectrograph realLibm interp_1DFUN_linear (flatTable ℝ) 0
        ((flatTable ℝ).TEXPOSE_LIST 0) ((flatTable ℝ).TEXPOSE_LIST 1) 0
      = .ok (realLibm.pow TEN (-0.4 * (0 - 0)) /
            realLibm.sqrt (0 + 0 * realLibm.pow TEN (0.8 * (0 - 0))
              + realLibm.pow TEN (-0.4 * (0 - 0))),
          realLibm.sqrt (0 * realLibm.pow TEN (0.8 * (0 - 0))) /
            realLibm.sqrt (0 + 0 * realLibm.pow TEN (0.8 * (0 - 0))
              + realLibm.pow TEN (-0.4 * (0 - 0)))) :=
  (getSNR_formula realLibm interp_1DFUN_linear (flatTable ℝ) 0
      ((flatTable ℝ).TEXPOSE_LIST 0) ((flatTable ℝ).TEXPOSE_LIST 1) 0 0 0
      (le_refl _) (by rw [flat_grid_vals.1, flat_grid_vals.2.2]; norm_num)
      (flat_interp 0 (by decide) _ _) (flat_interp 0 (by decide) _ _)).1 0 0
    (by rw [flat_grid_vals.2.1]; norm_num)
    (flat_interp 1 (by decide) _ _) (flat_interp 1 (by decide) _ _)
    (by rw [real_pow_zero, real_pow_zero2]; norm_num)
    (by rw [real_pow_zero2]; norm_num)
    (by
      rw [real_pow_zero, real_pow_zero2]
      have : realLibm.sqrt (0 + 0 * 1 + 1) = 1 := by
        simp [realLibm]
      rw [this]; norm_num)

/-- C7, as stated, fails: on the solved scenario table (grid `100, 1000`) the supplied
template time `TEXPOSE_T = 0.005` is positive and lies outside the grid, and the call
with `TEXPOSE_S = 100` raises no fatal error: it returns `SNR = 10` and `ERRFRAC_T = 0`. -/
theorem getSNR_small_template_accepted :
    (0 : ℝ) < 0.005 ∧ (0.005 : ℝ) < scenarioSolved.TEXPOSE_LIST 0 ∧
    getSNR_spectrograph realLibm interp_1DFUN_linear scenarioSolved 0 100 0.005 20
      = .ok (10, 0) := by
  refine ⟨by norm_num, ?_, scenario_getSNR 0.005 (by norm_num)⟩
  have e0 : scenarioSolved.TEXPOSE_LIST 0 = 100 := scenario_grid_vals.1
  rw [e0]; norm_num

/-- C7, amended: exposure-time range errors of `getSNR_spectrograph`.  A search time
`TEXPOSE_S` outside `[TEXPOSE_LIST[0], TEXPOSE_LIST[NBT-1]]` is a fatal error of
`getSNR_spectrograph` itself, whatever the interpolator.  With the linear interpolator
on a strictly increasing grid, a template time `TEXPOSE_T > 0.01` outside the interval
(the search time being inside) is a fatal error raised by the interpolator.  A search
time inside the interval, endpoints included, with a template time that is either
`≤ 0.01` or inside the interval, never ends in a fatal error. -/
theorem getSNR_range_errors (M : Libm K) (st : INPUTS_SPECTRO_DEF K) (ILAM : Nat)
    (TEXPOSE_S TEXPOSE_T GENMAG : K) :
    (∀ interp : Interp K,
      (TEXPOSE_S < st.TEXPOSE_LIST 0 ∨ TEXPOSE_S > st.TEXPOSE_LIST (st.NBIN_TEXPOSE - 1)) →
      getSNR_spectrograph M interp st ILAM TEXPOSE_S TEXPOSE_T GENMAG
        = .error (.fatal "getSNR_spectrograph" "Invalid TEXPOSE_S")) ∧
    (StrictIncr st.TEXPOSE_LIST st.NBIN_TEXPOSE →
      st.TEXPOSE_LIST 0 ≤ TEXPOSE_S → TEXPOSE_S ≤ st.TEXPOSE_LIST (st.NBIN_TEXPOSE - 1) →
      TEXPOSE_T > 0.01 →
      (TEXPOSE_T < st.TEXPOSE_LIST 0 ∨ TEXPOSE_T > st.TEXPOSE_LIST (st.NBIN_TEXPOSE - 1)) →
      getSNR_spectrograph M interp_1DFUN_linear st ILAM TEXPOSE_S TEXPOSE_T GENMAG
        = .error (.fatal "interp_1DFUN" "getSNR_spectrograph(ZP_T)")) ∧
    (st.TEXPOSE_LIST 0 ≤ TEXPOSE_S → TEXPOSE_S ≤ st.TEXPOSE_LIST (st.NBIN_TEXPOSE - 1) →
      (TEXPOSE_T ≤ 0.01 ∨
        (st.TEXPOSE_LIST 0 ≤ TEXPOSE_T ∧ TEXPOSE_T ≤ st.TEXPOSE_LIST (st.NBIN_TEXPOSE - 1))) →
      ∀ fnam msg : String,
        getSNR_spectrograph M interp_1DFUN_linear st ILAM TEXPOSE_S TEXPOSE_T GENMAG
          ≠ .error (.fatal fnam msg)) := by
  have key : ∀ x : K, st.TEXPOSE_LIST 0 ≤ x → x ≤ st.TEXPOSE_LIST (st.NBIN_TEXPOSE - 1) →
      ¬ (x < st.TEXPOSE_LIST 0 ∨ x > st.TEXPOSE_LIST (st.NBIN_TEXPOSE - 1)) := by
    intro x h1 h2
    rintro (h | h)
    · exact absurd h1 (not_le.mpr h)
    · exact absurd h2 (not_le.mpr h)
  refine ⟨?_, ?_, ?_⟩
  · intro interp hS
    exact getSNR_fatal_S M interp st ILAM TEXPOSE_S TEXPOSE_T GENMAG hS
  · intro hX h1 h2 hT1 hT2
    exact getSNR_linear_fatal_T M st ILAM TEXPOSE_S TEXPOSE_T GENMAG hX (key _ h1 h2) hT1 hT2
  · intro h1 h2 hT fnam msg
    refine getSNR_linear_not_fatal M st ILAM TEXPOSE_S TEXPOSE_T GENMAG (key _ h1 h2) ?_ fnam msg
    rcases hT with h | ⟨a, b⟩
    · exact Or.inl (not_lt.mpr h)
    · exact Or.inr (key _ a b)

/-- C8: interpolation idempotence.  With the linear interpolator on a strictly increasing
exposure-time grid, the query at a tabulated exposure time `TEXPOSE_LIST[k]` without
template uses exactly the tabulated `ZP[l][k]` and `SQSIGSKY[l][k]`: it returns
`F / sqrt(SQSIGSKY[l][k] + F)` with `F = 10^(-0.4*(mag - ZP[l][k]))`, whatever the
neighbouring grid entries (the square root being of a non-negative number and not
zero). -/
theorem getSNR_grid_point (M : Libm K) (st : INPUTS_SPECTRO_DEF K) (l k : Nat) (mag : K)
    (hk : k < st.NBIN_TEXPOSE) (hX : StrictIncr st.TEXPOSE_LIST st.NBIN_TEXPOSE)
    (hv : 0 ≤ st.SQSIGSKY l k + M.pow TEN (-0.4 * (mag - st.ZP l k)))
    (hne : M.sqrt (st.SQSIGSKY l k + M.pow TEN (-0.4 * (mag - st.ZP l k))) ≠ 0) :
    ∃ ERRFRAC_T : K,
      getSNR_spectrograph M interp_1DFUN_linear st l (st.TEXPOSE_LIST k) 0 mag
        = .ok (M.pow TEN (-0.4 * (mag - st.ZP l k)) /
            M.sqrt (st.SQSIGSKY l k + M.pow TEN (-0.4 * (mag - st.ZP l k))), ERRFRAC_T) := by
  have mono : ∀ a b, a ≤ b → b < st.NBIN_TEXPOSE → st.TEXPOSE_LIST a ≤ st.TEXPOSE_LIST b := by
    intro a b hab hb
    rcases Nat.eq_or_lt_of_le hab with e | e
    · rw [e]
    · exact le_of_lt (hX a b e hb)
  have hS : ¬ (st.TEXPOSE_LIST k < st.TEXPOSE_LIST 0 ∨
      st.TEXPOSE_LIST k > st.TEXPOSE_LIST (st.NBIN_TEXPOSE - 1)) := by
    rintro (h | h)
    · exact absurd (mono 0 k (Nat.zero_le _) hk) (not_le.mpr h)
    · exact absurd (mono k (st.NBIN_TEXPOSE - 1) (by omega) (by omega)) (not_le.mpr h)
  exact ⟨_, getSNR_notemplate M interp_1DFUN_linear st l (st.TEXPOSE_LIST k) 0 mag
    (st.ZP l k) (st.SQSIGSKY l k) hS
    (interp_linear_grid 1 _ _ _ _ hX k hk) (interp_linear_grid 1 _ _ _ _ hX k hk)
    (by norm_num) hv hne⟩

/-- On the solved scenario table the query at the first tabulated exposure time and
magnitude 20 returns the value of the formula at the first grid point. -/
theorem getSNR_grid_point_witness :
    ∃ ERRFRAC_T : ℝ,
      getSNR_spectrograph realLibm interp_1DFUN_linear scenarioSolved 0
        (scenarioSolved.TEXPOSE_LIST 0) 0 20
        = .ok (realLibm.pow TEN (-0.4 * (20 - scenarioSolved.ZP 0 0)) /
            realLibm.sqrt (scenarioSolved.SQSIGSKY 0 0
              + realLibm.pow TEN (-0.4 * (20 - scenarioSolved.ZP 0 0))), ERRFRAC_T) :=
  getSNR_grid_point realLibm scenarioSolved 0 0 20 (by decide) scenario_grid
    (le_of_lt scenario_first_pair.1) (ne_of_gt (Real.sqrt_pos.mpr scenario_first_pair.1))

/-- On the solved scenario table the search time 50 is below the grid and the call is
fatal; the template time 5000 is above the grid and the call is fatal. -/
theorem getSNR_range_errors_witness :
    getSNR_spectrograph realLibm interp_1DFUN_linear scenarioSolved 0 50 0 20
      = .error (.fatal "getSNR_spectrograph" "Invalid TEXPOSE_S") ∧
    getSNR_spectrograph realLibm interp_1DFUN_linear scenarioSolved 0 100 5000 20
      = .error (.fatal "interp_1DFUN" "getSNR_spectrograph(ZP_T)") :=
  ⟨(getSNR_range_errors realLibm scenarioSolved 0 50 0 20).1 interp_1DFUN_linear
      (Or.inl (by
        have e0 : scenarioSolved.TEXPOSE_LIST 0 = 100 := scenario_grid_vals.1
        rw [e0]; norm_num)),
    (getSNR_range_errors realLibm scenarioSolved 0 100 5000 20).2.1 scenario_grid
      (by
        have e0 : scenarioSolved.TEXPOSE_LIST 0 = 100 := scenario_grid_vals.1
        rw [e0])
      (by
        have e1 : scenarioSolved.TEXPOSE_LIST (scenarioSolved.NBIN_TEXPOSE - 1) = 1000 :=
          scenario_grid_vals.2
        rw [e1]; norm_num)
      (by norm_num)
      (Or.inr (by
        have e1 : scenarioSolved.TEXPOSE_LIST (scenarioSolved.NBIN_TEXPOSE - 1) = 1000 :=
          scenario_grid_vals.2
        rw [e1]; norm_num))⟩

/-- C9: `check_SNR_SPECTROGRAPH(l, t)` returns 0 when `t = 0`; for `t > 0` it returns 1
if and only if `SNR0[l][t] < SNR0[l][t-1]` or `SNR1[l][t] < SNR1[l][t-1]`, and 0
otherwise, so that equal consecutive values are accepted and the result is 1 (never 2)
when both curves decrease.  It only reads the table. -/
theorem check_SNR_SPECTROGRAPH_spec (st : INPUTS_SPECTRO_DEF K) (l t : Nat) :
    (t = 0 → check_SNR_SPECTROGRAPH st l t = 0) ∧
    (0 < t → (check_SNR_SPECTROGRAPH st l t = 1 ↔
      (st.SNR0 l t < st.SNR0 l (t - 1) ∨ st.SNR1 l t < st.SNR1 l (t - 1)))) ∧
    (check_SNR_SPECTROGRAPH st l t = 0 ∨ check_SNR_SPECTROGRAPH st l t = 1) ∧
    (st.SNR0 l t = st.SNR0 l (t - 1) → st.SNR1 l t = st.SNR1 l (t - 1) →
      check_SNR_SPECTROGRAPH st l t = 0) ∧
    (0 < t → st.SNR0 l t < st.SNR0 l (t - 1) → st.SNR1 l t < st.SNR1 l (t - 1) →
      check_SNR_SPECTROGRAPH st l t = 1) := by
  unfold check_SNR_SPECTROGRAPH
  refine ⟨?_, ?_, ?_, ?_, ?_⟩
  · intro h; rw [if_pos h]
  · intro h
    rw [if_neg (Nat.pos_iff_ne_zero.mp h)]
    split_ifs with h0 h1
    · simp [h0]
    · simp [h1]
    · simp [h0, h1]
  · split_ifs <;> simp
  · intro e0 e1
    rw [e0, e1]
    simp
  · intro h h0 _
    rw [if_neg (Nat.pos_iff_ne_zero.mp h), if_pos h0]

set_option maxRecDepth 100000 in
/-- C10, counterexample. The file `lateTimesFile` reads `TEXPOSE_LIST: 100`, one row
`SPECBIN: 4000 4010 2 10 8`, and then `TEXPOSE_LIST: 100 1000`.  The row is checked against
the one exposure time known when it is read, so nothing is counted; the second list raises
`NBIN_TEXPOSE` to 2 after the row has been stored.  The load completes without a fatal
error with one stored bin, two exposure times and a failure count of zero, and the stored
bin has `SNR0[0][1] = 0 < 10 = SNR0[0][0]` and `SNR1[0][1] = 0 < 8 = SNR1[0][0]`: a
decreasing pair in a loaded table.  The key `TEXPOSE_LIST:` is read here while a bin is
stored, which is what `ExposureListBeforeBins` excludes. -/
theorem read_spectrograph_text_late_exposure_list :
    (read_spectrograph_text (demoEnv ℚ) demoLibm (some lateTimesFile) (demoGlobals ℚ)).map
      (fun r => r.toOption.map (fun G => [G.INPUTS_SPECTRO.NBIN_LAM,
        G.INPUTS_SPECTRO.NBIN_TEXPOSE, G.NERR_SNR_SPECTROGRAPH]))
      = some (some [1, 2, 0]) ∧
    (read_spectrograph_text (demoEnv ℚ) demoLibm (some lateTimesFile) (demoGlobals ℚ)).map
      (fun r => r.toOption.map (fun G =>
        [G.INPUTS_SPECTRO.SNR0 0 0, G.INPUTS_SPECTRO.SNR0 0 1,
         G.INPUTS_SPECTRO.SNR1 0 0, G.INPUTS_SPECTRO.SNR1 0 1]))
      = some (some [(10 : ℚ), 0, 8, 0]) ∧
    (read_spectrograph_text (demoEnv ℚ) demoLibm (some lateTimesFile) (demoGlobals ℚ)).map
      (fun r => r.toOption.map (fun G =>
        [decide (G.INPUTS_SPECTRO.SNR0 0 1 < G.INPUTS_SPECTRO.SNR0 0 0),
         decide (G.INPUTS_SPECTRO.SNR1 0 1 < G.INPUTS_SPECTRO.SNR1 0 0)]))
      = some (some [true, true]) ∧
    exposureListBeforeBins (demoEnv ℚ) demoLibm (lateTimesFile.length + 1)
      (read_init (demoEnv ℚ) lateTimesFile (demoGlobals ℚ)) = false := by
  refine ⟨?_, ?_, ?_, ?_⟩
  · decide!
  · decide!
  · decide!
  · decide!

/-- C10, amended. Monotonicity of a loaded table.  The `while` loop of `read_spectrograph_text`
always ends.  For an input in which the key `TEXPOSE_LIST:` is read only before the first
stored bin (the header precedes the `SPECBIN:` rows): if `read_spectrograph_text` completes
without a fatal error then for every stored bin `l` and every exposure index `t ≥ 1`,
`SNR0[l][t] ≥ SNR0[l][t-1]` and `SNR1[l][t] ≥ SNR1[l][t-1]`; when the loop reaches the end
of the file in the state `S`, the count `NERR_SNR_SPECTROGRAPH` is the number of violating
pairs `(l, t)` of the stored bins, the load ends with the fatal error
`Found ... errors for which SNR(Texpose) is NOT monotically increasing` exactly when the
count is not zero, a decreasing pair of a stored bin makes the load fatal, and with a
count of zero only the test `NBL >= MXLAM_SPECTROGRAPH` can still stop the load. -/
theorem read_spectrograph_text_monotonic (E : READ_ENV K) (M : Libm K) (content : List Char)
    (G : SPECTRO_GLOBALS K)
    (hfmt : ExposureListBeforeBins E M (content.length + 1) (read_init E content G)) :
    (∃ r, read_spectrograph_text E M (some content) G = some r) ∧
    (∀ G', read_spectrograph_text E M (some content) G = some (.ok G') →
      ∀ l t, l < G'.INPUTS_SPECTRO.NBIN_LAM → 1 ≤ t → t < G'.INPUTS_SPECTRO.NBIN_TEXPOSE →
        G'.INPUTS_SPECTRO.SNR0 l t ≥ G'.INPUTS_SPECTRO.SNR0 l (t - 1) ∧
        G'.INPUTS_SPECTRO.SNR1 l t ≥ G'.INPUTS_SPECTRO.SNR1 l (t - 1)) ∧
    (∀ S, read_loop E M (content.length + 1) (read_init E content G) = some (.ok S) →
      S.2.NERR_SNR_SPECTROGRAPH = (violatingPairs S.2.INPUTS_SPECTRO).card ∧
      (S.2.NERR_SNR_SPECTROGRAPH ≠ 0 ↔
        read_spectrograph_text E M (some content) G = some (.error
          (Abort.fatal "read_spectrograph_text" "Found errors for which", S.2))) ∧
      ((∃ l t, l < S.2.INPUTS_SPECTRO.NBIN_LAM ∧ 1 ≤ t ∧ t < S.2.INPUTS_SPECTRO.NBIN_TEXPOSE ∧
          (S.2.INPUTS_SPECTRO.SNR0 l t < S.2.INPUTS_SPECTRO.SNR0 l (t - 1) ∨
            S.2.INPUTS_SPECTRO.SNR1 l t < S.2.INPUTS_SPECTRO.SNR1 l (t - 1))) →
        read_spectrograph_text E M (some content) G = some (.error
          (Abort.fatal "read_spectrograph_text" "Found errors for which", S.2))) ∧
      (S.2.NERR_SNR_SPECTROGRAPH = 0 → S.1.NBL < E.MXLAM_SPECTROGRAPH →
        read_spectrograph_text E M (some content) G = some (.ok S.2))) := by
  have hloop : ∀ S, read_loop E M (content.length + 1) (read_init E content G) = some (.ok S) →
      S.2.NERR_SNR_SPECTROGRAPH = (violatingPairs S.2.INPUTS_SPECTRO).card := by
    intro S hS
    have hc := read_loop_counts E M _ _ S (read_init_counts E content G) hfmt hS
    unfold CountsViolations at hc
    rw [hc, tableViolations_eq_card]
  have hres : ∀ S, read_loop E M (content.length + 1) (read_init E content G) = some (.ok S) →
      read_spectrograph_text E M (some content) G = some (read_finish E S) := by
    intro S hS
    simp only [read_spectrograph_text, hS]
  refine ⟨?_, ?_, ?_⟩
  · obtain ⟨r, hr⟩ := read_loop_total E M (content.length + 1) (read_init E content G)
      (by rw [read_init_fp]; exact Nat.lt_succ_self _)
    simp only [read_spectrograph_text, hr]
    cases r with
    | error e => exact ⟨_, rfl⟩
    | ok S => exact ⟨_, rfl⟩
  · intro G' hG' l t hl h1 ht
    unfold read_spectrograph_text at hG'
    cases hr : read_loop E M (content.length + 1) (read_init E content G) with
    | none => simp [hr] at hG'
    | some r =>
      cases r with
      | error e => simp [hr] at hG'
      | ok S =>
        simp only [hr, Option.some.injEq] at hG'
        have hn := hloop S hr
        unfold read_finish at hG'
        split_ifs at hG' with a b
        simp only [Except.ok.injEq] at hG'
        subst hG'
        have hz : (violatingPairs S.2.INPUTS_SPECTRO).card = 0 := by omega
        have hnot : ¬ Violates S.2.INPUTS_SPECTRO l t := by
          intro hv
          have hm := (mem_violatingPairs S.2.INPUTS_SPECTRO l t).mpr ⟨hl, ht, hv⟩
          rw [Finset.card_eq_zero] at hz
          rw [hz] at hm
          exact absurd hm (Finset.not_mem_empty _)
        unfold Violates at hnot
        push_neg at hnot
        have := hnot h1
        exact ⟨this.1, this.2⟩
  · intro S hS
    have hn := hloop S hS
    have hr := hres S hS
    have hpos : S.2.NERR_SNR_SPECTROGRAPH ≠ 0 →
        read_spectrograph_text E M (some content) G = some (.error
          (Abort.fatal "read_spectrograph_text" "Found errors for which", S.2)) := by
      intro h0
      rw [hr]
      unfold read_finish
      rw [if_pos (Nat.pos_of_ne_zero h0)]
    refine ⟨hn, ⟨hpos, ?_⟩, ?_, ?_⟩
    · intro h
      rw [hr] at h
      unfold read_finish at h
      split_ifs at h with a b
      all_goals first | omega | (simp at h)
    · rintro ⟨l, t, hl, h1, ht, hv⟩
      apply hpos
      rw [hn]
      intro hz
      have hm := (mem_violatingPairs S.2.INPUTS_SPECTRO l t).mpr ⟨hl, ht, h1, hv⟩
      rw [Finset.card_eq_zero] at hz
      rw [hz] at hm
      exact absurd hm (Finset.not_mem_empty _)
    · intro h0 hb
      rw [hr]
      unfold read_finish
      rw [if_neg (by omega), if_neg (by omega)]

set_option maxRecDepth 100000 in
theorem read_spectrograph_text_monotonic_witness :
    ExposureListBeforeBins (demoEnv ℚ) demoLibm (demoFile.length + 1)
      (read_init (demoEnv ℚ) demoFile (demoGlobals ℚ)) ∧
    ∃ r, read_spectrograph_text (demoEnv ℚ) demoLibm (some demoFile) (demoGlobals ℚ) = some r :=
  ⟨(exposureListBeforeBins_iff _ _ _ _).mp (by decide!),
   (read_spectrograph_text_monotonic (demoEnv ℚ) demoLibm demoFile (demoGlobals ℚ)
     ((exposureListBeforeBins_iff _ _ _ _).mp (by decide!))).1⟩

set_option maxRecDepth 100000 in
/-- C11, counterexample. The list `100 100` has an entry that is not strictly greater than
its predecessor, and `read_TEXPOSE_LIST` accepts it: it returns two exposure times, both
100; a file with the line `TEXPOSE_LIST: 100 100` is loaded without a fatal error. -/
theorem read_TEXPOSE_LIST_accepts_equal_times :
    (read_TEXPOSE_LIST (demoEnv ℚ) { demoGlobals ℚ with fp := " 100 100\n".toList }).toOption.map
      (fun r => (r.1, r.2.INPUTS_SPECTRO.TEXPOSE_LIST 0, r.2.INPUTS_SPECTRO.TEXPOSE_LIST 1))
      = some (2, (100 : ℚ), (100 : ℚ)) ∧
    (read_spectrograph_text (demoEnv ℚ) demoLibm (some equalTimesFile) (demoGlobals ℚ)).map
      (fun r => r.toOption.map (fun G => (G.INPUTS_SPECTRO.NBIN_TEXPOSE,
        G.INPUTS_SPECTRO.TEXPOSE_LIST 0, G.INPUTS_SPECTRO.TEXPOSE_LIST 1)))
      = some (some (2, (100 : ℚ), (100 : ℚ))) := by
  constructor
  · decide!
  · decide!

/-- C11, amended. After a successful load the exposure-time list is non-decreasing.  A
completed `read_TEXPOSE_LIST` has stored `n < MXTEXPOSE_SPECTROGRAPH` exposure times with
`TEXPOSE_LIST[i] ≥ TEXPOSE_LIST[i-1]` for every `1 ≤ i < n`, so a list with an entry
strictly less than its predecessor is not accepted; the only aborts of `read_TEXPOSE_LIST`
are its two fatal errors; and a table loaded by `read_spectrograph_text` without a fatal
error has its `NBIN_TEXPOSE` exposure times in non-decreasing order. -/
theorem read_TEXPOSE_LIST_nondecreasing (E : READ_ENV K) (M : Libm K) (content : List Char)
    (G : SPECTRO_GLOBALS K) :
    (∀ G0 n G', read_TEXPOSE_LIST E G0 = .ok (n, G') →
      G'.INPUTS_SPECTRO.NBIN_TEXPOSE = n ∧ n < E.MXTEXPOSE_SPECTROGRAPH ∧
      ∀ i, 1 ≤ i → i < n →
        G'.INPUTS_SPECTRO.TEXPOSE_LIST (i - 1) ≤ G'.INPUTS_SPECTRO.TEXPOSE_LIST i) ∧
    (∀ G0 e, read_TEXPOSE_LIST E G0 = .error e →
      e.1 = Abort.fatal "read_TEXPOSE_LIST" "TEXPOSE_LIST must be in increasing order." ∨
      e.1 = Abort.fatal "read_TEXPOSE_LIST" "Found too many TEXPOSE_LIST values") ∧
    (∀ G', read_spectrograph_text E M (some content) G = some (.ok G') →
      ∀ i, 1 ≤ i → i < G'.INPUTS_SPECTRO.NBIN_TEXPOSE →
        G'.INPUTS_SPECTRO.TEXPOSE_LIST (i - 1) ≤ G'.INPUTS_SPECTRO.TEXPOSE_LIST i) := by
  refine ⟨?_, ?_, ?_⟩
  · intro G0 n G' h
    obtain ⟨hn, T, hT, hG⟩ := read_TEXPOSE_LIST_shape E G0 G' n h
    subst hG
    exact ⟨rfl, hn, hT⟩
  · intro G0 e h
    exact read_TEXPOSE_LIST_error E G0 e h
  · intro G' hG'
    unfold read_spectrograph_text at hG'
    cases hr : read_loop E M (content.length + 1) (read_init E content G) with
    | none => simp [hr] at hG'
    | some r =>
      cases r with
      | error e => simp [hr] at hG'
      | ok S =>
        simp only [hr, Option.some.injEq] at hG'
        have hI := read_loop_LoadInv E M content G _ S hr
        unfold read_finish at hG'
        split_ifs at hG'
        simp only [Except.ok.injEq] at hG'
        subst hG'
        exact hI.2.2.2.1

/-- C12. A decreasing exposure-time list fails the load.  The line that
`read_TEXPOSE_LIST` reads, split at blanks, starts with the tokens `pre`, none of them a
comment, whose values are `vs`, fewer than `MXTEXPOSE_SPECTROGRAPH`; if some value is less
than the one before it, `read_TEXPOSE_LIST` raises the fatal error
`TEXPOSE_LIST must be in increasing order.` -/
theorem read_TEXPOSE_LIST_decreasing_fatal (E : READ_ENV K) (G : SPECTRO_GLOBALS K)
    (pre rest : List (List Char)) (vs : List K)
    (hline : strtok_blank [] (fgets 400 G.fp).1 = pre ++ rest)
    (hvals : List.Forall₂ (fun tok v =>
      ¬ (tok.head? = some '#' ∨ tok.head? = some '%' ∨ tok.head? = some '!'
        ∨ tok.head? = some '\r') ∧ sscanf_le E.strtod tok = some v) pre vs)
    (hlen : vs.length < E.MXTEXPOSE_SPECTROGRAPH)
    (hdec : ∃ i, ∃ h : i + 1 < vs.length, vs.get ⟨i + 1, h⟩ < vs.get ⟨i, by omega⟩) :
    ∃ G', read_TEXPOSE_LIST E G = .error
      (Abort.fatal "read_TEXPOSE_LIST" "TEXPOSE_LIST must be in increasing order.", G') := by
  have hch : ¬ List.Chain' (fun a b => a ≤ b) vs := by
    intro hc
    obtain ⟨i, hi, hlt⟩ := hdec
    have := List.chain'_iff_get.mp hc i (by omega)
    exact absurd this (not_le.mpr hlt)
  obtain ⟨G', hG'⟩ := read_TEXPOSE_tokens_decreasing E rest pre vs 0
    { G with fp := (fgets 400 G.fp).2 } hvals (by omega) (by rw [if_pos rfl]; exact hch)
  refine ⟨G', ?_⟩
  unfold read_TEXPOSE_LIST
  simp only [bind, Except.bind, hline, hG']

set_option maxRecDepth 100000 in
theorem read_TEXPOSE_LIST_decreasing_fatal_witness :
    ∃ G', read_TEXPOSE_LIST (demoEnv ℚ) { demoGlobals ℚ with fp := " 1000 100\n".toList }
      = .error (Abort.fatal "read_TEXPOSE_LIST" "TEXPOSE_LIST must be in increasing order.", G') :=
  read_TEXPOSE_LIST_decreasing_fatal (demoEnv ℚ)
    { demoGlobals ℚ with fp := " 1000 100\n".toList }
    ["1000".toList, "100\n".toList] [] [1000, 100]
    (by decide!)
    (List.Forall₂.cons ⟨by decide, by decide!⟩
      (List.Forall₂.cons ⟨by decide, by decide!⟩ List.Forall₂.nil))
    (by decide)
    ⟨0, by decide, by norm_num⟩

set_option maxRecDepth 100000 in
/-- C13, the code at the failing input. In `repeatedKeyFile` the key `SPECBIN:` is reached
when `INSTRUMENT:` has been read three times and `MAGREF_LIST:` and `TEXPOSE_LIST:` not at
all; `read_spectrograph_text` raises no fatal error: the load completes with one stored
bin, no exposure time and the reference magnitudes still at their first value 99. -/
theorem read_spectrograph_text_repeated_key :
    (read_spectrograph_text (demoEnv ℚ) demoLibm (some repeatedKeyFile) (demoGlobals ℚ)).map
      (fun r => r.toOption.map (fun G => (G.INPUTS_SPECTRO.NBIN_LAM,
        G.INPUTS_SPECTRO.NBIN_TEXPOSE, G.INPUTS_SPECTRO.INSTRUMENT_NAME,
        G.INPUTS_SPECTRO.MAGREF_LIST 0, G.INPUTS_SPECTRO.MAGREF_LIST 1)))
      = some (some (1, 0, "C", (99 : ℚ), (99 : ℚ))) := by
  decide!

/-- C15. Row layout without rebinning.  With the rebin factor 1 and three columns before
the SNR values, a row `a b s x_0 y_0 ... x_{T-1} y_{T-1}` (the values `rowRead E G 0`,
`rowRead E G 1`, ... that `readdouble` delivers) with `a ≤ b`, read when `l = NBIN_LAM` bins are stored, is
stored as bin `l`: `LAMMIN_LIST[l] = a`, `LAMMAX_LIST[l] = b`, `LAMSIGMA_LIST[l] = s`, and
for each exposure index `t`, `SNR0[l][t] = x_t` and `SNR1[l][t] = y_t`; `NBIN_LAM`
increases by exactly one and the earlier bins are unchanged. -/
theorem read_SPECBIN_row_layout (E : READ_ENV K) (M : Libm K) (G : SPECTRO_GLOBALS K)
    (hcol : E.NCOL_noSNR = 3)
    (h1 : G.INPUTS_SPECTRO.NREBIN_LAM = 1) (hab : rowRead E G 0 ≤ rowRead E G 1) :
    ∃ G', read_SPECBIN_spectrograph E M G = .ok (G.INPUTS_SPECTRO.NBIN_LAM + 1, G') ∧
      G'.INPUTS_SPECTRO.NBIN_LAM = G.INPUTS_SPECTRO.NBIN_LAM + 1 ∧
      G'.INPUTS_SPECTRO.LAMMIN_LIST G.INPUTS_SPECTRO.NBIN_LAM = rowRead E G 0 ∧
      G'.INPUTS_SPECTRO.LAMMAX_LIST G.INPUTS_SPECTRO.NBIN_LAM = rowRead E G 1 ∧
      G'.INPUTS_SPECTRO.LAMSIGMA_LIST G.INPUTS_SPECTRO.NBIN_LAM = rowRead E G 2 ∧
      (∀ t, t < G.INPUTS_SPECTRO.NBIN_TEXPOSE →
        G'.INPUTS_SPECTRO.SNR0 G.INPUTS_SPECTRO.NBIN_LAM t = rowRead E G (3 + 2 * t) ∧
        G'.INPUTS_SPECTRO.SNR1 G.INPUTS_SPECTRO.NBIN_LAM t = rowRead E G (3 + 2 * t + 1)) ∧
      (∀ l, l < G.INPUTS_SPECTRO.NBIN_LAM →
        G'.INPUTS_SPECTRO.LAMMIN_LIST l = G.INPUTS_SPECTRO.LAMMIN_LIST l ∧
        G'.INPUTS_SPECTRO.LAMMAX_LIST l = G.INPUTS_SPECTRO.LAMMAX_LIST l ∧
        G'.INPUTS_SPECTRO.LAMSIGMA_LIST l = G.INPUTS_SPECTRO.LAMSIGMA_LIST l ∧
        G'.INPUTS_SPECTRO.LAMAVG_LIST l = G.INPUTS_SPECTRO.LAMAVG_LIST l ∧
        G'.INPUTS_SPECTRO.LAMBIN_LIST l = G.INPUTS_SPECTRO.LAMBIN_LIST l ∧
        ∀ t, G'.INPUTS_SPECTRO.SNR0 l t = G.INPUTS_SPECTRO.SNR0 l t ∧
          G'.INPUTS_SPECTRO.SNR1 l t = G.INPUTS_SPECTRO.SNR1 l t) := by
  unfold rowRead at hab ⊢
  have hcall : read_SPECBIN_spectrograph E M G = PARSE_XTMP E
      (readdouble E.strtod G.fp (E.NCOL_noSNR + 2 * G.INPUTS_SPECTRO.NBIN_TEXPOSE) E.XTMP_INIT).1
      { G with fp := (readdouble E.strtod G.fp
        (E.NCOL_noSNR + 2 * G.INPUTS_SPECTRO.NBIN_TEXPOSE) E.XTMP_INIT).2 } := by
    rw [read_SPECBIN_eq]
    simp only [h1, if_true]
  obtain ⟨G', hG'⟩ := PARSE_XTMP_stores E _
    ({ G with fp := (readdouble E.strtod G.fp
      (E.NCOL_noSNR + 2 * G.INPUTS_SPECTRO.NBIN_TEXPOSE) E.XTMP_INIT).2 } : SPECTRO_GLOBALS K) hab
  obtain ⟨_, o2, _, _, o5', o6', _⟩ := PARSE_XTMP_ok E _ _ _ _ hG'
  obtain ⟨_, s0, s1, m, hsh⟩ := PARSE_XTMP_shape E _ _ _ _ hG'
  have o5 : ∀ i j, G'.INPUTS_SPECTRO.SNR0 i j =
      if i = G.INPUTS_SPECTRO.NBIN_LAM ∧ j < G.INPUTS_SPECTRO.NBIN_TEXPOSE
      then (readdouble E.strtod G.fp (E.NCOL_noSNR + 2 * G.INPUTS_SPECTRO.NBIN_TEXPOSE)
        E.XTMP_INIT).1 (E.NCOL_noSNR + 2 * j) else G.INPUTS_SPECTRO.SNR0 i j := o5'
  have o6 : ∀ i j, G'.INPUTS_SPECTRO.SNR1 i j =
      if i = G.INPUTS_SPECTRO.NBIN_LAM ∧ j < G.INPUTS_SPECTRO.NBIN_TEXPOSE
      then (readdouble E.strtod G.fp (E.NCOL_noSNR + 2 * G.INPUTS_SPECTRO.NBIN_TEXPOSE)
        E.XTMP_INIT).1 (E.NCOL_noSNR + 2 * j + 1) else G.INPUTS_SPECTRO.SNR1 i j := o6'
  refine ⟨G', by rw [hcall]; exact hG', o2, ?_, ?_, ?_, ?_, ?_⟩
  · rw [hsh]
    exact Function.update_same _ _ _
  · rw [hsh]
    exact Function.update_same _ _ _
  · rw [hsh]
    exact Function.update_same _ _ _
  · intro t ht
    refine ⟨?_, ?_⟩
    · rw [o5, if_pos ⟨rfl, ht⟩, hcol]
    · rw [o6, if_pos ⟨rfl, ht⟩, hcol]
  · intro l hl
    have hne : l ≠ G.INPUTS_SPECTRO.NBIN_LAM := by omega
    refine ⟨?_, ?_, ?_, ?_, ?_, fun t => ⟨?_, ?_⟩⟩
    · rw [hsh]; exact Function.update_noteq hne _ _
    · rw [hsh]; exact Function.update_noteq hne _ _
    · rw [hsh]; exact Function.update_noteq hne _ _
    · rw [hsh]; exact Function.update_noteq hne _ _
    · rw [hsh]; exact Function.update_noteq hne _ _
    · rw [o5, if_neg (fun c => hne c.1)]
    · rw [o6, if_neg (fun c => hne c.1)]

set_option maxRecDepth 100000 in
theorem read_SPECBIN_row_layout_witness :
    ∃ G', read_SPECBIN_spectrograph (demoEnv ℚ) demoLibm (rowGlobals ℚ) = .ok (1, G') ∧
      G'.INPUTS_SPECTRO.NBIN_LAM = 1 ∧
      G'.INPUTS_SPECTRO.LAMMIN_LIST 0 = 4000 ∧ G'.INPUTS_SPECTRO.LAMMAX_LIST 0 = 4010 ∧
      G'.INPUTS_SPECTRO.LAMSIGMA_LIST 0 = 2 ∧
      G'.INPUTS_SPECTRO.SNR0 0 0 = 10 ∧ G'.INPUTS_SPECTRO.SNR1 0 0 = 8 ∧
      G'.INPUTS_SPECTRO.SNR0 0 1 = 30 ∧ G'.INPUTS_SPECTRO.SNR1 0 1 = 25 := by
  obtain ⟨G', h1, h2, h3, h4, h5, h6, _⟩ :=
    read_SPECBIN_row_layout (demoEnv ℚ) demoLibm (rowGlobals ℚ) rfl rfl (by decide!)
  have r0 : rowRead (demoEnv ℚ) (rowGlobals ℚ) 0 = 4000 := by decide!
  have r1 : rowRead (demoEnv ℚ) (rowGlobals ℚ) 1 = 4010 := by decide!
  have r2 : rowRead (demoEnv ℚ) (rowGlobals ℚ) 2 = 2 := by decide!
  have r3 : rowRead (demoEnv ℚ) (rowGlobals ℚ) 3 = 10 := by decide!
  have r4 : rowRead (demoEnv ℚ) (rowGlobals ℚ) 4 = 8 := by decide!
  have r5 : rowRead (demoEnv ℚ) (rowGlobals ℚ) 5 = 30 := by decide!
  have r6 : rowRead (demoEnv ℚ) (rowGlobals ℚ) 6 = 25 := by decide!
  exact ⟨G', h1, h2, h3.trans r0, h4.trans r1, h5.trans r2,
    ((h6 0 (by decide)).1).trans r3, ((h6 0 (by decide)).2).trans r4,
    ((h6 1 (by decide)).1).trans r5, ((h6 1 (by decide)).2).trans r6⟩

/-- C16. Per-bin wavelength validity.  In a table loaded by `read_spectrograph_text`
without a fatal error every stored bin has `LAMMAX ≥ LAMMIN`,
`LAMAVG = (LAMMIN + LAMMAX)/2`, `LAMBIN = LAMMAX - LAMMIN ≥ 0` and
`LAMMIN ≤ LAMAVG ≤ LAMMAX`, and `LAM_MIN` is the first stored bin's `LAMMIN`, `LAM_MAX` the
last stored bin's `LAMMAX`; each completed `read_SPECBIN_spectrograph` keeps the bins
valid; a row with `lamMax < lamMin` (read with the rebin factor 1, or merged from a group)
raises the fatal error `LAMMAX < LAMMIN ???`, and an abort of `read_SPECBIN_spectrograph`
stores nothing; no ordering between different bins is enforced: `unorderedFile`, whose
second bin lies below the first, is loaded. -/
theorem read_SPECBIN_bins_valid (E : READ_ENV K) (M : Libm K) (content : List Char)
    (G : SPECTRO_GLOBALS K) :
    (∀ G', read_spectrograph_text E M (some content) G = some (.ok G') →
      (∀ l, l < G'.INPUTS_SPECTRO.NBIN_LAM →
        G'.INPUTS_SPECTRO.LAMMAX_LIST l ≥ G'.INPUTS_SPECTRO.LAMMIN_LIST l ∧
        G'.INPUTS_SPECTRO.LAMAVG_LIST l
          = (G'.INPUTS_SPECTRO.LAMMIN_LIST l + G'.INPUTS_SPECTRO.LAMMAX_LIST l) / 2 ∧
        G'.INPUTS_SPECTRO.LAMBIN_LIST l
          = G'.INPUTS_SPECTRO.LAMMAX_LIST l - G'.INPUTS_SPECTRO.LAMMIN_LIST l ∧
        G'.INPUTS_SPECTRO.LAMBIN_LIST l ≥ 0 ∧
        G'.INPUTS_SPECTRO.LAMMIN_LIST l ≤ G'.INPUTS_SPECTRO.LAMAVG_LIST l ∧
        G'.INPUTS_SPECTRO.LAMAVG_LIST l ≤ G'.INPUTS_SPECTRO.LAMMAX_LIST l) ∧
      (1 ≤ G'.INPUTS_SPECTRO.NBIN_LAM →
        G'.INPUTS_SPECTRO.LAM_MIN = G'.INPUTS_SPECTRO.LAMMIN_LIST 0 ∧
        G'.INPUTS_SPECTRO.LAM_MAX
          = G'.INPUTS_SPECTRO.LAMMAX_LIST (G'.INPUTS_SPECTRO.NBIN_LAM - 1))) ∧
    (∀ G0 n G1, read_SPECBIN_spectrograph E M G0 = .ok (n, G1) →
      BinsValid G0.INPUTS_SPECTRO → BinsValid G1.INPUTS_SPECTRO) ∧
    (∀ G0, G0.INPUTS_SPECTRO.NREBIN_LAM = 1 → rowRead E G0 1 < rowRead E G0 0 →
      ∃ G1, read_SPECBIN_spectrograph E M G0
        = .error (Abort.fatal "read_SPECBIN_spectrograph" "LAMMAX < LAMMIN ???", G1)) ∧
    (∀ G0, G0.INPUTS_SPECTRO.NREBIN_LAM ≠ 1 → G0.INPUTS_SPECTRO.NREBIN_LAM ≠ 0 →
      Int.tmod ((G0.INPUTS_SPECTRO.NBIN_LAM_noREBIN + 1 : Nat) : Int)
        G0.INPUTS_SPECTRO.NREBIN_LAM = 0 →
      mergedRow E M G0 1 < mergedRow E M G0 0 →
      ∃ G1, read_SPECBIN_spectrograph E M G0
        = .error (Abort.fatal "read_SPECBIN_spectrograph" "LAMMAX < LAMMIN ???", G1)) ∧
    (∀ G0 e, read_SPECBIN_spectrograph E M G0 = .error e →
      e.2.INPUTS_SPECTRO.NBIN_LAM = G0.INPUTS_SPECTRO.NBIN_LAM ∧
      e.2.INPUTS_SPECTRO.LAMMIN_LIST = G0.INPUTS_SPECTRO.LAMMIN_LIST ∧
      e.2.INPUTS_SPECTRO.LAMMAX_LIST = G0.INPUTS_SPECTRO.LAMMAX_LIST ∧
      e.2.INPUTS_SPECTRO.LAMAVG_LIST = G0.INPUTS_SPECTRO.LAMAVG_LIST ∧
      e.2.INPUTS_SPECTRO.LAMSIGMA_LIST = G0.INPUTS_SPECTRO.LAMSIGMA_LIST ∧
      e.2.INPUTS_SPECTRO.LAMBIN_LIST = G0.INPUTS_SPECTRO.LAMBIN_LIST ∧
      e.2.INPUTS_SPECTRO.SNR0 = G0.INPUTS_SPECTRO.SNR0 ∧
      e.2.INPUTS_SPECTRO.SNR1 = G0.INPUTS_SPECTRO.SNR1) ∧
    (read_spectrograph_text (demoEnv ℚ) demoLibm (some unorderedFile) (demoGlobals ℚ)).map
      (fun r => r.toOption.map (fun G => (G.INPUTS_SPECTRO.NBIN_LAM,
        [G.INPUTS_SPECTRO.LAMMIN_LIST 0, G.INPUTS_SPECTRO.LAMMAX_LIST 0,
         G.INPUTS_SPECTRO.LAMMIN_LIST 1, G.INPUTS_SPECTRO.LAMMAX_LIST 1,
         G.INPUTS_SPECTRO.LAM_MIN, G.INPUTS_SPECTRO.LAM_MAX])))
      = some (some (2, [(4010 : ℚ), 4020, 4000, 4010, 4010, 4010])) := by
  refine ⟨?_, ?_, ?_, ?_, ?_, unorderedFile_loads⟩
  · intro G' hG'
    unfold read_spectrograph_text at hG'
    cases hr : read_loop E M (content.length + 1) (read_init E content G) with
    | none => simp [hr] at hG'
    | some r =>
      cases r with
      | error e => simp [hr] at hG'
      | ok S =>
        simp only [hr, Option.some.injEq] at hG'
        have hI := read_loop_LoadInv E M content G _ S hr
        unfold read_finish at hG'
        split_ifs at hG'
        simp only [Except.ok.injEq] at hG'
        subst hG'
        obtain ⟨hb, hm⟩ := hI.2.2.2.2
        refine ⟨fun l hl => ?_, hm⟩
        obtain ⟨b1, b2, b3⟩ := hb l hl
        refine ⟨b1, b2, b3, ?_, ?_, ?_⟩
        · rw [b3]; linarith
        · rw [b2]; linarith
        · rw [b2]; linarith
  · intro G0 n G1 h hv
    exact (read_SPECBIN_inv E M G0 G1 n h).2.2.2.2 hv
  · intro G0 h1 hlt
    refine ⟨{ G0 with fp := (readdouble E.strtod G0.fp
      (E.NCOL_noSNR + 2 * G0.INPUTS_SPECTRO.NBIN_TEXPOSE) E.XTMP_INIT).2 }, ?_⟩
    rw [read_SPECBIN_eq]
    simp only [h1, if_true]
    exact (PARSE_XTMP_error E _ _ _).mpr ⟨hlt, rfl⟩
  · intro G0 h1 h0 hm hlt
    refine ⟨countedRow (readdouble E.strtod G0.fp
        (E.NCOL_noSNR + 2 * G0.INPUTS_SPECTRO.NBIN_TEXPOSE) E.XTMP_INIT).2
      (accumulateRow E M G0.INPUTS_SPECTRO.NBIN_TEXPOSE
        (Int.tmod ((G0.INPUTS_SPECTRO.NBIN_LAM_noREBIN + 1 : Nat) : Int)
          G0.INPUTS_SPECTRO.NREBIN_LAM) (rowRead E G0) G0.VALUES_SPECBIN) G0, ?_⟩
    rw [read_SPECBIN_eq]
    dsimp only
    rw [if_neg h1, if_neg h0, if_neg (not_not.mpr hm)]
    exact (PARSE_XTMP_error E _ _ _).mpr ⟨hlt, rfl⟩
  · intro G0 e h
    exact read_SPECBIN_error_frame E M G0 e h

set_option maxRecDepth 100000 in
/-- C17, counterexample. With `MXLAM_SPECTROGRAPH = 1` the file `demoFile` has as many bins
as the maximum, one, and the load is the fatal error of the row-count test. -/
theorem read_spectrograph_text_full_table_fatal :
    (read_spectrograph_text { demoEnv ℚ with MXLAM_SPECTROGRAPH := 1 } demoLibm
        (some demoFile) (demoGlobals ℚ)).map
      (fun r => match r with
        | .error e => some (e.1, e.2.INPUTS_SPECTRO.NBIN_LAM, e.2.NERR_SNR_SPECTROGRAPH)
        | .ok _ => none)
      = some (some (Abort.fatal "read_spectrograph_text" "NBIN_LAM exceeds MXLAM_SPECTROGRAPH",
          1, 0)) := by
  decide!

/-- C17, amended. Row-count limit.  When the `while` loop of `read_spectrograph_text` has
read the file, the local count `NBL` is the number of stored bins `NBIN_LAM`; the load
ends with the fatal error `NBIN_LAM=... exceeds MXLAM_SPECTROGRAPH=...` exactly when no
monotonicity failure was counted and `NBIN_LAM ≥ MXLAM_SPECTROGRAPH`: a table whose bin
count equals the maximum is rejected, and with no monotonicity failure the load completes
exactly when `NBIN_LAM < MXLAM_SPECTROGRAPH`. -/
theorem read_spectrograph_text_row_limit (E : READ_ENV K) (M : Libm K) (content : List Char)
    (G : SPECTRO_GLOBALS K) (S : READ_LOCALS × SPECTRO_GLOBALS K)
    (hS : read_loop E M (content.length + 1) (read_init E content G) = some (.ok S)) :
    S.1.NBL = S.2.INPUTS_SPECTRO.NBIN_LAM ∧
    (read_spectrograph_text E M (some content) G = some (.error
        (Abort.fatal "read_spectrograph_text" "NBIN_LAM exceeds MXLAM_SPECTROGRAPH", S.2)) ↔
      S.2.NERR_SNR_SPECTROGRAPH = 0 ∧
        S.2.INPUTS_SPECTRO.NBIN_LAM ≥ E.MXLAM_SPECTROGRAPH) ∧
    (S.2.NERR_SNR_SPECTROGRAPH = 0 →
      (read_spectrograph_text E M (some content) G = some (.ok S.2) ↔
        S.2.INPUTS_SPECTRO.NBIN_LAM < E.MXLAM_SPECTROGRAPH)) := by
  have hI := read_loop_LoadInv E M content G _ S hS
  have hn : S.1.NBL = S.2.INPUTS_SPECTRO.NBIN_LAM := hI.1
  have hr : read_spectrograph_text E M (some content) G = some (read_finish E S) := by
    simp only [read_spectrograph_text, hS]
  refine ⟨hn, ?_, ?_⟩
  · rw [hr]
    unfold read_finish
    rw [hn]
    split_ifs with a b
    · constructor
      · intro h
        simp at h
      · intro h
        omega
    · constructor
      · intro _
        exact ⟨by omega, b⟩
      · intro _
        rfl
    · constructor
      · intro h
        simp at h
      · intro h
        omega
  · intro h0
    rw [hr]
    unfold read_finish
    rw [hn, if_neg (by omega)]
    split_ifs with b
    · constructor
      · intro h
        simp at h
      · intro h
        omega
    · constructor
      · intro _
        omega
      · intro _
        rfl

set_option maxRecDepth 100000 in
theorem read_spectrograph_text_row_limit_witness :
    ∃ S, read_loop { demoEnv ℚ with MXLAM_SPECTROGRAPH := 1 } demoLibm (demoFile.length + 1)
        (read_init { demoEnv ℚ with MXLAM_SPECTROGRAPH := 1 } demoFile (demoGlobals ℚ))
        = some (.ok S) ∧
      S.1.NBL = S.2.INPUTS_SPECTRO.NBIN_LAM := by
  cases hS : read_loop { demoEnv ℚ with MXLAM_SPECTROGRAPH := 1 } demoLibm (demoFile.length + 1)
      (read_init { demoEnv ℚ with MXLAM_SPECTROGRAPH := 1 } demoFile (demoGlobals ℚ)) with
  | none =>
    exfalso
    have hd : (read_loop { demoEnv ℚ with MXLAM_SPECTROGRAPH := 1 } demoLibm
        (demoFile.length + 1)
        (read_init { demoEnv ℚ with MXLAM_SPECTROGRAPH := 1 } demoFile (demoGlobals ℚ))).isSome
        = true := by decide!
    rw [hS] at hd
    exact absurd hd (by decide)
  | some r =>
    cases r with
    | error e =>
      exfalso
      have hd : ((read_loop { demoEnv ℚ with MXLAM_SPECTROGRAPH := 1 } demoLibm
          (demoFile.length + 1)
          (read_init { demoEnv ℚ with MXLAM_SPECTROGRAPH := 1 } demoFile (demoGlobals ℚ))).map
          (fun r => r.toOption.isSome)) = some true := by decide!
      rw [hS] at hd
      simp [Except.toOption] at hd
    | ok S =>
      exact ⟨S, rfl, (read_spectrograph_text_row_limit _ demoLibm demoFile (demoGlobals ℚ) S hS).1⟩

/-- C18, counterexample. After `parse_spectrograph_options` on the options string
`rebin=0` the rebin factor is 0, and after `rebin=-3` it is -3: not an integer `≥ 1`. -/
theorem parse_spectrograph_options_rebin_zero :
    (parse_spectrograph_options demoOpt "rebin=0".toList (emptyTable ℚ)).NREBIN_LAM = 0 ∧
    (parse_spectrograph_options demoOpt "rebin=-3".toList (emptyTable ℚ)).NREBIN_LAM = -3 := by
  constructor <;> decide!

/-- C18, amended. Options parsing sets the rebin factor without checking it.  After
`parse_spectrograph_options` only `NREBIN_LAM` has changed; it is 1 when the string is
ignored, and 1 when every option has a key other than `rebin`; it is `N` when the string
contains an option `rebin=N` and the options after it have keys other than `rebin`,
whatever the integer `N` is. -/
theorem parse_spectrograph_options_rebin (O : OPT_ENV) (stringOpt : List Char)
    (I : INPUTS_SPECTRO_DEF K) :
    (∃ n, parse_spectrograph_options O stringOpt I = { I with NREBIN_LAM := n }) ∧
    (O.IGNOREFILE stringOpt = true →
      parse_spectrograph_options O stringOpt I = { I with NREBIN_LAM := 1 }) ∧
    ((∀ o, o ∈ splitString stringOpt ',' → NotRebin o) →
      parse_spectrograph_options O stringOpt I = { I with NREBIN_LAM := 1 }) ∧
    (∀ (pre post : List (List Char)) (sopt : List Char) (N : Int),
      O.IGNOREFILE stringOpt = false →
      splitString stringOpt ',' = pre ++ sopt :: post → IsRebin O sopt N →
      (∀ o, o ∈ post → NotRebin o) →
      parse_spectrograph_options O stringOpt I = { I with NREBIN_LAM := N }) := by
  refine ⟨?_, ?_, ?_, ?_⟩
  · unfold parse_spectrograph_options
    dsimp only
    split_ifs
    · exact ⟨1, rfl⟩
    · obtain ⟨n, hn⟩ := parse_options_frame O (splitString stringOpt ',')
        (O.s2_INIT, ({ I with NREBIN_LAM := 1 } : INPUTS_SPECTRO_DEF K))
      exact ⟨n, hn⟩
  · intro h
    unfold parse_spectrograph_options
    simp only [h, if_true]
  · intro h
    unfold parse_spectrograph_options
    dsimp only
    split_ifs
    · rfl
    · exact parse_options_other O _ _ h
  · intro pre post sopt N hig hs hr hpost
    unfold parse_spectrograph_options
    simp only [hig, hs, List.foldl_append, List.foldl_cons, Bool.false_eq_true, if_false]
    rw [parse_options_other O post _ hpost, parse_option_rebin O sopt N _ hr]
    obtain ⟨n, hn⟩ := parse_options_frame O pre
      (O.s2_INIT, ({ I with NREBIN_LAM := 1 } : INPUTS_SPECTRO_DEF K))
    rw [hn]

/-- C19. Filter-transmission grid size.  For the input range `[LMIN, LMAX]`,
`get_FILTERtrans_spectrograph` is fatal when
`NBIN_LAMFILT = max(10, floor((LMAX - LMIN)/5)) + 2` is `≥ MXTRANS`; when it returns it
returns this `NBIN_LAMFILT`, at least 10 interior bins of the width
`step = (LMAX - LMIN)/(NBIN_LAMFILT - 2)` and one bin on each side, with
`LAMFILT_MIN = LMIN - step`, `LAMFILT_MAX = LMAX + step` and
`LAMFILT_ARRAY[l] = (LMIN - step) + step*(l + 0.5)`, so the interior centres run from
`LMIN + step/2` to `LMAX - step/2`; and it does return, with this grid, whenever
`NBIN_LAMFILT < MXTRANS`, the zero point of every bin is found (`Z l` at the centre of bin
`l`) and some bin has a zero point above 0.001 with a flux of at least `1.0E-9`. -/
theorem get_FILTERtrans_grid [FloorRing K] (M : Libm K) (interp_1DFUN : Interp K)
    (I : INPUTS_SPECTRO_DEF K) (FLUX_TMP : Nat → K) (LMIN LMAX : K) (MXTRANS : Int)
    (LA TA : Nat → K) :
    (gridBins LMIN LMAX ≥ MXTRANS →
      get_FILTERtrans_spectrograph M interp_1DFUN I FLUX_TMP LMIN LMAX MXTRANS LA TA
        = .error (Abort.fatal "get_FILTERtrans_spectrograph"
            "NBL_TRANS exceeds bound MXTRANS")) ∧
    (∀ out, get_FILTERtrans_spectrograph M interp_1DFUN I FLUX_TMP LMIN LMAX MXTRANS LA TA
        = .ok out →
      out.NBIN_LAMFILT = gridBins LMIN LMAX ∧
      gridBins LMIN LMAX - 2 ≥ 10 ∧
      out.LAMFILT_MIN = LMIN - gridStep LMIN LMAX ∧
      out.LAMFILT_MAX = LMAX + gridStep LMIN LMAX ∧
      (∀ l : Nat, (l : Int) < gridBins LMIN LMAX →
        out.LAMFILT_ARRAY l
          = (LMIN - gridStep LMIN LMAX) + gridStep LMIN LMAX * ((l : K) + 0.5)) ∧
      out.LAMFILT_ARRAY 1 = LMIN + gridStep LMIN LMAX / 2 ∧
      out.LAMFILT_ARRAY (gridBins LMIN LMAX - 2).toNat = LMAX - gridStep LMIN LMAX / 2) ∧
    (∀ Z : Nat → K, gridBins LMIN LMAX < MXTRANS →
      (∀ l, l < (gridBins LMIN LMAX).toNat →
        FILTERtrans_ZP interp_1DFUN I (gridBins LMIN LMAX).toNat l
          (binCentre (LMIN - gridStep LMIN LMAX) (gridStep LMIN LMAX) l) = .ok (Z l)) →
      (∃ j, j < (gridBins LMIN LMAX).toNat ∧ Z j > 0.001 ∧ 1.0E-9 ≤ binFlux M I (Z j)) →
      ∃ out, get_FILTERtrans_spectrograph M interp_1DFUN I FLUX_TMP LMIN LMAX MXTRANS LA TA
          = .ok out ∧
        out.NBIN_LAMFILT = gridBins LMIN LMAX ∧
        out.LAMFILT_MIN = LMIN - gridStep LMIN LMAX ∧
        out.LAMFILT_MAX = LMAX + gridStep LMIN LMAX ∧
        ∀ l : Nat, (l : Int) < gridBins LMIN LMAX →
          out.LAMFILT_ARRAY l
            = (LMIN - gridStep LMIN LMAX) + gridStep LMIN LMAX * ((l : K) + 0.5)) := by
  have hge : gridBins LMIN LMAX - 2 ≥ 10 := by
    unfold gridBins
    have := le_max_left (10 : Int) ⌊(LMAX - LMIN) / 5⌋
    omega
  have hgrid : ∀ out,
      get_FILTERtrans_spectrograph M interp_1DFUN I FLUX_TMP LMIN LMAX MXTRANS LA TA
        = .ok out →
      out.NBIN_LAMFILT = gridBins LMIN LMAX ∧
      out.LAMFILT_MIN = LMIN - gridStep LMIN LMAX ∧
      out.LAMFILT_MAX = LMAX + gridStep LMIN LMAX ∧
      (∀ l : Nat, (l : Int) < gridBins LMIN LMAX →
        out.LAMFILT_ARRAY l
          = (LMIN - gridStep LMIN LMAX) + gridStep LMIN LMAX * ((l : K) + 0.5)) := by
    intro out h
    obtain ⟨_, st, hl, _, hout⟩ := get_FILTERtrans_ok M interp_1DFUN I FLUX_TMP LMIN LMAX
      MXTRANS LA TA out h
    have hc := FILTERtrans_loop_centres M interp_1DFUN I _ _ _ _ _ st hl
    refine ⟨by rw [hout], by rw [hout], by rw [hout], ?_⟩
    intro l hlt
    rw [hout]
    exact hc l (by omega)
  refine ⟨?_, ?_, ?_⟩
  · intro hmx
    have e5 : (5.0 : K) = 5 := by norm_num
    have hb : (if truncInt ((LMAX - LMIN) / (5.0 : K)) < 10 then (10 : Int)
        else truncInt ((LMAX - LMIN) / (5.0 : K))) + 1 + 1 = gridBins LMIN LMAX := by
      rw [truncInt_max, e5]
      unfold gridBins
      omega
    unfold get_FILTERtrans_spectrograph
    simp only [hb, bind, Except.bind]
    simp [hmx, throw, throwThe, MonadExceptOf.throw]
  · intro out h
    obtain ⟨h1, h2, h3, hcen⟩ := hgrid out h
    have hne : (((gridBins LMIN LMAX - 2 : Int)) : K) ≠ 0 := by
      have : (gridBins LMIN LMAX - 2 : Int) ≠ 0 := by omega
      exact_mod_cast this
    have hstep : gridStep LMIN LMAX * (((gridBins LMIN LMAX - 2 : Int)) : K) = LMAX - LMIN := by
      unfold gridStep
      exact div_mul_cancel₀ _ hne
    refine ⟨h1, hge, h2, h3, hcen, ?_, ?_⟩
    · rw [hcen 1 (by omega)]
      push_cast
      ring
    · rw [hcen _ (by omega)]
      have hcast : (((gridBins LMIN LMAX - 2).toNat : Nat) : K)
          = (((gridBins LMIN LMAX - 2 : Int)) : K) := by
        have : (((gridBins LMIN LMAX - 2).toNat : Nat) : Int) = gridBins LMIN LMAX - 2 :=
          Int.toNat_of_nonneg (by omega)
        exact_mod_cast this
      rw [hcast]
      have e : (LMIN - gridStep LMIN LMAX) + gridStep LMIN LMAX
          * ((((gridBins LMIN LMAX - 2 : Int)) : K) + 0.5)
          = LMIN + gridStep LMIN LMAX * (((gridBins LMIN LMAX - 2 : Int)) : K)
            - gridStep LMIN LMAX / 2 := by ring
      rw [e, hstep]
      ring
  · intro Z hmx hZ hj
    obtain ⟨j, hjn, hjz, hjf⟩ := hj
    obtain ⟨st, hl, _, hle, _⟩ := FILTERtrans_loop_run M interp_1DFUN I
      (LMIN - gridStep LMIN LMAX) (gridStep LMIN LMAX) (gridBins LMIN LMAX).toNat Z
      { FLUX_TMP := FLUX_TMP, FLUX_MAX := 0.0, LAMFILT_ARRAY := LA } (by norm_num)
      (gridBins LMIN LMAX).toNat hZ
    have hf : ¬ st.FLUX_MAX < 1.0E-9 := not_lt.mpr (le_trans hjf (hle j hjn hjz))
    have hret := get_FILTERtrans_of_loop M interp_1DFUN I FLUX_TMP LMIN LMAX MXTRANS LA TA st
      hmx hl hf
    exact ⟨_, hret, hgrid _ hret⟩

set_option maxRecDepth 100000 in
/-- The theorem `get_FILTERtrans_grid` on the table `filterTable` and the range
`[4000, 4020]`: the call returns 12 bins of width 2 from 3998 to 4022, with the centres
`3998 + 2*(l + 0.5)`, the interior ones running from 4001 to 4019. -/
theorem get_FILTERtrans_grid_witness :
    ∃ out, get_FILTERtrans_spectrograph demoLibm interp_1DFUN_linear (filterTable ℚ)
        (fun _ => 0) 4000 4020 1000 (fun _ => 0) (fun _ => 0) = .ok out ∧
      out.NBIN_LAMFILT = 12 ∧ out.LAMFILT_MIN = 3998 ∧ out.LAMFILT_MAX = 4022 ∧
      (∀ l : Nat, l < 12 → out.LAMFILT_ARRAY l = 3998 + 2 * ((l : ℚ) + 0.5)) ∧
      out.LAMFILT_ARRAY 1 = 4001 ∧ out.LAMFILT_ARRAY 10 = 4019 := by
  have hb : gridBins (4000 : ℚ) 4020 = 12 := by decide!
  have hs : gridStep (4000 : ℚ) 4020 = 2 := by
    unfold gridStep
    rw [hb]
    norm_num
  have T := get_FILTERtrans_grid demoLibm interp_1DFUN_linear (filterTable ℚ) (fun _ => 0)
    4000 4020 1000 (fun _ => 0) (fun _ => 0)
  obtain ⟨out, h, _⟩ := T.2.2
    (binZP interp_1DFUN_linear (filterTable ℚ) (4000 - gridStep (4000 : ℚ) 4020)
      (gridStep (4000 : ℚ) 4020) (gridBins (4000 : ℚ) 4020).toNat)
    (by rw [hb]; decide)
    (by
      rw [hb, hs]
      intro l hl
      have hl12 : l < 12 := hl
      apply FILTERtrans_ZP_binZP
      interval_cases l <;> decide!)
    ⟨1, by rw [hb]; decide, by rw [hb, hs]; decide!, by rw [hb, hs]; decide!⟩
  obtain ⟨a, _, c, d, e, f, g⟩ := T.2.1 out h
  rw [hs] at c d f
  rw [hb, hs] at e g
  rw [hb] at a
  refine ⟨out, h, a, ?_, ?_, ?_, ?_, ?_⟩
  · rw [c]; norm_num
  · rw [d]; norm_num
  · intro l hl
    rw [e l (by omega)]
    norm_num
  · rw [f]; norm_num
  · have : ((12 : Int) - 2).toNat = 10 := by decide
    rw [this] at g
    rw [g]; norm_num

/-- C20. Filter-transmission normalisation.  With `pow(TEN, .)` not negative, whenever
`get_FILTERtrans_spectrograph` returns without a fatal error, `TRANSFILT_ARRAY[0] = 0` and
`TRANSFILT_ARRAY[NBIN_LAMFILT-1] = 0`, every returned transmission lies in `[0, 1]`, and
one of them is exactly 1. -/
theorem get_FILTERtrans_normalised [FloorRing K] (M : Libm K) (interp_1DFUN : Interp K)
    (I : INPUTS_SPECTRO_DEF K) (FLUX_TMP : Nat → K) (LMIN LMAX : K) (MXTRANS : Int)
    (LA TA : Nat → K) (out : FILTERtrans_OUT K) (hpow : ∀ y, 0 ≤ M.pow TEN y)
    (h : get_FILTERtrans_spectrograph M interp_1DFUN I FLUX_TMP LMIN LMAX MXTRANS LA TA
      = .ok out) :
    out.TRANSFILT_ARRAY 0 = 0 ∧
    out.TRANSFILT_ARRAY (out.NBIN_LAMFILT.toNat - 1) = 0 ∧
    (∀ l, l < out.NBIN_LAMFILT.toNat →
      0 ≤ out.TRANSFILT_ARRAY l ∧ out.TRANSFILT_ARRAY l ≤ 1) ∧
    ∃ l, l < out.NBIN_LAMFILT.toNat ∧ out.TRANSFILT_ARRAY l = 1 := by
  obtain ⟨_, st, hl, hmax, hout⟩ := get_FILTERtrans_ok M interp_1DFUN I FLUX_TMP LMIN LMAX
    MXTRANS LA TA out h
  obtain ⟨_, i2, i3, i4, i5⟩ := FILTERtrans_loop_inv M interp_1DFUN I _ _ _ _ hpow _ st
    (by norm_num) hl
  have hge : gridBins LMIN LMAX - 2 ≥ 10 := by
    unfold gridBins
    have := le_max_left (10 : Int) ⌊(LMAX - LMIN) / 5⌋
    omega
  have hN : 12 ≤ (gridBins LMIN LMAX).toNat := by omega
  have hpos : 0 < st.FLUX_MAX := by
    have : (1.0E-9 : K) ≤ st.FLUX_MAX := not_lt.mp hmax
    have h9 : (0 : K) < 1.0E-9 := by norm_num
    exact lt_of_lt_of_le h9 this
  have hT : ∀ l, l < (gridBins LMIN LMAX).toNat →
      out.TRANSFILT_ARRAY l = st.FLUX_TMP l / st.FLUX_MAX := by
    intro l hlt
    rw [hout]
    show (if l < (gridBins LMIN LMAX).toNat then _ else _) = _
    rw [if_pos hlt]
  have hNB : out.NBIN_LAMFILT.toNat = (gridBins LMIN LMAX).toNat := by rw [hout]
  rw [hNB]
  refine ⟨?_, ?_, ?_, ?_⟩
  · rw [hT 0 (by omega), i4 0 (by omega) (Or.inl rfl), zero_div]
  · rw [hT _ (by omega), i4 _ (by omega) (Or.inr rfl), zero_div]
  · intro l hlt
    rw [hT l hlt]
    obtain ⟨a, b⟩ := i3 l hlt
    exact ⟨div_nonneg a i2, (div_le_one hpos).mpr b⟩
  · rcases i5 with h0 | ⟨l, hlt, hl2⟩
    · rw [h0] at hpos
      exact absurd hpos (lt_irrefl _)
    · refine ⟨l, hlt, ?_⟩
      rw [hT l hlt, hl2]
      exact div_self (ne_of_gt hpos)

set_option maxRecDepth 100000 in
theorem get_FILTERtrans_normalised_witness :
    ∃ out, get_FILTERtrans_spectrograph demoLibm interp_1DFUN_linear (filterTable ℚ)
        (fun _ => 0) 4000 4020 1000 (fun _ => 0) (fun _ => 0) = .ok out ∧
      out.TRANSFILT_ARRAY 0 = 0 ∧
      out.TRANSFILT_ARRAY (out.NBIN_LAMFILT.toNat - 1) = 0 ∧
      (∀ l, l < out.NBIN_LAMFILT.toNat →
        0 ≤ out.TRANSFILT_ARRAY l ∧ out.TRANSFILT_ARRAY l ≤ 1) ∧
      ∃ l, l < out.NBIN_LAMFILT.toNat ∧ out.TRANSFILT_ARRAY l = 1 := by
  cases h : get_FILTERtrans_spectrograph demoLibm interp_1DFUN_linear (filterTable ℚ)
      (fun _ => 0) 4000 4020 1000 (fun _ => 0) (fun _ => 0) with
  | error e =>
    exfalso
    have hd : (get_FILTERtrans_spectrograph demoLibm interp_1DFUN_linear (filterTable ℚ)
        (fun _ => 0) 4000 4020 1000 (fun _ => 0) (fun _ => 0)).toOption.isSome = true := by
      decide!
    rw [h] at hd
    simp [Except.toOption] at hd
  | ok out =>
    exact ⟨out, rfl, get_FILTERtrans_normalised demoLibm interp_1DFUN_linear (filterTable ℚ)
      (fun _ => 0) 4000 4020 1000 (fun _ => 0) (fun _ => 0) out
      (fun _ => by show (0 : ℚ) ≤ TEN; unfold TEN; norm_num) h⟩

/-- C21, as stated, fails: on the table `lowZPTable` (bin centres 4009 and 4011, zero points
25 and -1 at the first exposure time, `MAGREF_LIST[0] = 20`) the call for the range
`[4000, 4020]` returns 12 bins.  The zero point of every interior bin is 25 or -1 (no
centre lies strictly between the two tabulated ones), so the largest value of
`10^(-0.4*(20 - ZP))` over the interior bins is the one for 25, taken in bin 1.  Bin 6
(centre 4011) has the zero point -1, and its transmission is 0, not
`10^(-0.4*(20 + 1)) / 10^(-0.4*(20 - 25))`. -/
theorem get_FILTERtrans_low_zero_point :
    ∃ out, get_FILTERtrans_spectrograph realLibm interp_1DFUN_linear (lowZPTable ℝ)
        (fun _ => 0) 4000 4020 1000 (fun _ => 0) (fun _ => 0) = .ok out ∧
      out.NBIN_LAMFILT = 12 ∧
      (∀ j, 0 < j → j < 11 → ∃ z,
        clampedZP interp_1DFUN_linear (lowZPTable ℝ) (out.LAMFILT_ARRAY j) = .ok z ∧
        realLibm.pow TEN (-0.4 * ((lowZPTable ℝ).MAGREF_LIST 0 - z))
          ≤ realLibm.pow TEN (-0.4 * ((lowZPTable ℝ).MAGREF_LIST 0 - 25))) ∧
      clampedZP interp_1DFUN_linear (lowZPTable ℝ) (out.LAMFILT_ARRAY 1) = .ok 25 ∧
      clampedZP interp_1DFUN_linear (lowZPTable ℝ) (out.LAMFILT_ARRAY 6) = .ok (-1) ∧
      out.TRANSFILT_ARRAY 6 = 0 ∧
      out.TRANSFILT_ARRAY 6 ≠
        realLibm.pow TEN (-0.4 * ((lowZPTable ℝ).MAGREF_LIST 0 - (-1)))
          / realLibm.pow TEN (-0.4 * ((lowZPTable ℝ).MAGREF_LIST 0 - 25)) := by
  obtain ⟨out, h, hN, hc, h6⟩ := lowZP_run
  have hz : ∀ j, 0 < j → j < 11 →
      clampedZP interp_1DFUN_linear (lowZPTable ℝ) (out.LAMFILT_ARRAY j)
        = .ok (if j ≤ 5 then 25 else -1) := by
    intro j h0 h1
    rw [hc j (by omega), ← FILTERtrans_ZP_interior interp_1DFUN_linear (lowZPTable ℝ) 12 j _ h0
      (by omega), lowZP_zero_points j (by omega), if_neg (by omega)]
  refine ⟨out, h, hN, ?_, ?_, ?_, h6, ?_⟩
  · intro j h0 h1
    refine ⟨_, hz j h0 h1, ?_⟩
    simp only [realLibm, TEN]
    apply Real.rpow_le_rpow_of_exponent_le (by norm_num)
    split_ifs
    · exact le_refl _
    · linarith
  · rw [hz 1 (by omega) (by omega), if_pos (by omega)]
  · rw [hz 6 (by omega) (by omega), if_neg (by omega)]
  · rw [h6]
    exact ne_of_lt (div_pos (real_pow_pos _) (real_pow_pos _))

/-- C21, amended: filter transmission is proportional to the flux of the zero points above
0.001.  For a successful call there are zero points `Z l` and a positive `FMAX` such that for every interior bin
`l` (`0 < l < NBIN_LAMFILT-1`): `Z l` is the interpolation of the zero-point column of the
first exposure time over `LAMAVG_LIST` at the centre `LAMFILT_ARRAY[l]`, clamped to
`ZP[0][0]` below `LAMAVG_LIST[0]` and to `ZP[NBL-1][0]` above `LAMAVG_LIST[NBL-1]`;
`TRANSFILT_ARRAY[l] = 10^(-0.4*(MAGREF_LIST[0] - Z l)) / FMAX` when `Z l > 0.001` and
`TRANSFILT_ARRAY[l] = 0` when `Z l ≤ 0.001`; and `FMAX` is the largest
`10^(-0.4*(MAGREF_LIST[0] - Z j))` over the interior bins `j` with `Z j > 0.001`. -/
theorem get_FILTERtrans_flux [FloorRing K] (M : Libm K) (interp_1DFUN : Interp K)
    (I : INPUTS_SPECTRO_DEF K) (FLUX_TMP : Nat → K) (LMIN LMAX : K) (MXTRANS : Int)
    (LA TA : Nat → K) (out : FILTERtrans_OUT K)
    (h : get_FILTERtrans_spectrograph M interp_1DFUN I FLUX_TMP LMIN LMAX MXTRANS LA TA
      = .ok out) :
    ∃ (Z : Nat → K) (FMAX : K),
      0 < FMAX ∧
      (∀ l, 0 < l → l < out.NBIN_LAMFILT.toNat - 1 →
        clampedZP interp_1DFUN I (out.LAMFILT_ARRAY l) = .ok (Z l)) ∧
      (∃ j, 0 < j ∧ j < out.NBIN_LAMFILT.toNat - 1 ∧ Z j > 0.001 ∧
        FMAX = M.pow TEN (-0.4 * (I.MAGREF_LIST 0 - Z j))) ∧
      (∀ j, 0 < j → j < out.NBIN_LAMFILT.toNat - 1 → Z j > 0.001 →
        M.pow TEN (-0.4 * (I.MAGREF_LIST 0 - Z j)) ≤ FMAX) ∧
      ∀ l, 0 < l → l < out.NBIN_LAMFILT.toNat - 1 →
        (Z l > 0.001 →
          out.TRANSFILT_ARRAY l = M.pow TEN (-0.4 * (I.MAGREF_LIST 0 - Z l)) / FMAX) ∧
        (Z l ≤ 0.001 → out.TRANSFILT_ARRAY l = 0) := by
  obtain ⟨hNB, _, hc, Z, FMAX, hZ, hpos, ⟨j, hj0, hj1, hjz, hje⟩, hle, hT⟩ :=
    get_FILTERtrans_zero_points M interp_1DFUN I FLUX_TMP LMIN LMAX MXTRANS LA TA out h
  rw [hNB]
  refine ⟨Z, FMAX, hpos, ?_, ⟨j, hj0, hj1, hjz, ?_⟩, ?_, ?_⟩
  · intro l h0 h1
    rw [hc l (by omega)]
    exact hZ l h0 h1
  · rw [hje]
    unfold binFlux
    rw [if_pos hjz]
  · intro l h0 h1 hz
    have := hle l h0 h1 hz
    unfold binFlux at this
    rw [if_pos hz] at this
    exact this
  · intro l h0 h1
    rw [hT l h0 h1]
    unfold binFlux
    refine ⟨fun hz => by rw [if_pos hz], fun hz => by rw [if_neg (not_lt.mpr hz), zero_div]⟩

set_option maxRecDepth 100000 in
theorem get_FILTERtrans_flux_witness :
    ∃ out, get_FILTERtrans_spectrograph demoLibm interp_1DFUN_linear (filterTable ℚ)
        (fun _ => 0) 4000 4020 1000 (fun _ => 0) (fun _ => 0) = .ok out ∧
      ∃ (Z : Nat → ℚ) (FMAX : ℚ),
        0 < FMAX ∧
        (∀ l, 0 < l → l < out.NBIN_LAMFILT.toNat - 1 →
          clampedZP interp_1DFUN_linear (filterTable ℚ) (out.LAMFILT_ARRAY l) = .ok (Z l)) ∧
        (∃ j, 0 < j ∧ j < out.NBIN_LAMFILT.toNat - 1 ∧ Z j > 0.001 ∧
          FMAX = demoLibm.pow TEN (-0.4 * ((filterTable ℚ).MAGREF_LIST 0 - Z j))) ∧
        (∀ j, 0 < j → j < out.NBIN_LAMFILT.toNat - 1 → Z j > 0.001 →
          demoLibm.pow TEN (-0.4 * ((filterTable ℚ).MAGREF_LIST 0 - Z j)) ≤ FMAX) ∧
        ∀ l, 0 < l → l < out.NBIN_LAMFILT.toNat - 1 →
          (Z l > 0.001 →
            out.TRANSFILT_ARRAY l
              = demoLibm.pow TEN (-0.4 * ((filterTable ℚ).MAGREF_LIST 0 - Z l)) / FMAX) ∧
          (Z l ≤ 0.001 → out.TRANSFILT_ARRAY l = 0) := by
  cases h : get_FILTERtrans_spectrograph demoLibm interp_1DFUN_linear (filterTable ℚ)
      (fun _ => 0) 4000 4020 1000 (fun _ => 0) (fun _ => 0) with
  | error e =>
    exfalso
    have hd : (get_FILTERtrans_spectrograph demoLibm interp_1DFUN_linear (filterTable ℚ)
        (fun _ => 0) 4000 4020 1000 (fun _ => 0) (fun _ => 0)).toOption.isSome = true := by
      decide!
    rw [h] at hd
    simp [Except.toOption] at hd
  | ok out =>
    exact ⟨out, rfl, get_FILTERtrans_flux demoLibm interp_1DFUN_linear (filterTable ℚ)
      (fun _ => 0) 4000 4020 1000 (fun _ => 0) (fun _ => 0) out h⟩

/-- C22: wavelength clamp.  Let every interior bin centre of the query grid be at or below
`LAMAVG_LIST[0]`.  Then `get_FILTERtrans_spectrograph` returns when the grid is smaller
than `MXTRANS`, `ZP[0][0] > 0.001` and `10^(-0.4*(MAGREF_LIST[0] - ZP[0][0]))` is at least
`1.0E-9`; and a call that returns has evaluated every interior bin with the first zero
point of the grid, `ZP[0][0]`, and returns a flat curve: every interior transmission is
equal to 1. -/
theorem get_FILTERtrans_below_grid [FloorRing K] (M : Libm K) (interp_1DFUN : Interp K)
    (I : INPUTS_SPECTRO_DEF K) (FLUX_TMP : Nat → K) (LMIN LMAX : K) (MXTRANS : Int)
    (LA TA : Nat → K)
    (hlow : ∀ l, 0 < l → l < (gridBins LMIN LMAX).toNat - 1 →
      binCentre (LMIN - gridStep LMIN LMAX) (gridStep LMIN LMAX) l ≤ I.LAMAVG_LIST 0) :
    (gridBins LMIN LMAX < MXTRANS → I.ZP 0 0 > 0.001 →
      1.0E-9 ≤ M.pow TEN (-0.4 * (I.MAGREF_LIST 0 - I.ZP 0 0)) →
      ∃ out, get_FILTERtrans_spectrograph M interp_1DFUN I FLUX_TMP LMIN LMAX MXTRANS LA TA
        = .ok out) ∧
    ∀ out, get_FILTERtrans_spectrograph M interp_1DFUN I FLUX_TMP LMIN LMAX MXTRANS LA TA
        = .ok out →
      I.ZP 0 0 > 0.001 ∧
      ∀ l, 0 < l → l < out.NBIN_LAMFILT.toNat - 1 →
        out.LAMFILT_ARRAY l ≤ I.LAMAVG_LIST 0 ∧
        FILTERtrans_ZP interp_1DFUN I out.NBIN_LAMFILT.toNat l (out.LAMFILT_ARRAY l)
          = .ok (I.ZP 0 0) ∧
        out.TRANSFILT_ARRAY l = M.pow TEN (-0.4 * (I.MAGREF_LIST 0 - I.ZP 0 0))
          / M.pow TEN (-0.4 * (I.MAGREF_LIST 0 - I.ZP 0 0)) ∧
        out.TRANSFILT_ARRAY l = 1 := by
  refine ⟨?_, ?_⟩
  · intro hmx hz00 hp
    have hge : gridBins LMIN LMAX - 2 ≥ 10 := by
      unfold gridBins
      have := le_max_left (10 : Int) ⌊(LMAX - LMIN) / 5⌋
      omega
    obtain ⟨st, hl, -, i2, -⟩ := FILTERtrans_loop_run M interp_1DFUN I
      (LMIN - gridStep LMIN LMAX) (gridStep LMIN LMAX) (gridBins LMIN LMAX).toNat
      (fun l => if l = 0 ∨ l = (gridBins LMIN LMAX).toNat - 1 then 0 else I.ZP 0 0)
      { FLUX_TMP := FLUX_TMP, FLUX_MAX := 0.0, LAMFILT_ARRAY := LA } (by norm_num)
      (gridBins LMIN LMAX).toNat (by
        intro l hl
        show _ = Except.ok (if l = 0 ∨ l = (gridBins LMIN LMAX).toNat - 1 then 0 else I.ZP 0 0)
        by_cases he : l = 0 ∨ l = (gridBins LMIN LMAX).toNat - 1
        · rw [if_pos he]
          exact FILTERtrans_ZP_edge interp_1DFUN I _ l _ he
        · rw [if_neg he, FILTERtrans_ZP_interior interp_1DFUN I _ l _ (by omega) (by omega)]
          unfold clampedZP
          rw [if_pos (hlow l (by omega) (by omega))])
    have h1 := i2 1 (by omega)
    simp only [show ¬ ((1 : Nat) = 0 ∨ 1 = (gridBins LMIN LMAX).toNat - 1) by omega,
      if_false] at h1
    have h2 := h1 hz00
    unfold binFlux at h2
    rw [if_pos hz00] at h2
    exact ⟨_, get_FILTERtrans_of_loop M interp_1DFUN I FLUX_TMP LMIN LMAX MXTRANS LA TA st hmx
      hl (not_lt.mpr (le_trans hp h2))⟩
  intro out h
  obtain ⟨hNB, _, hc, Z, FMAX, hZ, hpos, ⟨j, hj0, hj1, hjz, hje⟩, -, hT⟩ :=
    get_FILTERtrans_zero_points M interp_1DFUN I FLUX_TMP LMIN LMAX MXTRANS LA TA out h
  have hZ0 : ∀ l, 0 < l → l < (gridBins LMIN LMAX).toNat - 1 → Z l = I.ZP 0 0 := by
    intro l h0 h1
    have := hZ l h0 h1
    unfold clampedZP at this
    rw [if_pos (hlow l h0 h1)] at this
    injection this with this
    exact this.symm
  have hz00 : I.ZP 0 0 > 0.001 := by
    rw [← hZ0 j hj0 hj1]
    exact hjz
  have hF : FMAX = M.pow TEN (-0.4 * (I.MAGREF_LIST 0 - I.ZP 0 0)) := by
    rw [hje, hZ0 j hj0 hj1]
    unfold binFlux
    rw [if_pos hz00]
  rw [hNB]
  refine ⟨hz00, ?_⟩
  intro l h0 h1
  have hT1 : out.TRANSFILT_ARRAY l = M.pow TEN (-0.4 * (I.MAGREF_LIST 0 - I.ZP 0 0))
      / M.pow TEN (-0.4 * (I.MAGREF_LIST 0 - I.ZP 0 0)) := by
    rw [hT l h0 h1, hZ0 l h0 h1, ← hF]
    unfold binFlux
    rw [if_pos hz00, ← hF]
  refine ⟨?_, ?_, hT1, ?_⟩
  · rw [hc l (by omega)]
    exact hlow l h0 h1
  · rw [hc l (by omega), FILTERtrans_ZP_interior interp_1DFUN I _ l _ h0 h1, hZ l h0 h1,
      hZ0 l h0 h1]
  · rw [hT1, ← hF]
    exact div_self (ne_of_gt hpos)

set_option maxRecDepth 100000 in
/-- On `filterTable` (first bin centre 4005) the range `[3900, 3920]` lies below the grid:
the call returns and every interior transmission is 1. -/
theorem get_FILTERtrans_below_grid_witness :
    (∀ l, 0 < l → l < (gridBins (3900 : ℚ) 3920).toNat - 1 →
      binCentre (3900 - gridStep (3900 : ℚ) 3920) (gridStep (3900 : ℚ) 3920) l
        ≤ (filterTable ℚ).LAMAVG_LIST 0) ∧
    ∃ out, get_FILTERtrans_spectrograph demoLibm interp_1DFUN_linear (filterTable ℚ)
        (fun _ => 0) 3900 3920 1000 (fun _ => 0) (fun _ => 0) = .ok out ∧
      ∀ l, 0 < l → l < out.NBIN_LAMFILT.toNat - 1 → out.TRANSFILT_ARRAY l = 1 := by
  have hg : gridBins (3900 : ℚ) 3920 = 12 := by decide!
  have hs : gridStep (3900 : ℚ) 3920 = 2 := by
    unfold gridStep
    rw [hg]
    norm_num
  have hlow : ∀ l, 0 < l → l < (gridBins (3900 : ℚ) 3920).toNat - 1 →
      binCentre (3900 - gridStep (3900 : ℚ) 3920) (gridStep (3900 : ℚ) 3920) l
        ≤ (filterTable ℚ).LAMAVG_LIST 0 := by
    intro l h0 h1
    rw [hg] at h1
    rw [hs]
    have h11 : l < 11 := h1
    have e0 : (filterTable ℚ).LAMAVG_LIST 0 = 4005 := by simp [filterTable]
    rw [e0]
    unfold binCentre
    have hl : (l : ℚ) ≤ 10 := by exact_mod_cast (by omega : l ≤ 10)
    norm_num
    linarith
  obtain ⟨out, h⟩ := (get_FILTERtrans_below_grid demoLibm interp_1DFUN_linear (filterTable ℚ)
    (fun _ => 0) 3900 3920 1000 (fun _ => 0) (fun _ => 0) hlow).1
    (by rw [hg]; norm_num) (by simp [filterTable]; norm_num)
    (by simp [filterTable, demoLibm, TEN]; norm_num)
  exact ⟨hlow, out, h, fun l h0 h1 =>
    (((get_FILTERtrans_below_grid demoLibm interp_1DFUN_linear (filterTable ℚ)
      (fun _ => 0) 3900 3920 1000 (fun _ => 0) (fun _ => 0) hlow).2 out h).2 l h0 h1).2.2.2⟩

set_option maxRecDepth 100000 in
/-- C23: `read_TEXPOSE_LIST` on a line with a blank before the newline.  The line
` 100 1000` followed by the newline gives 2 exposure times, and so does the line with a
blank and a comment token, or with a blank and a carriage return, before the newline.  On
the line ` 100 1000 ` with a blank before the newline, `strtok` gives the newline as a
third token: it is no comment key, `sscanf` converts nothing and `TEXPOSE_LIST[2]` keeps
its old content.  With the old content 0 the call ends in the fatal error `TEXPOSE_LIST
must be in increasing order.`; with the old content 5000 it returns 3 and sets
`NBIN_TEXPOSE = 3` and `TEXPOSE_MAX = 5000`. -/
theorem read_TEXPOSE_LIST_trailing_blank :
    (read_TEXPOSE_LIST (demoEnv ℚ) { demoGlobals ℚ with fp := " 100 1000\n".toList }).toOption.map
      (fun r => (r.1, r.2.INPUTS_SPECTRO.NBIN_TEXPOSE, [r.2.INPUTS_SPECTRO.TEXPOSE_LIST 0,
        r.2.INPUTS_SPECTRO.TEXPOSE_LIST 1, r.2.INPUTS_SPECTRO.TEXPOSE_MIN,
        r.2.INPUTS_SPECTRO.TEXPOSE_MAX]))
      = some (2, 2, [(100 : ℚ), 1000, 100, 1000]) ∧
    (read_TEXPOSE_LIST (demoEnv ℚ)
        { demoGlobals ℚ with fp := " 100 1000 # seconds\n".toList }).toOption.map
      (fun r => (r.1, r.2.INPUTS_SPECTRO.NBIN_TEXPOSE, [r.2.INPUTS_SPECTRO.TEXPOSE_LIST 0,
        r.2.INPUTS_SPECTRO.TEXPOSE_LIST 1, r.2.INPUTS_SPECTRO.TEXPOSE_MIN,
        r.2.INPUTS_SPECTRO.TEXPOSE_MAX]))
      = some (2, 2, [(100 : ℚ), 1000, 100, 1000]) ∧
    (read_TEXPOSE_LIST (demoEnv ℚ)
        { demoGlobals ℚ with fp := " 100 1000 \r\n".toList }).toOption.map
      (fun r => (r.1, r.2.INPUTS_SPECTRO.NBIN_TEXPOSE, [r.2.INPUTS_SPECTRO.TEXPOSE_LIST 0,
        r.2.INPUTS_SPECTRO.TEXPOSE_LIST 1, r.2.INPUTS_SPECTRO.TEXPOSE_MIN,
        r.2.INPUTS_SPECTRO.TEXPOSE_MAX]))
      = some (2, 2, [(100 : ℚ), 1000, 100, 1000]) ∧
    strtok_blank [] " 100 1000 \n".toList = ["100".toList, "1000".toList, "\n".toList] ∧
    (match read_TEXPOSE_LIST (demoEnv ℚ)
        { demoGlobals ℚ with fp := " 100 1000 \n".toList } with
      | .error e => some (e.1, [e.2.INPUTS_SPECTRO.TEXPOSE_LIST 0,
          e.2.INPUTS_SPECTRO.TEXPOSE_LIST 1, e.2.INPUTS_SPECTRO.TEXPOSE_LIST 2])
      | .ok _ => none)
      = some (Abort.fatal "read_TEXPOSE_LIST" "TEXPOSE_LIST must be in increasing order.",
          [(100 : ℚ), 1000, 0]) ∧
    (read_TEXPOSE_LIST (demoEnv ℚ)
        { demoGlobals ℚ with
          fp := " 100 1000 \n".toList
          INPUTS_SPECTRO := { emptyTable ℚ with
            TEXPOSE_LIST := fun _ => 5000 } }).toOption.map
      (fun r => (r.1, r.2.INPUTS_SPECTRO.NBIN_TEXPOSE, [r.2.INPUTS_SPECTRO.TEXPOSE_LIST 0,
        r.2.INPUTS_SPECTRO.TEXPOSE_LIST 1, r.2.INPUTS_SPECTRO.TEXPOSE_MIN,
        r.2.INPUTS_SPECTRO.TEXPOSE_MAX]))
      = some (3, 3, [(100 : ℚ), 1000, 100, 5000]) := by
  refine ⟨?_, ?_, ?_, ?_, ?_, ?_⟩ <;> decide!

/-- C24, as stated, fails: the three bins of `driftTable` have the widths 10, 10.0008 and
10.0016; the first and the third differ in width by more than 0.001, and the loop of
`read_spectrograph_fits` leaves `FORMAT_MASK = 1`, since no two consecutive bins do. -/
theorem read_spectrograph_fits_drift :
    (read_spectrograph_fits_bins 3 (driftTable ℚ)).FORMAT_MASK = 1 ∧
    |((driftTable ℚ).LAMMAX_LIST 0 - (driftTable ℚ).LAMMIN_LIST 0)
      - ((driftTable ℚ).LAMMAX_LIST 2 - (driftTable ℚ).LAMMIN_LIST 2)| > 0.001 := by
  constructor
  · decide!
  · simp [driftTable]
    norm_num [abs_of_neg, abs_of_nonneg]

/-- C24, amended: the bin-width flag of the FITS loader compares consecutive bins.  After
the loop of `read_spectrograph_fits` over `NBL` bins, `FORMAT_MASK` is 2 exactly when some
two consecutive bins `l-1`, `l` (`0 < l < NBL`) differ in width `LAMMAX - LAMMIN` by more
than 0.001, and 1 otherwise; each bin `l < NBL` gets `LAMAVG = (LAMMIN + LAMMAX)/2` and
`LAMBIN = LAMMAX - LAMMIN`, and `LAMMIN_LIST`, `LAMMAX_LIST` are as read. -/
theorem read_spectrograph_fits_format_mask (NBL : Nat) (I : INPUTS_SPECTRO_DEF K) :
    ((read_spectrograph_fits_bins NBL I).FORMAT_MASK = 2 ↔
      ∃ l, 0 < l ∧ l < NBL ∧
        |(I.LAMMAX_LIST (l - 1) - I.LAMMIN_LIST (l - 1))
          - (I.LAMMAX_LIST l - I.LAMMIN_LIST l)| > 0.001) ∧
    ((read_spectrograph_fits_bins NBL I).FORMAT_MASK = 1 ↔
      ¬ ∃ l, 0 < l ∧ l < NBL ∧
        |(I.LAMMAX_LIST (l - 1) - I.LAMMIN_LIST (l - 1))
          - (I.LAMMAX_LIST l - I.LAMMIN_LIST l)| > 0.001) ∧
    (∀ l, l < NBL →
      (read_spectrograph_fits_bins NBL I).LAMAVG_LIST l
        = (I.LAMMIN_LIST l + I.LAMMAX_LIST l) / 2 ∧
      (read_spectrograph_fits_bins NBL I).LAMBIN_LIST l
        = I.LAMMAX_LIST l - I.LAMMIN_LIST l) ∧
    (read_spectrograph_fits_bins NBL I).LAMMIN_LIST = I.LAMMIN_LIST ∧
    (read_spectrograph_fits_bins NBL I).LAMMAX_LIST = I.LAMMAX_LIST := by
  obtain ⟨a1, a2, -, a4, a5, a6⟩ := read_spectrograph_fits_bins_inv I NBL
  refine ⟨a5, ?_, a6, a1, a2⟩
  show (loopPure NBL read_spectrograph_fits_bin (0.0, { I with FORMAT_MASK := 1 })).2.FORMAT_MASK
    = 1 ↔ _
  have a5' : (loopPure NBL read_spectrograph_fits_bin
      (0.0, { I with FORMAT_MASK := 1 })).2.FORMAT_MASK = 2 ↔
      ∃ l, 0 < l ∧ l < NBL ∧
        |(I.LAMMAX_LIST (l - 1) - I.LAMMIN_LIST (l - 1))
          - (I.LAMMAX_LIST l - I.LAMMIN_LIST l)| > 0.001 := a5
  rw [← a5']
  rcases a4 with h | h
  · rw [h]
    simp
  · rw [h]
    simp

/-- C25: exactness of the closed-form solve.  With the exact real functions, for a pair
`(l, t)` with `MAGREF0 < MAGREF1`, `BOT > 0` and both input SNR values positive, the first
half of the body of `solve_spectrograph` returns `(ZP, F0, F1, SQSIGSKY)` with
`SQSIGSKY + F1 = (F1/SNR1)^2`; the recomputed `SNR_check_i = F_i / sqrt(SQSIGSKY + F_i)` is
the input `SNR_i` for `i = 0` and `i = 1`; both self checks compute the value 0; and the
pass for the pair returns with the two values stored, so it does not take the fatal branch
of the self check. -/
theorem solve_spectrograph_check_exact (st : INPUTS_SPECTRO_DEF ℝ) (l t : Nat)
    (hM : st.MAGREF_LIST 0 < st.MAGREF_LIST 1)
    (hs0 : 0 < st.SNR0 l t) (hs1 : 0 < st.SNR1 l t)
    (hB : 0 < botOf (powmagOf realLibm st 0) (powmagOf realLibm st 1) (st.SNR0 l t)
      (st.SNR1 l t)) :
    ∃ ZP F0 F1 SQSIGSKY : ℝ,
      solve_ZP realLibm st.MAGREF_LIST (powmagOf realLibm st) (st.SNR0 l t) (st.SNR1 l t)
        = .ok (ZP, F0, F1, SQSIGSKY) ∧
      SQSIGSKY + F1 = (F1 / st.SNR1 l t) ^ 2 ∧
      F0 / realLibm.sqrt (SQSIGSKY + F0) = st.SNR0 l t ∧
      F1 / realLibm.sqrt (SQSIGSKY + F1) = st.SNR1 l t ∧
      solve_check realLibm (st.SNR0 l t) F0 SQSIGSKY = .ok 0 ∧
      solve_check realLibm (st.SNR1 l t) F1 SQSIGSKY = .ok 0 ∧
      solve_bin realLibm st.MAGREF_LIST (powmagOf realLibm st) l t st
        = .ok (storeZP st l t ZP SQSIGSKY) := by
  have hT := real_top_pos st.MAGREF_LIST hM
  obtain ⟨⟨-, b0⟩, ⟨-, b1⟩⟩ := real_solve_exact st.MAGREF_LIST _ _ hs0 hs1 hT hB
  obtain ⟨c0, c1, c2⟩ := real_check_zero st.MAGREF_LIST _ _ hs0 hs1 hT hB
  refine ⟨zpOf realLibm (powmagOf realLibm st 0) (powmagOf realLibm st 1) (st.SNR0 l t)
      (st.SNR1 l t), _, _, _, ?_, c2, b0, b1, c0, c1, ?_⟩
  · rw [solve_ZP_eq, if_neg, if_neg]
    · rfl
    · rintro (h | h)
      · exact absurd hT (not_lt.mpr h)
      · exact absurd hB (not_lt.mpr h)
    · rintro (h | h)
      · exact absurd h (ne_of_gt hs0)
      · exact absurd h (ne_of_gt hs1)
  · rw [solve_bin_ok_iff]
    exact ⟨real_SolvedOK st.MAGREF_LIST _ _ hs0 hs1 hT hB, rfl⟩

/-- At the first pair of the scenario table (`MAGREF 20 < 22`, SNR 10 and 8) the pass of
the solver returns. -/
theorem solve_spectrograph_check_exact_witness :
    ∃ ZP F0 F1 SQSIGSKY : ℝ,
      solve_ZP realLibm (scenarioTable ℝ).MAGREF_LIST (powmagOf realLibm (scenarioTable ℝ))
        ((scenarioTable ℝ).SNR0 0 0) ((scenarioTable ℝ).SNR1 0 0) = .ok (ZP, F0, F1, SQSIGSKY) ∧
      SQSIGSKY + F1 = (F1 / (scenarioTable ℝ).SNR1 0 0) ^ 2 ∧
      F0 / realLibm.sqrt (SQSIGSKY + F0) = (scenarioTable ℝ).SNR0 0 0 ∧
      F1 / realLibm.sqrt (SQSIGSKY + F1) = (scenarioTable ℝ).SNR1 0 0 ∧
      solve_check realLibm ((scenarioTable ℝ).SNR0 0 0) F0 SQSIGSKY = .ok 0 ∧
      solve_check realLibm ((scenarioTable ℝ).SNR1 0 0) F1 SQSIGSKY = .ok 0 ∧
      solve_bin realLibm (scenarioTable ℝ).MAGREF_LIST (powmagOf realLibm (scenarioTable ℝ))
        0 0 (scenarioTable ℝ) = .ok (storeZP (scenarioTable ℝ) 0 0 ZP SQSIGSKY) :=
  solve_spectrograph_check_exact (scenarioTable ℝ) 0 0
    (by rw [scenario_magref.1, scenario_magref.2]; norm_num)
    (by simp [scenarioTable]) (by simp [scenarioTable])
    (by
      have e0 : (scenarioTable ℝ).SNR0 0 0 = 10 := by simp [scenarioTable]
      have e1 : (scenarioTable ℝ).SNR1 0 0 = 8 := by simp [scenarioTable]
      rw [e0, e1]
      exact (scenario_pair_signs 10 8 (by norm_num) (by norm_num) (by norm_num)).2.1)

/-- C26: sign of the sky variance.  With the exact real functions, let `TOP > 0` and let
every pair `(l, t)` of the table have positive SNR values and `BOT > 0`.  Then
`solve_spectrograph` completes, and for every pair the stored `SQSIGSKY[l][t]` is `≥ 0` if
and only if `(SNR0/SNR1)^2 ≥ 10^(0.4*(MAGREF1 - MAGREF0))`; a pair that violates this
inequality is solved and stored with `SQSIGSKY[l][t] < 0`. -/
theorem solve_spectrograph_skyVar_sign (st : INPUTS_SPECTRO_DEF ℝ)
    (hT : 0 < powmagOf realLibm st 0 - powmagOf realLibm st 1)
    (hall : ∀ l t, l < st.NBIN_LAM → t < st.NBIN_TEXPOSE →
      0 < st.SNR0 l t ∧ 0 < st.SNR1 l t ∧
      0 < botOf (powmagOf realLibm st 0) (powmagOf realLibm st 1) (st.SNR0 l t)
        (st.SNR1 l t)) :
    ∃ st2, solve_spectrograph realLibm st = .ok st2 ∧
      ∀ l t, l < st.NBIN_LAM → t < st.NBIN_TEXPOSE →
        (0 ≤ st2.SQSIGSKY l t ↔
          (st.SNR0 l t / st.SNR1 l t) ^ 2
            ≥ realLibm.pow TEN (0.4 * (st.MAGREF_LIST 1 - st.MAGREF_LIST 0))) ∧
        ((st.SNR0 l t / st.SNR1 l t) ^ 2
            < realLibm.pow TEN (0.4 * (st.MAGREF_LIST 1 - st.MAGREF_LIST 0)) →
          st2.SQSIGSKY l t < 0) := by
  have hok : solve_spectrograph realLibm st = .ok (solvedTable realLibm st.MAGREF_LIST
      (powmagOf realLibm st) st
      (fun i j => decide (i < st.NBIN_LAM) && decide (j < st.NBIN_TEXPOSE))) := by
    rw [solve_spectrograph_ok_iff]
    refine ⟨?_, rfl⟩
    intro l t hl ht
    obtain ⟨h0, h1, hB⟩ := hall l t hl ht
    exact real_SolvedOK st.MAGREF_LIST _ _ h0 h1 hT hB
  refine ⟨_, hok, ?_⟩
  intro l t hl ht
  obtain ⟨h0, h1, hB⟩ := hall l t hl ht
  obtain ⟨-, -, hq, -, -, -⟩ := solve_spectrograph_ok_vals realLibm st _ hok l t hl ht
  have hs := real_skyVar_sign st.MAGREF_LIST _ _ h0 h1 hT hB
  rw [hq]
  refine ⟨hs, ?_⟩
  intro hlt
  by_contra hn
  exact absurd (hs.mp (not_lt.mp hn)) (not_le.mpr hlt)

/-- On the scenario table (`MAGREF 20, 22`, SNR pairs `(10, 8)` and `(30, 25)`) the
solver completes; the first pair has `(10/8)^2 < 10^0.8`, and its sky variance is stored
negative. -/
theorem solve_spectrograph_skyVar_sign_witness :
    ∃ st2, solve_spectrograph realLibm (scenarioTable ℝ) = .ok st2 ∧
      ∀ l t, l < (scenarioTable ℝ).NBIN_LAM → t < (scenarioTable ℝ).NBIN_TEXPOSE →
        (0 ≤ st2.SQSIGSKY l t ↔
          ((scenarioTable ℝ).SNR0 l t / (scenarioTable ℝ).SNR1 l t) ^ 2
            ≥ realLibm.pow TEN (0.4 * ((scenarioTable ℝ).MAGREF_LIST 1
              - (scenarioTable ℝ).MAGREF_LIST 0))) ∧
        (((scenarioTable ℝ).SNR0 l t / (scenarioTable ℝ).SNR1 l t) ^ 2
            < realLibm.pow TEN (0.4 * ((scenarioTable ℝ).MAGREF_LIST 1
              - (scenarioTable ℝ).MAGREF_LIST 0)) →
          st2.SQSIGSKY l t < 0) :=
  solve_spectrograph_skyVar_sign (scenarioTable ℝ)
    (scenario_pair_signs 10 8 (by norm_num) (by norm_num) (by norm_num)).1
    (by
      intro l t hl ht
      have hl0 : l = 0 := by
        have : l < 1 := hl
        omega
      have ht2 : t < 2 := ht
      subst hl0
      rcases Nat.lt_succ_iff_lt_or_eq.mp ht2 with h | h
      · have : t = 0 := by omega
        subst this
        have e0 : (scenarioTable ℝ).SNR0 0 0 = 10 := by simp [scenarioTable]
        have e1 : (scenarioTable ℝ).SNR1 0 0 = 8 := by simp [scenarioTable]
        rw [e0, e1]
        exact ⟨by norm_num, by norm_num,
          (scenario_pair_signs 10 8 (by norm_num) (by norm_num) (by norm_num)).2.1⟩
      · subst h
        have e0 : (scenarioTable ℝ).SNR0 0 1 = 30 := by simp [scenarioTable]
        have e1 : (scenarioTable ℝ).SNR1 0 1 = 25 := by simp [scenarioTable]
        rw [e0, e1]
        exact ⟨by norm_num, by norm_num,
          (scenario_pair_signs 30 25 (by norm_num) (by norm_num) (by norm_num)).2.1⟩)

/-- C27: rebinning drops the resolution column.  Let `NCOL_noSNR = 3`.  With a rebin
factor `≥ 2` and column 2 of the accumulator `VALUES_SPECBIN` at 0, a call of
`read_SPECBIN_spectrograph` that returns leaves the column at 0, and a bin it stores has
`LAMSIGMA_LIST = 0`, whatever the row carries.  So after a completed load with a rebin
factor `≥ 2` (the accumulator has more than two entries, which the load resets) every stored
bin has `LAMSIGMA_LIST[l] = 0`.  With the rebin factor 1 a call that returns has stored the
sigma of its row, `XTMP[2]`. -/
theorem read_SPECBIN_rebin_sigma (E : READ_ENV K) (M : Libm K) (hcol : E.NCOL_noSNR = 3) :
    (∀ (G G' : SPECTRO_GLOBALS K) (n : Nat), 2 ≤ G.INPUTS_SPECTRO.NREBIN_LAM →
      G.VALUES_SPECBIN 2 = 0 →
      read_SPECBIN_spectrograph E M G = .ok (n, G') →
      G'.VALUES_SPECBIN 2 = 0 ∧
      (G'.INPUTS_SPECTRO.NBIN_LAM = G.INPUTS_SPECTRO.NBIN_LAM ∨
        (G'.INPUTS_SPECTRO.NBIN_LAM = G.INPUTS_SPECTRO.NBIN_LAM + 1 ∧
          G'.INPUTS_SPECTRO.LAMSIGMA_LIST G.INPUTS_SPECTRO.NBIN_LAM = 0))) ∧
    (∀ (content : List Char) (G G' : SPECTRO_GLOBALS K), 2 ≤ G.INPUTS_SPECTRO.NREBIN_LAM →
      2 < E.MXVALUES_SPECBIN →
      read_spectrograph_text E M (some content) G = some (.ok G') →
      ∀ l, l < G'.INPUTS_SPECTRO.NBIN_LAM → G'.INPUTS_SPECTRO.LAMSIGMA_LIST l = 0) ∧
    (∀ (G G' : SPECTRO_GLOBALS K) (n : Nat), G.INPUTS_SPECTRO.NREBIN_LAM = 1 →
      read_SPECBIN_spectrograph E M G = .ok (n, G') →
      G'.INPUTS_SPECTRO.NBIN_LAM = G.INPUTS_SPECTRO.NBIN_LAM + 1 ∧
      G'.INPUTS_SPECTRO.LAMSIGMA_LIST G.INPUTS_SPECTRO.NBIN_LAM = rowRead E G 2) := by
  refine ⟨?_, ?_, ?_⟩
  · intro G G' n hN hV h
    obtain ⟨_, b, c⟩ := read_SPECBIN_sigma_step E M G G' n hcol hN hV h
    refine ⟨b, ?_⟩
    rcases c with ⟨c1, _⟩ | ⟨c1, c2⟩
    · exact Or.inl c1
    · refine Or.inr ⟨c1, ?_⟩
      rw [c2, Function.update_same]
  · intro content G G' hN hmx h
    have hI : SigmaInv G' := by
      refine read_spectrograph_text_globals_inv E M SigmaInv ?_ ?_ ?_ ?_ ?_ ?_ content G G' ?_ h
      · intro G fp hP
        exact hP
      · intro G name hP
        exact hP
      · intro G m hP
        exact hP
      · intro G T n a b hP
        exact hP
      · intro G hP
        obtain ⟨a, b, c⟩ := hP
        refine ⟨a, b, ?_⟩
        intro l hl
        show (if l < E.NROW_FILE then (0.0 : K) else G.INPUTS_SPECTRO.LAMSIGMA_LIST l) = 0
        split_ifs
        · norm_num
        · exact c l hl
      · intro G G' n hP hr
        exact read_SPECBIN_SigmaInv E M G G' n hcol hP hr
      · refine ⟨hN, ?_, ?_⟩
        · show (if 2 < E.MXVALUES_SPECBIN then (0 : K) else _) = 0
          rw [if_pos hmx]
        · intro l hl
          have : l < 0 := hl
          omega
    exact hI.2.2
  · intro G G' n h1 h
    rw [read_SPECBIN_eq] at h
    dsimp only at h
    rw [if_pos h1] at h
    obtain ⟨_, s0, s1, m, hG⟩ := PARSE_XTMP_shape E _ _ _ _ h
    subst hG
    refine ⟨rfl, ?_⟩
    show Function.update G.INPUTS_SPECTRO.LAMSIGMA_LIST G.INPUTS_SPECTRO.NBIN_LAM _
      G.INPUTS_SPECTRO.NBIN_LAM = _
    rw [Function.update_same]
    rfl

set_option maxRecDepth 100000 in
/-- The file of the rebinning scenario, whose two rows carry the sigma 2, is loaded with the
rebin factor 2, and its one merged bin has `LAMSIGMA_LIST[0] = 0`. -/
theorem read_SPECBIN_rebin_sigma_witness :
    ∃ G', read_spectrograph_text (demoEnv ℚ) demoLibm (some rebinFile)
        { demoGlobals ℚ with INPUTS_SPECTRO := { emptyTable ℚ with NREBIN_LAM := 2 } }
        = some (.ok G') ∧
      G'.INPUTS_SPECTRO.NBIN_LAM = 1 ∧ G'.INPUTS_SPECTRO.LAMSIGMA_LIST 0 = 0 := by
  have hd := rebinFile_loads
  cases h : read_spectrograph_text (demoEnv ℚ) demoLibm (some rebinFile)
      { demoGlobals ℚ with INPUTS_SPECTRO := { emptyTable ℚ with NREBIN_LAM := 2 } } with
  | none =>
    rw [h] at hd
    simp at hd
  | some r =>
    cases r with
    | error e =>
      rw [h] at hd
      simp [Except.toOption] at hd
    | ok G' =>
      rw [h] at hd
      simp only [Option.map_some', Except.toOption, Option.some.injEq, Prod.mk.injEq] at hd
      have hn : G'.INPUTS_SPECTRO.NBIN_LAM = 1 := hd.1
      exact ⟨G', rfl, hn,
        (read_SPECBIN_rebin_sigma (demoEnv ℚ) demoLibm rfl).2.1 rebinFile _ G' (by decide)
          (by decide) h 0 (by omega)⟩

/-- C28: incomplete rebin group.  With the rebin factor `N ≥ 2`: a call of
`read_SPECBIN_spectrograph` for a row that does not complete a group of `N` rows returns
without an error, with the unchanged bin count, and stores nothing; a call that returns
counts its row in `NBIN_LAM_noREBIN` and stores a bin exactly when the row completes a
group.  So after a completed load `NBIN_LAM = floor(R/N)` for the number
`R = NBIN_LAM_noREBIN` of rows read; and when `N*q` consecutive rows have been read from
the start, the next `r < N` rows are read without an error and leave the bin count and the
stored bins as they are. -/
theorem read_SPECBIN_incomplete_group (E : READ_ENV K) (M : Libm K) (N : Nat) (h2 : 2 ≤ N) :
    (∀ G : SPECTRO_GLOBALS K, G.INPUTS_SPECTRO.NREBIN_LAM = (N : Int) →
      (G.INPUTS_SPECTRO.NBIN_LAM_noREBIN + 1) % N ≠ 0 →
      ∃ G', read_SPECBIN_spectrograph E M G = .ok (G.INPUTS_SPECTRO.NBIN_LAM, G') ∧
        G'.INPUTS_SPECTRO.NBIN_LAM = G.INPUTS_SPECTRO.NBIN_LAM ∧
        G'.INPUTS_SPECTRO.NBIN_LAM_noREBIN = G.INPUTS_SPECTRO.NBIN_LAM_noREBIN + 1 ∧
        SameBins G G') ∧
    (∀ (G G' : SPECTRO_GLOBALS K) (n : Nat), G.INPUTS_SPECTRO.NREBIN_LAM = (N : Int) →
      read_SPECBIN_spectrograph E M G = .ok (n, G') →
      G'.INPUTS_SPECTRO.NBIN_LAM_noREBIN = G.INPUTS_SPECTRO.NBIN_LAM_noREBIN + 1 ∧
      n = G'.INPUTS_SPECTRO.NBIN_LAM ∧
      G'.INPUTS_SPECTRO.NBIN_LAM = G.INPUTS_SPECTRO.NBIN_LAM
        + (if (G.INPUTS_SPECTRO.NBIN_LAM_noREBIN + 1) % N = 0 then 1 else 0)) ∧
    (∀ (content : List Char) (G G' : SPECTRO_GLOBALS K),
      G.INPUTS_SPECTRO.NREBIN_LAM = (N : Int) →
      read_spectrograph_text E M (some content) G = some (.ok G') →
      G'.INPUTS_SPECTRO.NBIN_LAM = G'.INPUTS_SPECTRO.NBIN_LAM_noREBIN / N) ∧
    (∀ (X : Nat → Nat → K) (fps : Nat → List Char) (G G1 : SPECTRO_GLOBALS K) (q n : Nat),
      G.INPUTS_SPECTRO.NREBIN_LAM = (N : Int) → G.INPUTS_SPECTRO.NBIN_LAM_noREBIN = 0 →
      G.INPUTS_SPECTRO.NBIN_LAM = 0 →
      feedRows E M X fps (N * q) G = .ok (n, G1) →
      n = q ∧ G1.INPUTS_SPECTRO.NBIN_LAM = q ∧
      ∀ r, r < N → ∃ G2, feedRows E M X fps (N * q + r) G = .ok (q, G2) ∧
        G2.INPUTS_SPECTRO.NBIN_LAM = (N * q + r) / N ∧
        G2.INPUTS_SPECTRO.NBIN_LAM = q ∧
        G2.INPUTS_SPECTRO.LAMMIN_LIST = G1.INPUTS_SPECTRO.LAMMIN_LIST ∧
        G2.INPUTS_SPECTRO.LAMMAX_LIST = G1.INPUTS_SPECTRO.LAMMAX_LIST ∧
        G2.INPUTS_SPECTRO.SNR0 = G1.INPUTS_SPECTRO.SNR0 ∧
        G2.INPUTS_SPECTRO.SNR1 = G1.INPUTS_SPECTRO.SNR1) := by
  have hN0 : 0 < N := by omega
  refine ⟨?_, ?_, ?_, ?_⟩
  · intro G hN hmod
    refine ⟨countedRow
      (readdouble E.strtod G.fp (E.NCOL_noSNR + 2 * G.INPUTS_SPECTRO.NBIN_TEXPOSE)
        E.XTMP_INIT).2
      (accumulateRow E M G.INPUTS_SPECTRO.NBIN_TEXPOSE
        (((G.INPUTS_SPECTRO.NBIN_LAM_noREBIN + 1) % N : Nat) : Int)
        (readdouble E.strtod G.fp (E.NCOL_noSNR + 2 * G.INPUTS_SPECTRO.NBIN_TEXPOSE)
          E.XTMP_INIT).1 G.VALUES_SPECBIN) G, ?_, rfl, rfl, ⟨rfl, rfl, rfl, rfl⟩⟩
    rw [read_SPECBIN_eq_row]
    exact specbinRow_inside E M _ _ G N h2 hN hmod
  · intro G G' n hN h
    rw [read_SPECBIN_eq_row] at h
    have hne1 : ¬ G.INPUTS_SPECTRO.NREBIN_LAM = 1 := by
      rw [hN]
      exact_mod_cast (by omega : N ≠ 1)
    by_cases hmod : (G.INPUTS_SPECTRO.NBIN_LAM_noREBIN + 1) % N = 0
    · rw [specbinRow_complete E M _ _ G N h2 hN hmod] at h
      obtain ⟨_, s0, s1, m, hG⟩ := PARSE_XTMP_shape E _ _ _ _ h
      obtain ⟨hn, _⟩ := PARSE_XTMP_ok E _ _ _ _ h
      subst hG
      rw [if_pos hmod]
      exact ⟨rfl, hn, rfl⟩
    · rw [specbinRow_inside E M _ _ G N h2 hN hmod] at h
      simp only [Except.ok.injEq, Prod.mk.injEq] at h
      obtain ⟨hn, hG⟩ := h
      subst hG
      rw [if_neg hmod]
      exact ⟨rfl, hn.symm, rfl⟩
  · intro content G G' hN h
    have hI : CountInv N G' := by
      refine read_spectrograph_text_globals_inv E M (CountInv N) ?_ ?_ ?_ ?_ ?_ ?_ content G G'
        ?_ h
      · intro G fp hP
        exact hP
      · intro G name hP
        exact hP
      · intro G m hP
        exact hP
      · intro G T n a b hP
        exact hP
      · intro G hP
        exact hP
      · intro G G' n hP hr
        exact (read_SPECBIN_count E M G G' N n h2 hP hr).1
      · refine ⟨hN, ?_⟩
        show 0 = 0 / N
        rw [Nat.zero_div]
    exact hI.2
  · intro X fps G G1 q n hN h0 hb h
    have hI : CountInv N G := ⟨hN, by rw [hb, h0, Nat.zero_div]⟩
    obtain ⟨⟨_, a⟩, b, c⟩ := feedRows_count E M X fps G N h2 hI _ _ _ h
    have hq : G1.INPUTS_SPECTRO.NBIN_LAM = q := by
      rw [a, b, h0, Nat.zero_add, Nat.mul_div_cancel_left q hN0]
    have hn : n = q := by rw [c, hq]
    refine ⟨hn, hq, ?_⟩
    intro r hr
    obtain ⟨G2, hf, e1, e2, e3, e4, e5⟩ := feedRows_tail E M X fps G N h2 hI h0 q n G1 h r hr
    have hf' : feedRows E M X fps (N * q + r) G = .ok (q, G2) := by
      rw [hf, hn]
    refine ⟨G2, hf', ?_, by rw [e1, hq], e2, e3, e4, e5⟩
    rw [e1, hq, Nat.add_div hN0, Nat.mul_div_cancel_left q hN0, Nat.div_eq_of_lt hr,
      Nat.mul_mod_right, Nat.mod_eq_of_lt hr, if_neg (by omega)]
    omega

set_option maxRecDepth 100000 in
/-- The file `oddRowsFile` has three rows; with the rebin factor 2 it is loaded without an
error, with one bin (4000 to 4020) from the first two rows and nothing from the third. -/
theorem read_SPECBIN_incomplete_group_witness :
    ∃ G', read_spectrograph_text (demoEnv ℚ) demoLibm (some oddRowsFile)
        { demoGlobals ℚ with INPUTS_SPECTRO := { emptyTable ℚ with NREBIN_LAM := 2 } }
        = some (.ok G') ∧
      G'.INPUTS_SPECTRO.NBIN_LAM_noREBIN = 3 ∧
      G'.INPUTS_SPECTRO.NBIN_LAM = G'.INPUTS_SPECTRO.NBIN_LAM_noREBIN / 2 := by
  have hd : (read_spectrograph_text (demoEnv ℚ) demoLibm (some oddRowsFile)
        { demoGlobals ℚ with INPUTS_SPECTRO := { emptyTable ℚ with NREBIN_LAM := 2 } }).map
      (fun r => r.toOption.map (fun G => (G.INPUTS_SPECTRO.NBIN_LAM_noREBIN,
        G.INPUTS_SPECTRO.NBIN_LAM)))
      = some (some (3, 1)) := by decide!
  cases h : read_spectrograph_text (demoEnv ℚ) demoLibm (some oddRowsFile)
      { demoGlobals ℚ with INPUTS_SPECTRO := { emptyTable ℚ with NREBIN_LAM := 2 } } with
  | none =>
    rw [h] at hd
    simp at hd
  | some r =>
    cases r with
    | error e =>
      rw [h] at hd
      simp [Except.toOption] at hd
    | ok G' =>
      rw [h] at hd
      simp only [Option.map_some', Except.toOption, Option.some.injEq, Prod.mk.injEq] at hd
      exact ⟨G', rfl, hd.1,
        (read_SPECBIN_incomplete_group (demoEnv ℚ) demoLibm 2 (le_refl 2)).2.2.1 oddRowsFile _ G'
          rfl h⟩

/-- C29: the SNR is monotone in the magnitude.  With the exact real functions and doubles
that need not be finite, fix the bin, a search time in range with finite interpolated
`ZP_S`, `SQ_S`, and the template time with its finite scaled variance `SQ_T` (0 without
template), and let the combined sky variance `SQ_S + SQ_T` be `≥ 0`; the sign of `SQ_T`
alone is not restricted.  Then for finite magnitudes `m1 < m2` both calls of
`getSNR_spectrograph` return a finite SNR, the SNR at `m2` is strictly below the SNR at
`m1`, and each SNR is at most `sqrt(Flux)` for its `Flux = 10^(-0.4*(m - ZP_S))`. -/
theorem getSNR_monotone_in_mag (interp : Interp (Dbl ℝ)) (st : INPUTS_SPECTRO_DEF (Dbl ℝ))
    (ILAM : Nat) (TEXPOSE_S TEXPOSE_T : Dbl ℝ) (m1 m2 ZP_S SQ_S SQ_T : ℝ)
    (hS : (Dbl.lt TEXPOSE_S (st.TEXPOSE_LIST 0)
      || Dbl.lt (st.TEXPOSE_LIST (st.NBIN_TEXPOSE - 1)) TEXPOSE_S) = false)
    (hZ : interp 1 TEXPOSE_S st.NBIN_TEXPOSE st.TEXPOSE_LIST (st.ZP ILAM)
      "getSNR_spectrograph(ZP_S)" = .ok (.fin ZP_S))
    (hQ : interp 1 TEXPOSE_S st.NBIN_TEXPOSE st.TEXPOSE_LIST (st.SQSIGSKY ILAM)
      "getSNR_spectrograph(SQ_S)" = .ok (.fin SQ_S))
    (hT : templateVar_ieee realLibm interp st ILAM TEXPOSE_T (.fin ZP_S) = .ok (.fin SQ_T))
    (hV : 0 ≤ SQ_S + SQ_T) (hm : m1 < m2) :
    ∃ (s1 s2 : ℝ) (e1 e2 : Dbl ℝ),
      getSNR_spectrograph_ieee realLibm interp st ILAM TEXPOSE_S TEXPOSE_T (.fin m1)
        = .ok (.fin s1, e1) ∧
      getSNR_spectrograph_ieee realLibm interp st ILAM TEXPOSE_S TEXPOSE_T (.fin m2)
        = .ok (.fin s2, e2) ∧
      s2 < s1 ∧
      s1 ≤ realLibm.sqrt (realLibm.pow TEN (-0.4 * (m1 - ZP_S))) ∧
      s2 ≤ realLibm.sqrt (realLibm.pow TEN (-0.4 * (m2 - ZP_S))) := by
  have hval : ∀ m : ℝ,
      getSNR_spectrograph_ieee realLibm interp st ILAM TEXPOSE_S TEXPOSE_T (.fin m)
        = .ok (.fin (realLibm.pow TEN (-0.4 * (m - ZP_S))
              / Real.sqrt (SQ_S + SQ_T + realLibm.pow TEN (-0.4 * (m - ZP_S)))),
            Dbl.sqrt realLibm (.fin SQ_T)
              / .fin (Real.sqrt (SQ_S + SQ_T + realLibm.pow TEN (-0.4 * (m - ZP_S))))) := by
    intro m
    have hf : 0 < realLibm.pow TEN (-0.4 * (m - ZP_S)) := real_pow_pos _
    have hA : 0 < SQ_S + SQ_T + realLibm.pow TEN (-0.4 * (m - ZP_S)) := by linarith
    exact getSNR_spectrograph_ieee_fin realLibm interp st ILAM TEXPOSE_S TEXPOSE_T m ZP_S
      SQ_S SQ_T hS hZ hQ hT (not_lt.mpr (le_of_lt hA)) (ne_of_gt (Real.sqrt_pos.mpr hA))
  have hf1 : 0 < realLibm.pow TEN (-0.4 * (m1 - ZP_S)) := real_pow_pos _
  have hf2 : 0 < realLibm.pow TEN (-0.4 * (m2 - ZP_S)) := real_pow_pos _
  exact ⟨_, _, _, _, hval m1, hval m2,
    real_snr_strict_mono _ _ _ hV hf2 (real_flux_strict_anti ZP_S m1 m2 hm),
    real_snr_le_sqrt _ _ hV hf1, real_snr_le_sqrt _ _ hV hf2⟩

/-- The theorem `getSNR_monotone_in_mag` on the table `negTemplateTable`, at the search
time 100 (sky variance 5) with the template time 1000, whose scaled variance is `-1`,
a negative number: the combined variance is `4 ≥ 0`, both calls return a finite SNR, and
the SNR at magnitude 1 is below the SNR at magnitude 0. -/
theorem getSNR_monotone_in_mag_witness :
    templateVar_ieee realLibm interp_1DFUN_linear_ieee (toDbl (negTemplateTable ℝ)) 0
      (.fin 1000) (.fin 0) = .ok (.fin (-1)) ∧
    ∃ (s1 s2 : ℝ) (e1 e2 : Dbl ℝ),
      getSNR_spectrograph_ieee realLibm interp_1DFUN_linear_ieee (toDbl (negTemplateTable ℝ))
        0 (.fin 100) (.fin 1000) (.fin 0) = .ok (.fin s1, e1) ∧
      getSNR_spectrograph_ieee realLibm interp_1DFUN_linear_ieee (toDbl (negTemplateTable ℝ))
        0 (.fin 100) (.fin 1000) (.fin 1) = .ok (.fin s2, e2) ∧
      s2 < s1 := by
  have hn : (toDbl (negTemplateTable ℝ)).NBIN_TEXPOSE = 2 := rfl
  have hX0 : (toDbl (negTemplateTable ℝ)).TEXPOSE_LIST 0 = .fin 100 := by
    simp [toDbl, negTemplateTable, scenarioTable]
  have hX1 : (toDbl (negTemplateTable ℝ)).TEXPOSE_LIST 1 = .fin 1000 := by
    simp [toDbl, negTemplateTable, scenarioTable]
  have hZP : ∀ t, (toDbl (negTemplateTable ℝ)).ZP 0 t = .fin 0 := fun _ => rfl
  have hQ0 : (toDbl (negTemplateTable ℝ)).SQSIGSKY 0 0 = .fin 5 := by
    simp [toDbl, negTemplateTable]
  have hQ1 : (toDbl (negTemplateTable ℝ)).SQSIGSKY 0 1 = .fin (-1) := by
    simp [toDbl, negTemplateTable]
  have gZ := fun cmt => interp_linear_ieee_grid2 (toDbl (negTemplateTable ℝ)).TEXPOSE_LIST
    ((toDbl (negTemplateTable ℝ)).ZP 0) 100 1000 0 0 cmt hX0 hX1 (hZP 0) (hZP 1) (by norm_num)
  have gQ := fun cmt => interp_linear_ieee_grid2 (toDbl (negTemplateTable ℝ)).TEXPOSE_LIST
    ((toDbl (negTemplateTable ℝ)).SQSIGSKY 0) 100 1000 5 (-1) cmt hX0 hX1 hQ0 hQ1
    (by norm_num)
  have hT : templateVar_ieee realLibm interp_1DFUN_linear_ieee (toDbl (negTemplateTable ℝ)) 0
      (.fin 1000) (.fin 0) = .ok (.fin (-1)) := by
    have hlt : Dbl.lt (Dbl.fin (0.01 : ℝ)) (Dbl.fin 1000) = true := by
      simp [Dbl.lt]; norm_num
    unfold templateVar_ieee
    rw [if_pos hlt, hn, (gZ _).2, (gQ _).2]
    simp only [bind, Except.bind, pure, Except.pure, Dbl.fin_sub_fin, Dbl.fin_mul_fin,
      Dbl.pow10_fin, real_pow_zero2]
    norm_num
  have hS : (Dbl.lt (Dbl.fin (100 : ℝ)) ((toDbl (negTemplateTable ℝ)).TEXPOSE_LIST 0)
      || Dbl.lt ((toDbl (negTemplateTable ℝ)).TEXPOSE_LIST
          ((toDbl (negTemplateTable ℝ)).NBIN_TEXPOSE - 1)) (Dbl.fin 100)) = false := by
    rw [hn, hX0]
    show (Dbl.lt (Dbl.fin (100 : ℝ)) (Dbl.fin 100)
      || Dbl.lt ((toDbl (negTemplateTable ℝ)).TEXPOSE_LIST 1) (Dbl.fin 100)) = false
    rw [hX1]
    simp [Dbl.lt]
    norm_num
  obtain ⟨s1, s2, e1, e2, h1, h2, h12, _, _⟩ :=
    getSNR_monotone_in_mag interp_1DFUN_linear_ieee (toDbl (negTemplateTable ℝ)) 0
      (.fin 100) (.fin 1000) 0 1 0 5 (-1) hS
      (by rw [hn]; exact (gZ _).1) (by rw [hn]; exact (gQ _).1) hT (by norm_num) (by norm_num)
  exact ⟨hT, s1, s2, e1, e2, h1, h2, h12⟩

/-- C30: the template threshold.  For a search time in range with interpolated `ZP_S`,
`SQ_S` and `Flux = 10^(-0.4*(GENMAG - ZP_S))`: for every template time
`TEXPOSE_T ≤ 0.01`, zero, small positive or negative, the call returns what the call with
`TEXPOSE_T = 0` returns; the result does not depend on what the interpolator does at
`TEXPOSE_T` (any interpolator that agrees at the search time gives the same result); and it
is `SNR = Flux/sqrt(SQ_S + Flux)`, `ERRFRAC_T = 0` (for `sqrt(0) = 0` and a square root of
a non-negative number that is not zero).  For `TEXPOSE_T = TEXPOSE_S > 0.01`, with
`pow(TEN, 0) = 1`, the scale factor `10^(0.8*(ZP_S - ZP_S))` is 1 and the call returns
`SNR = Flux/sqrt(2*SQ_S + Flux)`. -/
theorem getSNR_template_threshold (M : Libm K) (interp : Interp K)
    (st : INPUTS_SPECTRO_DEF K) (ILAM : Nat) (TEXPOSE_S TEXPOSE_T GENMAG ZP_S SQ_S : K)
    (hmin : st.TEXPOSE_LIST 0 ≤ TEXPOSE_S)
    (hmax : TEXPOSE_S ≤ st.TEXPOSE_LIST (st.NBIN_TEXPOSE - 1))
    (hZ : interp 1 TEXPOSE_S st.NBIN_TEXPOSE st.TEXPOSE_LIST (st.ZP ILAM)
      "getSNR_spectrograph(ZP_S)" = .ok ZP_S)
    (hQ : interp 1 TEXPOSE_S st.NBIN_TEXPOSE st.TEXPOSE_LIST (st.SQSIGSKY ILAM)
      "getSNR_spectrograph(SQ_S)" = .ok SQ_S) :
    let Flux := M.pow TEN (-0.4 * (GENMAG - ZP_S))
    (TEXPOSE_T ≤ 0.01 →
      getSNR_spectrograph M interp st ILAM TEXPOSE_S TEXPOSE_T GENMAG
        = getSNR_spectrograph M interp st ILAM TEXPOSE_S 0 GENMAG ∧
      (∀ interp2 : Interp K,
        (∀ (F : Nat → K) (cmt : String),
          interp2 1 TEXPOSE_S st.NBIN_TEXPOSE st.TEXPOSE_LIST F cmt
            = interp 1 TEXPOSE_S st.NBIN_TEXPOSE st.TEXPOSE_LIST F cmt) →
        getSNR_spectrograph M interp2 st ILAM TEXPOSE_S TEXPOSE_T GENMAG
          = getSNR_spectrograph M interp st ILAM TEXPOSE_S TEXPOSE_T GENMAG) ∧
      (M.sqrt 0 = 0 → 0 ≤ SQ_S + Flux → M.sqrt (SQ_S + Flux) ≠ 0 →
        getSNR_spectrograph M interp st ILAM TEXPOSE_S TEXPOSE_T GENMAG
          = .ok (Flux / M.sqrt (SQ_S + Flux), 0))) ∧
    (TEXPOSE_T = TEXPOSE_S → TEXPOSE_S > 0.01 →
      interp 1 TEXPOSE_S st.NBIN_TEXPOSE st.TEXPOSE_LIST (st.ZP ILAM)
        "getSNR_spectrograph(ZP_T)" = .ok ZP_S →
      interp 1 TEXPOSE_S st.NBIN_TEXPOSE st.TEXPOSE_LIST (st.SQSIGSKY ILAM)
        "getSNR_spectrograph(SQ_T)" = .ok SQ_S →
      M.pow TEN 0 = 1 →
      (M.pow TEN (0.8 * (ZP_S - ZP_S)) = 1 ∧
        templateVar M interp st ILAM TEXPOSE_T ZP_S = .ok SQ_S) ∧
      (0 ≤ SQ_S → 0 ≤ 2 * SQ_S + Flux → M.sqrt (2 * SQ_S + Flux) ≠ 0 →
        getSNR_spectrograph M interp st ILAM TEXPOSE_S TEXPOSE_T GENMAG
          = .ok (Flux / M.sqrt (2 * SQ_S + Flux),
              M.sqrt SQ_S / M.sqrt (2 * SQ_S + Flux)))) := by
  intro Flux
  have hS : ¬ (TEXPOSE_S < st.TEXPOSE_LIST 0 ∨
      TEXPOSE_S > st.TEXPOSE_LIST (st.NBIN_TEXPOSE - 1)) := by
    rintro (h1 | h1)
    · exact absurd hmin (not_le.mpr h1)
    · exact absurd hmax (not_le.mpr h1)
  refine ⟨?_, ?_⟩
  · intro hT
    have h0 : ¬ ((0 : K) > 0.01) := by norm_num
    refine ⟨?_, ?_, ?_⟩
    · rw [getSNR_eq M interp st ILAM TEXPOSE_S TEXPOSE_T GENMAG ZP_S SQ_S hS hZ hQ,
        getSNR_eq M interp st ILAM TEXPOSE_S 0 GENMAG ZP_S SQ_S hS hZ hQ,
        templateVar_none M interp st ILAM TEXPOSE_T ZP_S hT,
        templateVar_none M interp st ILAM 0 ZP_S (by norm_num)]
    · intro interp2 hagree
      rw [getSNR_eq M interp st ILAM TEXPOSE_S TEXPOSE_T GENMAG ZP_S SQ_S hS hZ hQ,
        getSNR_eq M interp2 st ILAM TEXPOSE_S TEXPOSE_T GENMAG ZP_S SQ_S hS
          (by rw [hagree]; exact hZ) (by rw [hagree]; exact hQ),
        templateVar_none M interp st ILAM TEXPOSE_T ZP_S hT,
        templateVar_none M interp2 st ILAM TEXPOSE_T ZP_S hT]
    · intro hs0 hv hne
      have h := getSNR_notemplate M interp st ILAM TEXPOSE_S TEXPOSE_T GENMAG ZP_S SQ_S
        hS hZ hQ (not_lt.mpr hT) hv hne
      rw [h, hs0, zero_div]
  · intro hTS hS01 hZT hQT hp0
    have hscale : M.pow TEN (0.8 * (ZP_S - ZP_S)) = 1 := by
      rw [sub_self, mul_zero, hp0]
    have hT1 : TEXPOSE_T > 0.01 := by rw [hTS]; exact hS01
    have htv : templateVar M interp st ILAM TEXPOSE_T ZP_S = .ok SQ_S := by
      unfold templateVar
      rw [if_pos hT1, hTS]
      simp only [hZT, hQT, bind, Except.bind, pure, Except.pure, hscale, mul_one]
    refine ⟨⟨hscale, htv⟩, ?_⟩
    intro hq hv hne
    have e2 : SQ_S + SQ_S + Flux = 2 * SQ_S + Flux := by ring
    rw [getSNR_eq M interp st ILAM TEXPOSE_S TEXPOSE_T GENMAG ZP_S SQ_S hS hZ hQ, htv]
    show (if SQ_S + SQ_S + Flux < 0 then _ else if SQ_S < 0 then _
      else if M.sqrt (SQ_S + SQ_S + Flux) = 0 then _ else _) = _
    rw [e2, if_neg (not_lt.mpr hv), if_neg (not_lt.mpr hq), if_neg hne]

/-- On the table with zero sky variance and zero zero point, the template time 0.005 is
treated as no template: the call at the first exposure time returns what the call with
the template time 0 returns. -/
theorem getSNR_template_threshold_witness :
    getSNR_spectrograph realLibm interp_1DFUN_linear (flatTable ℝ) 0
        ((flatTable ℝ).TEXPOSE_LIST 0) 0.005 0
      = getSNR_spectrograph realLibm interp_1DFUN_linear (flatTable ℝ) 0
        ((flatTable ℝ).TEXPOSE_LIST 0) 0 0 :=
  ((getSNR_template_threshold realLibm interp_1DFUN_linear (flatTable ℝ) 0
      ((flatTable ℝ).TEXPOSE_LIST 0) 0.005 0 0 0 (le_refl _)
      (by rw [flat_grid_vals.1, flat_grid_vals.2.2]; norm_num)
      (flat_interp 0 (by decide) _ _) (flat_interp 0 (by decide) _ _)).1
    (by norm_num)).1

end Claims

end Spectrograph
